import Mathlib

/-! Partial-assembly vector mass operator (`fem/integ/bilininteg_vecmass_pa.cpp`)

A shallow embedding of the partial-assembly kernels of `VectorMassIntegrator`:
the operator data set-up (`AssemblePA`), the diagonal kernels
(`PAVectorMassAssembleDiagonal2D/3D`) and the operator application kernels
(`PAVectorMassApply2D/3D`); and, from the examples, of
`ReducedSystemOperator::Mult` (`examples/ex10p.cpp`) and of the Kovasznay exact
solution (`miniapps/navier/navier_kovasznay.cpp`); and of the element matrices of
`L2MortarIntegrator` and `LagrangeVectorL2MortarIntegrator`
(`fem/moonolith/mortarintegrator.cpp`).

Modelling conventions.

* `real_t` is modelled by an arbitrary commutative ring `R` (exact arithmetic);
  rounding is not modelled.
* A `Vector`/`Array<real_t>` accessed through `Read()`/`Write()`/`ReadWrite()` is a
  flat memory `Nat → R`.  Tensor views made by `Reshape` are index computations on
  that flat memory.
* `int` sizes and indices are natural numbers (no negative sizes, no overflow).
* A `for (int i = 0; i < n; ++i)` loop is `forLoop n body`, which runs the body for
  `i = 0, 1, ..., n-1` in this order.  `mfem::forall(NE, body)` is modelled as the
  same loop over the elements.
* Local arrays (`real_t sol_xy[max_Q1D][max_Q1D]`, ...) are functions on index
  tuples; their contents at declaration are the arbitrary values of an `Uninit`
  record.
* `MFEM_VERIFY` / `MFEM_ABORT` failures are the `Except.error` results.  Where the
  contents of the output after a failing call matter, the call is also given as a
  state transformer (`Outcome`), proved to agree with the `Except` form.
* The functions of `<cmath>` (`exp`, `cos`, `sin`, `sqrt`) and `M_PI` are parameters
  (`MathFns`), instantiated with the real functions in the statements over the reals.
* Index safety is stated on a second reading of the kernels, their access models
  (`..._acc`): the same loops with the values forgotten, where each subscript is
  checked against the extent of its array and each read of a local array against
  the set of entries assigned so far; a fault is the result `none`.
-/

namespace Mfem

open Finset

/-! ## Memory, loops and tensor views -/

/-- Flat device memory behind a `Vector` or an `Array<real_t>`. -/
abbrev Vec (R : Type) := Nat → R

/-- The assignment `a[i] = v` on an array indexed by `ι`. -/
def store {ι R : Type} [DecidableEq ι] (a : ι → R) (i : ι) (v : R) : ι → R :=
  fun j => if j = i then v else a j

/-- The loop `for (int i = 0; i < n; ++i) s = body i s`. -/
def forLoop {σ : Type} : Nat → (Nat → σ → σ) → σ → σ
  | 0, _, s => s
  | n + 1, body, s => body n (forLoop n body s)

/-- Modelled from the spec: the tensor view `Reshape(ptr, N1, N2)` of MFEM
(`general/dtensor.hpp`, not among the sources here), whose entry `(i1, i2)` is the
flat entry `i1 + N1*i2` (first index fastest). -/
def Reshape2 (N1 : Nat) (i1 i2 : Nat) : Nat := i1 + N1 * i2

/-- Modelled from the spec: the view `Reshape(ptr, N1, N2, N3)`, first index fastest. -/
def Reshape3 (N1 N2 : Nat) (i1 i2 i3 : Nat) : Nat := i1 + N1 * (i2 + N2 * i3)

/-- Modelled from the spec: the view `Reshape(ptr, N1, N2, N3, N4)`, first index fastest. -/
def Reshape4 (N1 N2 N3 : Nat) (i1 i2 i3 i4 : Nat) : Nat :=
  i1 + N1 * (i2 + N2 * (i3 + N3 * i4))

/-- Modelled from the spec: the view `Reshape(ptr, N1, N2, N3, N4, N5)`, first index
fastest. -/
def Reshape5 (N1 N2 N3 N4 : Nat) (i1 i2 i3 i4 i5 : Nat) : Nat :=
  i1 + N1 * (i2 + N2 * (i3 + N3 * (i4 + N4 * i5)))

/-- Contents of the local arrays of a kernel at their declaration (indeterminate in
C++): one-, two- and three-dimensional arrays. -/
structure Uninit (R : Type) where
  a1 : Nat → R
  a2 : Nat × Nat → R
  a3 : Nat × Nat × Nat → R

/-- The failures raised through `MFEM_VERIFY` and `MFEM_ABORT`. -/
inductive MfemError where
  | verify (msg : String)
  | abort (msg : String)
  deriving DecidableEq, Repr

/-- The run-time limits `DeviceDofQuadLimits::Get()` (declared outside the sources
here; taken as a parameter). -/
structure DofQuadLimits where
  MAX_D1D : Nat
  MAX_Q1D : Nat
  deriving DecidableEq, Repr

/-- The size selection `T_D1D ? T_D1D : d1d` of the kernel templates. -/
def tsize (T d : Nat) : Nat := if T ≠ 0 then T else d

section Kernels

variable {R : Type} [CommRing R]

/-! ## Operator application, 2D (`PAVectorMassApply2D`, lines 270-364) -/

/-- Lines 300-306: `sol_xy[qy][qx] = 0.0` for all `qy, qx < Q1D`. -/
def apply2D_clear (Q1D : Nat) (sol_xy : Nat × Nat → R) : Nat × Nat → R :=
  forLoop Q1D (fun qy sol_xy =>
    forLoop Q1D (fun qx sol_xy => store sol_xy (qy, qx) 0) sol_xy) sol_xy

/-- Lines 309-321: the local `sol_x` of the forward sweep for the dof row `dy`:
cleared, then `sol_x[qx] += B(qx,dx) * x(dx,dy,c,e)`. -/
def apply2D_fwd_x (D1D Q1D : Nat) (B x : Vec R) (u : Uninit R) (e c dy : Nat) : Nat → R :=
  let sol_x := forLoop Q1D (fun qy sol_x => store sol_x qy 0) u.a1
  forLoop D1D (fun dx sol_x =>
    let s := x (Reshape4 D1D D1D 2 dx dy c e)
    forLoop Q1D (fun qx sol_x =>
      store sol_x qx (sol_x qx + B (Reshape2 Q1D qx dx) * s)) sol_x) sol_x

/-- Lines 307-330: the forward sweep, `sol_xy[qy][qx] += B(qy,dy) * sol_x[qx]` for
every dof row `dy`. -/
def apply2D_forward (D1D Q1D : Nat) (B x : Vec R) (u : Uninit R) (e c : Nat)
    (sol_xy : Nat × Nat → R) : Nat × Nat → R :=
  forLoop D1D (fun dy sol_xy =>
    let sol_x := apply2D_fwd_x D1D Q1D B x u e c dy
    forLoop Q1D (fun qy sol_xy =>
      let d2q := B (Reshape2 Q1D qy dy)
      forLoop Q1D (fun qx sol_xy =>
        store sol_xy (qy, qx) (sol_xy (qy, qx) + d2q * sol_x qx)) sol_xy) sol_xy) sol_xy

/-- Lines 331-337: `sol_xy[qy][qx] *= op(qx,qy,e)`. -/
def apply2D_scale (Q1D : Nat) (op : Vec R) (e : Nat) (sol_xy : Nat × Nat → R) :
    Nat × Nat → R :=
  forLoop Q1D (fun qy sol_xy =>
    forLoop Q1D (fun qx sol_xy =>
      store sol_xy (qy, qx) (sol_xy (qy, qx) * op (Reshape3 Q1D Q1D qx qy e))) sol_xy) sol_xy

/-- Lines 340-352: the local `sol_x` of the backward sweep for the quadrature row
`qy`: cleared, then `sol_x[dx] += Bt(dx,qx) * sol_xy[qy][qx]`. -/
def apply2D_bwd_x (D1D Q1D : Nat) (Bt : Vec R) (u : Uninit R) (sol_xy : Nat × Nat → R)
    (qy : Nat) : Nat → R :=
  let sol_x := forLoop D1D (fun dx sol_x => store sol_x dx 0) u.a1
  forLoop Q1D (fun qx sol_x =>
    let s := sol_xy (qy, qx)
    forLoop D1D (fun dx sol_x =>
      store sol_x dx (sol_x dx + Bt (Reshape2 D1D dx qx) * s)) sol_x) sol_x

/-- Lines 338-361: the backward sweep, `y(dx,dy,c,e) += Bt(dy,qy) * sol_x[dx]`. -/
def apply2D_backward (D1D Q1D : Nat) (Bt : Vec R) (u : Uninit R) (e c : Nat)
    (sol_xy : Nat × Nat → R) (y : Vec R) : Vec R :=
  forLoop Q1D (fun qy y =>
    let sol_x := apply2D_bwd_x D1D Q1D Bt u sol_xy qy
    forLoop D1D (fun dy y =>
      let q2d := Bt (Reshape2 D1D dy qy)
      forLoop D1D (fun dx y =>
        store y (Reshape4 D1D D1D 2 dx dy c e)
          (y (Reshape4 D1D D1D 2 dx dy c e) + q2d * sol_x dx)) y) y) y

/-- Lines 298-362: the body of the component loop; the state is the output `y`
together with the local array `sol_xy`, which is declared outside the loop. -/
def apply2D_component (D1D Q1D : Nat) (B Bt op x : Vec R) (u : Uninit R) (e c : Nat)
    (st : Vec R × (Nat × Nat → R)) : Vec R × (Nat × Nat → R) :=
  let sol_xy := apply2D_clear Q1D st.2
  let sol_xy := apply2D_forward D1D Q1D B x u e c sol_xy
  let sol_xy := apply2D_scale Q1D op e sol_xy
  (apply2D_backward D1D Q1D Bt u e c sol_xy st.1, sol_xy)

/-- Lines 291-363: the work of element `e` (`VDIM = 2` components). -/
def apply2D_element (D1D Q1D : Nat) (B Bt op x : Vec R) (u : Uninit R) (e : Nat)
    (y : Vec R) : Vec R :=
  (forLoop 2 (fun c st => apply2D_component D1D Q1D B Bt op x u e c st) (y, u.a2)).1

/-- Kernel `PAVectorMassApply2D<T_D1D,T_Q1D>(NE, B_, Bt_, op_, x_, y_, d1d, q1d)`: the new
contents of `y_`, or the failure of one of the two `MFEM_VERIFY`. -/
def PAVectorMassApply2D (T_D1D T_Q1D : Nat) (lim : DofQuadLimits) (u : Uninit R) (NE : Nat)
    (B_ Bt_ op_ x_ y_ : Vec R) (d1d q1d : Nat) : Except MfemError (Vec R) :=
  let D1D := tsize T_D1D d1d
  let Q1D := tsize T_Q1D q1d
  if ¬ D1D ≤ lim.MAX_D1D then Except.error (MfemError.verify "")
  else if ¬ Q1D ≤ lim.MAX_Q1D then Except.error (MfemError.verify "")
  else Except.ok (forLoop NE (fun e y => apply2D_element D1D Q1D B_ Bt_ op_ x_ u e y) y_)

/-! ## Operator application, 3D (`PAVectorMassApply3D`, lines 366-509) -/

/-- Lines 395-404: `sol_xyz[qz][qy][qx] = 0.0` for all `qz, qy, qx < Q1D`. -/
def apply3D_clear (Q1D : Nat) (sol_xyz : Nat × Nat × Nat → R) : Nat × Nat × Nat → R :=
  forLoop Q1D (fun qz sol_xyz =>
    forLoop Q1D (fun qy sol_xyz =>
      forLoop Q1D (fun qx sol_xyz => store sol_xyz (qz, qy, qx) 0) sol_xyz) sol_xyz) sol_xyz

/-- Lines 417-429: the local `sol_x` of the forward sweep for the dof line `(dy,dz)`:
cleared, then `sol_x[qx] += B(qx,dx) * x(dx,dy,dz,c,e)`. -/
def apply3D_fwd_x (D1D Q1D : Nat) (B x : Vec R) (u : Uninit R) (e c dz dy : Nat) : Nat → R :=
  let sol_x := forLoop Q1D (fun qx sol_x => store sol_x qx 0) u.a1
  forLoop D1D (fun dx sol_x =>
    let s := x (Reshape5 D1D D1D D1D 3 dx dy dz c e)
    forLoop Q1D (fun qx sol_x =>
      store sol_x qx (sol_x qx + B (Reshape2 Q1D qx dx) * s)) sol_x) sol_x

/-- Lines 407-438: the local `sol_xy` of the forward sweep for the dof plane `dz`:
cleared, then `sol_xy[qy][qx] += B(qy,dy) * sol_x[qx]` for every `dy`. -/
def apply3D_fwd_xy (D1D Q1D : Nat) (B x : Vec R) (u : Uninit R) (e c dz : Nat) :
    Nat × Nat → R :=
  let sol_xy := forLoop Q1D (fun qy sol_xy =>
    forLoop Q1D (fun qx sol_xy => store sol_xy (qy, qx) 0) sol_xy) u.a2
  forLoop D1D (fun dy sol_xy =>
    let sol_x := apply3D_fwd_x D1D Q1D B x u e c dz dy
    forLoop Q1D (fun qy sol_xy =>
      let wy := B (Reshape2 Q1D qy dy)
      forLoop Q1D (fun qx sol_xy =>
        store sol_xy (qy, qx) (sol_xy (qy, qx) + wy * sol_x qx)) sol_xy) sol_xy) sol_xy

/-- Lines 405-450: the forward sweep,
`sol_xyz[qz][qy][qx] += B(qz,dz) * sol_xy[qy][qx]` for every dof plane `dz`. -/
def apply3D_forward (D1D Q1D : Nat) (B x : Vec R) (u : Uninit R) (e c : Nat)
    (sol_xyz : Nat × Nat × Nat → R) : Nat × Nat × Nat → R :=
  forLoop D1D (fun dz sol_xyz =>
    let sol_xy := apply3D_fwd_xy D1D Q1D B x u e c dz
    forLoop Q1D (fun qz sol_xyz =>
      let wz := B (Reshape2 Q1D qz dz)
      forLoop Q1D (fun qy sol_xyz =>
        forLoop Q1D (fun qx sol_xyz =>
          store sol_xyz (qz, qy, qx) (sol_xyz (qz, qy, qx) + wz * sol_xy (qy, qx)))
          sol_xyz) sol_xyz) sol_xyz) sol_xyz

/-- Lines 451-460: `sol_xyz[qz][qy][qx] *= op(qx,qy,qz,e)`. -/
def apply3D_scale (Q1D : Nat) (op : Vec R) (e : Nat) (sol_xyz : Nat × Nat × Nat → R) :
    Nat × Nat × Nat → R :=
  forLoop Q1D (fun qz sol_xyz =>
    forLoop Q1D (fun qy sol_xyz =>
      forLoop Q1D (fun qx sol_xyz =>
        store sol_xyz (qz, qy, qx)
          (sol_xyz (qz, qy, qx) * op (Reshape4 Q1D Q1D Q1D qx qy qz e))) sol_xyz) sol_xyz)
    sol_xyz

/-- Lines 473-485: the local `sol_x` of the backward sweep for the quadrature line
`(qy,qz)`: cleared, then `sol_x[dx] += Bt(dx,qx) * sol_xyz[qz][qy][qx]`. -/
def apply3D_bwd_x (D1D Q1D : Nat) (Bt : Vec R) (u : Uninit R)
    (sol_xyz : Nat × Nat × Nat → R) (qz qy : Nat) : Nat → R :=
  let sol_x := forLoop D1D (fun dx sol_x => store sol_x dx 0) u.a1
  forLoop Q1D (fun qx sol_x =>
    let s := sol_xyz (qz, qy, qx)
    forLoop D1D (fun dx sol_x =>
      store sol_x dx (sol_x dx + Bt (Reshape2 D1D dx qx) * s)) sol_x) sol_x

/-- Lines 463-494: the local `sol_xy` of the backward sweep for the quadrature plane
`qz`: cleared, then `sol_xy[dy][dx] += Bt(dy,qy) * sol_x[dx]` for every `qy`. -/
def apply3D_bwd_xy (D1D Q1D : Nat) (Bt : Vec R) (u : Uninit R)
    (sol_xyz : Nat × Nat × Nat → R) (qz : Nat) : Nat × Nat → R :=
  let sol_xy := forLoop D1D (fun dy sol_xy =>
    forLoop D1D (fun dx sol_xy => store sol_xy (dy, dx) 0) sol_xy) u.a2
  forLoop Q1D (fun qy sol_xy =>
    let sol_x := apply3D_bwd_x D1D Q1D Bt u sol_xyz qz qy
    forLoop D1D (fun dy sol_xy =>
      let wy := Bt (Reshape2 D1D dy qy)
      forLoop D1D (fun dx sol_xy =>
        store sol_xy (dy, dx) (sol_xy (dy, dx) + wy * sol_x dx)) sol_xy) sol_xy) sol_xy

/-- Lines 461-506: the backward sweep,
`y(dx,dy,dz,c,e) += Bt(dz,qz) * sol_xy[dy][dx]`. -/
def apply3D_backward (D1D Q1D : Nat) (Bt : Vec R) (u : Uninit R) (e c : Nat)
    (sol_xyz : Nat × Nat × Nat → R) (y : Vec R) : Vec R :=
  forLoop Q1D (fun qz y =>
    let sol_xy := apply3D_bwd_xy D1D Q1D Bt u sol_xyz qz
    forLoop D1D (fun dz y =>
      let wz := Bt (Reshape2 D1D dz qz)
      forLoop D1D (fun dy y =>
        forLoop D1D (fun dx y =>
          store y (Reshape5 D1D D1D D1D 3 dx dy dz c e)
            (y (Reshape5 D1D D1D D1D 3 dx dy dz c e) + wz * sol_xy (dy, dx))) y) y) y) y

/-- Lines 393-507: the body of the component loop; the state is the output `y`
together with the local array `sol_xyz`, which is declared outside the loop. -/
def apply3D_component (D1D Q1D : Nat) (B Bt op x : Vec R) (u : Uninit R) (e c : Nat)
    (st : Vec R × (Nat × Nat × Nat → R)) : Vec R × (Nat × Nat × Nat → R) :=
  let sol_xyz := apply3D_clear Q1D st.2
  let sol_xyz := apply3D_forward D1D Q1D B x u e c sol_xyz
  let sol_xyz := apply3D_scale Q1D op e sol_xyz
  (apply3D_backward D1D Q1D Bt u e c sol_xyz st.1, sol_xyz)

/-- Lines 387-508: the work of element `e` (`VDIM = 3` components). -/
def apply3D_element (D1D Q1D : Nat) (B Bt op x : Vec R) (u : Uninit R) (e : Nat)
    (y : Vec R) : Vec R :=
  (forLoop 3 (fun c st => apply3D_component D1D Q1D B Bt op x u e c st) (y, u.a3)).1

/-- Kernel `PAVectorMassApply3D<T_D1D,T_Q1D>(NE, B_, Bt_, op_, x_, y_, d1d, q1d)`: the new
contents of `y_`, or the failure of one of the two `MFEM_VERIFY`. -/
def PAVectorMassApply3D (T_D1D T_Q1D : Nat) (lim : DofQuadLimits) (u : Uninit R) (NE : Nat)
    (B_ Bt_ op_ x_ y_ : Vec R) (d1d q1d : Nat) : Except MfemError (Vec R) :=
  let D1D := tsize T_D1D d1d
  let Q1D := tsize T_Q1D q1d
  if ¬ D1D ≤ lim.MAX_D1D then Except.error (MfemError.verify "")
  else if ¬ Q1D ≤ lim.MAX_Q1D then Except.error (MfemError.verify "")
  else Except.ok (forLoop NE (fun e y => apply3D_element D1D Q1D B_ Bt_ op_ x_ u e y) y_)

/-- Function `PAVectorMassApply` (lines 511-530): dispatch on the dimension. -/
def PAVectorMassApply (lim : DofQuadLimits) (u : Uninit R) (dim D1D Q1D NE : Nat)
    (B Bt op x y : Vec R) : Except MfemError (Vec R) :=
  if dim = 2 then PAVectorMassApply2D 0 0 lim u NE B Bt op x y D1D Q1D
  else if dim = 3 then PAVectorMassApply3D 0 0 lim u NE B Bt op x y D1D Q1D
  else Except.error (MfemError.abort "Unknown kernel.")

/-! ## Diagonal extraction (`PAVectorMassAssembleDiagonal2D/3D`, lines 108-254) -/

/-- Lines 133-143: `temp[qx][dy] = 0.0`, then
`temp[qx][dy] += B(qy,dy) * B(qy,dy) * op(qx,qy,e)` over `qy`. -/
def diag2D_temp (D1D Q1D : Nat) (B op : Vec R) (u : Uninit R) (e : Nat) : Nat × Nat → R :=
  forLoop Q1D (fun qx temp =>
    forLoop D1D (fun dy temp =>
      let temp := store temp (qx, dy) 0
      forLoop Q1D (fun qy temp =>
        store temp (qx, dy)
          (temp (qx, dy)
            + B (Reshape2 Q1D qy dy) * B (Reshape2 Q1D qy dy) * op (Reshape3 Q1D Q1D qx qy e)))
        temp) temp) u.a2

/-- Lines 148-152: `temp1 = 0.0`, then `temp1 += B(qx,dx) * B(qx,dx) * temp[qx][dy]`. -/
def diag2D_temp1 (Q1D : Nat) (B : Vec R) (temp : Nat × Nat → R) (dy dx : Nat) : R :=
  forLoop Q1D (fun qx temp1 =>
    temp1 + B (Reshape2 Q1D qx dx) * B (Reshape2 Q1D qx dx) * temp (qx, dy)) 0

/-- Lines 126-157: the work of element `e`; `temp1` is stored into both components. -/
def diag2D_element (D1D Q1D : Nat) (B op : Vec R) (u : Uninit R) (e : Nat) (y : Vec R) :
    Vec R :=
  let temp := diag2D_temp D1D Q1D B op u e
  forLoop D1D (fun dy y =>
    forLoop D1D (fun dx y =>
      let temp1 := diag2D_temp1 Q1D B temp dy dx
      let y := store y (Reshape4 D1D D1D 2 dx dy 0 e) temp1
      store y (Reshape4 D1D D1D 2 dx dy 1 e) temp1) y) y

/-- Kernel `PAVectorMassAssembleDiagonal2D<T_D1D,T_Q1D>(NE, B_, Bt_, op_, diag_, d1d, q1d)`:
the new contents of `diag_`, or the failure of one of the two `MFEM_VERIFY`.
`Bt_` is not read. -/
def PAVectorMassAssembleDiagonal2D (T_D1D T_Q1D : Nat) (lim : DofQuadLimits) (u : Uninit R)
    (NE : Nat) (B_ _Bt_ op_ diag_ : Vec R) (d1d q1d : Nat) : Except MfemError (Vec R) :=
  let D1D := tsize T_D1D d1d
  let Q1D := tsize T_Q1D q1d
  if ¬ D1D ≤ lim.MAX_D1D then Except.error (MfemError.verify "")
  else if ¬ Q1D ≤ lim.MAX_Q1D then Except.error (MfemError.verify "")
  else Except.ok (forLoop NE (fun e y => diag2D_element D1D Q1D B_ op_ u e y) diag_)

/-- Lines 185-199: `temp[qx][qy][dz] = 0.0`, then
`temp[qx][qy][dz] += B(qz,dz) * B(qz,dz) * op(qx,qy,qz,e)` over `qz`. -/
def diag3D_temp (D1D Q1D : Nat) (B op : Vec R) (u : Uninit R) (e : Nat) :
    Nat × Nat × Nat → R :=
  forLoop Q1D (fun qx temp =>
    forLoop Q1D (fun qy temp =>
      forLoop D1D (fun dz temp =>
        let temp := store temp (qx, qy, dz) 0
        forLoop Q1D (fun qz temp =>
          store temp (qx, qy, dz)
            (temp (qx, qy, dz)
              + B (Reshape2 Q1D qz dz) * B (Reshape2 Q1D qz dz)
                * op (Reshape4 Q1D Q1D Q1D qx qy qz e))) temp) temp) temp) u.a3

/-- Lines 200-214: `temp2[qx][dy][dz] = 0.0`, then
`temp2[qx][dy][dz] += B(qy,dy) * B(qy,dy) * temp[qx][qy][dz]` over `qy`. -/
def diag3D_temp2 (D1D Q1D : Nat) (B : Vec R) (u : Uninit R) (temp : Nat × Nat × Nat → R) :
    Nat × Nat × Nat → R :=
  forLoop Q1D (fun qx temp2 =>
    forLoop D1D (fun dz temp2 =>
      forLoop D1D (fun dy temp2 =>
        let temp2 := store temp2 (qx, dy, dz) 0
        forLoop Q1D (fun qy temp2 =>
          store temp2 (qx, dy, dz)
            (temp2 (qx, dy, dz)
              + B (Reshape2 Q1D qy dy) * B (Reshape2 Q1D qy dy) * temp (qx, qy, dz)))
          temp2) temp2) temp2) u.a3

/-- Lines 221-226: `temp3 = 0.0`, then
`temp3 += B(qx,dx) * B(qx,dx) * temp2[qx][dy][dz]`. -/
def diag3D_temp3 (Q1D : Nat) (B : Vec R) (temp2 : Nat × Nat × Nat → R) (dz dy dx : Nat) : R :=
  forLoop Q1D (fun qx temp3 =>
    temp3 + B (Reshape2 Q1D qx dx) * B (Reshape2 Q1D qx dx) * temp2 (qx, dy, dz)) 0

/-- Lines 178-233: the work of element `e`; `temp3` is stored into the three components. -/
def diag3D_element (D1D Q1D : Nat) (B op : Vec R) (u : Uninit R) (e : Nat) (y : Vec R) :
    Vec R :=
  let temp := diag3D_temp D1D Q1D B op u e
  let temp2 := diag3D_temp2 D1D Q1D B u temp
  forLoop D1D (fun dz y =>
    forLoop D1D (fun dy y =>
      forLoop D1D (fun dx y =>
        let temp3 := diag3D_temp3 Q1D B temp2 dz dy dx
        let y := store y (Reshape5 D1D D1D D1D 3 dx dy dz 0 e) temp3
        let y := store y (Reshape5 D1D D1D D1D 3 dx dy dz 1 e) temp3
        store y (Reshape5 D1D D1D D1D 3 dx dy dz 2 e) temp3) y) y) y

/-- Kernel `PAVectorMassAssembleDiagonal3D<T_D1D,T_Q1D>(NE, B_, Bt_, op_, diag_, d1d, q1d)`:
the new contents of `diag_`, or the failure of one of the two `MFEM_VERIFY`.
`Bt_` is not read. -/
def PAVectorMassAssembleDiagonal3D (T_D1D T_Q1D : Nat) (lim : DofQuadLimits) (u : Uninit R)
    (NE : Nat) (B_ _Bt_ op_ diag_ : Vec R) (d1d q1d : Nat) : Except MfemError (Vec R) :=
  let D1D := tsize T_D1D d1d
  let Q1D := tsize T_Q1D q1d
  if ¬ D1D ≤ lim.MAX_D1D then Except.error (MfemError.verify "")
  else if ¬ Q1D ≤ lim.MAX_Q1D then Except.error (MfemError.verify "")
  else Except.ok (forLoop NE (fun e y => diag3D_element D1D Q1D B_ op_ u e y) diag_)

/-- Function `PAVectorMassAssembleDiagonal` (lines 236-254): dispatch on the dimension. -/
def PAVectorMassAssembleDiagonal (lim : DofQuadLimits) (u : Uninit R) (dim D1D Q1D NE : Nat)
    (B Bt op y : Vec R) : Except MfemError (Vec R) :=
  if dim = 2 then PAVectorMassAssembleDiagonal2D 0 0 lim u NE B Bt op y D1D Q1D
  else if dim = 3 then PAVectorMassAssembleDiagonal3D 0 0 lim u NE B Bt op y D1D Q1D
  else Except.error (MfemError.abort "Dimension not implemented.")

/-! ## Operator data (`VectorMassIntegrator::AssemblePA`, lines 20-106) -/

/-- The coefficient `Q` as `dynamic_cast<ConstantCoefficient*>` sees it: a
`ConstantCoefficient` with its member `constant`, or a coefficient of another class. -/
inductive Coefficient (R : Type) where
  | constant (c : R)
  | other

/-- The libCEED operator built on the `DeviceCanUseCeed()` path. -/
inductive CeedOperator where
  | MixedPAMassIntegrator
  | PAMassIntegrator
  deriving DecidableEq, Repr

/-- What `AssemblePA` obtains from its collaborators (device, mesh, finite element
space, integration rule, geometric factors, dof-to-quadrature maps), all declared
outside the sources here and taken as parameters. -/
structure PASetup (R : Type) where
  /-- Value of `DeviceCanUseCeed()`. -/
  DeviceCanUseCeed : Bool
  /-- Value of `mesh->GetNumGeometries(mesh->Dimension()) > 1 || fes.IsVariableOrder()`. -/
  mixed : Bool
  /-- Value of `mesh->Dimension()`. -/
  Dimension : Nat
  /-- Value of `fes.GetMesh()->GetNE()`. -/
  GetNE : Nat
  /-- Value of `ir->GetNPoints()`. -/
  GetNPoints : Nat
  /-- Contents of `ir->GetWeights()`. -/
  GetWeights : Vec R
  /-- Contents of `geom->J`. -/
  J : Vec R
  /-- Value of `maps->ndof`. -/
  ndof : Nat
  /-- Value of `maps->nqpt`. -/
  nqpt : Nat

/-- The members of `VectorMassIntegrator` that `AssemblePA` reads or writes;
`pa_size` is the size of the vector `pa_data`. -/
structure VectorMassIntegrator (R : Type) where
  Q : Option (Coefficient R)
  ceedOp : Option CeedOperator
  dim : Nat
  ne : Nat
  nq : Nat
  dofs1D : Nat
  quad1D : Nat
  pa_data : Vec R
  pa_size : Nat

/-- Lines 52-58: `coeff = 1.0`, replaced by `cQ->constant` when `Q` is a
`ConstantCoefficient`; any other `Q` fails the `MFEM_VERIFY`. -/
def AssemblePA_coeff : Option (Coefficient R) → Except MfemError R
  | none => Except.ok 1
  | some (Coefficient.constant c) => Except.ok c
  | some Coefficient.other =>
      Except.error (MfemError.verify "Only ConstantCoefficient is supported.")

/-- Lines 73-81: the quadrature loop of element `e` in 2D. -/
def AssemblePA_element2D (NQ : Nat) (w J : Vec R) (constant : R) (e : Nat) (v : Vec R) :
    Vec R :=
  forLoop NQ (fun q v =>
    let J11 := J (Reshape4 NQ 2 2 q 0 0 e)
    let J12 := J (Reshape4 NQ 2 2 q 1 0 e)
    let J21 := J (Reshape4 NQ 2 2 q 0 1 e)
    let J22 := J (Reshape4 NQ 2 2 q 1 1 e)
    let detJ := (J11 * J22) - (J21 * J12)
    store v (Reshape2 NQ q e) (w q * constant * detJ)) v

/-- Lines 94-103: the quadrature loop of element `e` in 3D. -/
def AssemblePA_element3D (NQ : Nat) (W J : Vec R) (constant : R) (e : Nat) (v : Vec R) :
    Vec R :=
  forLoop NQ (fun q v =>
    let J11 := J (Reshape4 NQ 3 3 q 0 0 e)
    let J12 := J (Reshape4 NQ 3 3 q 0 1 e)
    let J13 := J (Reshape4 NQ 3 3 q 0 2 e)
    let J21 := J (Reshape4 NQ 3 3 q 1 0 e)
    let J22 := J (Reshape4 NQ 3 3 q 1 1 e)
    let J23 := J (Reshape4 NQ 3 3 q 1 2 e)
    let J31 := J (Reshape4 NQ 3 3 q 2 0 e)
    let J32 := J (Reshape4 NQ 3 3 q 2 1 e)
    let J33 := J (Reshape4 NQ 3 3 q 2 2 e)
    let detJ := J11 * (J22 * J33 - J32 * J23) -
                J21 * (J12 * J33 - J32 * J13) +
                J31 * (J12 * J23 - J22 * J13)
    store v (Reshape2 NQ q e) (W q * constant * detJ)) v

/-- Lines 63-105: the two dimension branches writing `pa_data`. -/
def AssemblePA_kernels (dim NE NQ : Nat) (w J : Vec R) (coeff : R) (pa_data : Vec R) : Vec R :=
  let pa_data :=
    if dim = 2 then forLoop NE (fun e v => AssemblePA_element2D NQ w J coeff e v) pa_data
    else pa_data
  if dim = 3 then forLoop NE (fun e v => AssemblePA_element3D NQ w J coeff e v) pa_data
  else pa_data

/-- Method `VectorMassIntegrator::AssemblePA(fes)`: the integrator after the call, or the
failure of the `MFEM_VERIFY` on the coefficient or of the `MFEM_ABORT` on the
dimension.  On the libCEED path only `ceedOp` is replaced. -/
def AssemblePA (env : PASetup R) (self : VectorMassIntegrator R) :
    Except MfemError (VectorMassIntegrator R) :=
  if env.DeviceCanUseCeed then
    Except.ok { self with
      ceedOp := some (if env.mixed then CeedOperator.MixedPAMassIntegrator
                      else CeedOperator.PAMassIntegrator) }
  else
    let self := { self with
      dim := env.Dimension, ne := env.GetNE, nq := env.GetNPoints,
      dofs1D := env.ndof, quad1D := env.nqpt,
      pa_size := env.GetNE * env.GetNPoints }
    match AssemblePA_coeff self.Q with
    | Except.error err => Except.error err
    | Except.ok coeff =>
      if ¬ (self.dim = 2 ∨ self.dim = 3) then
        Except.error (MfemError.abort "Dimension not supported.")
      else
        Except.ok { self with
          pa_data := AssemblePA_kernels self.dim self.ne self.nq env.GetWeights env.J coeff
                       self.pa_data }

/-- Method `VectorMassIntegrator::AddMultPA(x, y)` on the native path (lines 538-541). -/
def AddMultPA (lim : DofQuadLimits) (u : Uninit R) (self : VectorMassIntegrator R)
    (B Bt x y : Vec R) : Except MfemError (Vec R) :=
  PAVectorMassApply lim u self.dim self.dofs1D self.quad1D self.ne B Bt self.pa_data x y

/-- Method `VectorMassIntegrator::AssembleDiagonalPA(diag)` on the native path (lines 262-267). -/
def AssembleDiagonalPA (lim : DofQuadLimits) (u : Uninit R) (self : VectorMassIntegrator R)
    (B Bt diag : Vec R) : Except MfemError (Vec R) :=
  PAVectorMassAssembleDiagonal lim u self.dim self.dofs1D self.quad1D self.ne B Bt
    self.pa_data diag

/-! ## Reference definitions: the assembled elemental mass matrix

These follow the specification, not the kernels: the direct quadrature summation
`M_e[i,j] = sum_q op(q,e) * phi_i(q) * phi_j(q)` with the tensor-product shape
functions `phi_(dx,dy)(qx,qy) = B(qx,dx) * B(qy,dy)`. -/

/-- The tensor-product shape function `phi_(dx,dy)` at the point `(qx,qy)`. -/
def shape2D (Q1D : Nat) (B : Vec R) (dx dy qx qy : Nat) : R :=
  B (Reshape2 Q1D qx dx) * B (Reshape2 Q1D qy dy)

/-- The tensor-product shape function `phi_(dx,dy,dz)` at the point `(qx,qy,qz)`. -/
def shape3D (Q1D : Nat) (B : Vec R) (dx dy dz qx qy qz : Nat) : R :=
  B (Reshape2 Q1D qx dx) * B (Reshape2 Q1D qy dy) * B (Reshape2 Q1D qz dz)

/-- Entry `((dx,dy),(dx',dy'))` of the assembled mass matrix of element `e` in 2D. -/
def elemMass2D (Q1D : Nat) (B op : Vec R) (e dx dy dx' dy' : Nat) : R :=
  ∑ qy ∈ range Q1D, ∑ qx ∈ range Q1D,
    op (Reshape3 Q1D Q1D qx qy e) * shape2D Q1D B dx dy qx qy * shape2D Q1D B dx' dy' qx qy

/-- Entry `((dx,dy,dz),(dx',dy',dz'))` of the assembled mass matrix of element `e` in 3D. -/
def elemMass3D (Q1D : Nat) (B op : Vec R) (e dx dy dz dx' dy' dz' : Nat) : R :=
  ∑ qz ∈ range Q1D, ∑ qy ∈ range Q1D, ∑ qx ∈ range Q1D,
    op (Reshape4 Q1D Q1D Q1D qx qy qz e) * shape3D Q1D B dx dy dz qx qy qz
      * shape3D Q1D B dx' dy' dz' qx qy qz

/-- The action of the assembled 2D matrix of element `e` on component `c` of `x`, at
the dof `(dx,dy)`. -/
def massAction2D (D1D Q1D : Nat) (B op x : Vec R) (e c dx dy : Nat) : R :=
  ∑ dy' ∈ range D1D, ∑ dx' ∈ range D1D,
    elemMass2D Q1D B op e dx dy dx' dy' * x (Reshape4 D1D D1D 2 dx' dy' c e)

/-- The action of the assembled 3D matrix of element `e` on component `c` of `x`, at
the dof `(dx,dy,dz)`. -/
def massAction3D (D1D Q1D : Nat) (B op x : Vec R) (e c dx dy dz : Nat) : R :=
  ∑ dz' ∈ range D1D, ∑ dy' ∈ range D1D, ∑ dx' ∈ range D1D,
    elemMass3D Q1D B op e dx dy dz dx' dy' dz'
      * x (Reshape5 D1D D1D D1D 3 dx' dy' dz' c e)

/-- The dot product of the first `N` entries of two vectors. -/
def dot (N : Nat) (x y : Vec R) : R := ∑ i ∈ range N, x i * y i

/-- The vector that is `1` at the flat position `k` and `0` elsewhere. -/
def unitVec (k : Nat) : Vec R := fun p => if p = k then 1 else 0

/-- The zero vector. -/
def zeroVec : Vec R := fun _ => 0

/-- The 2x2 Jacobian of `geom->J` at quadrature point `q` of element `e`, as the
matrix `M[i][j] = J(q,i,j,e)`. -/
def jacobian2 (NQ : Nat) (J : Vec R) (q e : Nat) : Matrix (Fin 2) (Fin 2) R :=
  Matrix.of (fun i j => J (Reshape4 NQ 2 2 q i.val j.val e))

/-- The 3x3 Jacobian of `geom->J` at quadrature point `q` of element `e`, as the
matrix `M[i][j] = J(q,i,j,e)`. -/
def jacobian3 (NQ : Nat) (J : Vec R) (q e : Nat) : Matrix (Fin 3) (Fin 3) R :=
  Matrix.of (fun i j => J (Reshape4 NQ 3 3 q i.val j.val e))

/-! ## Closed forms of the sweeps

The values that the forward and backward sweeps of the application kernels compute,
written as the sums the loops accumulate (in the order of the loops). -/

/-- The value left in `sol_xy[qy][qx]` by the forward sweep of `PAVectorMassApply2D`. -/
def fwd2D (D1D Q1D : Nat) (B x : Vec R) (e c qy qx : Nat) : R :=
  ∑ dy ∈ range D1D, B (Reshape2 Q1D qy dy) *
    ∑ dx ∈ range D1D, B (Reshape2 Q1D qx dx) * x (Reshape4 D1D D1D 2 dx dy c e)

/-- The value that the backward sweep of `PAVectorMassApply2D` adds to `y(dx,dy,c,e)`. -/
def inc2D (D1D Q1D : Nat) (B Bt op x : Vec R) (e c dx dy : Nat) : R :=
  ∑ qy ∈ range Q1D, Bt (Reshape2 D1D dy qy) *
    ∑ qx ∈ range Q1D, Bt (Reshape2 D1D dx qx) *
      (fwd2D D1D Q1D B x e c qy qx * op (Reshape3 Q1D Q1D qx qy e))

/-- The value that element `e` adds to the flat cell `p` of `y` in `PAVectorMassApply2D`. -/
def elemInc2D (D1D Q1D : Nat) (B Bt op x : Vec R) (e p : Nat) : R :=
  ∑ c ∈ range 2, ∑ dy ∈ range D1D, ∑ dx ∈ range D1D,
    if p = Reshape4 D1D D1D 2 dx dy c e then inc2D D1D Q1D B Bt op x e c dx dy else 0

/-- The value that `PAVectorMassApply2D` adds to the flat cell `p` of `y`. -/
def applyInc2D (D1D Q1D NE : Nat) (B Bt op x : Vec R) (p : Nat) : R :=
  ∑ e ∈ range NE, elemInc2D D1D Q1D B Bt op x e p

/-- The value left in `sol_xyz[qz][qy][qx]` by the forward sweep of
`PAVectorMassApply3D`. -/
def fwd3D (D1D Q1D : Nat) (B x : Vec R) (e c qz qy qx : Nat) : R :=
  ∑ dz ∈ range D1D, B (Reshape2 Q1D qz dz) *
    ∑ dy ∈ range D1D, B (Reshape2 Q1D qy dy) *
      ∑ dx ∈ range D1D, B (Reshape2 Q1D qx dx) * x (Reshape5 D1D D1D D1D 3 dx dy dz c e)

/-- The value that the backward sweep of `PAVectorMassApply3D` adds to
`y(dx,dy,dz,c,e)`. -/
def inc3D (D1D Q1D : Nat) (B Bt op x : Vec R) (e c dx dy dz : Nat) : R :=
  ∑ qz ∈ range Q1D, Bt (Reshape2 D1D dz qz) *
    ∑ qy ∈ range Q1D, Bt (Reshape2 D1D dy qy) *
      ∑ qx ∈ range Q1D, Bt (Reshape2 D1D dx qx) *
        (fwd3D D1D Q1D B x e c qz qy qx * op (Reshape4 Q1D Q1D Q1D qx qy qz e))

/-- The value that element `e` adds to the flat cell `p` of `y` in `PAVectorMassApply3D`. -/
def elemInc3D (D1D Q1D : Nat) (B Bt op x : Vec R) (e p : Nat) : R :=
  ∑ c ∈ range 3, ∑ dz ∈ range D1D, ∑ dy ∈ range D1D, ∑ dx ∈ range D1D,
    if p = Reshape5 D1D D1D D1D 3 dx dy dz c e then inc3D D1D Q1D B Bt op x e c dx dy dz
    else 0

/-- The value that `PAVectorMassApply3D` adds to the flat cell `p` of `y`. -/
def applyInc3D (D1D Q1D NE : Nat) (B Bt op x : Vec R) (p : Nat) : R :=
  ∑ e ∈ range NE, elemInc3D D1D Q1D B Bt op x e p

/-- The value that `PAVectorMassAssembleDiagonal2D` stores at `(dx,dy,c,e)` (the same
for both components), as the sums the loops accumulate. -/
def diagVal2D (Q1D : Nat) (B op : Vec R) (e dx dy : Nat) : R :=
  ∑ qx ∈ range Q1D, B (Reshape2 Q1D qx dx) * B (Reshape2 Q1D qx dx) *
    ∑ qy ∈ range Q1D,
      B (Reshape2 Q1D qy dy) * B (Reshape2 Q1D qy dy) * op (Reshape3 Q1D Q1D qx qy e)

/-- The value that `PAVectorMassAssembleDiagonal3D` stores at `(dx,dy,dz,c,e)` (the same
for the three components), as the sums the loops accumulate. -/
def diagVal3D (Q1D : Nat) (B op : Vec R) (e dx dy dz : Nat) : R :=
  ∑ qx ∈ range Q1D, B (Reshape2 Q1D qx dx) * B (Reshape2 Q1D qx dx) *
    ∑ qy ∈ range Q1D, B (Reshape2 Q1D qy dy) * B (Reshape2 Q1D qy dy) *
      ∑ qz ∈ range Q1D,
        B (Reshape2 Q1D qz dz) * B (Reshape2 Q1D qz dz) * op (Reshape4 Q1D Q1D Q1D qx qy qz e)

/-- The cells of `diag` that `PAVectorMassAssembleDiagonal2D` assigns. -/
def diagCells2D (D1D NE : Nat) (p : Nat) : Prop :=
  ∃ e, e < NE ∧ ∃ dy, dy < D1D ∧ ∃ dx, dx < D1D ∧
    (p = Reshape4 D1D D1D 2 dx dy 0 e ∨ p = Reshape4 D1D D1D 2 dx dy 1 e)

/-- The cells of `diag` that `PAVectorMassAssembleDiagonal3D` assigns. -/
def diagCells3D (D1D NE : Nat) (p : Nat) : Prop :=
  ∃ e, e < NE ∧ ∃ dz, dz < D1D ∧ ∃ dy, dy < D1D ∧ ∃ dx, dx < D1D ∧
    (p = Reshape5 D1D D1D D1D 3 dx dy dz 0 e ∨ p = Reshape5 D1D D1D D1D 3 dx dy dz 1 e
      ∨ p = Reshape5 D1D D1D D1D 3 dx dy dz 2 e)

/-- The relation between a cell `p` of `diag` and the value `r` that
`PAVectorMassAssembleDiagonal2D` leaves there: the diagonal value of the dof of `p`. -/
def DiagPost2D (D1D Q1D NE : Nat) (B op : Vec R) (p : Nat) (r : R) : Prop :=
  ∀ e c dx dy, e < NE → c < 2 → dx < D1D → dy < D1D →
    p = Reshape4 D1D D1D 2 dx dy c e → r = diagVal2D Q1D B op e dx dy

/-- The relation between a cell `p` of `diag` and the value `r` that
`PAVectorMassAssembleDiagonal3D` leaves there: the diagonal value of the dof of `p`. -/
def DiagPost3D (D1D Q1D NE : Nat) (B op : Vec R) (p : Nat) (r : R) : Prop :=
  ∀ e c dx dy dz, e < NE → c < 3 → dx < D1D → dy < D1D → dz < D1D →
    p = Reshape5 D1D D1D D1D 3 dx dy dz c e → r = diagVal3D Q1D B op e dx dy dz

/-- The determinant that the 2D branch of `AssemblePA` computes at quadrature point `q`
of element `e` (lines 75-79). -/
def detJ2D (NQ : Nat) (J : Vec R) (q e : Nat) : R :=
  (J (Reshape4 NQ 2 2 q 0 0 e) * J (Reshape4 NQ 2 2 q 1 1 e))
    - (J (Reshape4 NQ 2 2 q 0 1 e) * J (Reshape4 NQ 2 2 q 1 0 e))

/-- The determinant that the 3D branch of `AssemblePA` computes at quadrature point `q`
of element `e` (lines 96-101). -/
def detJ3D (NQ : Nat) (J : Vec R) (q e : Nat) : R :=
  J (Reshape4 NQ 3 3 q 0 0 e)
      * (J (Reshape4 NQ 3 3 q 1 1 e) * J (Reshape4 NQ 3 3 q 2 2 e)
          - J (Reshape4 NQ 3 3 q 2 1 e) * J (Reshape4 NQ 3 3 q 1 2 e))
    - J (Reshape4 NQ 3 3 q 1 0 e)
      * (J (Reshape4 NQ 3 3 q 0 1 e) * J (Reshape4 NQ 3 3 q 2 2 e)
          - J (Reshape4 NQ 3 3 q 2 1 e) * J (Reshape4 NQ 3 3 q 0 2 e))
    + J (Reshape4 NQ 3 3 q 2 0 e)
      * (J (Reshape4 NQ 3 3 q 0 1 e) * J (Reshape4 NQ 3 3 q 1 2 e)
          - J (Reshape4 NQ 3 3 q 1 1 e) * J (Reshape4 NQ 3 3 q 0 2 e))

/-- The cells of `pa_data` that `AssemblePA` assigns in dimension 2 or 3. -/
def paCells (NQ NE : Nat) (p : Nat) : Prop :=
  ∃ e, e < NE ∧ ∃ q, q < NQ ∧ p = Reshape2 NQ q e

/-- The relation between a cell `p` of `pa_data` and the value `r` left there by
`AssemblePA`, for the determinant `det` of the dimension. -/
def PAPost (NQ NE : Nat) (w : Vec R) (coeff : R) (det : Nat → Nat → R) (p : Nat) (r : R) :
    Prop :=
  ∀ e q, e < NE → q < NQ → p = Reshape2 NQ q e → r = w q * coeff * det q e

/-- The number of entries of a 2D dof vector of shape `D1D x D1D x 2 x NE`. -/
def vdofs2D (D1D NE : Nat) : Nat := D1D * (D1D * (2 * NE))

/-- The number of entries of a 3D dof vector of shape `D1D x D1D x D1D x 3 x NE`. -/
def vdofs3D (D1D NE : Nat) : Nat := D1D * (D1D * (D1D * (3 * NE)))

/-- The number of entries of the dof vector in dimension `dim` (2, else 3). -/
def vdofs (dim D1D NE : Nat) : Nat := if dim = 2 then vdofs2D D1D NE else vdofs3D D1D NE

/-- The weighted L2 product of the quadrature-point values of `x` and `y` in 2D: the
sum over elements, components and quadrature points of `op * x_q * y_q`. -/
def energy2D (D1D Q1D NE : Nat) (B op x y : Vec R) : R :=
  ∑ e ∈ range NE, ∑ c ∈ range 2, ∑ qy ∈ range Q1D, ∑ qx ∈ range Q1D,
    op (Reshape3 Q1D Q1D qx qy e) * fwd2D D1D Q1D B x e c qy qx * fwd2D D1D Q1D B y e c qy qx

/-- The weighted L2 product of the quadrature-point values of `x` and `y` in 3D. -/
def energy3D (D1D Q1D NE : Nat) (B op x y : Vec R) : R :=
  ∑ e ∈ range NE, ∑ c ∈ range 3, ∑ qz ∈ range Q1D, ∑ qy ∈ range Q1D, ∑ qx ∈ range Q1D,
    op (Reshape4 Q1D Q1D Q1D qx qy qz e) * fwd3D D1D Q1D B x e c qz qy qx
      * fwd3D D1D Q1D B y e c qz qy qx

/-- The value `w[q] * coeff * det(J)` that `AssemblePA` stores at `(q,e)` in dimension
`dim` (2, else 3). -/
def paValue (dim NQ : Nat) (w J : Vec R) (coeff : R) (q e : Nat) : R :=
  w q * coeff * (if dim = 2 then detJ2D NQ J q e else detJ3D NQ J q e)

/-! ## Calls as state transformers

The kernels and `AssemblePA` work in place on their output.  The definitions of this
section follow the same statements as the functions above, and record, next to the
failure raised (if any), the contents in which the call leaves its output: a failing
`MFEM_VERIFY` or `MFEM_ABORT` stops the call with the output as it is at that
statement. -/

/-- Outcome of a call that works in place on a state: the failure raised, if any, and
the state the call leaves. -/
structure Outcome (σ : Type) where
  failure : Option MfemError
  state : σ

/-- The result of a call, forgetting the state left by a failing one. -/
def Outcome.toExcept {σ : Type} (o : Outcome σ) : Except MfemError σ :=
  match o.failure with
  | none => Except.ok o.state
  | some err => Except.error err

/-- The loop over the elements run in the order of the list `l` (for `mfem::forall`,
whose iterations may run in any order). -/
def forEach {σ : Type} (l : List Nat) (body : Nat → σ → σ) (s : σ) : σ :=
  l.foldl (fun s e => body e s) s

/-- Kernel `PAVectorMassApply2D` in place on `y_` (lines 280-363). -/
def PAVectorMassApply2D_st (T_D1D T_Q1D : Nat) (lim : DofQuadLimits) (u : Uninit R)
    (NE : Nat) (B_ Bt_ op_ x_ y_ : Vec R) (d1d q1d : Nat) : Outcome (Vec R) :=
  let D1D := tsize T_D1D d1d
  let Q1D := tsize T_Q1D q1d
  if ¬ D1D ≤ lim.MAX_D1D then ⟨some (MfemError.verify ""), y_⟩
  else if ¬ Q1D ≤ lim.MAX_Q1D then ⟨some (MfemError.verify ""), y_⟩
  else ⟨none, forLoop NE (fun e y => apply2D_element D1D Q1D B_ Bt_ op_ x_ u e y) y_⟩

/-- Kernel `PAVectorMassApply3D` in place on `y_` (lines 376-508). -/
def PAVectorMassApply3D_st (T_D1D T_Q1D : Nat) (lim : DofQuadLimits) (u : Uninit R)
    (NE : Nat) (B_ Bt_ op_ x_ y_ : Vec R) (d1d q1d : Nat) : Outcome (Vec R) :=
  let D1D := tsize T_D1D d1d
  let Q1D := tsize T_Q1D q1d
  if ¬ D1D ≤ lim.MAX_D1D then ⟨some (MfemError.verify ""), y_⟩
  else if ¬ Q1D ≤ lim.MAX_Q1D then ⟨some (MfemError.verify ""), y_⟩
  else ⟨none, forLoop NE (fun e y => apply3D_element D1D Q1D B_ Bt_ op_ x_ u e y) y_⟩

/-- Kernel `PAVectorMassAssembleDiagonal2D` in place on `diag_` (lines 117-157). -/
def PAVectorMassAssembleDiagonal2D_st (T_D1D T_Q1D : Nat) (lim : DofQuadLimits)
    (u : Uninit R) (NE : Nat) (B_ _Bt_ op_ diag_ : Vec R) (d1d q1d : Nat) :
    Outcome (Vec R) :=
  let D1D := tsize T_D1D d1d
  let Q1D := tsize T_Q1D q1d
  if ¬ D1D ≤ lim.MAX_D1D then ⟨some (MfemError.verify ""), diag_⟩
  else if ¬ Q1D ≤ lim.MAX_Q1D then ⟨some (MfemError.verify ""), diag_⟩
  else ⟨none, forLoop NE (fun e y => diag2D_element D1D Q1D B_ op_ u e y) diag_⟩

/-- Kernel `PAVectorMassAssembleDiagonal3D` in place on `diag_` (lines 169-233). -/
def PAVectorMassAssembleDiagonal3D_st (T_D1D T_Q1D : Nat) (lim : DofQuadLimits)
    (u : Uninit R) (NE : Nat) (B_ _Bt_ op_ diag_ : Vec R) (d1d q1d : Nat) :
    Outcome (Vec R) :=
  let D1D := tsize T_D1D d1d
  let Q1D := tsize T_Q1D q1d
  if ¬ D1D ≤ lim.MAX_D1D then ⟨some (MfemError.verify ""), diag_⟩
  else if ¬ Q1D ≤ lim.MAX_Q1D then ⟨some (MfemError.verify ""), diag_⟩
  else ⟨none, forLoop NE (fun e y => diag3D_element D1D Q1D B_ op_ u e y) diag_⟩

/-- Function `PAVectorMassApply` in place on `y` (lines 521-529). -/
def PAVectorMassApply_st (lim : DofQuadLimits) (u : Uninit R) (dim D1D Q1D NE : Nat)
    (B Bt op x y : Vec R) : Outcome (Vec R) :=
  if dim = 2 then PAVectorMassApply2D_st 0 0 lim u NE B Bt op x y D1D Q1D
  else if dim = 3 then PAVectorMassApply3D_st 0 0 lim u NE B Bt op x y D1D Q1D
  else ⟨some (MfemError.abort "Unknown kernel."), y⟩

/-- Function `PAVectorMassAssembleDiagonal` in place on `y` (lines 245-253). -/
def PAVectorMassAssembleDiagonal_st (lim : DofQuadLimits) (u : Uninit R)
    (dim D1D Q1D NE : Nat) (B Bt op y : Vec R) : Outcome (Vec R) :=
  if dim = 2 then PAVectorMassAssembleDiagonal2D_st 0 0 lim u NE B Bt op y D1D Q1D
  else if dim = 3 then PAVectorMassAssembleDiagonal3D_st 0 0 lim u NE B Bt op y D1D Q1D
  else ⟨some (MfemError.abort "Dimension not implemented."), y⟩

/-- Method `AssemblePA` in place on the integrator (lines 28-105): the members assigned
before a failing check keep their new values; `pa_data.SetSize` changes the size and
writes no entry. -/
def AssemblePA_st (env : PASetup R) (self : VectorMassIntegrator R) :
    Outcome (VectorMassIntegrator R) :=
  if env.DeviceCanUseCeed then
    ⟨none, { self with
      ceedOp := some (if env.mixed then CeedOperator.MixedPAMassIntegrator
                      else CeedOperator.PAMassIntegrator) }⟩
  else
    let self := { self with
      dim := env.Dimension, ne := env.GetNE, nq := env.GetNPoints,
      dofs1D := env.ndof, quad1D := env.nqpt,
      pa_size := env.GetNE * env.GetNPoints }
    match AssemblePA_coeff self.Q with
    | Except.error err => ⟨some err, self⟩
    | Except.ok coeff =>
      if ¬ (self.dim = 2 ∨ self.dim = 3) then
        ⟨some (MfemError.abort "Dimension not supported."), self⟩
      else
        ⟨none, { self with
          pa_data := AssemblePA_kernels self.dim self.ne self.nq env.GetWeights env.J coeff
                       self.pa_data }⟩

/-! ## Slices of the tensors -/

/-- Two dof vectors agree on component `c` of element `e` (2D layout); `c'` is the
component read in the second one. -/
def compEq2D (D1D : Nat) (a b : Vec R) (e c c' : Nat) : Prop :=
  ∀ dx dy, dx < D1D → dy < D1D →
    a (Reshape4 D1D D1D 2 dx dy c e) = b (Reshape4 D1D D1D 2 dx dy c' e)

/-- Two dof vectors agree on component `c` of element `e` (3D layout); `c'` is the
component read in the second one. -/
def compEq3D (D1D : Nat) (a b : Vec R) (e c c' : Nat) : Prop :=
  ∀ dx dy dz, dx < D1D → dy < D1D → dz < D1D →
    a (Reshape5 D1D D1D D1D 3 dx dy dz c e) = b (Reshape5 D1D D1D D1D 3 dx dy dz c' e)

/-- Two operator data vectors agree on the quadrature points of element `e` (2D). -/
def opEq2D (Q1D : Nat) (a b : Vec R) (e : Nat) : Prop :=
  ∀ qx qy, qx < Q1D → qy < Q1D →
    a (Reshape3 Q1D Q1D qx qy e) = b (Reshape3 Q1D Q1D qx qy e)

/-- Two operator data vectors agree on the quadrature points of element `e` (3D). -/
def opEq3D (Q1D : Nat) (a b : Vec R) (e : Nat) : Prop :=
  ∀ qx qy qz, qx < Q1D → qy < Q1D → qz < Q1D →
    a (Reshape4 Q1D Q1D Q1D qx qy qz e) = b (Reshape4 Q1D Q1D Q1D qx qy qz e)

/-- The flat cell `p` belongs to the slice of element `e` of a 2D dof vector. -/
def inSlice2D (D1D e p : Nat) : Prop :=
  ∃ c dx dy, c < 2 ∧ dx < D1D ∧ dy < D1D ∧ p = Reshape4 D1D D1D 2 dx dy c e

/-- The flat cell `p` belongs to the slice of element `e` of a 3D dof vector. -/
def inSlice3D (D1D e p : Nat) : Prop :=
  ∃ c dx dy dz, c < 3 ∧ dx < D1D ∧ dy < D1D ∧ dz < D1D ∧
    p = Reshape5 D1D D1D D1D 3 dx dy dz c e

end Kernels

/-! ## Sample data

Concrete integer inputs at which the theorems below are instantiated. -/

/-- Sample device limits. -/
def sampleLimits : DofQuadLimits := ⟨14, 14⟩

/-- Sample contents of the local arrays at their declaration. -/
def sampleUninit : Uninit Int := ⟨fun _ => 7, fun _ => 9, fun _ => 11⟩

/-- A sample basis table with `Q1D = D1D = 2`: `B(0,0) = 1, B(1,0) = 2, B(0,1) = 3,
B(1,1) = 4`. -/
def sampleB : Vec Int := fun i => [1, 2, 3, 4].getD i 0

/-- The transpose of `sampleB`: `Bt(d,q) = B(q,d)`. -/
def sampleBt : Vec Int := fun i => [1, 3, 2, 4].getD i 0

/-- Sample operator data. -/
def sampleOp : Vec Int := fun i => (i : Int) + 1

/-- The vector of ones. -/
def sampleOnes : Vec Int := fun _ => 1

/-- A sample input vector. -/
def sampleX : Vec Int := fun i => 2 * (i : Int) - 3

/-- A sample second vector. -/
def sampleY : Vec Int := fun i => 5 - (i : Int)

/-- Sample set-up data in dimension `dim`: one element, one quadrature point, weight 2,
all Jacobian entries zero except the diagonal ones (`J(q,i,i,e) = 1`), `D1D = Q1D = 1`. -/
def sampleSetup (dim : Nat) : PASetup Int :=
  { DeviceCanUseCeed := false, mixed := false, Dimension := dim, GetNE := 1,
    GetNPoints := 1, GetWeights := fun _ => 2,
    J := fun i => if i % (dim + 1) = 0 then 1 else 0, ndof := 1, nqpt := 1 }

/-- A sample integrator before `AssemblePA`, with the constant coefficient `c`. -/
def sampleIntegrator (c : Int) : VectorMassIntegrator Int :=
  { Q := some (Coefficient.constant c), ceedOp := none, dim := 0, ne := 0, nq := 0,
    dofs1D := 0, quad1D := 0, pa_data := fun _ => 0, pa_size := 0 }

/-- A sample integrator before `AssemblePA`, with a coefficient that is not constant. -/
def sampleIntegratorOther : VectorMassIntegrator Int :=
  { Q := some Coefficient.other, ceedOp := none, dim := 0, ne := 0, nq := 0,
    dofs1D := 0, quad1D := 0, pa_data := fun _ => 0, pa_size := 0 }

/-- A vector that agrees with `sampleX` on the even cells (component 0 of a layout with
one dof per component and two components) and is zero on the odd ones. -/
def sampleXeven : Vec Int := fun i => if i % 2 = 0 then sampleX i else 0

/-- A vector that agrees with `sampleY` on the even cells and is `9` on the odd ones. -/
def sampleYeven : Vec Int := fun i => if i % 2 = 0 then sampleY i else 9

/-- Sample set-up data whose sizes `D1D = 15`, `Q1D = 16` exceed `sampleLimits`. -/
def sampleSetupLarge : PASetup Int :=
  { DeviceCanUseCeed := false, mixed := false, Dimension := 2, GetNE := 1,
    GetNPoints := 256, GetWeights := fun _ => 2,
    J := fun _ => 1, ndof := 15, nqpt := 16 }

/-! ## The phases of the application, as the specification words them

The specification describes the application as a forward contraction of the local dof
tensor against `B` along axis x, then y, then (3D) z; the pointwise product with the
operator data; and a backward contraction against `Bt` along the same axes in reverse
order.  The definitions of this section follow those words, one contraction each, for
the comparison with the sweeps of the kernels. -/

section Phases

variable {R : Type} [CommRing R]

/-- Forward phase in 2D, first step: the dof tensor of component `c` of element `e`
contracted against `B` along axis x. -/
def specFwdX2D (D1D Q1D : Nat) (B x : Vec R) (e c qx dy : Nat) : R :=
  ∑ dx ∈ range D1D, B (Reshape2 Q1D qx dx) * x (Reshape4 D1D D1D 2 dx dy c e)

/-- Forward phase in 2D, second step: the contraction along axis y, giving the value
at the quadrature point `(qx,qy)`. -/
def specFwdXY2D (D1D Q1D : Nat) (B x : Vec R) (e c qx qy : Nat) : R :=
  ∑ dy ∈ range D1D, B (Reshape2 Q1D qy dy) * specFwdX2D D1D Q1D B x e c qx dy

/-- Scaling phase in 2D: the quadrature-point value times the operator data. -/
def specScale2D (D1D Q1D : Nat) (B op x : Vec R) (e c qx qy : Nat) : R :=
  specFwdXY2D D1D Q1D B x e c qx qy * op (Reshape3 Q1D Q1D qx qy e)

/-- Backward phase in 2D, first step: the scaled values contracted against `Bt` along
axis y. -/
def specBwdY2D (D1D Q1D : Nat) (B Bt op x : Vec R) (e c qx dy : Nat) : R :=
  ∑ qy ∈ range Q1D, Bt (Reshape2 D1D dy qy) * specScale2D D1D Q1D B op x e c qx qy

/-- Backward phase in 2D, second step: the contraction along axis x, giving the value
accumulated at the dof `(dx,dy)`. -/
def specBwdYX2D (D1D Q1D : Nat) (B Bt op x : Vec R) (e c dx dy : Nat) : R :=
  ∑ qx ∈ range Q1D, Bt (Reshape2 D1D dx qx) * specBwdY2D D1D Q1D B Bt op x e c qx dy

/-- Forward phase in 3D, first step: contraction against `B` along axis x. -/
def specFwdX3D (D1D Q1D : Nat) (B x : Vec R) (e c qx dy dz : Nat) : R :=
  ∑ dx ∈ range D1D, B (Reshape2 Q1D qx dx) * x (Reshape5 D1D D1D D1D 3 dx dy dz c e)

/-- Forward phase in 3D, second step: contraction along axis y. -/
def specFwdXY3D (D1D Q1D : Nat) (B x : Vec R) (e c qx qy dz : Nat) : R :=
  ∑ dy ∈ range D1D, B (Reshape2 Q1D qy dy) * specFwdX3D D1D Q1D B x e c qx dy dz

/-- Forward phase in 3D, third step: contraction along axis z, giving the value at the
quadrature point `(qx,qy,qz)`. -/
def specFwdXYZ3D (D1D Q1D : Nat) (B x : Vec R) (e c qx qy qz : Nat) : R :=
  ∑ dz ∈ range D1D, B (Reshape2 Q1D qz dz) * specFwdXY3D D1D Q1D B x e c qx qy dz

/-- Scaling phase in 3D: the quadrature-point value times the operator data. -/
def specScale3D (D1D Q1D : Nat) (B op x : Vec R) (e c qx qy qz : Nat) : R :=
  specFwdXYZ3D D1D Q1D B x e c qx qy qz * op (Reshape4 Q1D Q1D Q1D qx qy qz e)

/-- Backward phase in 3D, first step: contraction against `Bt` along axis z. -/
def specBwdZ3D (D1D Q1D : Nat) (B Bt op x : Vec R) (e c qx qy dz : Nat) : R :=
  ∑ qz ∈ range Q1D, Bt (Reshape2 D1D dz qz) * specScale3D D1D Q1D B op x e c qx qy qz

/-- Backward phase in 3D, second step: contraction along axis y. -/
def specBwdZY3D (D1D Q1D : Nat) (B Bt op x : Vec R) (e c qx dy dz : Nat) : R :=
  ∑ qy ∈ range Q1D, Bt (Reshape2 D1D dy qy) * specBwdZ3D D1D Q1D B Bt op x e c qx qy dz

/-- Backward phase in 3D, third step: contraction along axis x, giving the value
accumulated at the dof `(dx,dy,dz)`. -/
def specBwdZYX3D (D1D Q1D : Nat) (B Bt op x : Vec R) (e c dx dy dz : Nat) : R :=
  ∑ qx ∈ range Q1D, Bt (Reshape2 D1D dx qx) * specBwdZY3D D1D Q1D B Bt op x e c qx dy dz

end Phases

/-! ## The bilinear element on the unit square with the 2-point Gauss rule

The data of the concrete scenario: `s` stands for the square root of 3. -/

section Bilinear

variable {F : Type} [Field F]

/-- The points `(1 - 1/s)/2` and `(1 + 1/s)/2` of the 2-point Gauss rule on `[0,1]`,
where `s` is the square root of 3. -/
def gaussPoint (s : F) (q : Nat) : F := if q = 0 then (1 - 1 / s) / 2 else (1 + 1 / s) / 2

/-- The linear basis at the Gauss points: `B(q,0) = 1 - x_q`, `B(q,1) = x_q`. -/
def linearBasis (s : F) (q d : Nat) : F :=
  if d = 0 then 1 - gaussPoint s q else gaussPoint s q

/-- The table `B` of the linear basis, `B(q,d)` at the flat position `q + 2*d`. -/
def bilinearB (s : F) : Vec F := fun i => linearBasis s (i % 2) (i / 2)

/-- The transposed table, `Bt(d,q) = B(q,d)` at the flat position `d + 2*q`. -/
def bilinearBt (s : F) : Vec F := fun i => linearBasis s (i / 2) (i % 2)

/-- The tensor weights of the 2-point Gauss rule on the unit square: `1/4` each. -/
def gaussWeights : Vec F := fun _ => 1 / 4

end Bilinear

/-! ## The reduced system operator (`examples/ex10p.cpp`, lines 105-128 and 459-474) -/

section ReducedSystem

variable {R : Type} [CommRing R]

/-- Modelled from the spec: the library function `add(v1, alpha, v2, v)` of
`linalg/vector.hpp`, declared outside the sources here, sets `v = v1 + alpha * v2`. -/
def add (v1 : Vec R) (alpha : R) (v2 : Vec R) : Vec R := fun i => v1 i + alpha * v2 i

/-- Modelled from the spec: the library method `Vector::SetSubVector(dofs, value)`,
declared outside the sources here, sets the entries listed in `dofs` to `value`. -/
def SetSubVector (y : Vec R) (dofs : List Nat) (value : R) : Vec R :=
  dofs.foldl (fun y i => store y i value) y

/-- Modelled from the spec: the method `TrueAddMult(x, y)` of a given operator `A`,
declared outside the sources here, adds the action of `A` on `x` to `y`. -/
def TrueAddMult (A : Vec R → Vec R) (x y : Vec R) : Vec R := fun i => y i + A x i

/-- The members of `ReducedSystemOperator` that `Mult` reads: the given operators `M`,
`S`, `H` (as their actions on true-dof vectors), the parameters `dt`, `v`, `x`, and the
list of essential true dofs. -/
structure ReducedSystemOperator (R : Type) where
  M : Vec R → Vec R
  S : Vec R → Vec R
  H : Vec R → Vec R
  dt : R
  v : Vec R
  x : Vec R
  ess_tdof_list : List Nat

/-- Method `ReducedSystemOperator::SetParameters(dt_, v_, x_)` (lines 459-463). -/
def ReducedSystemOperator.SetParameters (self : ReducedSystemOperator R) (dt_ : R)
    (v_ x_ : Vec R) : ReducedSystemOperator R :=
  { self with dt := dt_, v := v_, x := x_ }

/-- Method `ReducedSystemOperator::Mult(k, y)` (lines 465-474): the vector left in `y`.
`H->Mult(z, y)` overwrites `y`, so the result does not depend on what `y` held. -/
def ReducedSystemOperator.Mult (self : ReducedSystemOperator R) (k : Vec R) : Vec R :=
  let w := add self.v self.dt k
  let z := add self.x self.dt w
  let y := self.H z
  let y := TrueAddMult self.M k y
  let y := TrueAddMult self.S w y
  SetSubVector y self.ess_tdof_list 0

end ReducedSystem

/-! ## The Kovasznay solution (`miniapps/navier/navier_kovasznay.cpp`, lines 48-79) -/

section Kovasznay

variable {F : Type} [Field F]

/-- The functions of `<cmath>` and the constant `M_PI` that the Kovasznay solution
uses, taken as parameters; over the reals they are `Real.exp`, `Real.cos`, `Real.sin`,
`Real.sqrt` and `Real.pi`. -/
structure MathFns (F : Type) where
  exp : F → F
  cos : F → F
  sin : F → F
  sqrt : F → F
  M_PI : F

/-- The members of `s_NavierContext` that the exact solution reads or that enter their
initialisers. -/
structure s_NavierContext (F : Type) where
  kinvis : F
  reference_pressure : F
  reynolds : F
  lam : F

/-- The global `ctx` with its default member initialisers (lines 52-58); none of these
members is changed by the command-line options. -/
def ctx (m : MathFns F) : s_NavierContext F :=
  let kinvis : F := 1 / 40
  let reference_pressure : F := 0
  let reynolds : F := 1 / kinvis
  let lam : F := 1 / 2 * reynolds - m.sqrt (1 / 4 * reynolds * reynolds + 4 * m.M_PI * m.M_PI)
  { kinvis := kinvis, reference_pressure := reference_pressure, reynolds := reynolds,
    lam := lam }

/-- Function `vel_kovasznay(x, t, u)` (lines 65-72): the vector left in `u`. -/
def vel_kovasznay (m : MathFns F) (ctx : s_NavierContext F) (x : Vec F) (_t : F)
    (u : Vec F) : Vec F :=
  let xi := x 0
  let yi := x 1
  let u := store u 0 (1 - m.exp (ctx.lam * xi) * m.cos (2 * m.M_PI * yi))
  store u 1 (ctx.lam / (2 * m.M_PI) * m.exp (ctx.lam * xi) * m.sin (2 * m.M_PI * yi))

/-- Function `pres_kovasznay(x, t)` (lines 74-79). -/
def pres_kovasznay (m : MathFns F) (ctx : s_NavierContext F) (x : Vec F) (_t : F) : F :=
  let xi := x 0
  1 / 2 * (1 - m.exp (2 * ctx.lam * xi)) + ctx.reference_pressure

end Kovasznay

/-! ## Further sample data -/

/-- A sample integrator that has been used before: constant coefficient `c`, and
operator data and sizes left by an earlier set-up. -/
def sampleIntegratorUsed (c : Int) : VectorMassIntegrator Int :=
  { Q := some (Coefficient.constant c), ceedOp := none, dim := 3, ne := 4, nq := 8,
    dofs1D := 2, quad1D := 2, pa_data := fun i => (i : Int) + 5, pa_size := 32 }

/-- Sample set-up data on a mesh without elements: `NE = 0`, five quadrature points per
element, `Q1D = 2`, dimension 2. -/
def sampleSetupEmpty : PASetup Int :=
  { DeviceCanUseCeed := false, mixed := false, Dimension := 2, GetNE := 0,
    GetNPoints := 5, GetWeights := fun _ => 2,
    J := fun _ => 1, ndof := 2, nqpt := 2 }

/-- A sample reduced system operator: `M`, `S` and `H` are the identity, `dt = 1`,
`v = x = 1`, and the true dof `0` is essential. -/
def sampleReduced : ReducedSystemOperator Int :=
  { M := fun k => k, S := fun k => k, H := fun k => k, dt := 1, v := fun _ => 1,
    x := fun _ => 1, ess_tdof_list := [0] }

/-- A sample second set of operator data. -/
def sampleOp2 : Vec Int := fun i => 7 - 2 * (i : Int)

/-- A sample basis table with `Q1D = D1D = 2` whose rows sum to one:
`B(0,0) = 2, B(1,0) = 3, B(0,1) = -1, B(1,1) = -2`. -/
def samplePU : Vec Int := fun i => [2, 3, -1, -2].getD i 0

/-- The transpose of `samplePU`: `Bt(d,q) = B(q,d)`. -/
def samplePUt : Vec Int := fun i => [2, -1, 3, -2].getD i 0

/-- A sample integrator before `AssemblePA` to which no coefficient was supplied. -/
def sampleIntegratorDefault : VectorMassIntegrator Int :=
  { Q := none, ceedOp := none, dim := 0, ne := 0, nq := 0,
    dofs1D := 0, quad1D := 0, pa_data := fun i => 4 - (i : Int), pa_size := 0 }

/-! ## The component-wise operator for a given number of components

Reference definitions for the layout of the dof tensors: the result `y + A*x` taken
component by component when the dof tensors hold `VDIM` components per element. -/

section Layout

variable {R : Type} [CommRing R]

/-- The vector `y + A*x`, component by component, for 2D dof tensors of shape
`D1D x D1D x VDIM x NE`, with the assembled elemental matrices `elemMass2D`. -/
def layoutApply2D (VDIM D1D Q1D NE : Nat) (B op x y : Vec R) (p : Nat) : R :=
  y p + ∑ e ∈ range NE, ∑ c ∈ range VDIM, ∑ dy ∈ range D1D, ∑ dx ∈ range D1D,
    if p = Reshape4 D1D D1D VDIM dx dy c e then
      ∑ dy' ∈ range D1D, ∑ dx' ∈ range D1D,
        elemMass2D Q1D B op e dx dy dx' dy' * x (Reshape4 D1D D1D VDIM dx' dy' c e)
    else 0

/-- The vector `y + A*x`, component by component, for 3D dof tensors of shape
`D1D x D1D x D1D x VDIM x NE`, with the assembled elemental matrices `elemMass3D`. -/
def layoutApply3D (VDIM D1D Q1D NE : Nat) (B op x y : Vec R) (p : Nat) : R :=
  y p + ∑ e ∈ range NE, ∑ c ∈ range VDIM, ∑ dz ∈ range D1D, ∑ dy ∈ range D1D,
    ∑ dx ∈ range D1D,
    if p = Reshape5 D1D D1D D1D VDIM dx dy dz c e then
      ∑ dz' ∈ range D1D, ∑ dy' ∈ range D1D, ∑ dx' ∈ range D1D,
        elemMass3D Q1D B op e dx dy dz dx' dy' dz'
          * x (Reshape5 D1D D1D D1D VDIM dx' dy' dz' c e)
    else 0

end Layout

/-- A vector that agrees with `sampleX` on the first 24 entries (three 2D elements with
`D1D = 2`) and is `100` beyond. -/
def sampleX24 : Vec Int := fun i => if i < 24 then sampleX i else 100

/-- A vector that agrees with `sampleX` on the first 72 entries (three 3D elements with
`D1D = 2`) and is `100` beyond. -/
def sampleX72 : Vec Int := fun i => if i < 72 then sampleX i else 100

/-! ## The mortar integrators (`fem/moonolith/mortarintegrator.cpp`, lines 21-52, 224-306) -/

section Mortar

variable {R : Type} [CommRing R]

/-- A `DenseMatrix`: its sizes and its entries `(i,j)` (row, column). -/
structure DenseMatrix (R : Type) where
  Height : Nat
  Width : Nat
  data : Nat → Nat → R

/-- Modelled from the spec: the library function `MultVWt(v, w, VWt)` of
`linalg/densemat.hpp`, declared outside the sources here, sets `VWt(i,j) = v(i) * w(j)`
in the matrix `VWt` of size `v.Size() x w.Size()`. -/
def MultVWt (h w : Nat) (v u : Vec R) : DenseMatrix R :=
  { Height := h, Width := w, data := fun i j => v i * u j }

/-- Modelled from the spec: the library function `AddMultVWt(v, w, VWt)`, declared
outside the sources here, adds `v(i) * w(j)` to `VWt(i,j)`, for `i < v.Size()` and
`j < w.Size()`. -/
def AddMultVWt (h w : Nat) (v u : Vec R) (VWt : DenseMatrix R) : DenseMatrix R :=
  { VWt with data := fun i j => if i < h ∧ j < w then VWt.data i j + v i * u j
                                else VWt.data i j }

/-- Modelled from the spec: the library method `DenseMatrix::AddMatrix(A, ro, co)`,
declared outside the sources here, adds `A(i,j)` to the entry `(ro + i, co + j)`, for
`i < A.Height()` and `j < A.Width()`. -/
def DenseMatrix.AddMatrix (M A : DenseMatrix R) (ro co : Nat) : DenseMatrix R :=
  { M with data := fun r c =>
      if ro ≤ r ∧ r < ro + A.Height ∧ co ≤ c ∧ c < co + A.Width
      then M.data r c + A.data (r - ro) (c - co) else M.data r c }

/-- Modelled from the spec: the library method `DenseMatrix::AddMatrix(a, A, ro, co)`,
declared outside the sources here, adds `a * A(i,j)` to the entry `(ro + i, co + j)`,
for `i < A.Height()` and `j < A.Width()`. -/
def DenseMatrix.AddMatrix_a (M : DenseMatrix R) (a : R) (A : DenseMatrix R) (ro co : Nat) :
    DenseMatrix R :=
  { M with data := fun r c =>
      if ro ≤ r ∧ r < ro + A.Height ∧ co ≤ c ∧ c < co + A.Width
      then M.data r c + a * A.data (r - ro) (c - co) else M.data r c }

/-- Modelled from the spec: the library operator `DenseMatrix::operator*=(c)`, declared
outside the sources here, multiplies every entry by `c`. -/
def DenseMatrix.scale (M : DenseMatrix R) (c : R) : DenseMatrix R :=
  { M with data := fun i j => M.data i j * c }

/-- What `AssembleElementMatrix` obtains from its arguments (the two finite elements,
the two integration rules and the test transformation), all declared outside the
sources here and taken as parameters. -/
structure MortarSetup (R : Type) where
  /-- Value of `trial.GetDof()`. -/
  tr_nd : Nat
  /-- Value of `test.GetDof()`. -/
  te_nd : Nat
  /-- Value of `test_ir.GetNPoints()`. -/
  GetNPoints : Nat
  /-- Value of `test_Trans.GetSpaceDim()`. -/
  GetSpaceDim : Nat
  /-- The vector set by `trial.CalcShape(trial_ir.IntPoint(s), ·)`. -/
  trial_shape : Nat → Vec R
  /-- The vector set by `test.CalcShape(test_ir.IntPoint(s), ·)`. -/
  test_shape : Nat → Vec R
  /-- Value of `test_ir.IntPoint(s).weight`. -/
  weight : Nat → R
  /-- Value of `test_Trans.Weight()` after `test_Trans.SetIntPoint(&test_ir.IntPoint(s))`. -/
  Weight : Nat → R

/-- Method `L2MortarIntegrator::AssembleElementMatrix` (lines 21-52): the matrix left in
`elmat`. -/
def L2MortarIntegrator.AssembleElementMatrix (env : MortarSetup R) : DenseMatrix R :=
  let tr_nd := env.tr_nd
  let te_nd := env.te_nd
  let elmat : DenseMatrix R := { Height := te_nd, Width := tr_nd, data := fun _ _ => 0 }
  forLoop env.GetNPoints (fun i elmat =>
    let shape := env.trial_shape i
    let te_shape := env.test_shape i
    let w := env.Weight i * env.weight i
    let te_shape : Vec R := fun a => te_shape a * w
    AddMultVWt te_nd tr_nd te_shape shape elmat) elmat

/-- The members of `LagrangeVectorL2MortarIntegrator` that `AssembleElementMatrix` reads
or writes: `vdim` (`-1` when not set) and the coefficients, each given by its values
at the integration points (`Q->Eval`, `VQ->Eval`, `MQ->Eval`), absent when the pointer
is null. -/
structure LagrangeVectorL2MortarIntegrator (R : Type) where
  vdim : Int
  Q : Option (Nat → R)
  VQ : Option (Nat → Vec R)
  MQ : Option (Nat → Nat → Nat → R)

/-- Method `LagrangeVectorL2MortarIntegrator::AssembleElementMatrix` (lines 224-306): the
integrator with its member `vdim` after the call, and the matrix left in `elmat`.  The
sizes are natural numbers: a negative `vdim` other than `-1` counts as `0`. -/
def LagrangeVectorL2MortarIntegrator.AssembleElementMatrix
    (self : LagrangeVectorL2MortarIntegrator R) (env : MortarSetup R) :
    LagrangeVectorL2MortarIntegrator R × DenseMatrix R :=
  let tr_nd := env.tr_nd
  let te_nd := env.te_nd
  let self := { self with
    vdim := if self.vdim = -1 then (env.GetSpaceDim : Int) else self.vdim }
  let vdim := self.vdim.toNat
  let elmat : DenseMatrix R :=
    { Height := te_nd * vdim, Width := tr_nd * vdim, data := fun _ _ => 0 }
  let elmat := forLoop env.GetNPoints (fun s elmat =>
    let trial_shape := env.trial_shape s
    let test_shape := env.test_shape s
    let norm := env.weight s * env.Weight s
    let partelmat := MultVWt te_nd tr_nd test_shape trial_shape
    match self.VQ with
    | some VQ =>
      let vec := VQ s
      forLoop vdim (fun k elmat =>
        elmat.AddMatrix_a (norm * vec k) partelmat (te_nd * k) (tr_nd * k)) elmat
    | none =>
      match self.MQ with
      | some MQ =>
        let mcoeff := MQ s
        forLoop vdim (fun i elmat =>
          forLoop vdim (fun j elmat =>
            elmat.AddMatrix_a (norm * mcoeff i j) partelmat (te_nd * i) (tr_nd * j))
            elmat) elmat
      | none =>
        let norm := match self.Q with
          | some Q => norm * Q s
          | none => norm
        let partelmat := partelmat.scale norm
        forLoop vdim (fun k elmat =>
          elmat.AddMatrix partelmat (te_nd * k) (tr_nd * k)) elmat) elmat
  (self, elmat)

/-- The value `Q_s` of the scalar coefficient at the integration point `s`: `1` when
`Q` is absent. -/
def coeffAt (Q : Option (Nat → R)) (s : Nat) : R :=
  match Q with
  | some Q => Q s
  | none => 1

end Mortar

/-- Sample data for the mortar integrators: two trial and three test dofs, two
integration points, space dimension 2. -/
def sampleMortar : MortarSetup Int :=
  { tr_nd := 2, te_nd := 3, GetNPoints := 2, GetSpaceDim := 2,
    trial_shape := fun s j => (s : Int) + 2 * (j : Int) + 1,
    test_shape := fun s i => 3 * (s : Int) - (i : Int) + 2,
    weight := fun s => (s : Int) + 1, Weight := fun s => 2 * (s : Int) + 3 }

/-- A sample integrator with `vdim` not set and the scalar coefficient `Q_s = s + 5`. -/
def sampleLagrange : LagrangeVectorL2MortarIntegrator Int :=
  { vdim := -1, Q := some (fun s => (s : Int) + 5), VQ := none, MQ := none }

/-! ## Accesses of the kernels

The kernels run with their values forgotten: what remains of each statement is the
array entries it reads and writes.  An access to a `Vector` or `Array<real_t>` faults
when the flat index is not below the extent of the array; an access to a local array
faults when an index is not below the compile-time size of its dimension, and a read of
a local array faults when the entry has not been assigned since the declaration.  The
state of a local array is the set of its assigned entries. -/

/-- A loop `for (int i = 0; i < n; ++i)` whose iterations may fault. -/
def forLoopM {σ : Type} : Nat → (Nat → σ → Option σ) → σ → Option σ
  | 0, _, s => some s
  | n + 1, body, s => forLoopM n body s >>= body n

/-- An access to the flat entry `i` of an array of `n` entries. -/
def access (n i : Nat) : Option Unit := if i < n then some () else none

/-- The assignment `t[i] = ...` to a local array `t[m]`. -/
def tmpWrite1 (m : Nat) (t : Nat → Bool) (i : Nat) : Option (Nat → Bool) :=
  if i < m then some (store t i true) else none

/-- A read of `t[i]` in a local array `t[m]`. -/
def tmpRead1 (m : Nat) (t : Nat → Bool) (i : Nat) : Option Unit :=
  if i < m ∧ t i = true then some () else none

/-- The update `t[i] += ...` of a local array `t[m]`: a read and a write of `t[i]`. -/
def tmpUpdate1 (m : Nat) (t : Nat → Bool) (i : Nat) : Option (Nat → Bool) :=
  tmpRead1 m t i >>= fun _ => tmpWrite1 m t i

/-- The assignment `t[i][j] = ...` to a local array `t[m1][m2]`. -/
def tmpWrite2 (m1 m2 : Nat) (t : Nat × Nat → Bool) (i j : Nat) : Option (Nat × Nat → Bool) :=
  if i < m1 ∧ j < m2 then some (store t (i, j) true) else none

/-- A read of `t[i][j]` in a local array `t[m1][m2]`. -/
def tmpRead2 (m1 m2 : Nat) (t : Nat × Nat → Bool) (i j : Nat) : Option Unit :=
  if i < m1 ∧ j < m2 ∧ t (i, j) = true then some () else none

/-- The update `t[i][j] += ...` (or `*=`) of a local array `t[m1][m2]`. -/
def tmpUpdate2 (m1 m2 : Nat) (t : Nat × Nat → Bool) (i j : Nat) : Option (Nat × Nat → Bool) :=
  tmpRead2 m1 m2 t i j >>= fun _ => tmpWrite2 m1 m2 t i j

/-- The assignment `t[i][j][k] = ...` to a local array `t[m1][m2][m3]`. -/
def tmpWrite3 (m1 m2 m3 : Nat) (t : Nat × Nat × Nat → Bool) (i j k : Nat) :
    Option (Nat × Nat × Nat → Bool) :=
  if i < m1 ∧ j < m2 ∧ k < m3 then some (store t (i, j, k) true) else none

/-- A read of `t[i][j][k]` in a local array `t[m1][m2][m3]`. -/
def tmpRead3 (m1 m2 m3 : Nat) (t : Nat × Nat × Nat → Bool) (i j k : Nat) : Option Unit :=
  if i < m1 ∧ j < m2 ∧ k < m3 ∧ t (i, j, k) = true then some () else none

/-- The update `t[i][j][k] += ...` (or `*=`) of a local array `t[m1][m2][m3]`. -/
def tmpUpdate3 (m1 m2 m3 : Nat) (t : Nat × Nat × Nat → Bool) (i j k : Nat) :
    Option (Nat × Nat × Nat → Bool) :=
  tmpRead3 m1 m2 m3 t i j k >>= fun _ => tmpWrite3 m1 m2 m3 t i j k

/-- The extents (numbers of entries) of the arrays a kernel is called with; `y` is the
output (`y_` or `diag_`). -/
structure Extents where
  B : Nat
  Bt : Nat
  op : Nat
  x : Nat
  y : Nat
  deriving DecidableEq, Repr

/-! ### Accesses of `PAVectorMassApply2D` (lines 280-363) -/

/-- Lines 300-306: `sol_xy[qy][qx] = 0.0`. -/
def apply2D_clear_acc (max_Q1D Q1D : Nat) (sol_xy : Nat × Nat → Bool) :
    Option (Nat × Nat → Bool) :=
  forLoopM Q1D (fun qy sol_xy =>
    forLoopM Q1D (fun qx sol_xy => tmpWrite2 max_Q1D max_Q1D sol_xy qy qx) sol_xy) sol_xy

/-- Lines 309-321: the local `sol_x[max_Q1D]` of the forward sweep, declared, cleared
and accumulated. -/
def apply2D_fwd_x_acc (ext : Extents) (max_Q1D D1D Q1D e c dy : Nat) : Option (Nat → Bool) := do
  let sol_x : Nat → Bool := fun _ => false
  let sol_x ← forLoopM Q1D (fun qy sol_x => tmpWrite1 max_Q1D sol_x qy) sol_x
  forLoopM D1D (fun dx sol_x => do
    access ext.x (Reshape4 D1D D1D 2 dx dy c e)
    forLoopM Q1D (fun qx sol_x => do
      access ext.B (Reshape2 Q1D qx dx)
      tmpUpdate1 max_Q1D sol_x qx) sol_x) sol_x

/-- Lines 307-330: the forward sweep. -/
def apply2D_forward_acc (ext : Extents) (max_Q1D D1D Q1D e c : Nat)
    (sol_xy : Nat × Nat → Bool) : Option (Nat × Nat → Bool) :=
  forLoopM D1D (fun dy sol_xy => do
    let sol_x ← apply2D_fwd_x_acc ext max_Q1D D1D Q1D e c dy
    forLoopM Q1D (fun qy sol_xy => do
      access ext.B (Reshape2 Q1D qy dy)
      forLoopM Q1D (fun qx sol_xy => do
        tmpRead1 max_Q1D sol_x qx
        tmpUpdate2 max_Q1D max_Q1D sol_xy qy qx) sol_xy) sol_xy) sol_xy

/-- Lines 331-337: `sol_xy[qy][qx] *= op(qx,qy,e)`. -/
def apply2D_scale_acc (ext : Extents) (max_Q1D Q1D e : Nat) (sol_xy : Nat × Nat → Bool) :
    Option (Nat × Nat → Bool) :=
  forLoopM Q1D (fun qy sol_xy =>
    forLoopM Q1D (fun qx sol_xy => do
      access ext.op (Reshape3 Q1D Q1D qx qy e)
      tmpUpdate2 max_Q1D max_Q1D sol_xy qy qx) sol_xy) sol_xy

/-- Lines 340-352: the local `sol_x[max_D1D]` of the backward sweep, declared, cleared
and accumulated. -/
def apply2D_bwd_x_acc (ext : Extents) (max_D1D max_Q1D D1D Q1D : Nat)
    (sol_xy : Nat × Nat → Bool) (qy : Nat) : Option (Nat → Bool) := do
  let sol_x : Nat → Bool := fun _ => false
  let sol_x ← forLoopM D1D (fun dx sol_x => tmpWrite1 max_D1D sol_x dx) sol_x
  forLoopM Q1D (fun qx sol_x => do
    tmpRead2 max_Q1D max_Q1D sol_xy qy qx
    forLoopM D1D (fun dx sol_x => do
      access ext.Bt (Reshape2 D1D dx qx)
      tmpUpdate1 max_D1D sol_x dx) sol_x) sol_x

/-- Lines 338-361: the backward sweep; `y(dx,dy,c,e) += ...` reads and writes `y`. -/
def apply2D_backward_acc (ext : Extents) (max_D1D max_Q1D D1D Q1D e c : Nat)
    (sol_xy : Nat × Nat → Bool) : Option Unit :=
  forLoopM Q1D (fun qy _ => do
    let sol_x ← apply2D_bwd_x_acc ext max_D1D max_Q1D D1D Q1D sol_xy qy
    forLoopM D1D (fun dy _ => do
      access ext.Bt (Reshape2 D1D dy qy)
      forLoopM D1D (fun dx _ => do
        tmpRead1 max_D1D sol_x dx
        access ext.y (Reshape4 D1D D1D 2 dx dy c e)) ()) ()) ()

/-- Lines 298-362: the body of the component loop, on the local `sol_xy`. -/
def apply2D_component_acc (ext : Extents) (max_D1D max_Q1D D1D Q1D e c : Nat)
    (sol_xy : Nat × Nat → Bool) : Option (Nat × Nat → Bool) := do
  let sol_xy ← apply2D_clear_acc max_Q1D Q1D sol_xy
  let sol_xy ← apply2D_forward_acc ext max_Q1D D1D Q1D e c sol_xy
  let sol_xy ← apply2D_scale_acc ext max_Q1D Q1D e sol_xy
  apply2D_backward_acc ext max_D1D max_Q1D D1D Q1D e c sol_xy
  pure sol_xy

/-- Lines 291-363: the work of element `e`; `sol_xy[max_Q1D][max_Q1D]` is declared. -/
def apply2D_element_acc (ext : Extents) (max_D1D max_Q1D D1D Q1D e : Nat) : Option Unit := do
  let sol_xy : Nat × Nat → Bool := fun _ => false
  let _ ← forLoopM 2 (fun c sol_xy =>
    apply2D_component_acc ext max_D1D max_Q1D D1D Q1D e c sol_xy) sol_xy
  pure ()

/-- The accesses of `PAVectorMassApply2D<T_D1D,T_Q1D>`: `some ()` when no access faults.
`lim` holds the run-time limits checked by `MFEM_VERIFY` (a failing check stops the
kernel before any access) and `cmax` the compile-time limits `DofQuadLimits::MAX_D1D`,
`MAX_Q1D` that size the local arrays. -/
def PAVectorMassApply2D_acc (T_D1D T_Q1D : Nat) (lim cmax : DofQuadLimits) (ext : Extents)
    (NE d1d q1d : Nat) : Option Unit :=
  let D1D := tsize T_D1D d1d
  let Q1D := tsize T_Q1D q1d
  if ¬ D1D ≤ lim.MAX_D1D then some ()
  else if ¬ Q1D ≤ lim.MAX_Q1D then some ()
  else
    let max_D1D := tsize T_D1D cmax.MAX_D1D
    let max_Q1D := tsize T_Q1D cmax.MAX_Q1D
    forLoopM NE (fun e _ => apply2D_element_acc ext max_D1D max_Q1D D1D Q1D e) ()

/-! ### Accesses of `PAVectorMassApply3D` (lines 376-508) -/

/-- Lines 395-404: `sol_xyz[qz][qy][qx] = 0.0`. -/
def apply3D_clear_acc (max_Q1D Q1D : Nat) (sol_xyz : Nat × Nat × Nat → Bool) :
    Option (Nat × Nat × Nat → Bool) :=
  forLoopM Q1D (fun qz sol_xyz =>
    forLoopM Q1D (fun qy sol_xyz =>
      forLoopM Q1D (fun qx sol_xyz =>
        tmpWrite3 max_Q1D max_Q1D max_Q1D sol_xyz qz qy qx) sol_xyz) sol_xyz) sol_xyz

/-- Lines 417-429: the local `sol_x[max_Q1D]` of the forward sweep. -/
def apply3D_fwd_x_acc (ext : Extents) (max_Q1D D1D Q1D e c dz dy : Nat) :
    Option (Nat → Bool) := do
  let sol_x : Nat → Bool := fun _ => false
  let sol_x ← forLoopM Q1D (fun qx sol_x => tmpWrite1 max_Q1D sol_x qx) sol_x
  forLoopM D1D (fun dx sol_x => do
    access ext.x (Reshape5 D1D D1D D1D 3 dx dy dz c e)
    forLoopM Q1D (fun qx sol_x => do
      access ext.B (Reshape2 Q1D qx dx)
      tmpUpdate1 max_Q1D sol_x qx) sol_x) sol_x

/-- Lines 407-438: the local `sol_xy[max_Q1D][max_Q1D]` of the forward sweep. -/
def apply3D_fwd_xy_acc (ext : Extents) (max_Q1D D1D Q1D e c dz : Nat) :
    Option (Nat × Nat → Bool) := do
  let sol_xy : Nat × Nat → Bool := fun _ => false
  let sol_xy ← forLoopM Q1D (fun qy sol_xy =>
    forLoopM Q1D (fun qx sol_xy => tmpWrite2 max_Q1D max_Q1D sol_xy qy qx) sol_xy) sol_xy
  forLoopM D1D (fun dy sol_xy => do
    let sol_x ← apply3D_fwd_x_acc ext max_Q1D D1D Q1D e c dz dy
    forLoopM Q1D (fun qy sol_xy => do
      access ext.B (Reshape2 Q1D qy dy)
      forLoopM Q1D (fun qx sol_xy => do
        tmpRead1 max_Q1D sol_x qx
        tmpUpdate2 max_Q1D max_Q1D sol_xy qy qx) sol_xy) sol_xy) sol_xy

/-- Lines 405-450: the forward sweep. -/
def apply3D_forward_acc (ext : Extents) (max_Q1D D1D Q1D e c : Nat)
    (sol_xyz : Nat × Nat × Nat → Bool) : Option (Nat × Nat × Nat → Bool) :=
  forLoopM D1D (fun dz sol_xyz => do
    let sol_xy ← apply3D_fwd_xy_acc ext max_Q1D D1D Q1D e c dz
    forLoopM Q1D (fun qz sol_xyz => do
      access ext.B (Reshape2 Q1D qz dz)
      forLoopM Q1D (fun qy sol_xyz =>
        forLoopM Q1D (fun qx sol_xyz => do
          tmpRead2 max_Q1D max_Q1D sol_xy qy qx
          tmpUpdate3 max_Q1D max_Q1D max_Q1D sol_xyz qz qy qx) sol_xyz) sol_xyz) sol_xyz)
    sol_xyz

/-- Lines 451-460: `sol_xyz[qz][qy][qx] *= op(qx,qy,qz,e)`. -/
def apply3D_scale_acc (ext : Extents) (max_Q1D Q1D e : Nat)
    (sol_xyz : Nat × Nat × Nat → Bool) : Option (Nat × Nat × Nat → Bool) :=
  forLoopM Q1D (fun qz sol_xyz =>
    forLoopM Q1D (fun qy sol_xyz =>
      forLoopM Q1D (fun qx sol_xyz => do
        access ext.op (Reshape4 Q1D Q1D Q1D qx qy qz e)
        tmpUpdate3 max_Q1D max_Q1D max_Q1D sol_xyz qz qy qx) sol_xyz) sol_xyz) sol_xyz

/-- Lines 473-485: the local `sol_x[max_D1D]` of the backward sweep. -/
def apply3D_bwd_x_acc (ext : Extents) (max_D1D max_Q1D D1D Q1D : Nat)
    (sol_xyz : Nat × Nat × Nat → Bool) (qz qy : Nat) : Option (Nat → Bool) := do
  let sol_x : Nat → Bool := fun _ => false
  let sol_x ← forLoopM D1D (fun dx sol_x => tmpWrite1 max_D1D sol_x dx) sol_x
  forLoopM Q1D (fun qx sol_x => do
    tmpRead3 max_Q1D max_Q1D max_Q1D sol_xyz qz qy qx
    forLoopM D1D (fun dx sol_x => do
      access ext.Bt (Reshape2 D1D dx qx)
      tmpUpdate1 max_D1D sol_x dx) sol_x) sol_x

/-- Lines 463-494: the local `sol_xy[max_D1D][max_D1D]` of the backward sweep. -/
def apply3D_bwd_xy_acc (ext : Extents) (max_D1D max_Q1D D1D Q1D : Nat)
    (sol_xyz : Nat × Nat × Nat → Bool) (qz : Nat) : Option (Nat × Nat → Bool) := do
  let sol_xy : Nat × Nat → Bool := fun _ => false
  let sol_xy ← forLoopM D1D (fun dy sol_xy =>
    forLoopM D1D (fun dx sol_xy => tmpWrite2 max_D1D max_D1D sol_xy dy dx) sol_xy) sol_xy
  forLoopM Q1D (fun qy sol_xy => do
    let sol_x ← apply3D_bwd_x_acc ext max_D1D max_Q1D D1D Q1D sol_xyz qz qy
    forLoopM D1D (fun dy sol_xy => do
      access ext.Bt (Reshape2 D1D dy qy)
      forLoopM D1D (fun dx sol_xy => do
        tmpRead1 max_D1D sol_x dx
        tmpUpdate2 max_D1D max_D1D sol_xy dy dx) sol_xy) sol_xy) sol_xy

/-- Lines 461-506: the backward sweep; `y(dx,dy,dz,c,e) += ...` reads and writes `y`. -/
def apply3D_backward_acc (ext : Extents) (max_D1D max_Q1D D1D Q1D e c : Nat)
    (sol_xyz : Nat × Nat × Nat → Bool) : Option Unit :=
  forLoopM Q1D (fun qz _ => do
    let sol_xy ← apply3D_bwd_xy_acc ext max_D1D max_Q1D D1D Q1D sol_xyz qz
    forLoopM D1D (fun dz _ => do
      access ext.Bt (Reshape2 D1D dz qz)
      forLoopM D1D (fun dy _ =>
        forLoopM D1D (fun dx _ => do
          tmpRead2 max_D1D max_D1D sol_xy dy dx
          access ext.y (Reshape5 D1D D1D D1D 3 dx dy dz c e)) ()) ()) ()) ()

/-- Lines 393-507: the body of the component loop, on the local `sol_xyz`. -/
def apply3D_component_acc (ext : Extents) (max_D1D max_Q1D D1D Q1D e c : Nat)
    (sol_xyz : Nat × Nat × Nat → Bool) : Option (Nat × Nat × Nat → Bool) := do
  let sol_xyz ← apply3D_clear_acc max_Q1D Q1D sol_xyz
  let sol_xyz ← apply3D_forward_acc ext max_Q1D D1D Q1D e c sol_xyz
  let sol_xyz ← apply3D_scale_acc ext max_Q1D Q1D e sol_xyz
  apply3D_backward_acc ext max_D1D max_Q1D D1D Q1D e c sol_xyz
  pure sol_xyz

/-- Lines 387-508: the work of element `e`; `sol_xyz[max_Q1D][max_Q1D][max_Q1D]` is
declared. -/
def apply3D_element_acc (ext : Extents) (max_D1D max_Q1D D1D Q1D e : Nat) : Option Unit := do
  let sol_xyz : Nat × Nat × Nat → Bool := fun _ => false
  let _ ← forLoopM 3 (fun c sol_xyz =>
    apply3D_component_acc ext max_D1D max_Q1D D1D Q1D e c sol_xyz) sol_xyz
  pure ()

/-- The accesses of `PAVectorMassApply3D<T_D1D,T_Q1D>`: `some ()` when no access
faults. -/
def PAVectorMassApply3D_acc (T_D1D T_Q1D : Nat) (lim cmax : DofQuadLimits) (ext : Extents)
    (NE d1d q1d : Nat) : Option Unit :=
  let D1D := tsize T_D1D d1d
  let Q1D := tsize T_Q1D q1d
  if ¬ D1D ≤ lim.MAX_D1D then some ()
  else if ¬ Q1D ≤ lim.MAX_Q1D then some ()
  else
    let max_D1D := tsize T_D1D cmax.MAX_D1D
    let max_Q1D := tsize T_Q1D cmax.MAX_Q1D
    forLoopM NE (fun e _ => apply3D_element_acc ext max_D1D max_Q1D D1D Q1D e) ()

/-! ### Accesses of `PAVectorMassAssembleDiagonal2D/3D` (lines 117-157, 169-233) -/

/-- Lines 132-143: the local `temp[max_Q1D][max_D1D]`, declared, then assigned and
accumulated entry by entry. -/
def diag2D_temp_acc (ext : Extents) (max_D1D max_Q1D D1D Q1D e : Nat) :
    Option (Nat × Nat → Bool) :=
  let temp : Nat × Nat → Bool := fun _ => false
  forLoopM Q1D (fun qx temp =>
    forLoopM D1D (fun dy temp => do
      let temp ← tmpWrite2 max_Q1D max_D1D temp qx dy
      forLoopM Q1D (fun qy temp => do
        access ext.B (Reshape2 Q1D qy dy)
        access ext.B (Reshape2 Q1D qy dy)
        access ext.op (Reshape3 Q1D Q1D qx qy e)
        tmpUpdate2 max_Q1D max_D1D temp qx dy) temp) temp) temp

/-- Lines 126-157: the work of element `e`. -/
def diag2D_element_acc (ext : Extents) (max_D1D max_Q1D D1D Q1D e : Nat) : Option Unit := do
  let temp ← diag2D_temp_acc ext max_D1D max_Q1D D1D Q1D e
  forLoopM D1D (fun dy _ =>
    forLoopM D1D (fun dx _ => do
      forLoopM Q1D (fun qx _ => do
        access ext.B (Reshape2 Q1D qx dx)
        access ext.B (Reshape2 Q1D qx dx)
        tmpRead2 max_Q1D max_D1D temp qx dy) ()
      access ext.y (Reshape4 D1D D1D 2 dx dy 0 e)
      access ext.y (Reshape4 D1D D1D 2 dx dy 1 e)) ()) ()

/-- The accesses of `PAVectorMassAssembleDiagonal2D<T_D1D,T_Q1D>`: `some ()` when no
access faults.  `Bt_` is not accessed. -/
def PAVectorMassAssembleDiagonal2D_acc (T_D1D T_Q1D : Nat) (lim cmax : DofQuadLimits)
    (ext : Extents) (NE d1d q1d : Nat) : Option Unit :=
  let D1D := tsize T_D1D d1d
  let Q1D := tsize T_Q1D q1d
  if ¬ D1D ≤ lim.MAX_D1D then some ()
  else if ¬ Q1D ≤ lim.MAX_Q1D then some ()
  else
    let max_D1D := tsize T_D1D cmax.MAX_D1D
    let max_Q1D := tsize T_Q1D cmax.MAX_Q1D
    forLoopM NE (fun e _ => diag2D_element_acc ext max_D1D max_Q1D D1D Q1D e) ()

/-- Lines 185-199: the local `temp[max_Q1D][max_Q1D][max_D1D]`. -/
def diag3D_temp_acc (ext : Extents) (max_D1D max_Q1D D1D Q1D e : Nat) :
    Option (Nat × Nat × Nat → Bool) :=
  let temp : Nat × Nat × Nat → Bool := fun _ => false
  forLoopM Q1D (fun qx temp =>
    forLoopM Q1D (fun qy temp =>
      forLoopM D1D (fun dz temp => do
        let temp ← tmpWrite3 max_Q1D max_Q1D max_D1D temp qx qy dz
        forLoopM Q1D (fun qz temp => do
          access ext.B (Reshape2 Q1D qz dz)
          access ext.B (Reshape2 Q1D qz dz)
          access ext.op (Reshape4 Q1D Q1D Q1D qx qy qz e)
          tmpUpdate3 max_Q1D max_Q1D max_D1D temp qx qy dz) temp) temp) temp) temp

/-- Lines 200-214: the local `temp2[max_Q1D][max_D1D][max_D1D]`. -/
def diag3D_temp2_acc (ext : Extents) (max_D1D max_Q1D D1D Q1D : Nat)
    (temp : Nat × Nat × Nat → Bool) : Option (Nat × Nat × Nat → Bool) :=
  let temp2 : Nat × Nat × Nat → Bool := fun _ => false
  forLoopM Q1D (fun qx temp2 =>
    forLoopM D1D (fun dz temp2 =>
      forLoopM D1D (fun dy temp2 => do
        let temp2 ← tmpWrite3 max_Q1D max_D1D max_D1D temp2 qx dy dz
        forLoopM Q1D (fun qy temp2 => do
          access ext.B (Reshape2 Q1D qy dy)
          access ext.B (Reshape2 Q1D qy dy)
          tmpRead3 max_Q1D max_Q1D max_D1D temp qx qy dz
          tmpUpdate3 max_Q1D max_D1D max_D1D temp2 qx dy dz) temp2) temp2) temp2) temp2

/-- Lines 178-233: the work of element `e`. -/
def diag3D_element_acc (ext : Extents) (max_D1D max_Q1D D1D Q1D e : Nat) : Option Unit := do
  let temp ← diag3D_temp_acc ext max_D1D max_Q1D D1D Q1D e
  let temp2 ← diag3D_temp2_acc ext max_D1D max_Q1D D1D Q1D temp
  forLoopM D1D (fun dz _ =>
    forLoopM D1D (fun dy _ =>
      forLoopM D1D (fun dx _ => do
        forLoopM Q1D (fun qx _ => do
          access ext.B (Reshape2 Q1D qx dx)
          access ext.B (Reshape2 Q1D qx dx)
          tmpRead3 max_Q1D max_D1D max_D1D temp2 qx dy dz) ()
        access ext.y (Reshape5 D1D D1D D1D 3 dx dy dz 0 e)
        access ext.y (Reshape5 D1D D1D D1D 3 dx dy dz 1 e)
        access ext.y (Reshape5 D1D D1D D1D 3 dx dy dz 2 e)) ()) ()) ()

/-- The accesses of `PAVectorMassAssembleDiagonal3D<T_D1D,T_Q1D>`: `some ()` when no
access faults.  `Bt_` is not accessed. -/
def PAVectorMassAssembleDiagonal3D_acc (T_D1D T_Q1D : Nat) (lim cmax : DofQuadLimits)
    (ext : Extents) (NE d1d q1d : Nat) : Option Unit :=
  let D1D := tsize T_D1D d1d
  let Q1D := tsize T_Q1D q1d
  if ¬ D1D ≤ lim.MAX_D1D then some ()
  else if ¬ Q1D ≤ lim.MAX_Q1D then some ()
  else
    let max_D1D := tsize T_D1D cmax.MAX_D1D
    let max_Q1D := tsize T_Q1D cmax.MAX_Q1D
    forLoopM NE (fun e _ => diag3D_element_acc ext max_D1D max_Q1D D1D Q1D e) ()

/-- The computation `o` does not fault, and its result satisfies `P`. -/
def Safe {σ : Type} (o : Option σ) (P : σ → Prop) : Prop := ∃ s, o = some s ∧ P s

/-- Every entry assigned in `t` is assigned in `t'`. -/
def Grows {ι : Type} (t t' : ι → Bool) : Prop := ∀ p, t p = true → t' p = true

/-- The sizes fit for a 2D kernel: the loop bounds are within the sizes of the local
arrays, and the extents hold the tensors `B (Q1D x D1D)`, `Bt (D1D x Q1D)`,
`op (Q1D x Q1D x NE)`, `x` and `y (D1D x D1D x 2 x NE)`. -/
def Fits2D (ext : Extents) (max_D1D max_Q1D D1D Q1D NE : Nat) : Prop :=
  D1D ≤ max_D1D ∧ Q1D ≤ max_Q1D ∧ Q1D * D1D ≤ ext.B ∧ D1D * Q1D ≤ ext.Bt ∧
    Q1D * (Q1D * NE) ≤ ext.op ∧ D1D * (D1D * (2 * NE)) ≤ ext.x ∧
    D1D * (D1D * (2 * NE)) ≤ ext.y

/-- The sizes fit for a 3D kernel: the loop bounds are within the sizes of the local
arrays, and the extents hold the tensors `B (Q1D x D1D)`, `Bt (D1D x Q1D)`,
`op (Q1D x Q1D x Q1D x NE)`, `x` and `y (D1D x D1D x D1D x 3 x NE)`. -/
def Fits3D (ext : Extents) (max_D1D max_Q1D D1D Q1D NE : Nat) : Prop :=
  D1D ≤ max_D1D ∧ Q1D ≤ max_Q1D ∧ Q1D * D1D ≤ ext.B ∧ D1D * Q1D ≤ ext.Bt ∧
    Q1D * (Q1D * (Q1D * NE)) ≤ ext.op ∧ D1D * (D1D * (D1D * (3 * NE))) ≤ ext.x ∧
    D1D * (D1D * (D1D * (3 * NE))) ≤ ext.y

/-- Sample extents for three 2D elements with `D1D = Q1D = 2`. -/
def sampleExtents2 : Extents := { B := 4, Bt := 4, op := 12, x := 24, y := 24 }

/-- Sample extents for three 3D elements with `D1D = Q1D = 2`. -/
def sampleExtents3 : Extents := { B := 4, Bt := 4, op := 24, x := 72, y := 72 }

/-! ## Loops on arrays: general lemmas -/

section LoopLemmas

variable {σ ι R : Type}

theorem forLoop_zero (body : Nat → σ → σ) (s : σ) : forLoop 0 body s = s := rfl

theorem forLoop_succ (n : Nat) (body : Nat → σ → σ) (s : σ) :
    forLoop (n + 1) body s = body n (forLoop n body s) := rfl

/-- Two loops whose bodies agree on the iterations that run are equal. -/
theorem forLoop_congr {n : Nat} {body body' : Nat → σ → σ}
    (h : ∀ i, i < n → ∀ s, body i s = body' i s) (s : σ) :
    forLoop n body s = forLoop n body' s := by
  induction n with
  | zero => rfl
  | succ n ih =>
    rw [forLoop_succ, forLoop_succ, ih (fun i hi => h i (Nat.lt_succ_of_lt hi)),
      h n (Nat.lt_succ_self n)]

/-- A loop whose iterations each add `δ i p` to the cell `p` of the array `π s` adds
the sum of the `δ i p`. -/
theorem forLoop_additive [AddCommMonoid R] (π : σ → ι → R) (δ : Nat → ι → R) {n : Nat}
    {body : Nat → σ → σ}
    (h : ∀ i, i < n → ∀ s p, π (body i s) p = π s p + δ i p) (s : σ) (p : ι) :
    π (forLoop n body s) p = π s p + ∑ i ∈ range n, δ i p := by
  induction n with
  | zero => simp [forLoop_zero]
  | succ n ih =>
    rw [forLoop_succ, h n (Nat.lt_succ_self n), ih (fun i hi => h i (Nat.lt_succ_of_lt hi)),
      Finset.sum_range_succ, add_assoc]

/-- A loop whose iterations leave the cell `p` alone leaves it alone. -/
theorem forLoop_frame (π : σ → ι → R) {n : Nat} {body : Nat → σ → σ} (p : ι)
    (h : ∀ i, i < n → ∀ s, π (body i s) p = π s p) (s : σ) :
    π (forLoop n body s) p = π s p := by
  induction n with
  | zero => rfl
  | succ n ih =>
    rw [forLoop_succ, h n (Nat.lt_succ_self n), ih (fun i hi => h i (Nat.lt_succ_of_lt hi))]

/-- A loop in which iteration `i` rewrites the cells of `W i` by `g` and leaves the
others alone, the `W i` being pairwise disjoint, rewrites the cells of the union once. -/
theorem forLoop_acts (W : Nat → ι → Prop) (g : ι → R → R) (n : Nat)
    (body : Nat → (ι → R) → (ι → R))
    (h : ∀ i, i < n → ∀ s p, (W i p → body i s p = g p (s p)) ∧ (¬ W i p → body i s p = s p))
    (hdisj : ∀ i j p, i < n → j < n → W i p → W j p → i = j) (s : ι → R) (p : ι) :
    ((∃ i, i < n ∧ W i p) → forLoop n body s p = g p (s p)) ∧
    ((¬ ∃ i, i < n ∧ W i p) → forLoop n body s p = s p) := by
  induction n with
  | zero =>
    refine ⟨?_, fun _ => rfl⟩
    rintro ⟨i, hi, _⟩
    exact absurd hi (Nat.not_lt_zero i)
  | succ n ih =>
    have ih' := ih (fun i hi => h i (Nat.lt_succ_of_lt hi))
      (fun i j p hi hj => hdisj i j p (Nat.lt_succ_of_lt hi) (Nat.lt_succ_of_lt hj))
    have hn := h n (Nat.lt_succ_self n) (forLoop n body s) p
    by_cases hW : W n p
    · have hno : ¬ ∃ i, i < n ∧ W i p := by
        rintro ⟨i, hi, hWi⟩
        have := hdisj i n p (Nat.lt_succ_of_lt hi) (Nat.lt_succ_self n) hWi hW
        omega
      refine ⟨fun _ => ?_, fun hne => absurd ⟨n, Nat.lt_succ_self n, hW⟩ hne⟩
      rw [forLoop_succ, hn.1 hW, ih'.2 hno]
    · refine ⟨?_, ?_⟩
      · rintro ⟨i, hi, hWi⟩
        have hi' : i < n := by
          rcases Nat.lt_succ_iff_lt_or_eq.mp hi with h1 | h1
          · exact h1
          · subst h1; exact absurd hWi hW
        rw [forLoop_succ, hn.2 hW, ih'.1 ⟨i, hi', hWi⟩]
      · intro hne
        have hno : ¬ ∃ i, i < n ∧ W i p := by
          rintro ⟨i, hi, hWi⟩
          exact hne ⟨i, Nat.lt_succ_of_lt hi, hWi⟩
        rw [forLoop_succ, hn.2 hW, ih'.2 hno]

/-- A loop in which iteration `i` leaves in every cell of `W i` a value satisfying
`Post` and leaves the other cells alone. -/
theorem forLoop_writes (W : Nat → ι → Prop) (Post : ι → R → Prop) {n : Nat}
    {body : Nat → (ι → R) → (ι → R)}
    (h : ∀ i, i < n → ∀ s p, (W i p → Post p (body i s p)) ∧ (¬ W i p → body i s p = s p))
    (s : ι → R) (p : ι) :
    ((∃ i, i < n ∧ W i p) → Post p (forLoop n body s p)) ∧
    ((¬ ∃ i, i < n ∧ W i p) → forLoop n body s p = s p) := by
  induction n with
  | zero =>
    refine ⟨?_, fun _ => rfl⟩
    rintro ⟨i, hi, _⟩
    exact absurd hi (Nat.not_lt_zero i)
  | succ n ih =>
    have ih' := ih (fun i hi => h i (Nat.lt_succ_of_lt hi))
    have hn := h n (Nat.lt_succ_self n) (forLoop n body s) p
    by_cases hW : W n p
    · refine ⟨fun _ => ?_, fun hne => absurd ⟨n, Nat.lt_succ_self n, hW⟩ hne⟩
      rw [forLoop_succ]
      exact hn.1 hW
    · refine ⟨?_, ?_⟩
      · rintro ⟨i, hi, hWi⟩
        have hi' : i < n := by
          rcases Nat.lt_succ_iff_lt_or_eq.mp hi with h1 | h1
          · exact h1
          · subst h1; exact absurd hWi hW
        rw [forLoop_succ, hn.2 hW]
        exact ih'.1 ⟨i, hi', hWi⟩
      · intro hne
        have hno : ¬ ∃ i, i < n ∧ W i p := by
          rintro ⟨i, hi, hWi⟩
          exact hne ⟨i, Nat.lt_succ_of_lt hi, hWi⟩
        rw [forLoop_succ, hn.2 hW, ih'.2 hno]

/-- A scalar accumulation loop `r += δ i` from `r`. -/
theorem forLoop_sum [AddCommMonoid R] (n : Nat) (δ : Nat → R) (r : R) :
    forLoop n (fun i r => r + δ i) r = r + ∑ i ∈ range n, δ i := by
  induction n with
  | zero => simp [forLoop_zero]
  | succ n ih => rw [forLoop_succ, ih, Finset.sum_range_succ, add_assoc]

theorem store_apply [DecidableEq ι] (a : ι → R) (i : ι) (v : R) (j : ι) :
    store a i v j = if j = i then v else a j := rfl

theorem store_same [DecidableEq ι] (a : ι → R) (i : ι) (v : R) : store a i v i = v := by
  simp [store_apply]

theorem store_other [DecidableEq ι] (a : ι → R) {i j : ι} (v : R) (h : j ≠ i) :
    store a i v j = a j := by
  simp [store_apply, h]

/-- The update `a[k] += v` adds `v` at `k` and nothing elsewhere. -/
theorem store_add_apply [DecidableEq ι] [AddCommMonoid R] (a : ι → R) (k : ι) (v : R) (p : ι) :
    store a k (a k + v) p = a p + (if p = k then v else 0) := by
  by_cases h : p = k
  · subst h; simp [store_apply]
  · simp [store_apply, h]

end LoopLemmas

/-! ## Tensor views: the index maps are injective on their ranges -/

theorem Reshape2_inj {N a b a' b' : Nat} (ha : a < N) (ha' : a' < N)
    (h : Reshape2 N a b = Reshape2 N a' b') : a = a' ∧ b = b' := by
  unfold Reshape2 at h
  have hN : 0 < N := Nat.lt_of_le_of_lt (Nat.zero_le a) ha
  have h1 : (a + N * b) % N = (a' + N * b') % N := by rw [h]
  rw [Nat.add_mul_mod_self_left, Nat.add_mul_mod_self_left, Nat.mod_eq_of_lt ha,
    Nat.mod_eq_of_lt ha'] at h1
  subst h1
  have h2 : N * b = N * b' := Nat.add_left_cancel h
  exact ⟨rfl, Nat.eq_of_mul_eq_mul_left hN h2⟩

theorem Reshape2_eq_iff {N a b a' b' : Nat} (ha : a < N) (ha' : a' < N) :
    Reshape2 N a b = Reshape2 N a' b' ↔ a = a' ∧ b = b' :=
  ⟨Reshape2_inj ha ha', fun h => by rw [h.1, h.2]⟩

theorem Reshape3_eq_Reshape2 (N1 N2 i1 i2 i3 : Nat) :
    Reshape3 N1 N2 i1 i2 i3 = Reshape2 N1 i1 (Reshape2 N2 i2 i3) := rfl

theorem Reshape4_eq_Reshape2 (N1 N2 N3 i1 i2 i3 i4 : Nat) :
    Reshape4 N1 N2 N3 i1 i2 i3 i4 = Reshape2 N1 i1 (Reshape2 N2 i2 (Reshape2 N3 i3 i4)) := rfl

theorem Reshape5_eq_Reshape2 (N1 N2 N3 N4 i1 i2 i3 i4 i5 : Nat) :
    Reshape5 N1 N2 N3 N4 i1 i2 i3 i4 i5
      = Reshape2 N1 i1 (Reshape2 N2 i2 (Reshape2 N3 i3 (Reshape2 N4 i4 i5))) := rfl

theorem Reshape4_eq_iff {N1 N2 N3 a b c e a' b' c' e' : Nat}
    (ha : a < N1) (ha' : a' < N1) (hb : b < N2) (hb' : b' < N2) (hc : c < N3) (hc' : c' < N3) :
    Reshape4 N1 N2 N3 a b c e = Reshape4 N1 N2 N3 a' b' c' e'
      ↔ a = a' ∧ b = b' ∧ c = c' ∧ e = e' := by
  rw [Reshape4_eq_Reshape2, Reshape4_eq_Reshape2, Reshape2_eq_iff ha ha',
    Reshape2_eq_iff hb hb', Reshape2_eq_iff hc hc']

theorem Reshape5_eq_iff {N1 N2 N3 N4 a b c d e a' b' c' d' e' : Nat}
    (ha : a < N1) (ha' : a' < N1) (hb : b < N2) (hb' : b' < N2) (hc : c < N3) (hc' : c' < N3)
    (hd : d < N4) (hd' : d' < N4) :
    Reshape5 N1 N2 N3 N4 a b c d e = Reshape5 N1 N2 N3 N4 a' b' c' d' e'
      ↔ a = a' ∧ b = b' ∧ c = c' ∧ d = d' ∧ e = e' := by
  rw [Reshape5_eq_Reshape2, Reshape5_eq_Reshape2, Reshape2_eq_iff ha ha',
    Reshape2_eq_iff hb hb', Reshape2_eq_iff hc hc', Reshape2_eq_iff hd hd']

/-! ## Sums of indicators -/

section SumLemmas

variable {R : Type} [AddCommMonoid R]

/-- A sum over `i < n` of terms that vanish unless `i0 = i` (and `P`). -/
theorem sum_range_ite_eq_and (n i0 : Nat) (P : Prop) [Decidable P] (f : Nat → R) :
    (∑ i ∈ range n, if i0 = i ∧ P then f i else 0) = if i0 < n ∧ P then f i0 else 0 := by
  by_cases hP : P
  · simp only [hP, and_true]
    rw [Finset.sum_ite_eq]
    simp
  · simp [hP]

theorem sum_range_ite_eq_one (n i0 : Nat) (f : Nat → R) :
    (∑ i ∈ range n, if i0 = i then f i else 0) = if i0 < n then f i0 else 0 := by
  rw [Finset.sum_ite_eq]
  simp

/-- A condition that does not depend on the summation index comes out of the sum. -/
theorem sum_ite_const (s : Finset Nat) (P : Prop) [Decidable P] (f : Nat → R) :
    (∑ i ∈ s, if P then f i else 0) = if P then ∑ i ∈ s, f i else 0 := by
  by_cases hP : P <;> simp [hP]

/-- Two nested sums change places with two others. -/
theorem sum_comm_22 (s1 s2 s3 s4 : Finset Nat) (f : Nat → Nat → Nat → Nat → R) :
    (∑ a ∈ s1, ∑ b ∈ s2, ∑ c ∈ s3, ∑ d ∈ s4, f a b c d)
      = ∑ c ∈ s3, ∑ d ∈ s4, ∑ a ∈ s1, ∑ b ∈ s2, f a b c d := by
  calc (∑ a ∈ s1, ∑ b ∈ s2, ∑ c ∈ s3, ∑ d ∈ s4, f a b c d)
      = ∑ a ∈ s1, ∑ c ∈ s3, ∑ b ∈ s2, ∑ d ∈ s4, f a b c d :=
        Finset.sum_congr rfl (fun a _ => Finset.sum_comm)
    _ = ∑ c ∈ s3, ∑ a ∈ s1, ∑ b ∈ s2, ∑ d ∈ s4, f a b c d := Finset.sum_comm
    _ = ∑ c ∈ s3, ∑ a ∈ s1, ∑ d ∈ s4, ∑ b ∈ s2, f a b c d :=
        Finset.sum_congr rfl (fun c _ => Finset.sum_congr rfl (fun a _ => Finset.sum_comm))
    _ = ∑ c ∈ s3, ∑ d ∈ s4, ∑ a ∈ s1, ∑ b ∈ s2, f a b c d :=
        Finset.sum_congr rfl (fun c _ => Finset.sum_comm)

/-- One sum moves inside three others. -/
theorem sum_comm_13 (s1 s2 s3 s4 : Finset Nat) (f : Nat → Nat → Nat → Nat → R) :
    (∑ a ∈ s1, ∑ b ∈ s2, ∑ c ∈ s3, ∑ d ∈ s4, f a b c d)
      = ∑ b ∈ s2, ∑ c ∈ s3, ∑ d ∈ s4, ∑ a ∈ s1, f a b c d := by
  calc (∑ a ∈ s1, ∑ b ∈ s2, ∑ c ∈ s3, ∑ d ∈ s4, f a b c d)
      = ∑ b ∈ s2, ∑ a ∈ s1, ∑ c ∈ s3, ∑ d ∈ s4, f a b c d := Finset.sum_comm
    _ = ∑ b ∈ s2, ∑ c ∈ s3, ∑ a ∈ s1, ∑ d ∈ s4, f a b c d :=
        Finset.sum_congr rfl (fun b _ => Finset.sum_comm)
    _ = ∑ b ∈ s2, ∑ c ∈ s3, ∑ d ∈ s4, ∑ a ∈ s1, f a b c d :=
        Finset.sum_congr rfl (fun b _ => Finset.sum_congr rfl (fun c _ => Finset.sum_comm))

/-- Three nested sums change places with three others. -/
theorem sum_comm_33 (s1 s2 s3 s4 s5 s6 : Finset Nat)
    (f : Nat → Nat → Nat → Nat → Nat → Nat → R) :
    (∑ a ∈ s1, ∑ b ∈ s2, ∑ c ∈ s3, ∑ d ∈ s4, ∑ e ∈ s5, ∑ g ∈ s6, f a b c d e g)
      = ∑ d ∈ s4, ∑ e ∈ s5, ∑ g ∈ s6, ∑ a ∈ s1, ∑ b ∈ s2, ∑ c ∈ s3, f a b c d e g := by
  calc (∑ a ∈ s1, ∑ b ∈ s2, ∑ c ∈ s3, ∑ d ∈ s4, ∑ e ∈ s5, ∑ g ∈ s6, f a b c d e g)
      = ∑ a ∈ s1, ∑ b ∈ s2, ∑ d ∈ s4, ∑ e ∈ s5, ∑ g ∈ s6, ∑ c ∈ s3, f a b c d e g :=
        Finset.sum_congr rfl (fun a _ => Finset.sum_congr rfl (fun b _ =>
          sum_comm_13 s3 s4 s5 s6 (fun c d e g => f a b c d e g)))
    _ = ∑ a ∈ s1, ∑ d ∈ s4, ∑ e ∈ s5, ∑ g ∈ s6, ∑ b ∈ s2, ∑ c ∈ s3, f a b c d e g :=
        Finset.sum_congr rfl (fun a _ =>
          sum_comm_13 s2 s4 s5 s6 (fun b d e g => ∑ c ∈ s3, f a b c d e g))
    _ = ∑ d ∈ s4, ∑ e ∈ s5, ∑ g ∈ s6, ∑ a ∈ s1, ∑ b ∈ s2, ∑ c ∈ s3, f a b c d e g :=
        sum_comm_13 s1 s4 s5 s6 (fun a d e g => ∑ b ∈ s2, ∑ c ∈ s3, f a b c d e g)

/-- A sum over a flat range of length `N * M` is the double sum over the view
`Reshape(N, M)`. -/
theorem sum_range_mul_eq (N M : Nat) (f : Nat → R) :
    (∑ p ∈ range (N * M), f p) = ∑ j ∈ range M, ∑ i ∈ range N, f (Reshape2 N i j) := by
  induction M with
  | zero => simp
  | succ M ih =>
    rw [Nat.mul_succ, Finset.sum_range_add, ih, Finset.sum_range_succ]
    congr 1
    refine Finset.sum_congr rfl (fun i _ => ?_)
    unfold Reshape2
    rw [Nat.add_comm]

end SumLemmas


section NestLemmas

variable {R : Type}

/-- A loop over a one-dimensional local array that rewrites the cell `i` by `g`. -/
theorem nest1_acts (n : Nat) (g : Nat → R → R) (s : Nat → R) (p : Nat) :
    forLoop n (fun i a => store a i (g i (a i))) s p = if p < n then g p (s p) else s p := by
  have h := forLoop_acts (fun i p => p = i) g n
    (fun i a => store a i (g i (a i)))
    (fun i _ a p => ⟨fun hp => by subst hp; simp [store_apply],
      fun hp => by simp [store_apply, hp]⟩)
    (fun i j p _ _ hi hj => hi.symm.trans hj) s p
  by_cases hp : p < n
  · rw [if_pos hp]; exact h.1 ⟨p, hp, rfl⟩
  · rw [if_neg hp]
    refine h.2 ?_
    rintro ⟨i, hi, rfl⟩
    exact hp hi

/-- A loop nest over a two-dimensional local array that rewrites the cell `(i,j)` by `g`. -/
theorem nest2_acts (n1 n2 : Nat) (g : Nat × Nat → R → R) (s : Nat × Nat → R) (p : Nat × Nat) :
    forLoop n1 (fun i a => forLoop n2 (fun j a => store a (i, j) (g (i, j) (a (i, j)))) a) s p
      = if p.1 < n1 ∧ p.2 < n2 then g p (s p) else s p := by
  have inner : ∀ i (a : Nat × Nat → R) (q : Nat × Nat),
      forLoop n2 (fun j a => store a (i, j) (g (i, j) (a (i, j)))) a q
        = if q.1 = i ∧ q.2 < n2 then g q (a q) else a q := by
    intro i a q
    have h := forLoop_acts (fun j (q : Nat × Nat) => q = (i, j)) g n2
      (fun j a => store a (i, j) (g (i, j) (a (i, j))))
      (fun j _ a q => ⟨fun hq => by subst hq; simp [store_apply],
        fun hq => by simp [store_apply, hq]⟩)
      (fun j k q _ _ hj hk => by
        have := hj.symm.trans hk
        simpa using this) a q
    by_cases hq : q.1 = i ∧ q.2 < n2
    · rw [if_pos hq]
      exact h.1 ⟨q.2, hq.2, by rw [← hq.1]⟩
    · rw [if_neg hq]
      refine h.2 ?_
      rintro ⟨j, hj, rfl⟩
      exact hq ⟨rfl, hj⟩
  have h := forLoop_acts (fun i (q : Nat × Nat) => q.1 = i ∧ q.2 < n2) g n1
    (fun i a => forLoop n2 (fun j a => store a (i, j) (g (i, j) (a (i, j)))) a)
    (fun i _ a q => ⟨fun hq => (inner _ _ _).trans (if_pos hq), fun hq => (inner _ _ _).trans (if_neg hq)⟩)
    (fun i j q _ _ hi hj => hi.1.symm.trans hj.1) s p
  by_cases hp : p.1 < n1 ∧ p.2 < n2
  · rw [if_pos hp]; exact h.1 ⟨p.1, hp.1, rfl, hp.2⟩
  · rw [if_neg hp]
    refine h.2 ?_
    rintro ⟨i, hi, h1, h2⟩
    exact hp ⟨h1 ▸ hi, h2⟩

/-- A loop nest over a three-dimensional local array that rewrites the cell `(i,j,k)`
by `g`. -/
theorem nest3_acts (n1 n2 n3 : Nat) (g : Nat × Nat × Nat → R → R) (s : Nat × Nat × Nat → R)
    (p : Nat × Nat × Nat) :
    forLoop n1 (fun i a => forLoop n2 (fun j a =>
        forLoop n3 (fun k a => store a (i, j, k) (g (i, j, k) (a (i, j, k)))) a) a) s p
      = if p.1 < n1 ∧ p.2.1 < n2 ∧ p.2.2 < n3 then g p (s p) else s p := by
  have inner : ∀ i j (a : Nat × Nat × Nat → R) (q : Nat × Nat × Nat),
      forLoop n3 (fun k a => store a (i, j, k) (g (i, j, k) (a (i, j, k)))) a q
        = if q.1 = i ∧ q.2.1 = j ∧ q.2.2 < n3 then g q (a q) else a q := by
    intro i j a q
    have h := forLoop_acts (fun k (q : Nat × Nat × Nat) => q = (i, j, k)) g n3
      (fun k a => store a (i, j, k) (g (i, j, k) (a (i, j, k))))
      (fun k _ a q => ⟨fun hq => by subst hq; simp [store_apply],
        fun hq => by simp [store_apply, hq]⟩)
      (fun k l q _ _ hk hl => by
        have := hk.symm.trans hl
        simpa using this) a q
    by_cases hq : q.1 = i ∧ q.2.1 = j ∧ q.2.2 < n3
    · rw [if_pos hq]
      refine h.1 ⟨q.2.2, hq.2.2, ?_⟩
      rw [← hq.1, ← hq.2.1]
    · rw [if_neg hq]
      refine h.2 ?_
      rintro ⟨k, hk, rfl⟩
      exact hq ⟨rfl, rfl, hk⟩
  have mid : ∀ i (a : Nat × Nat × Nat → R) (q : Nat × Nat × Nat),
      forLoop n2 (fun j a =>
        forLoop n3 (fun k a => store a (i, j, k) (g (i, j, k) (a (i, j, k)))) a) a q
        = if q.1 = i ∧ q.2.1 < n2 ∧ q.2.2 < n3 then g q (a q) else a q := by
    intro i a q
    have h := forLoop_acts
      (fun j (q : Nat × Nat × Nat) => q.1 = i ∧ q.2.1 = j ∧ q.2.2 < n3) g n2
      (fun j a =>
        forLoop n3 (fun k a => store a (i, j, k) (g (i, j, k) (a (i, j, k)))) a)
      (fun j _ a q => ⟨fun hq => (inner _ _ _ _).trans (if_pos hq),
        fun hq => (inner _ _ _ _).trans (if_neg hq)⟩)
      (fun j k q _ _ hj hk => hj.2.1.symm.trans hk.2.1) a q
    by_cases hq : q.1 = i ∧ q.2.1 < n2 ∧ q.2.2 < n3
    · rw [if_pos hq]
      exact h.1 ⟨q.2.1, hq.2.1, hq.1, rfl, hq.2.2⟩
    · rw [if_neg hq]
      refine h.2 ?_
      rintro ⟨j, hj, h1, h2, h3⟩
      exact hq ⟨h1, h2 ▸ hj, h3⟩
  have h := forLoop_acts
    (fun i (q : Nat × Nat × Nat) => q.1 = i ∧ q.2.1 < n2 ∧ q.2.2 < n3) g n1
    (fun i a => forLoop n2 (fun j a =>
        forLoop n3 (fun k a => store a (i, j, k) (g (i, j, k) (a (i, j, k)))) a) a)
    (fun i _ a q => ⟨fun hq => (mid _ _ _).trans (if_pos hq), fun hq => (mid _ _ _).trans (if_neg hq)⟩)
    (fun i j q _ _ hi hj => hi.1.symm.trans hj.1) s p
  by_cases hp : p.1 < n1 ∧ p.2.1 < n2 ∧ p.2.2 < n3
  · rw [if_pos hp]; exact h.1 ⟨p.1, hp.1, rfl, hp.2⟩
  · rw [if_neg hp]
    refine h.2 ?_
    rintro ⟨i, hi, h1, h2⟩
    exact hp ⟨h1 ▸ hi, h2⟩

end NestLemmas


section Apply2DLemmas

variable {R : Type} [CommRing R]

/-- Array form of `forLoop_additive`. -/
theorem forLoop_additive_id {ι : Type} (δ : Nat → ι → R) {n : Nat}
    {body : Nat → (ι → R) → (ι → R)}
    (h : ∀ i, i < n → ∀ a p, body i a p = a p + δ i p) (a : ι → R) (p : ι) :
    forLoop n body a p = a p + ∑ i ∈ range n, δ i p :=
  forLoop_additive (fun a => a) δ h a p

theorem apply2D_clear_apply (Q1D : Nat) (s : Nat × Nat → R) (p : Nat × Nat) :
    apply2D_clear Q1D s p = if p.1 < Q1D ∧ p.2 < Q1D then 0 else s p :=
  nest2_acts Q1D Q1D (fun _ _ => 0) s p

theorem apply2D_scale_apply (Q1D : Nat) (op : Vec R) (e : Nat) (s : Nat × Nat → R)
    (p : Nat × Nat) :
    apply2D_scale Q1D op e s p
      = if p.1 < Q1D ∧ p.2 < Q1D then s p * op (Reshape3 Q1D Q1D p.2 p.1 e) else s p :=
  nest2_acts Q1D Q1D (fun p r => r * op (Reshape3 Q1D Q1D p.2 p.1 e)) s p

theorem apply2D_fwd_x_apply (D1D Q1D : Nat) (B x : Vec R) (u : Uninit R) (e c dy : Nat)
    {qx : Nat} (hqx : qx < Q1D) :
    apply2D_fwd_x D1D Q1D B x u e c dy qx
      = ∑ dx ∈ range D1D, B (Reshape2 Q1D qx dx) * x (Reshape4 D1D D1D 2 dx dy c e) := by
  unfold apply2D_fwd_x
  simp only []
  rw [forLoop_additive_id
    (fun dx p => if p < Q1D then B (Reshape2 Q1D p dx) * x (Reshape4 D1D D1D 2 dx dy c e) else 0)]
  · rw [nest1_acts Q1D (fun _ _ => (0 : R)), if_pos hqx, zero_add]
    exact Finset.sum_congr rfl (fun dx _ => if_pos hqx)
  · intro dx _ a p
    rw [nest1_acts Q1D
      (fun qx r => r + B (Reshape2 Q1D qx dx) * x (Reshape4 D1D D1D 2 dx dy c e))]
    by_cases hp : p < Q1D <;> simp [hp]

theorem apply2D_forward_apply (D1D Q1D : Nat) (B x : Vec R) (u : Uninit R) (e c : Nat)
    (s : Nat × Nat → R) (p : Nat × Nat) :
    apply2D_forward D1D Q1D B x u e c s p
      = s p + if p.1 < Q1D ∧ p.2 < Q1D then fwd2D D1D Q1D B x e c p.1 p.2 else 0 := by
  unfold apply2D_forward
  simp only []
  rw [forLoop_additive_id
    (fun dy p => if p.1 < Q1D ∧ p.2 < Q1D then
      B (Reshape2 Q1D p.1 dy) *
        ∑ dx ∈ range D1D, B (Reshape2 Q1D p.2 dx) * x (Reshape4 D1D D1D 2 dx dy c e) else 0)]
  · congr 1
    by_cases hp : p.1 < Q1D ∧ p.2 < Q1D
    · simp only [hp, and_self, if_true]; rfl
    · simp only [hp, if_false, Finset.sum_const_zero]
  · intro dy _ a p
    rw [nest2_acts Q1D Q1D
      (fun p r => r + B (Reshape2 Q1D p.1 dy) * apply2D_fwd_x D1D Q1D B x u e c dy p.2)]
    by_cases hp : p.1 < Q1D ∧ p.2 < Q1D
    · rw [if_pos hp, if_pos hp, apply2D_fwd_x_apply D1D Q1D B x u e c dy hp.2]
    · rw [if_neg hp, if_neg hp, add_zero]

theorem apply2D_bwd_x_apply (D1D Q1D : Nat) (Bt : Vec R) (u : Uninit R)
    (sol_xy : Nat × Nat → R) (qy : Nat) {dx : Nat} (hdx : dx < D1D) :
    apply2D_bwd_x D1D Q1D Bt u sol_xy qy dx
      = ∑ qx ∈ range Q1D, Bt (Reshape2 D1D dx qx) * sol_xy (qy, qx) := by
  unfold apply2D_bwd_x
  simp only []
  rw [forLoop_additive_id
    (fun qx p => if p < D1D then Bt (Reshape2 D1D p qx) * sol_xy (qy, qx) else 0)]
  · rw [nest1_acts D1D (fun _ _ => (0 : R)), if_pos hdx, zero_add]
    exact Finset.sum_congr rfl (fun qx _ => if_pos hdx)
  · intro qx _ a p
    rw [nest1_acts D1D (fun dx r => r + Bt (Reshape2 D1D dx qx) * sol_xy (qy, qx))]
    by_cases hp : p < D1D <;> simp [hp]

/-- The backward sweep adds to each cell of `y`; written with the sums in loop order. -/
theorem apply2D_backward_apply (D1D Q1D : Nat) (Bt : Vec R) (u : Uninit R) (e c : Nat)
    (sol_xy : Nat × Nat → R) (y : Vec R) (p : Nat) :
    apply2D_backward D1D Q1D Bt u e c sol_xy y p
      = y p + ∑ qy ∈ range Q1D, ∑ dy ∈ range D1D, ∑ dx ∈ range D1D,
          if p = Reshape4 D1D D1D 2 dx dy c e then
            Bt (Reshape2 D1D dy qy) * ∑ qx ∈ range Q1D, Bt (Reshape2 D1D dx qx) * sol_xy (qy, qx)
          else 0 := by
  unfold apply2D_backward
  simp only []
  rw [forLoop_additive_id
    (fun qy p => ∑ dy ∈ range D1D, ∑ dx ∈ range D1D,
      if p = Reshape4 D1D D1D 2 dx dy c e then
        Bt (Reshape2 D1D dy qy) * ∑ qx ∈ range Q1D, Bt (Reshape2 D1D dx qx) * sol_xy (qy, qx)
      else 0)]
  intro qy _ a p
  rw [forLoop_additive_id
    (fun dy p => ∑ dx ∈ range D1D,
      if p = Reshape4 D1D D1D 2 dx dy c e then
        Bt (Reshape2 D1D dy qy) * ∑ qx ∈ range Q1D, Bt (Reshape2 D1D dx qx) * sol_xy (qy, qx)
      else 0)]
  intro dy _ a p
  rw [forLoop_additive_id
    (fun dx p => if p = Reshape4 D1D D1D 2 dx dy c e then
        Bt (Reshape2 D1D dy qy) * apply2D_bwd_x D1D Q1D Bt u sol_xy qy dx
      else 0)]
  · congr 1
    refine Finset.sum_congr rfl (fun dx hdx => ?_)
    rw [apply2D_bwd_x_apply D1D Q1D Bt u sol_xy qy (Finset.mem_range.mp hdx)]
  · intro dx _ a p
    exact store_add_apply a _ _ p

/-- One pass of the component loop adds `inc2D` to the cells of component `c` of
element `e`, whatever the local array held before. -/
theorem apply2D_component_fst (D1D Q1D : Nat) (B Bt op x : Vec R) (u : Uninit R) (e c : Nat)
    (st : Vec R × (Nat × Nat → R)) (p : Nat) :
    (apply2D_component D1D Q1D B Bt op x u e c st).1 p
      = st.1 p + ∑ dy ∈ range D1D, ∑ dx ∈ range D1D,
          if p = Reshape4 D1D D1D 2 dx dy c e then inc2D D1D Q1D B Bt op x e c dx dy else 0 := by
  unfold apply2D_component
  simp only []
  rw [apply2D_backward_apply]
  congr 1
  have hsol : ∀ qy ∈ range Q1D, ∀ qx ∈ range Q1D,
      apply2D_scale Q1D op e (apply2D_forward D1D Q1D B x u e c (apply2D_clear Q1D st.2))
          (qy, qx)
        = fwd2D D1D Q1D B x e c qy qx * op (Reshape3 Q1D Q1D qx qy e) := by
    intro qy hqy qx hqx
    have hq : qy < Q1D ∧ qx < Q1D := ⟨Finset.mem_range.mp hqy, Finset.mem_range.mp hqx⟩
    rw [apply2D_scale_apply, apply2D_forward_apply, apply2D_clear_apply]
    simp only [hq, and_self, if_true, zero_add]
  calc (∑ qy ∈ range Q1D, ∑ dy ∈ range D1D, ∑ dx ∈ range D1D,
          if p = Reshape4 D1D D1D 2 dx dy c e then
            Bt (Reshape2 D1D dy qy) * ∑ qx ∈ range Q1D, Bt (Reshape2 D1D dx qx) *
              apply2D_scale Q1D op e
                (apply2D_forward D1D Q1D B x u e c (apply2D_clear Q1D st.2)) (qy, qx)
          else 0)
      = ∑ qy ∈ range Q1D, ∑ dy ∈ range D1D, ∑ dx ∈ range D1D,
          if p = Reshape4 D1D D1D 2 dx dy c e then
            Bt (Reshape2 D1D dy qy) * ∑ qx ∈ range Q1D, Bt (Reshape2 D1D dx qx) *
              (fwd2D D1D Q1D B x e c qy qx * op (Reshape3 Q1D Q1D qx qy e))
          else 0 := by
        refine Finset.sum_congr rfl (fun qy hqy => Finset.sum_congr rfl (fun dy _ =>
          Finset.sum_congr rfl (fun dx _ => ?_)))
        rw [Finset.sum_congr rfl (fun qx hqx => by rw [hsol qy hqy qx hqx])]
    _ = ∑ dy ∈ range D1D, ∑ qy ∈ range Q1D, ∑ dx ∈ range D1D,
          if p = Reshape4 D1D D1D 2 dx dy c e then
            Bt (Reshape2 D1D dy qy) * ∑ qx ∈ range Q1D, Bt (Reshape2 D1D dx qx) *
              (fwd2D D1D Q1D B x e c qy qx * op (Reshape3 Q1D Q1D qx qy e))
          else 0 := Finset.sum_comm
    _ = ∑ dy ∈ range D1D, ∑ dx ∈ range D1D, ∑ qy ∈ range Q1D,
          if p = Reshape4 D1D D1D 2 dx dy c e then
            Bt (Reshape2 D1D dy qy) * ∑ qx ∈ range Q1D, Bt (Reshape2 D1D dx qx) *
              (fwd2D D1D Q1D B x e c qy qx * op (Reshape3 Q1D Q1D qx qy e))
          else 0 := Finset.sum_congr rfl (fun dy _ => Finset.sum_comm)
    _ = _ := by
        refine Finset.sum_congr rfl (fun dy _ => Finset.sum_congr rfl (fun dx _ => ?_))
        rw [sum_ite_const]
        rfl

theorem apply2D_element_apply (D1D Q1D : Nat) (B Bt op x : Vec R) (u : Uninit R) (e : Nat)
    (y : Vec R) (p : Nat) :
    apply2D_element D1D Q1D B Bt op x u e y p = y p + elemInc2D D1D Q1D B Bt op x e p := by
  unfold apply2D_element elemInc2D
  exact forLoop_additive (fun st : Vec R × (Nat × Nat → R) => st.1)
    (fun c p => ∑ dy ∈ range D1D, ∑ dx ∈ range D1D,
      if p = Reshape4 D1D D1D 2 dx dy c e then inc2D D1D Q1D B Bt op x e c dx dy else 0)
    (fun c _ st p => apply2D_component_fst D1D Q1D B Bt op x u e c st p) (y, u.a2) p

theorem apply2D_loop_apply (D1D Q1D NE : Nat) (B Bt op x : Vec R) (u : Uninit R)
    (y : Vec R) (p : Nat) :
    forLoop NE (fun e y => apply2D_element D1D Q1D B Bt op x u e y) y p
      = y p + applyInc2D D1D Q1D NE B Bt op x p := by
  unfold applyInc2D
  exact forLoop_additive_id (fun e p => elemInc2D D1D Q1D B Bt op x e p)
    (fun e _ a p => apply2D_element_apply D1D Q1D B Bt op x u e a p) y p

/-- Within the limits `PAVectorMassApply2D` returns `y` plus the increment. -/
theorem PAVectorMassApply2D_ok (T_D1D T_Q1D : Nat) (lim : DofQuadLimits) (u : Uninit R)
    (NE : Nat) (B Bt op x y : Vec R) (d1d q1d : Nat)
    (hD : tsize T_D1D d1d ≤ lim.MAX_D1D) (hQ : tsize T_Q1D q1d ≤ lim.MAX_Q1D) :
    PAVectorMassApply2D T_D1D T_Q1D lim u NE B Bt op x y d1d q1d
      = Except.ok (fun p => y p
          + applyInc2D (tsize T_D1D d1d) (tsize T_Q1D q1d) NE B Bt op x p) := by
  unfold PAVectorMassApply2D
  simp only [hD, hQ, not_true_eq_false, if_false]
  congr 1
  funext p
  exact apply2D_loop_apply _ _ NE B Bt op x u y p

/-- The increment at the cell of an in-range dof is `inc2D` at that dof. -/
theorem applyInc2D_at (D1D Q1D NE : Nat) (B Bt op x : Vec R) {e c dx dy : Nat}
    (he : e < NE) (hc : c < 2) (hdx : dx < D1D) (hdy : dy < D1D) :
    applyInc2D D1D Q1D NE B Bt op x (Reshape4 D1D D1D 2 dx dy c e)
      = inc2D D1D Q1D B Bt op x e c dx dy := by
  unfold applyInc2D elemInc2D
  have key : ∀ e' ∈ range NE, ∀ c' ∈ range 2, ∀ dy' ∈ range D1D, ∀ dx' ∈ range D1D,
      (if Reshape4 D1D D1D 2 dx dy c e = Reshape4 D1D D1D 2 dx' dy' c' e'
        then inc2D D1D Q1D B Bt op x e' c' dx' dy' else 0)
      = if dx = dx' ∧ (dy = dy' ∧ (c = c' ∧ e = e'))
        then inc2D D1D Q1D B Bt op x e' c' dx' dy' else 0 := by
    intro e' _ c' hc' dy' hdy' dx' hdx'
    exact if_congr (Reshape4_eq_iff hdx (Finset.mem_range.mp hdx') hdy
      (Finset.mem_range.mp hdy') hc (Finset.mem_range.mp hc')) rfl rfl
  rw [Finset.sum_congr rfl (fun e' he' => Finset.sum_congr rfl (fun c' hc' =>
    Finset.sum_congr rfl (fun dy' hdy' => Finset.sum_congr rfl (fun dx' hdx' =>
      key e' he' c' hc' dy' hdy' dx' hdx'))))]
  simp only [sum_range_ite_eq_and, sum_range_ite_eq_one, hdx, hdy, hc, he, true_and, if_true]

/-- With `Bt` the transpose of `B`, the increment is the action of the assembled
elemental mass matrix. -/
theorem inc2D_eq_massAction2D (D1D Q1D : Nat) (B Bt op x : Vec R)
    (hBt : ∀ d q, d < D1D → q < Q1D → Bt (Reshape2 D1D d q) = B (Reshape2 Q1D q d))
    (e c : Nat) {dx dy : Nat} (hdx : dx < D1D) (hdy : dy < D1D) :
    inc2D D1D Q1D B Bt op x e c dx dy = massAction2D D1D Q1D B op x e c dx dy := by
  unfold inc2D massAction2D elemMass2D fwd2D shape2D
  rw [Finset.sum_congr rfl (fun qy hqy => by
    rw [hBt dy qy hdy (Finset.mem_range.mp hqy),
      Finset.sum_congr rfl (fun qx hqx => by rw [hBt dx qx hdx (Finset.mem_range.mp hqx)])])]
  simp only [Finset.mul_sum, Finset.sum_mul]
  rw [sum_comm_22]
  refine Finset.sum_congr rfl (fun dy' _ => Finset.sum_congr rfl (fun dx' _ =>
    Finset.sum_congr rfl (fun qy _ => Finset.sum_congr rfl (fun qx _ => ?_))))
  ring

end Apply2DLemmas

section Apply3DLemmas

variable {R : Type} [CommRing R]

theorem apply3D_clear_apply (Q1D : Nat) (s : Nat × Nat × Nat → R) (p : Nat × Nat × Nat) :
    apply3D_clear Q1D s p = if p.1 < Q1D ∧ p.2.1 < Q1D ∧ p.2.2 < Q1D then 0 else s p :=
  nest3_acts Q1D Q1D Q1D (fun _ _ => 0) s p

theorem apply3D_scale_apply (Q1D : Nat) (op : Vec R) (e : Nat) (s : Nat × Nat × Nat → R)
    (p : Nat × Nat × Nat) :
    apply3D_scale Q1D op e s p
      = if p.1 < Q1D ∧ p.2.1 < Q1D ∧ p.2.2 < Q1D
        then s p * op (Reshape4 Q1D Q1D Q1D p.2.2 p.2.1 p.1 e) else s p :=
  nest3_acts Q1D Q1D Q1D (fun p r => r * op (Reshape4 Q1D Q1D Q1D p.2.2 p.2.1 p.1 e)) s p

theorem apply3D_fwd_x_apply (D1D Q1D : Nat) (B x : Vec R) (u : Uninit R) (e c dz dy : Nat)
    {qx : Nat} (hqx : qx < Q1D) :
    apply3D_fwd_x D1D Q1D B x u e c dz dy qx
      = ∑ dx ∈ range D1D,
          B (Reshape2 Q1D qx dx) * x (Reshape5 D1D D1D D1D 3 dx dy dz c e) := by
  unfold apply3D_fwd_x
  simp only []
  rw [forLoop_additive_id
    (fun dx p => if p < Q1D then
      B (Reshape2 Q1D p dx) * x (Reshape5 D1D D1D D1D 3 dx dy dz c e) else 0)]
  · rw [nest1_acts Q1D (fun _ _ => (0 : R)), if_pos hqx, zero_add]
    exact Finset.sum_congr rfl (fun dx _ => if_pos hqx)
  · intro dx _ a p
    rw [nest1_acts Q1D
      (fun qx r => r + B (Reshape2 Q1D qx dx) * x (Reshape5 D1D D1D D1D 3 dx dy dz c e))]
    by_cases hp : p < Q1D <;> simp [hp]

theorem apply3D_fwd_xy_apply (D1D Q1D : Nat) (B x : Vec R) (u : Uninit R) (e c dz : Nat)
    {qy qx : Nat} (hqy : qy < Q1D) (hqx : qx < Q1D) :
    apply3D_fwd_xy D1D Q1D B x u e c dz (qy, qx)
      = ∑ dy ∈ range D1D, B (Reshape2 Q1D qy dy) *
          ∑ dx ∈ range D1D,
            B (Reshape2 Q1D qx dx) * x (Reshape5 D1D D1D D1D 3 dx dy dz c e) := by
  unfold apply3D_fwd_xy
  simp only []
  rw [forLoop_additive_id
    (fun dy p => if p.1 < Q1D ∧ p.2 < Q1D then
      B (Reshape2 Q1D p.1 dy) *
        ∑ dx ∈ range D1D,
          B (Reshape2 Q1D p.2 dx) * x (Reshape5 D1D D1D D1D 3 dx dy dz c e) else 0)]
  · rw [nest2_acts Q1D Q1D (fun _ _ => (0 : R)), if_pos ⟨hqy, hqx⟩, zero_add]
    exact Finset.sum_congr rfl (fun dy _ => if_pos ⟨hqy, hqx⟩)
  · intro dy _ a p
    rw [nest2_acts Q1D Q1D
      (fun p r => r + B (Reshape2 Q1D p.1 dy) * apply3D_fwd_x D1D Q1D B x u e c dz dy p.2)]
    by_cases hp : p.1 < Q1D ∧ p.2 < Q1D
    · rw [if_pos hp, if_pos hp, apply3D_fwd_x_apply D1D Q1D B x u e c dz dy hp.2]
    · rw [if_neg hp, if_neg hp, add_zero]

theorem apply3D_forward_apply (D1D Q1D : Nat) (B x : Vec R) (u : Uninit R) (e c : Nat)
    (s : Nat × Nat × Nat → R) (p : Nat × Nat × Nat) :
    apply3D_forward D1D Q1D B x u e c s p
      = s p + if p.1 < Q1D ∧ p.2.1 < Q1D ∧ p.2.2 < Q1D
          then fwd3D D1D Q1D B x e c p.1 p.2.1 p.2.2 else 0 := by
  unfold apply3D_forward
  simp only []
  rw [forLoop_additive_id
    (fun dz p => if p.1 < Q1D ∧ p.2.1 < Q1D ∧ p.2.2 < Q1D then
      B (Reshape2 Q1D p.1 dz) *
        ∑ dy ∈ range D1D, B (Reshape2 Q1D p.2.1 dy) *
          ∑ dx ∈ range D1D,
            B (Reshape2 Q1D p.2.2 dx) * x (Reshape5 D1D D1D D1D 3 dx dy dz c e) else 0)]
  · congr 1
    by_cases hp : p.1 < Q1D ∧ p.2.1 < Q1D ∧ p.2.2 < Q1D
    · simp only [hp, and_self, if_true]; rfl
    · simp only [hp, if_false, Finset.sum_const_zero]
  · intro dz _ a p
    rw [nest3_acts Q1D Q1D Q1D
      (fun p r => r + B (Reshape2 Q1D p.1 dz) * apply3D_fwd_xy D1D Q1D B x u e c dz p.2)]
    by_cases hp : p.1 < Q1D ∧ p.2.1 < Q1D ∧ p.2.2 < Q1D
    · rw [if_pos hp, if_pos hp,
        show p.2 = (p.2.1, p.2.2) from rfl,
        apply3D_fwd_xy_apply D1D Q1D B x u e c dz hp.2.1 hp.2.2]
    · rw [if_neg hp, if_neg hp, add_zero]

theorem apply3D_bwd_x_apply (D1D Q1D : Nat) (Bt : Vec R) (u : Uninit R)
    (sol : Nat × Nat × Nat → R) (qz qy : Nat) {dx : Nat} (hdx : dx < D1D) :
    apply3D_bwd_x D1D Q1D Bt u sol qz qy dx
      = ∑ qx ∈ range Q1D, Bt (Reshape2 D1D dx qx) * sol (qz, qy, qx) := by
  unfold apply3D_bwd_x
  simp only []
  rw [forLoop_additive_id
    (fun qx p => if p < D1D then Bt (Reshape2 D1D p qx) * sol (qz, qy, qx) else 0)]
  · rw [nest1_acts D1D (fun _ _ => (0 : R)), if_pos hdx, zero_add]
    exact Finset.sum_congr rfl (fun qx _ => if_pos hdx)
  · intro qx _ a p
    rw [nest1_acts D1D (fun dx r => r + Bt (Reshape2 D1D dx qx) * sol (qz, qy, qx))]
    by_cases hp : p < D1D <;> simp [hp]

theorem apply3D_bwd_xy_apply (D1D Q1D : Nat) (Bt : Vec R) (u : Uninit R)
    (sol : Nat × Nat × Nat → R) (qz : Nat) {dy dx : Nat} (hdy : dy < D1D) (hdx : dx < D1D) :
    apply3D_bwd_xy D1D Q1D Bt u sol qz (dy, dx)
      = ∑ qy ∈ range Q1D, Bt (Reshape2 D1D dy qy) *
          ∑ qx ∈ range Q1D, Bt (Reshape2 D1D dx qx) * sol (qz, qy, qx) := by
  unfold apply3D_bwd_xy
  simp only []
  rw [forLoop_additive_id
    (fun qy p => if p.1 < D1D ∧ p.2 < D1D then
      Bt (Reshape2 D1D p.1 qy) *
        ∑ qx ∈ range Q1D, Bt (Reshape2 D1D p.2 qx) * sol (qz, qy, qx) else 0)]
  · rw [nest2_acts D1D D1D (fun _ _ => (0 : R)), if_pos ⟨hdy, hdx⟩, zero_add]
    exact Finset.sum_congr rfl (fun qy _ => if_pos ⟨hdy, hdx⟩)
  · intro qy _ a p
    rw [nest2_acts D1D D1D
      (fun p r => r + Bt (Reshape2 D1D p.1 qy) * apply3D_bwd_x D1D Q1D Bt u sol qz qy p.2)]
    by_cases hp : p.1 < D1D ∧ p.2 < D1D
    · rw [if_pos hp, if_pos hp, apply3D_bwd_x_apply D1D Q1D Bt u sol qz qy hp.2]
    · rw [if_neg hp, if_neg hp, add_zero]

/-- The backward sweep adds to each cell of `y`; written with the sums in loop order. -/
theorem apply3D_backward_apply (D1D Q1D : Nat) (Bt : Vec R) (u : Uninit R) (e c : Nat)
    (sol : Nat × Nat × Nat → R) (y : Vec R) (p : Nat) :
    apply3D_backward D1D Q1D Bt u e c sol y p
      = y p + ∑ qz ∈ range Q1D, ∑ dz ∈ range D1D, ∑ dy ∈ range D1D, ∑ dx ∈ range D1D,
          if p = Reshape5 D1D D1D D1D 3 dx dy dz c e then
            Bt (Reshape2 D1D dz qz) *
              ∑ qy ∈ range Q1D, Bt (Reshape2 D1D dy qy) *
                ∑ qx ∈ range Q1D, Bt (Reshape2 D1D dx qx) * sol (qz, qy, qx)
          else 0 := by
  unfold apply3D_backward
  simp only []
  rw [forLoop_additive_id
    (fun qz p => ∑ dz ∈ range D1D, ∑ dy ∈ range D1D, ∑ dx ∈ range D1D,
      if p = Reshape5 D1D D1D D1D 3 dx dy dz c e then
        Bt (Reshape2 D1D dz qz) *
          ∑ qy ∈ range Q1D, Bt (Reshape2 D1D dy qy) *
            ∑ qx ∈ range Q1D, Bt (Reshape2 D1D dx qx) * sol (qz, qy, qx)
      else 0)]
  intro qz _ a p
  rw [forLoop_additive_id
    (fun dz p => ∑ dy ∈ range D1D, ∑ dx ∈ range D1D,
      if p = Reshape5 D1D D1D D1D 3 dx dy dz c e then
        Bt (Reshape2 D1D dz qz) *
          ∑ qy ∈ range Q1D, Bt (Reshape2 D1D dy qy) *
            ∑ qx ∈ range Q1D, Bt (Reshape2 D1D dx qx) * sol (qz, qy, qx)
      else 0)]
  intro dz _ a p
  rw [forLoop_additive_id
    (fun dy p => ∑ dx ∈ range D1D,
      if p = Reshape5 D1D D1D D1D 3 dx dy dz c e then
        Bt (Reshape2 D1D dz qz) * apply3D_bwd_xy D1D Q1D Bt u sol qz (dy, dx)
      else 0)]
  · congr 1
    refine Finset.sum_congr rfl (fun dy hdy => Finset.sum_congr rfl (fun dx hdx => ?_))
    rw [apply3D_bwd_xy_apply D1D Q1D Bt u sol qz (Finset.mem_range.mp hdy)
      (Finset.mem_range.mp hdx)]
  · intro dy _ a p
    rw [forLoop_additive_id
      (fun dx p => if p = Reshape5 D1D D1D D1D 3 dx dy dz c e then
          Bt (Reshape2 D1D dz qz) * apply3D_bwd_xy D1D Q1D Bt u sol qz (dy, dx)
        else 0)]
    intro dx _ a p
    exact store_add_apply a _ _ p

/-- One pass of the component loop adds `inc3D` to the cells of component `c` of
element `e`, whatever the local array held before. -/
theorem apply3D_component_fst (D1D Q1D : Nat) (B Bt op x : Vec R) (u : Uninit R) (e c : Nat)
    (st : Vec R × (Nat × Nat × Nat → R)) (p : Nat) :
    (apply3D_component D1D Q1D B Bt op x u e c st).1 p
      = st.1 p + ∑ dz ∈ range D1D, ∑ dy ∈ range D1D, ∑ dx ∈ range D1D,
          if p = Reshape5 D1D D1D D1D 3 dx dy dz c e
          then inc3D D1D Q1D B Bt op x e c dx dy dz else 0 := by
  unfold apply3D_component
  simp only []
  rw [apply3D_backward_apply]
  congr 1
  have hsol : ∀ qz ∈ range Q1D, ∀ qy ∈ range Q1D, ∀ qx ∈ range Q1D,
      apply3D_scale Q1D op e (apply3D_forward D1D Q1D B x u e c (apply3D_clear Q1D st.2))
          (qz, qy, qx)
        = fwd3D D1D Q1D B x e c qz qy qx * op (Reshape4 Q1D Q1D Q1D qx qy qz e) := by
    intro qz hqz qy hqy qx hqx
    have hq : qz < Q1D ∧ qy < Q1D ∧ qx < Q1D :=
      ⟨Finset.mem_range.mp hqz, Finset.mem_range.mp hqy, Finset.mem_range.mp hqx⟩
    rw [apply3D_scale_apply, apply3D_forward_apply, apply3D_clear_apply]
    simp only [hq, and_self, if_true, zero_add]
  calc (∑ qz ∈ range Q1D, ∑ dz ∈ range D1D, ∑ dy ∈ range D1D, ∑ dx ∈ range D1D,
          if p = Reshape5 D1D D1D D1D 3 dx dy dz c e then
            Bt (Reshape2 D1D dz qz) *
              ∑ qy ∈ range Q1D, Bt (Reshape2 D1D dy qy) *
                ∑ qx ∈ range Q1D, Bt (Reshape2 D1D dx qx) *
                  apply3D_scale Q1D op e
                    (apply3D_forward D1D Q1D B x u e c (apply3D_clear Q1D st.2)) (qz, qy, qx)
          else 0)
      = ∑ qz ∈ range Q1D, ∑ dz ∈ range D1D, ∑ dy ∈ range D1D, ∑ dx ∈ range D1D,
          if p = Reshape5 D1D D1D D1D 3 dx dy dz c e then
            Bt (Reshape2 D1D dz qz) *
              ∑ qy ∈ range Q1D, Bt (Reshape2 D1D dy qy) *
                ∑ qx ∈ range Q1D, Bt (Reshape2 D1D dx qx) *
                  (fwd3D D1D Q1D B x e c qz qy qx * op (Reshape4 Q1D Q1D Q1D qx qy qz e))
          else 0 := by
        refine Finset.sum_congr rfl (fun qz hqz => Finset.sum_congr rfl (fun dz _ =>
          Finset.sum_congr rfl (fun dy _ => Finset.sum_congr rfl (fun dx _ => ?_))))
        rw [Finset.sum_congr rfl (fun qy hqy => by
          rw [Finset.sum_congr rfl (fun qx hqx => by rw [hsol qz hqz qy hqy qx hqx])])]
    _ = ∑ dz ∈ range D1D, ∑ dy ∈ range D1D, ∑ dx ∈ range D1D, ∑ qz ∈ range Q1D,
          if p = Reshape5 D1D D1D D1D 3 dx dy dz c e then
            Bt (Reshape2 D1D dz qz) *
              ∑ qy ∈ range Q1D, Bt (Reshape2 D1D dy qy) *
                ∑ qx ∈ range Q1D, Bt (Reshape2 D1D dx qx) *
                  (fwd3D D1D Q1D B x e c qz qy qx * op (Reshape4 Q1D Q1D Q1D qx qy qz e))
          else 0 := sum_comm_13 _ _ _ _ _
    _ = _ := by
        refine Finset.sum_congr rfl (fun dz _ => Finset.sum_congr rfl (fun dy _ =>
          Finset.sum_congr rfl (fun dx _ => ?_)))
        rw [sum_ite_const]
        rfl

theorem apply3D_element_apply (D1D Q1D : Nat) (B Bt op x : Vec R) (u : Uninit R) (e : Nat)
    (y : Vec R) (p : Nat) :
    apply3D_element D1D Q1D B Bt op x u e y p = y p + elemInc3D D1D Q1D B Bt op x e p := by
  unfold apply3D_element elemInc3D
  exact forLoop_additive (fun st : Vec R × (Nat × Nat × Nat → R) => st.1)
    (fun c p => ∑ dz ∈ range D1D, ∑ dy ∈ range D1D, ∑ dx ∈ range D1D,
      if p = Reshape5 D1D D1D D1D 3 dx dy dz c e
      then inc3D D1D Q1D B Bt op x e c dx dy dz else 0)
    (fun c _ st p => apply3D_component_fst D1D Q1D B Bt op x u e c st p) (y, u.a3) p

theorem apply3D_loop_apply (D1D Q1D NE : Nat) (B Bt op x : Vec R) (u : Uninit R)
    (y : Vec R) (p : Nat) :
    forLoop NE (fun e y => apply3D_element D1D Q1D B Bt op x u e y) y p
      = y p + applyInc3D D1D Q1D NE B Bt op x p := by
  unfold applyInc3D
  exact forLoop_additive_id (fun e p => elemInc3D D1D Q1D B Bt op x e p)
    (fun e _ a p => apply3D_element_apply D1D Q1D B Bt op x u e a p) y p

/-- Within the limits `PAVectorMassApply3D` returns `y` plus the increment. -/
theorem PAVectorMassApply3D_ok (T_D1D T_Q1D : Nat) (lim : DofQuadLimits) (u : Uninit R)
    (NE : Nat) (B Bt op x y : Vec R) (d1d q1d : Nat)
    (hD : tsize T_D1D d1d ≤ lim.MAX_D1D) (hQ : tsize T_Q1D q1d ≤ lim.MAX_Q1D) :
    PAVectorMassApply3D T_D1D T_Q1D lim u NE B Bt op x y d1d q1d
      = Except.ok (fun p => y p
          + applyInc3D (tsize T_D1D d1d) (tsize T_Q1D q1d) NE B Bt op x p) := by
  unfold PAVectorMassApply3D
  simp only [hD, hQ, not_true_eq_false, if_false]
  congr 1
  funext p
  exact apply3D_loop_apply _ _ NE B Bt op x u y p

/-- The increment at the cell of an in-range dof is `inc3D` at that dof. -/
theorem applyInc3D_at (D1D Q1D NE : Nat) (B Bt op x : Vec R) {e c dx dy dz : Nat}
    (he : e < NE) (hc : c < 3) (hdx : dx < D1D) (hdy : dy < D1D) (hdz : dz < D1D) :
    applyInc3D D1D Q1D NE B Bt op x (Reshape5 D1D D1D D1D 3 dx dy dz c e)
      = inc3D D1D Q1D B Bt op x e c dx dy dz := by
  unfold applyInc3D elemInc3D
  have key : ∀ e' ∈ range NE, ∀ c' ∈ range 3, ∀ dz' ∈ range D1D, ∀ dy' ∈ range D1D,
      ∀ dx' ∈ range D1D,
      (if Reshape5 D1D D1D D1D 3 dx dy dz c e = Reshape5 D1D D1D D1D 3 dx' dy' dz' c' e'
        then inc3D D1D Q1D B Bt op x e' c' dx' dy' dz' else 0)
      = if dx = dx' ∧ (dy = dy' ∧ (dz = dz' ∧ (c = c' ∧ e = e')))
        then inc3D D1D Q1D B Bt op x e' c' dx' dy' dz' else 0 := by
    intro e' _ c' hc' dz' hdz' dy' hdy' dx' hdx'
    exact if_congr (Reshape5_eq_iff hdx (Finset.mem_range.mp hdx') hdy
      (Finset.mem_range.mp hdy') hdz (Finset.mem_range.mp hdz') hc
      (Finset.mem_range.mp hc')) rfl rfl
  rw [Finset.sum_congr rfl (fun e' he' => Finset.sum_congr rfl (fun c' hc' =>
    Finset.sum_congr rfl (fun dz' hdz' => Finset.sum_congr rfl (fun dy' hdy' =>
      Finset.sum_congr rfl (fun dx' hdx' => key e' he' c' hc' dz' hdz' dy' hdy' dx' hdx')))))]
  simp only [sum_range_ite_eq_and, sum_range_ite_eq_one, hdx, hdy, hdz, hc, he, true_and,
    if_true]

/-- With `Bt` the transpose of `B`, the increment is the action of the assembled
elemental mass matrix. -/
theorem inc3D_eq_massAction3D (D1D Q1D : Nat) (B Bt op x : Vec R)
    (hBt : ∀ d q, d < D1D → q < Q1D → Bt (Reshape2 D1D d q) = B (Reshape2 Q1D q d))
    (e c : Nat) {dx dy dz : Nat} (hdx : dx < D1D) (hdy : dy < D1D) (hdz : dz < D1D) :
    inc3D D1D Q1D B Bt op x e c dx dy dz = massAction3D D1D Q1D B op x e c dx dy dz := by
  unfold inc3D massAction3D elemMass3D fwd3D shape3D
  rw [Finset.sum_congr rfl (fun qz hqz => by
    rw [hBt dz qz hdz (Finset.mem_range.mp hqz),
      Finset.sum_congr rfl (fun qy hqy => by
        rw [hBt dy qy hdy (Finset.mem_range.mp hqy),
          Finset.sum_congr rfl (fun qx hqx => by
            rw [hBt dx qx hdx (Finset.mem_range.mp hqx)])])])]
  simp only [Finset.mul_sum, Finset.sum_mul]
  rw [sum_comm_33]
  refine Finset.sum_congr rfl (fun dz' _ => Finset.sum_congr rfl (fun dy' _ =>
    Finset.sum_congr rfl (fun dx' _ => Finset.sum_congr rfl (fun qz _ =>
      Finset.sum_congr rfl (fun qy _ => Finset.sum_congr rfl (fun qx _ => ?_))))))
  ring

end Apply3DLemmas

section DiagLemmas

variable {R : Type} [CommRing R]

/-- Clearing a cell and then accumulating into it assigns the sum to it. -/
theorem clear_accumulate {ι : Type} [DecidableEq ι] (n : Nat) (k : ι) (t : Nat → R)
    (a : ι → R) :
    forLoop n (fun i a => store a k (a k + t i)) (store a k 0)
      = store a k (∑ i ∈ range n, t i) := by
  funext p
  rw [forLoop_additive_id (fun i p => if p = k then t i else 0)
    (fun i _ a p => store_add_apply a k (t i) p)]
  by_cases hp : p = k
  · subst hp; simp [store_apply]
  · simp [store_apply, hp]

theorem diag2D_temp_apply (D1D Q1D : Nat) (B op : Vec R) (u : Uninit R) (e : Nat)
    {qx dy : Nat} (hqx : qx < Q1D) (hdy : dy < D1D) :
    diag2D_temp D1D Q1D B op u e (qx, dy)
      = ∑ qy ∈ range Q1D,
          B (Reshape2 Q1D qy dy) * B (Reshape2 Q1D qy dy) * op (Reshape3 Q1D Q1D qx qy e) := by
  unfold diag2D_temp
  simp only [clear_accumulate]
  exact (nest2_acts Q1D D1D
    (fun p _ => ∑ qy ∈ range Q1D,
      B (Reshape2 Q1D qy p.2) * B (Reshape2 Q1D qy p.2) * op (Reshape3 Q1D Q1D p.1 qy e))
    u.a2 (qx, dy)).trans (if_pos ⟨hqx, hdy⟩)

theorem diag2D_temp1_eq (D1D Q1D : Nat) (B op : Vec R) (u : Uninit R) (e : Nat)
    {dy : Nat} (hdy : dy < D1D) (dx : Nat) :
    diag2D_temp1 Q1D B (diag2D_temp D1D Q1D B op u e) dy dx = diagVal2D Q1D B op e dx dy := by
  unfold diag2D_temp1 diagVal2D
  rw [forLoop_sum, zero_add]
  refine Finset.sum_congr rfl (fun qx hqx => ?_)
  rw [diag2D_temp_apply D1D Q1D B op u e (Finset.mem_range.mp hqx) hdy]

/-- The two stores of one dof: both cells receive the diagonal value, no other cell
changes. -/
theorem diag2D_stores (D1D Q1D NE : Nat) (B op : Vec R) (e : Nat) {dy dx : Nat}
    (hdy : dy < D1D) (hdx : dx < D1D) (a : Vec R) (p : Nat) :
    ((p = Reshape4 D1D D1D 2 dx dy 0 e ∨ p = Reshape4 D1D D1D 2 dx dy 1 e) →
      DiagPost2D D1D Q1D NE B op p
        (store (store a (Reshape4 D1D D1D 2 dx dy 0 e) (diagVal2D Q1D B op e dx dy))
          (Reshape4 D1D D1D 2 dx dy 1 e) (diagVal2D Q1D B op e dx dy) p)) ∧
    ((¬ (p = Reshape4 D1D D1D 2 dx dy 0 e ∨ p = Reshape4 D1D D1D 2 dx dy 1 e)) →
      store (store a (Reshape4 D1D D1D 2 dx dy 0 e) (diagVal2D Q1D B op e dx dy))
          (Reshape4 D1D D1D 2 dx dy 1 e) (diagVal2D Q1D B op e dx dy) p = a p) := by
  constructor
  · intro hp
    have hval : store (store a (Reshape4 D1D D1D 2 dx dy 0 e) (diagVal2D Q1D B op e dx dy))
          (Reshape4 D1D D1D 2 dx dy 1 e) (diagVal2D Q1D B op e dx dy) p
        = diagVal2D Q1D B op e dx dy := by
      rcases hp with hp | hp
      · simp only [store_apply, hp, if_true, ite_self]
      · simp only [store_apply, hp, if_true]
    rw [hval]
    intro e' c' dx' dy' _ hc' hdx' hdy' hp'
    have hidx : ∃ c, c < 2 ∧ Reshape4 D1D D1D 2 dx dy c e = Reshape4 D1D D1D 2 dx' dy' c' e' := by
      rcases hp with hp | hp
      · exact ⟨0, by decide, hp.symm.trans hp'⟩
      · exact ⟨1, by decide, hp.symm.trans hp'⟩
    obtain ⟨c, hc, hcc⟩ := hidx
    obtain ⟨h1, h2, _, h4⟩ := (Reshape4_eq_iff hdx hdx' hdy hdy' hc hc').mp hcc
    rw [h1, h2, h4]
  · intro hp
    rw [not_or] at hp
    rw [store_other _ _ hp.2, store_other _ _ hp.1]

/-- The diagonal kernel in 2D: the cells it assigns hold the diagonal value, the others
are untouched. -/
theorem diag2D_loop_spec (D1D Q1D NE : Nat) (B op : Vec R) (u : Uninit R) (y : Vec R)
    (p : Nat) :
    (diagCells2D D1D NE p → DiagPost2D D1D Q1D NE B op p
      (forLoop NE (fun e y => diag2D_element D1D Q1D B op u e y) y p)) ∧
    (¬ diagCells2D D1D NE p →
      forLoop NE (fun e y => diag2D_element D1D Q1D B op u e y) y p = y p) := by
  unfold diagCells2D
  refine forLoop_writes
    (fun e p => ∃ dy, dy < D1D ∧ ∃ dx, dx < D1D ∧
      (p = Reshape4 D1D D1D 2 dx dy 0 e ∨ p = Reshape4 D1D D1D 2 dx dy 1 e))
    (DiagPost2D D1D Q1D NE B op) ?_ y p
  intro e _ a p
  unfold diag2D_element
  simp only []
  refine forLoop_writes
    (fun dy p => ∃ dx, dx < D1D ∧
      (p = Reshape4 D1D D1D 2 dx dy 0 e ∨ p = Reshape4 D1D D1D 2 dx dy 1 e))
    (DiagPost2D D1D Q1D NE B op) ?_ a p
  intro dy hdy a p
  refine forLoop_writes
    (fun dx p => p = Reshape4 D1D D1D 2 dx dy 0 e ∨ p = Reshape4 D1D D1D 2 dx dy 1 e)
    (DiagPost2D D1D Q1D NE B op) ?_ a p
  intro dx hdx a p
  simp only [diag2D_temp1_eq D1D Q1D B op u e hdy dx]
  exact diag2D_stores D1D Q1D NE B op e hdy hdx a p

/-- The value in the cell of an in-range dof after the 2D diagonal kernel. -/
theorem diag2D_loop_at (D1D Q1D NE : Nat) (B op : Vec R) (u : Uninit R) (y : Vec R)
    {e c dx dy : Nat} (he : e < NE) (hc : c < 2) (hdx : dx < D1D) (hdy : dy < D1D) :
    forLoop NE (fun e y => diag2D_element D1D Q1D B op u e y) y (Reshape4 D1D D1D 2 dx dy c e)
      = diagVal2D Q1D B op e dx dy := by
  have hcell : diagCells2D D1D NE (Reshape4 D1D D1D 2 dx dy c e) := by
    refine ⟨e, he, dy, hdy, dx, hdx, ?_⟩
    rcases Nat.lt_succ_iff_lt_or_eq.mp hc with h | h
    · left; rw [Nat.lt_one_iff.mp h]
    · right; rw [h]
  exact (diag2D_loop_spec D1D Q1D NE B op u y _).1 hcell e c dx dy he hc hdx hdy rfl

/-- Within the limits `PAVectorMassAssembleDiagonal2D` returns the result of its loop. -/
theorem PAVectorMassAssembleDiagonal2D_ok (T_D1D T_Q1D : Nat) (lim : DofQuadLimits)
    (u : Uninit R) (NE : Nat) (B Bt op diag : Vec R) (d1d q1d : Nat)
    (hD : tsize T_D1D d1d ≤ lim.MAX_D1D) (hQ : tsize T_Q1D q1d ≤ lim.MAX_Q1D) :
    PAVectorMassAssembleDiagonal2D T_D1D T_Q1D lim u NE B Bt op diag d1d q1d
      = Except.ok (forLoop NE
          (fun e y => diag2D_element (tsize T_D1D d1d) (tsize T_Q1D q1d) B op u e y) diag) := by
  unfold PAVectorMassAssembleDiagonal2D
  simp only [hD, hQ, not_true_eq_false, if_false]

theorem diag3D_temp_apply (D1D Q1D : Nat) (B op : Vec R) (u : Uninit R) (e : Nat)
    {qx qy dz : Nat} (hqx : qx < Q1D) (hqy : qy < Q1D) (hdz : dz < D1D) :
    diag3D_temp D1D Q1D B op u e (qx, qy, dz)
      = ∑ qz ∈ range Q1D,
          B (Reshape2 Q1D qz dz) * B (Reshape2 Q1D qz dz)
            * op (Reshape4 Q1D Q1D Q1D qx qy qz e) := by
  unfold diag3D_temp
  simp only [clear_accumulate]
  exact (nest3_acts Q1D Q1D D1D
    (fun p _ => ∑ qz ∈ range Q1D,
      B (Reshape2 Q1D qz p.2.2) * B (Reshape2 Q1D qz p.2.2)
        * op (Reshape4 Q1D Q1D Q1D p.1 p.2.1 qz e))
    u.a3 (qx, qy, dz)).trans (if_pos ⟨hqx, hqy, hdz⟩)

theorem diag3D_temp2_apply (D1D Q1D : Nat) (B : Vec R) (u : Uninit R)
    (temp : Nat × Nat × Nat → R) {qx dy dz : Nat} (hqx : qx < Q1D) (hdy : dy < D1D)
    (hdz : dz < D1D) :
    diag3D_temp2 D1D Q1D B u temp (qx, dy, dz)
      = ∑ qy ∈ range Q1D,
          B (Reshape2 Q1D qy dy) * B (Reshape2 Q1D qy dy) * temp (qx, qy, dz) := by
  unfold diag3D_temp2
  simp only [clear_accumulate]
  have h := nest3_acts Q1D D1D D1D
    (fun p _ => ∑ qy ∈ range Q1D,
      B (Reshape2 Q1D qy p.2.2) * B (Reshape2 Q1D qy p.2.2) * temp (p.1, qy, p.2.1))
    (fun p : Nat × Nat × Nat => u.a3 (p.1, p.2.2, p.2.1)) (qx, dz, dy)
  rw [if_pos ⟨hqx, hdz, hdy⟩] at h
  rw [← h]
  clear h
  have swap : ∀ (n1 n2 n3 : Nat) (v : Nat × Nat × Nat → R) (a : Nat × Nat × Nat → R)
      (i j k : Nat),
      forLoop n1 (fun qx a => forLoop n2 (fun dz a => forLoop n3 (fun dy a =>
          store a (qx, dy, dz) (v (qx, dz, dy))) a) a) a (i, j, k)
        = forLoop n1 (fun qx a => forLoop n2 (fun dz a => forLoop n3 (fun dy a =>
          store a (qx, dz, dy) (v (qx, dz, dy))) a) a)
            (fun p : Nat × Nat × Nat => a (p.1, p.2.2, p.2.1)) (i, k, j) := by
    intro n1 n2 n3 v a i j k
    have hgen : ∀ (m : Nat) (F G : Nat → (Nat × Nat × Nat → R) → (Nat × Nat × Nat → R)),
        (∀ t a i j k, F t a (i, j, k)
          = G t (fun p : Nat × Nat × Nat => a (p.1, p.2.2, p.2.1)) (i, k, j)) →
        ∀ a i j k, forLoop m F a (i, j, k)
          = forLoop m G (fun p : Nat × Nat × Nat => a (p.1, p.2.2, p.2.1)) (i, k, j) := by
      intro m F G hFG
      induction m with
      | zero => intro a i j k; rfl
      | succ m ih =>
        intro a i j k
        rw [forLoop_succ, forLoop_succ, hFG]
        congr 1
        funext p
        exact ih a p.1 p.2.2 p.2.1
    refine hgen n1 _ _ (fun qx => hgen n2 _ _ (fun dz => hgen n3 _ _ (fun dy a i j k => ?_))) a i j k
    simp only [store_apply, Prod.mk.injEq]
    by_cases h1 : i = qx <;> by_cases h2 : j = dy <;> by_cases h3 : k = dz <;> simp [h1, h2, h3]
  exact swap Q1D D1D D1D
    (fun p => ∑ qy ∈ range Q1D,
      B (Reshape2 Q1D qy p.2.2) * B (Reshape2 Q1D qy p.2.2) * temp (p.1, qy, p.2.1))
    u.a3 qx dy dz

theorem diag3D_temp3_eq (D1D Q1D : Nat) (B op : Vec R) (u : Uninit R) (e : Nat)
    {dz dy : Nat} (hdz : dz < D1D) (hdy : dy < D1D) (dx : Nat) :
    diag3D_temp3 Q1D B (diag3D_temp2 D1D Q1D B u (diag3D_temp D1D Q1D B op u e)) dz dy dx
      = diagVal3D Q1D B op e dx dy dz := by
  unfold diag3D_temp3 diagVal3D
  rw [forLoop_sum, zero_add]
  refine Finset.sum_congr rfl (fun qx hqx => ?_)
  rw [diag3D_temp2_apply D1D Q1D B u _ (Finset.mem_range.mp hqx) hdy hdz]
  congr 1
  refine Finset.sum_congr rfl (fun qy hqy => ?_)
  rw [diag3D_temp_apply D1D Q1D B op u e (Finset.mem_range.mp hqx) (Finset.mem_range.mp hqy)
    hdz]

/-- The three stores of one dof: the three cells receive the diagonal value, no other
cell changes. -/
theorem diag3D_stores (D1D Q1D NE : Nat) (B op : Vec R) (e : Nat) {dz dy dx : Nat}
    (hdz : dz < D1D) (hdy : dy < D1D) (hdx : dx < D1D) (a : Vec R) (p : Nat) :
    ((p = Reshape5 D1D D1D D1D 3 dx dy dz 0 e ∨ p = Reshape5 D1D D1D D1D 3 dx dy dz 1 e
        ∨ p = Reshape5 D1D D1D D1D 3 dx dy dz 2 e) →
      DiagPost3D D1D Q1D NE B op p
        (store (store (store a (Reshape5 D1D D1D D1D 3 dx dy dz 0 e)
            (diagVal3D Q1D B op e dx dy dz))
          (Reshape5 D1D D1D D1D 3 dx dy dz 1 e) (diagVal3D Q1D B op e dx dy dz))
          (Reshape5 D1D D1D D1D 3 dx dy dz 2 e) (diagVal3D Q1D B op e dx dy dz) p)) ∧
    ((¬ (p = Reshape5 D1D D1D D1D 3 dx dy dz 0 e ∨ p = Reshape5 D1D D1D D1D 3 dx dy dz 1 e
        ∨ p = Reshape5 D1D D1D D1D 3 dx dy dz 2 e)) →
      store (store (store a (Reshape5 D1D D1D D1D 3 dx dy dz 0 e)
            (diagVal3D Q1D B op e dx dy dz))
          (Reshape5 D1D D1D D1D 3 dx dy dz 1 e) (diagVal3D Q1D B op e dx dy dz))
          (Reshape5 D1D D1D D1D 3 dx dy dz 2 e) (diagVal3D Q1D B op e dx dy dz) p = a p) := by
  constructor
  · intro hp
    have hval : store (store (store a (Reshape5 D1D D1D D1D 3 dx dy dz 0 e)
            (diagVal3D Q1D B op e dx dy dz))
          (Reshape5 D1D D1D D1D 3 dx dy dz 1 e) (diagVal3D Q1D B op e dx dy dz))
          (Reshape5 D1D D1D D1D 3 dx dy dz 2 e) (diagVal3D Q1D B op e dx dy dz) p
        = diagVal3D Q1D B op e dx dy dz := by
      rcases hp with hp | hp | hp
      · simp only [store_apply, hp, if_true, ite_self]
      · simp only [store_apply, hp, if_true, ite_self]
      · simp only [store_apply, hp, if_true]
    rw [hval]
    intro e' c' dx' dy' dz' _ hc' hdx' hdy' hdz' hp'
    have hidx : ∃ c, c < 3 ∧ Reshape5 D1D D1D D1D 3 dx dy dz c e
        = Reshape5 D1D D1D D1D 3 dx' dy' dz' c' e' := by
      rcases hp with hp | hp | hp
      · exact ⟨0, by decide, hp.symm.trans hp'⟩
      · exact ⟨1, by decide, hp.symm.trans hp'⟩
      · exact ⟨2, by decide, hp.symm.trans hp'⟩
    obtain ⟨c, hc, hcc⟩ := hidx
    obtain ⟨h1, h2, h3, _, h5⟩ := (Reshape5_eq_iff hdx hdx' hdy hdy' hdz hdz' hc hc').mp hcc
    rw [h1, h2, h3, h5]
  · intro hp
    rw [not_or, not_or] at hp
    rw [store_other _ _ hp.2.2, store_other _ _ hp.2.1, store_other _ _ hp.1]

/-- The diagonal kernel in 3D: the cells it assigns hold the diagonal value, the others
are untouched. -/
theorem diag3D_loop_spec (D1D Q1D NE : Nat) (B op : Vec R) (u : Uninit R) (y : Vec R)
    (p : Nat) :
    (diagCells3D D1D NE p → DiagPost3D D1D Q1D NE B op p
      (forLoop NE (fun e y => diag3D_element D1D Q1D B op u e y) y p)) ∧
    (¬ diagCells3D D1D NE p →
      forLoop NE (fun e y => diag3D_element D1D Q1D B op u e y) y p = y p) := by
  unfold diagCells3D
  refine forLoop_writes
    (fun e p => ∃ dz, dz < D1D ∧ ∃ dy, dy < D1D ∧ ∃ dx, dx < D1D ∧
      (p = Reshape5 D1D D1D D1D 3 dx dy dz 0 e ∨ p = Reshape5 D1D D1D D1D 3 dx dy dz 1 e
        ∨ p = Reshape5 D1D D1D D1D 3 dx dy dz 2 e))
    (DiagPost3D D1D Q1D NE B op) ?_ y p
  intro e _ a p
  unfold diag3D_element
  simp only []
  refine forLoop_writes
    (fun dz p => ∃ dy, dy < D1D ∧ ∃ dx, dx < D1D ∧
      (p = Reshape5 D1D D1D D1D 3 dx dy dz 0 e ∨ p = Reshape5 D1D D1D D1D 3 dx dy dz 1 e
        ∨ p = Reshape5 D1D D1D D1D 3 dx dy dz 2 e))
    (DiagPost3D D1D Q1D NE B op) ?_ a p
  intro dz hdz a p
  refine forLoop_writes
    (fun dy p => ∃ dx, dx < D1D ∧
      (p = Reshape5 D1D D1D D1D 3 dx dy dz 0 e ∨ p = Reshape5 D1D D1D D1D 3 dx dy dz 1 e
        ∨ p = Reshape5 D1D D1D D1D 3 dx dy dz 2 e))
    (DiagPost3D D1D Q1D NE B op) ?_ a p
  intro dy hdy a p
  refine forLoop_writes
    (fun dx p => p = Reshape5 D1D D1D D1D 3 dx dy dz 0 e
      ∨ p = Reshape5 D1D D1D D1D 3 dx dy dz 1 e ∨ p = Reshape5 D1D D1D D1D 3 dx dy dz 2 e)
    (DiagPost3D D1D Q1D NE B op) ?_ a p
  intro dx hdx a p
  simp only [diag3D_temp3_eq D1D Q1D B op u e hdz hdy dx]
  exact diag3D_stores D1D Q1D NE B op e hdz hdy hdx a p

/-- The value in the cell of an in-range dof after the 3D diagonal kernel. -/
theorem diag3D_loop_at (D1D Q1D NE : Nat) (B op : Vec R) (u : Uninit R) (y : Vec R)
    {e c dx dy dz : Nat} (he : e < NE) (hc : c < 3) (hdx : dx < D1D) (hdy : dy < D1D)
    (hdz : dz < D1D) :
    forLoop NE (fun e y => diag3D_element D1D Q1D B op u e y) y
        (Reshape5 D1D D1D D1D 3 dx dy dz c e)
      = diagVal3D Q1D B op e dx dy dz := by
  have hcell : diagCells3D D1D NE (Reshape5 D1D D1D D1D 3 dx dy dz c e) := by
    refine ⟨e, he, dz, hdz, dy, hdy, dx, hdx, ?_⟩
    have : c = 0 ∨ c = 1 ∨ c = 2 := by omega
    rcases this with h | h | h
    · left; rw [h]
    · right; left; rw [h]
    · right; right; rw [h]
  exact (diag3D_loop_spec D1D Q1D NE B op u y _).1 hcell e c dx dy dz he hc hdx hdy hdz rfl

/-- Within the limits `PAVectorMassAssembleDiagonal3D` returns the result of its loop. -/
theorem PAVectorMassAssembleDiagonal3D_ok (T_D1D T_Q1D : Nat) (lim : DofQuadLimits)
    (u : Uninit R) (NE : Nat) (B Bt op diag : Vec R) (d1d q1d : Nat)
    (hD : tsize T_D1D d1d ≤ lim.MAX_D1D) (hQ : tsize T_Q1D q1d ≤ lim.MAX_Q1D) :
    PAVectorMassAssembleDiagonal3D T_D1D T_Q1D lim u NE B Bt op diag d1d q1d
      = Except.ok (forLoop NE
          (fun e y => diag3D_element (tsize T_D1D d1d) (tsize T_Q1D q1d) B op u e y) diag) := by
  unfold PAVectorMassAssembleDiagonal3D
  simp only [hD, hQ, not_true_eq_false, if_false]

end DiagLemmas

section AssemblePALemmas

variable {R : Type} [CommRing R]

/-- A loop nest that stores `val q e` at the cell `(q,e)` of a `Reshape(NQ, NE)` view. -/
theorem assemble_loop_spec (NQ NE : Nat) (w : Vec R) (coeff : R) (det : Nat → Nat → R)
    (v : Vec R) (p : Nat) :
    (paCells NQ NE p → PAPost NQ NE w coeff det p
      (forLoop NE (fun e v => forLoop NQ (fun q v =>
        store v (Reshape2 NQ q e) (w q * coeff * det q e)) v) v p)) ∧
    (¬ paCells NQ NE p →
      forLoop NE (fun e v => forLoop NQ (fun q v =>
        store v (Reshape2 NQ q e) (w q * coeff * det q e)) v) v p = v p) := by
  unfold paCells
  refine forLoop_writes (fun e p => ∃ q, q < NQ ∧ p = Reshape2 NQ q e)
    (PAPost NQ NE w coeff det) ?_ v p
  intro e _ a p
  refine forLoop_writes (fun q p => p = Reshape2 NQ q e) (PAPost NQ NE w coeff det) ?_ a p
  intro q hq a p
  constructor
  · intro hp
    rw [hp, store_same]
    intro e' q' _ hq' hp'
    obtain ⟨h1, h2⟩ := (Reshape2_eq_iff hq hq').mp hp'
    rw [h1, h2]
  · intro hp
    exact store_other _ _ hp

theorem AssemblePA_element2D_eq (NQ : Nat) (w J : Vec R) (coeff : R) (e : Nat) (v : Vec R) :
    AssemblePA_element2D NQ w J coeff e v
      = forLoop NQ (fun q v => store v (Reshape2 NQ q e) (w q * coeff * detJ2D NQ J q e)) v :=
  rfl

theorem AssemblePA_element3D_eq (NQ : Nat) (W J : Vec R) (coeff : R) (e : Nat) (v : Vec R) :
    AssemblePA_element3D NQ W J coeff e v
      = forLoop NQ (fun q v => store v (Reshape2 NQ q e) (W q * coeff * detJ3D NQ J q e)) v :=
  rfl

/-- In dimension 2 the kernels leave `w[q] * coeff * detJ2D` at `(q,e)`. -/
theorem AssemblePA_kernels_two (NE NQ : Nat) (w J : Vec R) (coeff : R) (pa : Vec R)
    {e q : Nat} (he : e < NE) (hq : q < NQ) :
    AssemblePA_kernels 2 NE NQ w J coeff pa (Reshape2 NQ q e)
      = w q * coeff * detJ2D NQ J q e := by
  unfold AssemblePA_kernels
  simp only [if_true, show ¬ (2 = 3) by decide, if_false, AssemblePA_element2D_eq]
  exact (assemble_loop_spec NQ NE w coeff (detJ2D NQ J) pa _).1 ⟨e, he, q, hq, rfl⟩ e q he hq rfl

/-- In dimension 3 the kernels leave `W[q] * coeff * detJ3D` at `(q,e)`. -/
theorem AssemblePA_kernels_three (NE NQ : Nat) (w J : Vec R) (coeff : R) (pa : Vec R)
    {e q : Nat} (he : e < NE) (hq : q < NQ) :
    AssemblePA_kernels 3 NE NQ w J coeff pa (Reshape2 NQ q e)
      = w q * coeff * detJ3D NQ J q e := by
  unfold AssemblePA_kernels
  simp only [if_true, show ¬ (3 = 2) by decide, if_false, AssemblePA_element3D_eq]
  exact (assemble_loop_spec NQ NE w coeff (detJ3D NQ J) pa _).1 ⟨e, he, q, hq, rfl⟩ e q he hq rfl

/-- On the native path, with a usable coefficient and dimension 2 or 3, `AssemblePA`
succeeds and returns the integrator with the new sizes and operator data. -/
theorem AssemblePA_native (env : PASetup R) (self : VectorMassIntegrator R) (coeff : R)
    (hceed : env.DeviceCanUseCeed = false) (hco : AssemblePA_coeff self.Q = Except.ok coeff)
    (hdim : env.Dimension = 2 ∨ env.Dimension = 3) :
    AssemblePA env self = Except.ok
      { Q := self.Q, ceedOp := self.ceedOp, dim := env.Dimension, ne := env.GetNE,
        nq := env.GetNPoints, dofs1D := env.ndof, quad1D := env.nqpt,
        pa_data := AssemblePA_kernels env.Dimension env.GetNE env.GetNPoints env.GetWeights
          env.J coeff self.pa_data,
        pa_size := env.GetNE * env.GetNPoints } := by
  unfold AssemblePA
  simp only [hceed, Bool.false_eq_true, if_false, hco, hdim, not_true_eq_false]

theorem detJ2D_eq_det (NQ : Nat) (J : Vec R) (q e : Nat) :
    detJ2D NQ J q e = (jacobian2 NQ J q e).det := by
  unfold detJ2D jacobian2
  rw [Matrix.det_fin_two]
  simp only [Matrix.of_apply, Fin.val_zero, Fin.val_one]

theorem detJ3D_eq_det (NQ : Nat) (J : Vec R) (q e : Nat) :
    detJ3D NQ J q e = (jacobian3 NQ J q e).det := by
  unfold detJ3D jacobian3
  rw [Matrix.det_fin_three]
  simp only [Matrix.of_apply, Fin.val_zero, Fin.val_one, Fin.val_two]
  ring

end AssemblePALemmas

section EnergyLemmas

variable {R : Type} [CommRing R]

theorem dot_vdofs2D (D1D NE : Nat) (a b : Vec R) :
    dot (vdofs2D D1D NE) a b
      = ∑ e ∈ range NE, ∑ c ∈ range 2, ∑ dy ∈ range D1D, ∑ dx ∈ range D1D,
          a (Reshape4 D1D D1D 2 dx dy c e) * b (Reshape4 D1D D1D 2 dx dy c e) := by
  unfold dot vdofs2D
  rw [sum_range_mul_eq, sum_range_mul_eq, sum_range_mul_eq]
  rfl

theorem dot_vdofs3D (D1D NE : Nat) (a b : Vec R) :
    dot (vdofs3D D1D NE) a b
      = ∑ e ∈ range NE, ∑ c ∈ range 3, ∑ dz ∈ range D1D, ∑ dy ∈ range D1D, ∑ dx ∈ range D1D,
          a (Reshape5 D1D D1D D1D 3 dx dy dz c e) * b (Reshape5 D1D D1D D1D 3 dx dy dz c e) := by
  unfold dot vdofs3D
  rw [sum_range_mul_eq, sum_range_mul_eq, sum_range_mul_eq, sum_range_mul_eq]
  rfl

/-- The heart of symmetry: pairing `x` with the backward sweep of a quadrature field
`F` is pairing the forward sweep of `x` with `F`. -/
theorem pairing2D (D1D Q1D : Nat) (b : Nat → Nat → R) (xv : Nat → Nat → R)
    (F w : Nat → Nat → R) :
    (∑ dy ∈ range D1D, ∑ dx ∈ range D1D, xv dx dy *
        ∑ qy ∈ range Q1D, b qy dy * ∑ qx ∈ range Q1D, b qx dx * (F qy qx * w qx qy))
      = ∑ qy ∈ range Q1D, ∑ qx ∈ range Q1D,
          w qx qy * (∑ dy ∈ range D1D, b qy dy * ∑ dx ∈ range D1D, b qx dx * xv dx dy)
            * F qy qx := by
  simp only [Finset.mul_sum, Finset.sum_mul]
  rw [sum_comm_22]
  refine Finset.sum_congr rfl (fun qy _ => Finset.sum_congr rfl (fun qx _ =>
    Finset.sum_congr rfl (fun dy _ => Finset.sum_congr rfl (fun dx _ => ?_))))
  ring

theorem pairing3D (D1D Q1D : Nat) (b : Nat → Nat → R) (xv : Nat → Nat → Nat → R)
    (F w : Nat → Nat → Nat → R) :
    (∑ dz ∈ range D1D, ∑ dy ∈ range D1D, ∑ dx ∈ range D1D, xv dx dy dz *
        ∑ qz ∈ range Q1D, b qz dz * ∑ qy ∈ range Q1D, b qy dy *
          ∑ qx ∈ range Q1D, b qx dx * (F qz qy qx * w qx qy qz))
      = ∑ qz ∈ range Q1D, ∑ qy ∈ range Q1D, ∑ qx ∈ range Q1D,
          w qx qy qz * (∑ dz ∈ range D1D, b qz dz * ∑ dy ∈ range D1D, b qy dy *
            ∑ dx ∈ range D1D, b qx dx * xv dx dy dz) * F qz qy qx := by
  simp only [Finset.mul_sum, Finset.sum_mul]
  rw [sum_comm_33]
  refine Finset.sum_congr rfl (fun qz _ => Finset.sum_congr rfl (fun qy _ =>
    Finset.sum_congr rfl (fun qx _ => Finset.sum_congr rfl (fun dz _ =>
      Finset.sum_congr rfl (fun dy _ => Finset.sum_congr rfl (fun dx _ => ?_))))))
  ring

/-- With `Bt` the transpose of `B` and a zeroed output, `x . Apply(y)` is the weighted
L2 product of the quadrature-point values of `x` and `y` (2D). -/
theorem dot_apply2D (D1D Q1D NE : Nat) (B Bt op x y : Vec R)
    (hBt : ∀ d q, d < D1D → q < Q1D → Bt (Reshape2 D1D d q) = B (Reshape2 Q1D q d)) :
    dot (vdofs2D D1D NE) x (fun p => zeroVec p + applyInc2D D1D Q1D NE B Bt op y p)
      = energy2D D1D Q1D NE B op x y := by
  rw [dot_vdofs2D]
  unfold energy2D
  refine Finset.sum_congr rfl (fun e he => Finset.sum_congr rfl (fun c hc => ?_))
  have he' := Finset.mem_range.mp he
  have hc' := Finset.mem_range.mp hc
  have hinc : ∀ dy ∈ range D1D, ∀ dx ∈ range D1D,
      x (Reshape4 D1D D1D 2 dx dy c e)
          * (zeroVec (Reshape4 D1D D1D 2 dx dy c e)
              + applyInc2D D1D Q1D NE B Bt op y (Reshape4 D1D D1D 2 dx dy c e))
        = x (Reshape4 D1D D1D 2 dx dy c e) *
            ∑ qy ∈ range Q1D, B (Reshape2 Q1D qy dy) *
              ∑ qx ∈ range Q1D, B (Reshape2 Q1D qx dx) *
                (fwd2D D1D Q1D B y e c qy qx * op (Reshape3 Q1D Q1D qx qy e)) := by
    intro dy hdy dx hdx
    have hdy' := Finset.mem_range.mp hdy
    have hdx' := Finset.mem_range.mp hdx
    rw [applyInc2D_at D1D Q1D NE B Bt op y he' hc' hdx' hdy']
    unfold zeroVec inc2D
    rw [zero_add]
    congr 1
    refine Finset.sum_congr rfl (fun qy hqy => ?_)
    rw [hBt dy qy hdy' (Finset.mem_range.mp hqy)]
    congr 1
    refine Finset.sum_congr rfl (fun qx hqx => ?_)
    rw [hBt dx qx hdx' (Finset.mem_range.mp hqx)]
  rw [Finset.sum_congr rfl (fun dy hdy => Finset.sum_congr rfl (fun dx hdx => hinc dy hdy dx hdx))]
  exact pairing2D D1D Q1D (fun q d => B (Reshape2 Q1D q d))
    (fun dx dy => x (Reshape4 D1D D1D 2 dx dy c e))
    (fun qy qx => fwd2D D1D Q1D B y e c qy qx) (fun qx qy => op (Reshape3 Q1D Q1D qx qy e))

/-- With `Bt` the transpose of `B` and a zeroed output, `x . Apply(y)` is the weighted
L2 product of the quadrature-point values of `x` and `y` (3D). -/
theorem dot_apply3D (D1D Q1D NE : Nat) (B Bt op x y : Vec R)
    (hBt : ∀ d q, d < D1D → q < Q1D → Bt (Reshape2 D1D d q) = B (Reshape2 Q1D q d)) :
    dot (vdofs3D D1D NE) x (fun p => zeroVec p + applyInc3D D1D Q1D NE B Bt op y p)
      = energy3D D1D Q1D NE B op x y := by
  rw [dot_vdofs3D]
  unfold energy3D
  refine Finset.sum_congr rfl (fun e he => Finset.sum_congr rfl (fun c hc => ?_))
  have he' := Finset.mem_range.mp he
  have hc' := Finset.mem_range.mp hc
  have hinc : ∀ dz ∈ range D1D, ∀ dy ∈ range D1D, ∀ dx ∈ range D1D,
      x (Reshape5 D1D D1D D1D 3 dx dy dz c e)
          * (zeroVec (Reshape5 D1D D1D D1D 3 dx dy dz c e)
              + applyInc3D D1D Q1D NE B Bt op y (Reshape5 D1D D1D D1D 3 dx dy dz c e))
        = x (Reshape5 D1D D1D D1D 3 dx dy dz c e) *
            ∑ qz ∈ range Q1D, B (Reshape2 Q1D qz dz) *
              ∑ qy ∈ range Q1D, B (Reshape2 Q1D qy dy) *
                ∑ qx ∈ range Q1D, B (Reshape2 Q1D qx dx) *
                  (fwd3D D1D Q1D B y e c qz qy qx * op (Reshape4 Q1D Q1D Q1D qx qy qz e)) := by
    intro dz hdz dy hdy dx hdx
    have hdz' := Finset.mem_range.mp hdz
    have hdy' := Finset.mem_range.mp hdy
    have hdx' := Finset.mem_range.mp hdx
    rw [applyInc3D_at D1D Q1D NE B Bt op y he' hc' hdx' hdy' hdz']
    unfold zeroVec inc3D
    rw [zero_add]
    congr 1
    refine Finset.sum_congr rfl (fun qz hqz => ?_)
    rw [hBt dz qz hdz' (Finset.mem_range.mp hqz)]
    congr 1
    refine Finset.sum_congr rfl (fun qy hqy => ?_)
    rw [hBt dy qy hdy' (Finset.mem_range.mp hqy)]
    congr 1
    refine Finset.sum_congr rfl (fun qx hqx => ?_)
    rw [hBt dx qx hdx' (Finset.mem_range.mp hqx)]
  rw [Finset.sum_congr rfl (fun dz hdz => Finset.sum_congr rfl (fun dy hdy =>
    Finset.sum_congr rfl (fun dx hdx => hinc dz hdz dy hdy dx hdx)))]
  exact pairing3D D1D Q1D (fun q d => B (Reshape2 Q1D q d))
    (fun dx dy dz => x (Reshape5 D1D D1D D1D 3 dx dy dz c e))
    (fun qz qy qx => fwd3D D1D Q1D B y e c qz qy qx)
    (fun qx qy qz => op (Reshape4 Q1D Q1D Q1D qx qy qz e))

theorem energy2D_comm (D1D Q1D NE : Nat) (B op x y : Vec R) :
    energy2D D1D Q1D NE B op x y = energy2D D1D Q1D NE B op y x := by
  unfold energy2D
  refine Finset.sum_congr rfl (fun e _ => Finset.sum_congr rfl (fun c _ =>
    Finset.sum_congr rfl (fun qy _ => Finset.sum_congr rfl (fun qx _ => ?_))))
  ring

theorem energy3D_comm (D1D Q1D NE : Nat) (B op x y : Vec R) :
    energy3D D1D Q1D NE B op x y = energy3D D1D Q1D NE B op y x := by
  unfold energy3D
  refine Finset.sum_congr rfl (fun e _ => Finset.sum_congr rfl (fun c _ =>
    Finset.sum_congr rfl (fun qz _ => Finset.sum_congr rfl (fun qy _ =>
      Finset.sum_congr rfl (fun qx _ => ?_)))))
  ring

end EnergyLemmas

section OrderLemmas

variable {R : Type} [LinearOrderedCommRing R]

theorem energy2D_nonneg (D1D Q1D NE : Nat) (B op x : Vec R)
    (hop : ∀ e qy qx, e < NE → qy < Q1D → qx < Q1D → 0 ≤ op (Reshape3 Q1D Q1D qx qy e)) :
    0 ≤ energy2D D1D Q1D NE B op x x := by
  unfold energy2D
  refine Finset.sum_nonneg (fun e he => Finset.sum_nonneg (fun c _ =>
    Finset.sum_nonneg (fun qy hqy => Finset.sum_nonneg (fun qx hqx => ?_))))
  rw [mul_assoc]
  exact mul_nonneg
    (hop e qy qx (Finset.mem_range.mp he) (Finset.mem_range.mp hqy) (Finset.mem_range.mp hqx))
    (mul_self_nonneg _)

theorem energy3D_nonneg (D1D Q1D NE : Nat) (B op x : Vec R)
    (hop : ∀ e qz qy qx, e < NE → qz < Q1D → qy < Q1D → qx < Q1D →
      0 ≤ op (Reshape4 Q1D Q1D Q1D qx qy qz e)) :
    0 ≤ energy3D D1D Q1D NE B op x x := by
  unfold energy3D
  refine Finset.sum_nonneg (fun e he => Finset.sum_nonneg (fun c _ =>
    Finset.sum_nonneg (fun qz hqz => Finset.sum_nonneg (fun qy hqy =>
      Finset.sum_nonneg (fun qx hqx => ?_)))))
  rw [mul_assoc]
  exact mul_nonneg
    (hop e qz qy qx (Finset.mem_range.mp he) (Finset.mem_range.mp hqz)
      (Finset.mem_range.mp hqy) (Finset.mem_range.mp hqx))
    (mul_self_nonneg _)

end OrderLemmas


section ClaimLemmas

variable {R : Type} [CommRing R]

theorem tsize_zero (d : Nat) : tsize 0 d = d := by
  unfold tsize
  simp

theorem Reshape2_lt {N M a b : Nat} (ha : a < N) (hb : b < M) : Reshape2 N a b < N * M := by
  unfold Reshape2
  calc a + N * b < N + N * b := Nat.add_lt_add_right ha _
    _ = N * (b + 1) := by rw [Nat.mul_succ, Nat.add_comm]
    _ ≤ N * M := Nat.mul_le_mul_left N hb

/-- The diagonal value as the double sum over the quadrature points. -/
theorem diagVal2D_eq_sum (Q1D : Nat) (B op : Vec R) (e dx dy : Nat) :
    diagVal2D Q1D B op e dx dy
      = ∑ qx ∈ range Q1D, ∑ qy ∈ range Q1D,
          B (Reshape2 Q1D qx dx) ^ 2 * B (Reshape2 Q1D qy dy) ^ 2
            * op (Reshape3 Q1D Q1D qx qy e) := by
  unfold diagVal2D
  refine Finset.sum_congr rfl (fun qx _ => ?_)
  rw [Finset.mul_sum]
  refine Finset.sum_congr rfl (fun qy _ => ?_)
  ring

/-- The diagonal value is the diagonal entry of the assembled elemental matrix. -/
theorem diagVal2D_eq_elemMass2D (Q1D : Nat) (B op : Vec R) (e dx dy : Nat) :
    diagVal2D Q1D B op e dx dy = elemMass2D Q1D B op e dx dy dx dy := by
  rw [diagVal2D_eq_sum]
  unfold elemMass2D shape2D
  rw [Finset.sum_comm]
  refine Finset.sum_congr rfl (fun qy _ => Finset.sum_congr rfl (fun qx _ => ?_))
  ring

/-- The diagonal value as the triple sum over the quadrature points. -/
theorem diagVal3D_eq_sum (Q1D : Nat) (B op : Vec R) (e dx dy dz : Nat) :
    diagVal3D Q1D B op e dx dy dz
      = ∑ qx ∈ range Q1D, ∑ qy ∈ range Q1D, ∑ qz ∈ range Q1D,
          B (Reshape2 Q1D qx dx) ^ 2 * B (Reshape2 Q1D qy dy) ^ 2 * B (Reshape2 Q1D qz dz) ^ 2
            * op (Reshape4 Q1D Q1D Q1D qx qy qz e) := by
  unfold diagVal3D
  refine Finset.sum_congr rfl (fun qx _ => ?_)
  rw [Finset.mul_sum]
  refine Finset.sum_congr rfl (fun qy _ => ?_)
  rw [Finset.mul_sum, Finset.mul_sum]
  refine Finset.sum_congr rfl (fun qz _ => ?_)
  ring

/-- The diagonal value is the diagonal entry of the assembled elemental matrix. -/
theorem diagVal3D_eq_elemMass3D (Q1D : Nat) (B op : Vec R) (e dx dy dz : Nat) :
    diagVal3D Q1D B op e dx dy dz = elemMass3D Q1D B op e dx dy dz dx dy dz := by
  rw [diagVal3D_eq_sum]
  unfold elemMass3D shape3D
  calc (∑ qx ∈ range Q1D, ∑ qy ∈ range Q1D, ∑ qz ∈ range Q1D,
          B (Reshape2 Q1D qx dx) ^ 2 * B (Reshape2 Q1D qy dy) ^ 2 * B (Reshape2 Q1D qz dz) ^ 2
            * op (Reshape4 Q1D Q1D Q1D qx qy qz e))
      = ∑ qx ∈ range Q1D, ∑ qz ∈ range Q1D, ∑ qy ∈ range Q1D,
          B (Reshape2 Q1D qx dx) ^ 2 * B (Reshape2 Q1D qy dy) ^ 2 * B (Reshape2 Q1D qz dz) ^ 2
            * op (Reshape4 Q1D Q1D Q1D qx qy qz e) :=
        Finset.sum_congr rfl (fun qx _ => Finset.sum_comm)
    _ = ∑ qz ∈ range Q1D, ∑ qx ∈ range Q1D, ∑ qy ∈ range Q1D,
          B (Reshape2 Q1D qx dx) ^ 2 * B (Reshape2 Q1D qy dy) ^ 2 * B (Reshape2 Q1D qz dz) ^ 2
            * op (Reshape4 Q1D Q1D Q1D qx qy qz e) := Finset.sum_comm
    _ = ∑ qz ∈ range Q1D, ∑ qy ∈ range Q1D, ∑ qx ∈ range Q1D,
          B (Reshape2 Q1D qx dx) ^ 2 * B (Reshape2 Q1D qy dy) ^ 2 * B (Reshape2 Q1D qz dz) ^ 2
            * op (Reshape4 Q1D Q1D Q1D qx qy qz e) :=
        Finset.sum_congr rfl (fun qz _ => Finset.sum_comm)
    _ = _ := by
        refine Finset.sum_congr rfl (fun qz _ => Finset.sum_congr rfl (fun qy _ =>
          Finset.sum_congr rfl (fun qx _ => ?_)))
        ring

/-- The assembled 2D matrix applied to a unit vector gives its diagonal entry at the
position of the unit. -/
theorem massAction2D_unitVec (D1D Q1D : Nat) (B op : Vec R) {e c dx dy : Nat}
    (hc : c < 2) (hdx : dx < D1D) (hdy : dy < D1D) :
    massAction2D D1D Q1D B op (unitVec (Reshape4 D1D D1D 2 dx dy c e)) e c dx dy
      = elemMass2D Q1D B op e dx dy dx dy := by
  unfold massAction2D unitVec
  have key : ∀ dy' ∈ range D1D, ∀ dx' ∈ range D1D,
      elemMass2D Q1D B op e dx dy dx' dy'
          * (if Reshape4 D1D D1D 2 dx' dy' c e = Reshape4 D1D D1D 2 dx dy c e then (1 : R) else 0)
        = if dx = dx' ∧ dy = dy' then elemMass2D Q1D B op e dx dy dx' dy' else 0 := by
    intro dy' hdy' dx' hdx'
    have hiff : Reshape4 D1D D1D 2 dx' dy' c e = Reshape4 D1D D1D 2 dx dy c e
        ↔ dx = dx' ∧ dy = dy' := by
      rw [Reshape4_eq_iff (Finset.mem_range.mp hdx') hdx (Finset.mem_range.mp hdy') hdy hc hc]
      constructor
      · rintro ⟨h1, h2, _, _⟩; exact ⟨h1.symm, h2.symm⟩
      · rintro ⟨h1, h2⟩; exact ⟨h1.symm, h2.symm, rfl, rfl⟩
    rw [mul_ite, mul_one, mul_zero]
    exact if_congr hiff rfl rfl
  rw [Finset.sum_congr rfl (fun dy' hdy' => Finset.sum_congr rfl (fun dx' hdx' =>
    key dy' hdy' dx' hdx'))]
  simp only [sum_range_ite_eq_and, sum_range_ite_eq_one, hdx, hdy, true_and, if_true]

/-- The assembled 3D matrix applied to a unit vector gives its diagonal entry at the
position of the unit. -/
theorem massAction3D_unitVec (D1D Q1D : Nat) (B op : Vec R) {e c dx dy dz : Nat}
    (hc : c < 3) (hdx : dx < D1D) (hdy : dy < D1D) (hdz : dz < D1D) :
    massAction3D D1D Q1D B op (unitVec (Reshape5 D1D D1D D1D 3 dx dy dz c e)) e c dx dy dz
      = elemMass3D Q1D B op e dx dy dz dx dy dz := by
  unfold massAction3D unitVec
  have key : ∀ dz' ∈ range D1D, ∀ dy' ∈ range D1D, ∀ dx' ∈ range D1D,
      elemMass3D Q1D B op e dx dy dz dx' dy' dz'
          * (if Reshape5 D1D D1D D1D 3 dx' dy' dz' c e = Reshape5 D1D D1D D1D 3 dx dy dz c e
              then (1 : R) else 0)
        = if dx = dx' ∧ (dy = dy' ∧ dz = dz')
          then elemMass3D Q1D B op e dx dy dz dx' dy' dz' else 0 := by
    intro dz' hdz' dy' hdy' dx' hdx'
    have hiff : Reshape5 D1D D1D D1D 3 dx' dy' dz' c e = Reshape5 D1D D1D D1D 3 dx dy dz c e
        ↔ dx = dx' ∧ (dy = dy' ∧ dz = dz') := by
      rw [Reshape5_eq_iff (Finset.mem_range.mp hdx') hdx (Finset.mem_range.mp hdy') hdy
        (Finset.mem_range.mp hdz') hdz hc hc]
      constructor
      · rintro ⟨h1, h2, h3, _, _⟩; exact ⟨h1.symm, h2.symm, h3.symm⟩
      · rintro ⟨h1, h2, h3⟩; exact ⟨h1.symm, h2.symm, h3.symm, rfl, rfl⟩
    rw [mul_ite, mul_one, mul_zero]
    exact if_congr hiff rfl rfl
  rw [Finset.sum_congr rfl (fun dz' hdz' => Finset.sum_congr rfl (fun dy' hdy' =>
    Finset.sum_congr rfl (fun dx' hdx' => key dz' hdz' dy' hdy' dx' hdx')))]
  simp only [sum_range_ite_eq_and, sum_range_ite_eq_one, hdx, hdy, hdz, true_and, if_true]

/-- The increment of the zero vector is zero (2D). -/
theorem applyInc2D_zero (D1D Q1D NE : Nat) (B Bt op : Vec R) (p : Nat) :
    applyInc2D D1D Q1D NE B Bt op zeroVec p = 0 := by
  unfold applyInc2D elemInc2D inc2D fwd2D zeroVec
  simp

/-- The increment of the zero vector is zero (3D). -/
theorem applyInc3D_zero (D1D Q1D NE : Nat) (B Bt op : Vec R) (p : Nat) :
    applyInc3D D1D Q1D NE B Bt op zeroVec p = 0 := by
  unfold applyInc3D elemInc3D inc3D fwd3D zeroVec
  simp

end ClaimLemmas


/-! ## Main properties of the kernels and of the operator data -/

section Claims

theorem sampleBt_transpose :
    ∀ d q, d < tsize 0 2 → q < tsize 0 2 →
      sampleBt (Reshape2 (tsize 0 2) d q) = sampleB (Reshape2 (tsize 0 2) q d) := by
  intro d q hd hq
  rw [tsize_zero] at hd hq
  interval_cases d <;> interval_cases q <;> rfl

/-- C1. Operator application in 2D is the action of the assembled elemental mass
matrix: within the device limits and with `Bt` the transpose of `B`,
`PAVectorMassApply2D` succeeds and, for every element `e`, component `c` in `{0,1}` and
dof `(dx,dy)`, the new `y(dx,dy,c,e)` is the old one plus the sum over `(dx',dy')` of
`M_e[(dx,dy),(dx',dy')] * x(dx',dy',c,e)`, where `M_e` is the direct quadrature
summation `elemMass2D`. -/
theorem C1_apply2D_assembled_action {R : Type} [CommRing R] (T_D1D T_Q1D : Nat)
    (lim : DofQuadLimits) (u : Uninit R) (NE : Nat) (B Bt op x y : Vec R) (d1d q1d : Nat)
    (hD : tsize T_D1D d1d ≤ lim.MAX_D1D) (hQ : tsize T_Q1D q1d ≤ lim.MAX_Q1D)
    (hBt : ∀ d q, d < tsize T_D1D d1d → q < tsize T_Q1D q1d →
      Bt (Reshape2 (tsize T_D1D d1d) d q) = B (Reshape2 (tsize T_Q1D q1d) q d)) :
    ∃ y', PAVectorMassApply2D T_D1D T_Q1D lim u NE B Bt op x y d1d q1d = Except.ok y' ∧
      ∀ e c dx dy, e < NE → c < 2 → dx < tsize T_D1D d1d → dy < tsize T_D1D d1d →
        y' (Reshape4 (tsize T_D1D d1d) (tsize T_D1D d1d) 2 dx dy c e)
          = y (Reshape4 (tsize T_D1D d1d) (tsize T_D1D d1d) 2 dx dy c e)
            + ∑ dy' ∈ range (tsize T_D1D d1d), ∑ dx' ∈ range (tsize T_D1D d1d),
                elemMass2D (tsize T_Q1D q1d) B op e dx dy dx' dy'
                  * x (Reshape4 (tsize T_D1D d1d) (tsize T_D1D d1d) 2 dx' dy' c e) := by
  refine ⟨_, PAVectorMassApply2D_ok T_D1D T_Q1D lim u NE B Bt op x y d1d q1d hD hQ, ?_⟩
  intro e c dx dy he hc hdx hdy
  rw [applyInc2D_at _ _ NE B Bt op x he hc hdx hdy,
    inc2D_eq_massAction2D _ _ B Bt op x hBt e c hdx hdy]
  rfl

/-- C1 at the sample data: three elements, `D1D = Q1D = 2`. -/
theorem C1_apply2D_assembled_action_witness :
    ∃ y', PAVectorMassApply2D 0 0 sampleLimits sampleUninit 3 sampleB sampleBt sampleOp
        sampleX sampleY 2 2 = Except.ok y' ∧
      ∀ e c dx dy, e < 3 → c < 2 → dx < tsize 0 2 → dy < tsize 0 2 →
        y' (Reshape4 (tsize 0 2) (tsize 0 2) 2 dx dy c e)
          = sampleY (Reshape4 (tsize 0 2) (tsize 0 2) 2 dx dy c e)
            + ∑ dy' ∈ range (tsize 0 2), ∑ dx' ∈ range (tsize 0 2),
                elemMass2D (tsize 0 2) sampleB sampleOp e dx dy dx' dy'
                  * sampleX (Reshape4 (tsize 0 2) (tsize 0 2) 2 dx' dy' c e) :=
  C1_apply2D_assembled_action 0 0 sampleLimits sampleUninit 3 sampleB sampleBt sampleOp
    sampleX sampleY 2 2 (by decide) (by decide) sampleBt_transpose

/-- C2. Operator application in 3D is the action of the assembled elemental mass
matrix: within the device limits and with `Bt` the transpose of `B`,
`PAVectorMassApply3D` succeeds and, for every element `e`, component `c` in `{0,1,2}`
and dof `(dx,dy,dz)`, the new `y(dx,dy,dz,c,e)` is the old one plus the sum over
`(dx',dy',dz')` of `M_e[(dx,dy,dz),(dx',dy',dz')] * x(dx',dy',dz',c,e)`, where `M_e` is
the direct quadrature summation `elemMass3D`. -/
theorem C2_apply3D_assembled_action {R : Type} [CommRing R] (T_D1D T_Q1D : Nat)
    (lim : DofQuadLimits) (u : Uninit R) (NE : Nat) (B Bt op x y : Vec R) (d1d q1d : Nat)
    (hD : tsize T_D1D d1d ≤ lim.MAX_D1D) (hQ : tsize T_Q1D q1d ≤ lim.MAX_Q1D)
    (hBt : ∀ d q, d < tsize T_D1D d1d → q < tsize T_Q1D q1d →
      Bt (Reshape2 (tsize T_D1D d1d) d q) = B (Reshape2 (tsize T_Q1D q1d) q d)) :
    ∃ y', PAVectorMassApply3D T_D1D T_Q1D lim u NE B Bt op x y d1d q1d = Except.ok y' ∧
      ∀ e c dx dy dz, e < NE → c < 3 → dx < tsize T_D1D d1d → dy < tsize T_D1D d1d →
        dz < tsize T_D1D d1d →
        y' (Reshape5 (tsize T_D1D d1d) (tsize T_D1D d1d) (tsize T_D1D d1d) 3 dx dy dz c e)
          = y (Reshape5 (tsize T_D1D d1d) (tsize T_D1D d1d) (tsize T_D1D d1d) 3 dx dy dz c e)
            + ∑ dz' ∈ range (tsize T_D1D d1d), ∑ dy' ∈ range (tsize T_D1D d1d),
                ∑ dx' ∈ range (tsize T_D1D d1d),
                  elemMass3D (tsize T_Q1D q1d) B op e dx dy dz dx' dy' dz'
                    * x (Reshape5 (tsize T_D1D d1d) (tsize T_D1D d1d) (tsize T_D1D d1d) 3
                          dx' dy' dz' c e) := by
  refine ⟨_, PAVectorMassApply3D_ok T_D1D T_Q1D lim u NE B Bt op x y d1d q1d hD hQ, ?_⟩
  intro e c dx dy dz he hc hdx hdy hdz
  rw [applyInc3D_at _ _ NE B Bt op x he hc hdx hdy hdz,
    inc3D_eq_massAction3D _ _ B Bt op x hBt e c hdx hdy hdz]
  rfl

/-- C2 at the sample data: two elements, `D1D = Q1D = 2`. -/
theorem C2_apply3D_assembled_action_witness :
    ∃ y', PAVectorMassApply3D 0 0 sampleLimits sampleUninit 2 sampleB sampleBt sampleOp
        sampleX sampleY 2 2 = Except.ok y' ∧
      ∀ e c dx dy dz, e < 2 → c < 3 → dx < tsize 0 2 → dy < tsize 0 2 → dz < tsize 0 2 →
        y' (Reshape5 (tsize 0 2) (tsize 0 2) (tsize 0 2) 3 dx dy dz c e)
          = sampleY (Reshape5 (tsize 0 2) (tsize 0 2) (tsize 0 2) 3 dx dy dz c e)
            + ∑ dz' ∈ range (tsize 0 2), ∑ dy' ∈ range (tsize 0 2), ∑ dx' ∈ range (tsize 0 2),
                elemMass3D (tsize 0 2) sampleB sampleOp e dx dy dz dx' dy' dz'
                  * sampleX (Reshape5 (tsize 0 2) (tsize 0 2) (tsize 0 2) 3 dx' dy' dz' c e) :=
  C2_apply3D_assembled_action 0 0 sampleLimits sampleUninit 2 sampleB sampleBt sampleOp
    sampleX sampleY 2 2 (by decide) (by decide) sampleBt_transpose

/-- C3. Diagonal extraction in 2D is correct: within the device limits
`PAVectorMassAssembleDiagonal2D` succeeds and, for every element `e`, component `c` in
`{0,1}` and dof `(dx,dy)`, `diag(dx,dy,c,e)` is the sum over `(qx,qy)` of
`B(qx,dx)^2 * B(qy,dy)^2 * op(qx,qy,e)`, which is the `((dx,dy),(dx,dy))` entry of the
assembled elemental matrix `elemMass2D`. -/
theorem C3_diagonal2D_correct {R : Type} [CommRing R] (T_D1D T_Q1D : Nat)
    (lim : DofQuadLimits) (u : Uninit R) (NE : Nat) (B Bt op diag : Vec R) (d1d q1d : Nat)
    (hD : tsize T_D1D d1d ≤ lim.MAX_D1D) (hQ : tsize T_Q1D q1d ≤ lim.MAX_Q1D) :
    ∃ diag', PAVectorMassAssembleDiagonal2D T_D1D T_Q1D lim u NE B Bt op diag d1d q1d
        = Except.ok diag' ∧
      ∀ e c dx dy, e < NE → c < 2 → dx < tsize T_D1D d1d → dy < tsize T_D1D d1d →
        diag' (Reshape4 (tsize T_D1D d1d) (tsize T_D1D d1d) 2 dx dy c e)
            = ∑ qx ∈ range (tsize T_Q1D q1d), ∑ qy ∈ range (tsize T_Q1D q1d),
                B (Reshape2 (tsize T_Q1D q1d) qx dx) ^ 2 * B (Reshape2 (tsize T_Q1D q1d) qy dy) ^ 2
                  * op (Reshape3 (tsize T_Q1D q1d) (tsize T_Q1D q1d) qx qy e) ∧
        diag' (Reshape4 (tsize T_D1D d1d) (tsize T_D1D d1d) 2 dx dy c e)
            = elemMass2D (tsize T_Q1D q1d) B op e dx dy dx dy := by
  refine ⟨_, PAVectorMassAssembleDiagonal2D_ok T_D1D T_Q1D lim u NE B Bt op diag d1d q1d
    hD hQ, ?_⟩
  intro e c dx dy he hc hdx hdy
  rw [diag2D_loop_at _ _ NE B op u diag he hc hdx hdy]
  exact ⟨diagVal2D_eq_sum _ B op e dx dy, diagVal2D_eq_elemMass2D _ B op e dx dy⟩

/-- C3 at the sample data: three elements, `D1D = Q1D = 2`. -/
theorem C3_diagonal2D_correct_witness :
    ∃ diag', PAVectorMassAssembleDiagonal2D 0 0 sampleLimits sampleUninit 3 sampleB sampleBt
        sampleOp sampleY 2 2 = Except.ok diag' ∧
      ∀ e c dx dy, e < 3 → c < 2 → dx < tsize 0 2 → dy < tsize 0 2 →
        diag' (Reshape4 (tsize 0 2) (tsize 0 2) 2 dx dy c e)
            = ∑ qx ∈ range (tsize 0 2), ∑ qy ∈ range (tsize 0 2),
                sampleB (Reshape2 (tsize 0 2) qx dx) ^ 2 * sampleB (Reshape2 (tsize 0 2) qy dy) ^ 2
                  * sampleOp (Reshape3 (tsize 0 2) (tsize 0 2) qx qy e) ∧
        diag' (Reshape4 (tsize 0 2) (tsize 0 2) 2 dx dy c e)
            = elemMass2D (tsize 0 2) sampleB sampleOp e dx dy dx dy :=
  C3_diagonal2D_correct 0 0 sampleLimits sampleUninit 3 sampleB sampleBt sampleOp sampleY 2 2
    (by decide) (by decide)

/-- C4. Diagonal extraction in 3D is correct: within the device limits
`PAVectorMassAssembleDiagonal3D` succeeds and, for every element `e`, component `c` in
`{0,1,2}` and dof `(dx,dy,dz)`, `diag(dx,dy,dz,c,e)` is the sum over `(qx,qy,qz)` of
`B(qx,dx)^2 * B(qy,dy)^2 * B(qz,dz)^2 * op(qx,qy,qz,e)`, which is the diagonal entry of
the assembled elemental matrix `elemMass3D`. -/
theorem C4_diagonal3D_correct {R : Type} [CommRing R] (T_D1D T_Q1D : Nat)
    (lim : DofQuadLimits) (u : Uninit R) (NE : Nat) (B Bt op diag : Vec R) (d1d q1d : Nat)
    (hD : tsize T_D1D d1d ≤ lim.MAX_D1D) (hQ : tsize T_Q1D q1d ≤ lim.MAX_Q1D) :
    ∃ diag', PAVectorMassAssembleDiagonal3D T_D1D T_Q1D lim u NE B Bt op diag d1d q1d
        = Except.ok diag' ∧
      ∀ e c dx dy dz, e < NE → c < 3 → dx < tsize T_D1D d1d → dy < tsize T_D1D d1d →
        dz < tsize T_D1D d1d →
        diag' (Reshape5 (tsize T_D1D d1d) (tsize T_D1D d1d) (tsize T_D1D d1d) 3 dx dy dz c e)
            = ∑ qx ∈ range (tsize T_Q1D q1d), ∑ qy ∈ range (tsize T_Q1D q1d),
                ∑ qz ∈ range (tsize T_Q1D q1d),
                  B (Reshape2 (tsize T_Q1D q1d) qx dx) ^ 2
                    * B (Reshape2 (tsize T_Q1D q1d) qy dy) ^ 2
                    * B (Reshape2 (tsize T_Q1D q1d) qz dz) ^ 2
                    * op (Reshape4 (tsize T_Q1D q1d) (tsize T_Q1D q1d) (tsize T_Q1D q1d)
                            qx qy qz e) ∧
        diag' (Reshape5 (tsize T_D1D d1d) (tsize T_D1D d1d) (tsize T_D1D d1d) 3 dx dy dz c e)
            = elemMass3D (tsize T_Q1D q1d) B op e dx dy dz dx dy dz := by
  refine ⟨_, PAVectorMassAssembleDiagonal3D_ok T_D1D T_Q1D lim u NE B Bt op diag d1d q1d
    hD hQ, ?_⟩
  intro e c dx dy dz he hc hdx hdy hdz
  rw [diag3D_loop_at _ _ NE B op u diag he hc hdx hdy hdz]
  exact ⟨diagVal3D_eq_sum _ B op e dx dy dz, diagVal3D_eq_elemMass3D _ B op e dx dy dz⟩

/-- C4 at the sample data: two elements, `D1D = Q1D = 2`. -/
theorem C4_diagonal3D_correct_witness :
    ∃ diag', PAVectorMassAssembleDiagonal3D 0 0 sampleLimits sampleUninit 2 sampleB sampleBt
        sampleOp sampleY 2 2 = Except.ok diag' ∧
      ∀ e c dx dy dz, e < 2 → c < 3 → dx < tsize 0 2 → dy < tsize 0 2 → dz < tsize 0 2 →
        diag' (Reshape5 (tsize 0 2) (tsize 0 2) (tsize 0 2) 3 dx dy dz c e)
            = ∑ qx ∈ range (tsize 0 2), ∑ qy ∈ range (tsize 0 2), ∑ qz ∈ range (tsize 0 2),
                sampleB (Reshape2 (tsize 0 2) qx dx) ^ 2
                  * sampleB (Reshape2 (tsize 0 2) qy dy) ^ 2
                  * sampleB (Reshape2 (tsize 0 2) qz dz) ^ 2
                  * sampleOp (Reshape4 (tsize 0 2) (tsize 0 2) (tsize 0 2) qx qy qz e) ∧
        diag' (Reshape5 (tsize 0 2) (tsize 0 2) (tsize 0 2) 3 dx dy dz c e)
            = elemMass3D (tsize 0 2) sampleB sampleOp e dx dy dz dx dy dz :=
  C4_diagonal3D_correct 0 0 sampleLimits sampleUninit 2 sampleB sampleBt sampleOp sampleY 2 2
    (by decide) (by decide)

/-- C5. The diagonal shortcut matches the diagonal of the general contraction: within
the device limits and with `Bt` the transpose of `B`, in 2D and in 3D, applying the
operator to the unit vector at the dof `(i,c,e)` with `y` zeroed gives, at `(i,c,e)`,
exactly the value that the diagonal kernel writes at `(i,c,e)`. -/
theorem C5_diagonal_matches_apply {R : Type} [CommRing R] (T_D1D T_Q1D : Nat)
    (lim : DofQuadLimits) (u : Uninit R) (NE : Nat) (B Bt op diag : Vec R) (d1d q1d : Nat)
    (hD : tsize T_D1D d1d ≤ lim.MAX_D1D) (hQ : tsize T_Q1D q1d ≤ lim.MAX_Q1D)
    (hBt : ∀ d q, d < tsize T_D1D d1d → q < tsize T_Q1D q1d →
      Bt (Reshape2 (tsize T_D1D d1d) d q) = B (Reshape2 (tsize T_Q1D q1d) q d)) :
    (∀ e c dx dy, e < NE → c < 2 → dx < tsize T_D1D d1d → dy < tsize T_D1D d1d →
      ∃ y' diag',
        PAVectorMassApply2D T_D1D T_Q1D lim u NE B Bt op
          (unitVec (Reshape4 (tsize T_D1D d1d) (tsize T_D1D d1d) 2 dx dy c e)) zeroVec d1d q1d
            = Except.ok y' ∧
        PAVectorMassAssembleDiagonal2D T_D1D T_Q1D lim u NE B Bt op diag d1d q1d
            = Except.ok diag' ∧
        y' (Reshape4 (tsize T_D1D d1d) (tsize T_D1D d1d) 2 dx dy c e)
          = diag' (Reshape4 (tsize T_D1D d1d) (tsize T_D1D d1d) 2 dx dy c e)) ∧
    (∀ e c dx dy dz, e < NE → c < 3 → dx < tsize T_D1D d1d → dy < tsize T_D1D d1d →
      dz < tsize T_D1D d1d →
      ∃ y' diag',
        PAVectorMassApply3D T_D1D T_Q1D lim u NE B Bt op
          (unitVec (Reshape5 (tsize T_D1D d1d) (tsize T_D1D d1d) (tsize T_D1D d1d) 3
            dx dy dz c e)) zeroVec d1d q1d
            = Except.ok y' ∧
        PAVectorMassAssembleDiagonal3D T_D1D T_Q1D lim u NE B Bt op diag d1d q1d
            = Except.ok diag' ∧
        y' (Reshape5 (tsize T_D1D d1d) (tsize T_D1D d1d) (tsize T_D1D d1d) 3 dx dy dz c e)
          = diag' (Reshape5 (tsize T_D1D d1d) (tsize T_D1D d1d) (tsize T_D1D d1d) 3
              dx dy dz c e)) := by
  constructor
  · intro e c dx dy he hc hdx hdy
    refine ⟨_, _, PAVectorMassApply2D_ok T_D1D T_Q1D lim u NE B Bt op _ zeroVec d1d q1d hD hQ,
      PAVectorMassAssembleDiagonal2D_ok T_D1D T_Q1D lim u NE B Bt op diag d1d q1d hD hQ, ?_⟩
    rw [applyInc2D_at _ _ NE B Bt op _ he hc hdx hdy,
      inc2D_eq_massAction2D _ _ B Bt op _ hBt e c hdx hdy,
      massAction2D_unitVec _ _ B op hc hdx hdy,
      diag2D_loop_at _ _ NE B op u diag he hc hdx hdy, diagVal2D_eq_elemMass2D]
    exact zero_add _
  · intro e c dx dy dz he hc hdx hdy hdz
    refine ⟨_, _, PAVectorMassApply3D_ok T_D1D T_Q1D lim u NE B Bt op _ zeroVec d1d q1d hD hQ,
      PAVectorMassAssembleDiagonal3D_ok T_D1D T_Q1D lim u NE B Bt op diag d1d q1d hD hQ, ?_⟩
    rw [applyInc3D_at _ _ NE B Bt op _ he hc hdx hdy hdz,
      inc3D_eq_massAction3D _ _ B Bt op _ hBt e c hdx hdy hdz,
      massAction3D_unitVec _ _ B op hc hdx hdy hdz,
      diag3D_loop_at _ _ NE B op u diag he hc hdx hdy hdz, diagVal3D_eq_elemMass3D]
    exact zero_add _

/-- C5 at the sample data: `D1D = Q1D = 2`, two elements. -/
theorem C5_diagonal_matches_apply_witness :
    (∀ e c dx dy, e < 2 → c < 2 → dx < tsize 0 2 → dy < tsize 0 2 →
      ∃ y' diag',
        PAVectorMassApply2D 0 0 sampleLimits sampleUninit 2 sampleB sampleBt sampleOp
          (unitVec (Reshape4 (tsize 0 2) (tsize 0 2) 2 dx dy c e)) zeroVec 2 2
            = Except.ok y' ∧
        PAVectorMassAssembleDiagonal2D 0 0 sampleLimits sampleUninit 2 sampleB sampleBt
          sampleOp sampleY 2 2 = Except.ok diag' ∧
        y' (Reshape4 (tsize 0 2) (tsize 0 2) 2 dx dy c e)
          = diag' (Reshape4 (tsize 0 2) (tsize 0 2) 2 dx dy c e)) ∧
    (∀ e c dx dy dz, e < 2 → c < 3 → dx < tsize 0 2 → dy < tsize 0 2 → dz < tsize 0 2 →
      ∃ y' diag',
        PAVectorMassApply3D 0 0 sampleLimits sampleUninit 2 sampleB sampleBt sampleOp
          (unitVec (Reshape5 (tsize 0 2) (tsize 0 2) (tsize 0 2) 3 dx dy dz c e)) zeroVec 2 2
            = Except.ok y' ∧
        PAVectorMassAssembleDiagonal3D 0 0 sampleLimits sampleUninit 2 sampleB sampleBt
          sampleOp sampleY 2 2 = Except.ok diag' ∧
        y' (Reshape5 (tsize 0 2) (tsize 0 2) (tsize 0 2) 3 dx dy dz c e)
          = diag' (Reshape5 (tsize 0 2) (tsize 0 2) (tsize 0 2) 3 dx dy dz c e)) :=
  C5_diagonal_matches_apply 0 0 sampleLimits sampleUninit 2 sampleB sampleBt sampleOp sampleY
    2 2 (by decide) (by decide) sampleBt_transpose

/-- C6. Apply accumulates into `y` and never zeroes it: within the device limits, in
2D and in 3D, for every `B`, `Bt`, `op`, `x` and `y`, the output `y'` minus `y` is the
output computed from a zero `y` (so the increment does not depend on `y`); with `x = 0`
the call returns `y` unchanged; and an entry of `y'` is the entry of the result from a
zero `y` exactly when that entry of the incoming `y` is zero. -/
theorem C6_apply_accumulates {R : Type} [CommRing R] (T_D1D T_Q1D : Nat)
    (lim : DofQuadLimits) (u : Uninit R) (NE : Nat) (B Bt op x y : Vec R) (d1d q1d : Nat)
    (hD : tsize T_D1D d1d ≤ lim.MAX_D1D) (hQ : tsize T_Q1D q1d ≤ lim.MAX_Q1D) :
    ((∃ y' z',
        PAVectorMassApply2D T_D1D T_Q1D lim u NE B Bt op x y d1d q1d = Except.ok y' ∧
        PAVectorMassApply2D T_D1D T_Q1D lim u NE B Bt op x zeroVec d1d q1d = Except.ok z' ∧
        (∀ p, y' p - y p = z' p) ∧ (∀ p, y' p = z' p ↔ y p = 0)) ∧
      PAVectorMassApply2D T_D1D T_Q1D lim u NE B Bt op zeroVec y d1d q1d = Except.ok y) ∧
    ((∃ y' z',
        PAVectorMassApply3D T_D1D T_Q1D lim u NE B Bt op x y d1d q1d = Except.ok y' ∧
        PAVectorMassApply3D T_D1D T_Q1D lim u NE B Bt op x zeroVec d1d q1d = Except.ok z' ∧
        (∀ p, y' p - y p = z' p) ∧ (∀ p, y' p = z' p ↔ y p = 0)) ∧
      PAVectorMassApply3D T_D1D T_Q1D lim u NE B Bt op zeroVec y d1d q1d = Except.ok y) := by
  refine ⟨⟨⟨_, _, PAVectorMassApply2D_ok T_D1D T_Q1D lim u NE B Bt op x y d1d q1d hD hQ,
      PAVectorMassApply2D_ok T_D1D T_Q1D lim u NE B Bt op x zeroVec d1d q1d hD hQ, ?_, ?_⟩, ?_⟩,
    ⟨⟨_, _, PAVectorMassApply3D_ok T_D1D T_Q1D lim u NE B Bt op x y d1d q1d hD hQ,
      PAVectorMassApply3D_ok T_D1D T_Q1D lim u NE B Bt op x zeroVec d1d q1d hD hQ, ?_, ?_⟩, ?_⟩⟩
  · intro p
    simp only [zeroVec, zero_add, add_sub_cancel_left]
  · intro p
    simp only [zeroVec, zero_add, add_left_eq_self]
  · rw [PAVectorMassApply2D_ok T_D1D T_Q1D lim u NE B Bt op zeroVec y d1d q1d hD hQ]
    congr 1
    funext p
    rw [applyInc2D_zero, add_zero]
  · intro p
    simp only [zeroVec, zero_add, add_sub_cancel_left]
  · intro p
    simp only [zeroVec, zero_add, add_left_eq_self]
  · rw [PAVectorMassApply3D_ok T_D1D T_Q1D lim u NE B Bt op zeroVec y d1d q1d hD hQ]
    congr 1
    funext p
    rw [applyInc3D_zero, add_zero]

/-- C6 at the sample data: `D1D = Q1D = 2`, two elements. -/
theorem C6_apply_accumulates_witness :
    ((∃ y' z',
        PAVectorMassApply2D 0 0 sampleLimits sampleUninit 2 sampleB sampleBt sampleOp sampleX
          sampleY 2 2 = Except.ok y' ∧
        PAVectorMassApply2D 0 0 sampleLimits sampleUninit 2 sampleB sampleBt sampleOp sampleX
          zeroVec 2 2 = Except.ok z' ∧
        (∀ p, y' p - sampleY p = z' p) ∧ (∀ p, y' p = z' p ↔ sampleY p = 0)) ∧
      PAVectorMassApply2D 0 0 sampleLimits sampleUninit 2 sampleB sampleBt sampleOp zeroVec
        sampleY 2 2 = Except.ok sampleY) ∧
    ((∃ y' z',
        PAVectorMassApply3D 0 0 sampleLimits sampleUninit 2 sampleB sampleBt sampleOp sampleX
          sampleY 2 2 = Except.ok y' ∧
        PAVectorMassApply3D 0 0 sampleLimits sampleUninit 2 sampleB sampleBt sampleOp sampleX
          zeroVec 2 2 = Except.ok z' ∧
        (∀ p, y' p - sampleY p = z' p) ∧ (∀ p, y' p = z' p ↔ sampleY p = 0)) ∧
      PAVectorMassApply3D 0 0 sampleLimits sampleUninit 2 sampleB sampleBt sampleOp zeroVec
        sampleY 2 2 = Except.ok sampleY) :=
  C6_apply_accumulates 0 0 sampleLimits sampleUninit 2 sampleB sampleBt sampleOp sampleX
    sampleY 2 2 (by decide) (by decide)

/-- C7. The applied operator is symmetric: within the device limits and with `Bt` the
transpose of `B`, in 2D and in 3D, for every `op` and every pair of dof vectors `x`, `y`,
with the output zeroed before each call, `x . Apply(y) = y . Apply(x)`. -/
theorem C7_apply_symmetric {R : Type} [CommRing R] (T_D1D T_Q1D : Nat)
    (lim : DofQuadLimits) (u : Uninit R) (NE : Nat) (B Bt op x y : Vec R) (d1d q1d : Nat)
    (hD : tsize T_D1D d1d ≤ lim.MAX_D1D) (hQ : tsize T_Q1D q1d ≤ lim.MAX_Q1D)
    (hBt : ∀ d q, d < tsize T_D1D d1d → q < tsize T_Q1D q1d →
      Bt (Reshape2 (tsize T_D1D d1d) d q) = B (Reshape2 (tsize T_Q1D q1d) q d)) :
    (∃ ax ay,
      PAVectorMassApply2D T_D1D T_Q1D lim u NE B Bt op x zeroVec d1d q1d = Except.ok ax ∧
      PAVectorMassApply2D T_D1D T_Q1D lim u NE B Bt op y zeroVec d1d q1d = Except.ok ay ∧
      dot (vdofs2D (tsize T_D1D d1d) NE) x ay = dot (vdofs2D (tsize T_D1D d1d) NE) y ax) ∧
    (∃ ax ay,
      PAVectorMassApply3D T_D1D T_Q1D lim u NE B Bt op x zeroVec d1d q1d = Except.ok ax ∧
      PAVectorMassApply3D T_D1D T_Q1D lim u NE B Bt op y zeroVec d1d q1d = Except.ok ay ∧
      dot (vdofs3D (tsize T_D1D d1d) NE) x ay = dot (vdofs3D (tsize T_D1D d1d) NE) y ax) := by
  refine ⟨⟨_, _, PAVectorMassApply2D_ok T_D1D T_Q1D lim u NE B Bt op x zeroVec d1d q1d hD hQ,
      PAVectorMassApply2D_ok T_D1D T_Q1D lim u NE B Bt op y zeroVec d1d q1d hD hQ, ?_⟩,
    ⟨_, _, PAVectorMassApply3D_ok T_D1D T_Q1D lim u NE B Bt op x zeroVec d1d q1d hD hQ,
      PAVectorMassApply3D_ok T_D1D T_Q1D lim u NE B Bt op y zeroVec d1d q1d hD hQ, ?_⟩⟩
  · rw [dot_apply2D _ _ NE B Bt op x y hBt, dot_apply2D _ _ NE B Bt op y x hBt,
      energy2D_comm]
  · rw [dot_apply3D _ _ NE B Bt op x y hBt, dot_apply3D _ _ NE B Bt op y x hBt,
      energy3D_comm]

/-- C7 at the sample data: `D1D = Q1D = 2`, two elements. -/
theorem C7_apply_symmetric_witness :
    (∃ ax ay,
      PAVectorMassApply2D 0 0 sampleLimits sampleUninit 2 sampleB sampleBt sampleOp sampleX
        zeroVec 2 2 = Except.ok ax ∧
      PAVectorMassApply2D 0 0 sampleLimits sampleUninit 2 sampleB sampleBt sampleOp sampleY
        zeroVec 2 2 = Except.ok ay ∧
      dot (vdofs2D (tsize 0 2) 2) sampleX ay = dot (vdofs2D (tsize 0 2) 2) sampleY ax) ∧
    (∃ ax ay,
      PAVectorMassApply3D 0 0 sampleLimits sampleUninit 2 sampleB sampleBt sampleOp sampleX
        zeroVec 2 2 = Except.ok ax ∧
      PAVectorMassApply3D 0 0 sampleLimits sampleUninit 2 sampleB sampleBt sampleOp sampleY
        zeroVec 2 2 = Except.ok ay ∧
      dot (vdofs3D (tsize 0 2) 2) sampleX ay = dot (vdofs3D (tsize 0 2) 2) sampleY ax) :=
  C7_apply_symmetric 0 0 sampleLimits sampleUninit 2 sampleB sampleBt sampleOp sampleX
    sampleY 2 2 (by decide) (by decide) sampleBt_transpose

/-- C8, as stated, fails: with the constant coefficient `-1`, identity Jacobians and
weight `2`, `AssemblePA` produces `pa_data = -2`, and for `D1D = Q1D = 1`, `B = Bt = 1`
and `x = (1,1)` the zeroed application gives `x . Apply(x) = -4 < 0`. -/
theorem C8_apply_psd_counterexample :
    ∃ s' y', AssemblePA (sampleSetup 2) (sampleIntegrator (-1)) = Except.ok s' ∧
      AddMultPA sampleLimits sampleUninit s' sampleOnes sampleOnes sampleOnes zeroVec
        = Except.ok y' ∧
      dot (vdofs 2 1 1) sampleOnes y' = -4 :=
  ⟨_, _, rfl, rfl, by decide⟩

/-- C8, amended. The applied operator is positive semi-definite for the operator data
produced by `AssemblePA` whenever the stored values `w[q] * c * det(J)` are all
non-negative: on the native path, in dimension 2 or 3, with an absent or constant
coefficient, `NQ = Q1D^dim`, within the device limits and with `Bt` the transpose of
`B`, `AssemblePA` and the zeroed `AddMultPA` succeed and `x . Apply(x) >= 0` for every
dof vector `x`. -/
theorem C8_apply_psd_nonneg_data {R : Type} [LinearOrderedCommRing R] (env : PASetup R)
    (self : VectorMassIntegrator R) (coeff : R) (lim : DofQuadLimits) (u : Uninit R)
    (B Bt x : Vec R)
    (hceed : env.DeviceCanUseCeed = false)
    (hdim : env.Dimension = 2 ∨ env.Dimension = 3)
    (hco : AssemblePA_coeff self.Q = Except.ok coeff)
    (hNQ : env.GetNPoints = env.nqpt ^ env.Dimension)
    (hD : env.ndof ≤ lim.MAX_D1D) (hQ : env.nqpt ≤ lim.MAX_Q1D)
    (hBt : ∀ d q, d < env.ndof → q < env.nqpt →
      Bt (Reshape2 env.ndof d q) = B (Reshape2 env.nqpt q d))
    (hnn : ∀ e q, e < env.GetNE → q < env.GetNPoints →
      0 ≤ paValue env.Dimension env.GetNPoints env.GetWeights env.J coeff q e) :
    ∃ s' y', AssemblePA env self = Except.ok s' ∧
      AddMultPA lim u s' B Bt x zeroVec = Except.ok y' ∧
      0 ≤ dot (vdofs env.Dimension env.ndof env.GetNE) x y' := by
  obtain ⟨ceed, mixed, dim, NE, NQ, w, J, D1D, Q1D⟩ := env
  simp only at hceed hdim hNQ hD hQ hBt hnn
  have hA := AssemblePA_native
    (⟨ceed, mixed, dim, NE, NQ, w, J, D1D, Q1D⟩ : PASetup R) self coeff hceed hco hdim
  simp only at hA
  have hD0 : tsize 0 D1D ≤ lim.MAX_D1D := by rw [tsize_zero]; exact hD
  have hQ0 : tsize 0 Q1D ≤ lim.MAX_Q1D := by rw [tsize_zero]; exact hQ
  rcases hdim with h2 | h3
  · subst h2
    have hNQ' : NQ = Q1D * Q1D := by rw [hNQ, pow_two]
    have hApply : AddMultPA lim u
        ({ Q := self.Q, ceedOp := self.ceedOp, dim := 2, ne := NE, nq := NQ, dofs1D := D1D,
           quad1D := Q1D, pa_data := AssemblePA_kernels 2 NE NQ w J coeff self.pa_data,
           pa_size := NE * NQ } : VectorMassIntegrator R) B Bt x zeroVec
        = Except.ok (fun p => zeroVec p
            + applyInc2D D1D Q1D NE B Bt (AssemblePA_kernels 2 NE NQ w J coeff self.pa_data)
                x p) := by
      unfold AddMultPA PAVectorMassApply
      simp only [if_true]
      rw [PAVectorMassApply2D_ok 0 0 lim u NE B Bt _ x zeroVec D1D Q1D hD0 hQ0]
      simp only [tsize_zero]
    refine ⟨_, _, hA, hApply, ?_⟩
    · simp only [vdofs, if_true]
      rw [dot_apply2D D1D Q1D NE B Bt _ x x hBt]
      refine energy2D_nonneg D1D Q1D NE B _ x ?_
      intro e qy qx he hqy hqx
      have hidx : Reshape3 Q1D Q1D qx qy e = Reshape2 NQ (Reshape2 Q1D qx qy) e := by
        rw [hNQ']
        unfold Reshape3 Reshape2
        ring
      have hq : Reshape2 Q1D qx qy < NQ := by
        rw [hNQ']
        exact Reshape2_lt hqx hqy
      rw [hidx, AssemblePA_kernels_two NE NQ w J coeff self.pa_data he hq]
      have := hnn e _ he hq
      unfold paValue at this
      rw [if_pos rfl] at this
      exact this
  · subst h3
    have hNQ' : NQ = Q1D * (Q1D * Q1D) := by rw [hNQ]; ring
    have hApply : AddMultPA lim u
        ({ Q := self.Q, ceedOp := self.ceedOp, dim := 3, ne := NE, nq := NQ, dofs1D := D1D,
           quad1D := Q1D, pa_data := AssemblePA_kernels 3 NE NQ w J coeff self.pa_data,
           pa_size := NE * NQ } : VectorMassIntegrator R) B Bt x zeroVec
        = Except.ok (fun p => zeroVec p
            + applyInc3D D1D Q1D NE B Bt (AssemblePA_kernels 3 NE NQ w J coeff self.pa_data)
                x p) := by
      unfold AddMultPA PAVectorMassApply
      simp only [show ¬ (3 = 2) by decide, if_false, if_true]
      rw [PAVectorMassApply3D_ok 0 0 lim u NE B Bt _ x zeroVec D1D Q1D hD0 hQ0]
      simp only [tsize_zero]
    refine ⟨_, _, hA, hApply, ?_⟩
    · simp only [vdofs, show ¬ (3 = 2) by decide, if_false]
      rw [dot_apply3D D1D Q1D NE B Bt _ x x hBt]
      refine energy3D_nonneg D1D Q1D NE B _ x ?_
      intro e qz qy qx he hqz hqy hqx
      have hidx : Reshape4 Q1D Q1D Q1D qx qy qz e
          = Reshape2 NQ (Reshape2 Q1D qx (Reshape2 Q1D qy qz)) e := by
        rw [hNQ']
        unfold Reshape4 Reshape2
        ring
      have hq : Reshape2 Q1D qx (Reshape2 Q1D qy qz) < NQ := by
        rw [hNQ']
        exact Reshape2_lt hqx (Reshape2_lt hqy hqz)
      rw [hidx, AssemblePA_kernels_three NE NQ w J coeff self.pa_data he hq]
      have := hnn e _ he hq
      unfold paValue at this
      rw [if_neg (by decide)] at this
      exact this

/-- C8 amended, at the sample data: dimension 2, coefficient `3`, `pa_data = 6`. -/
theorem C8_apply_psd_nonneg_data_witness :
    ∃ s' y', AssemblePA (sampleSetup 2) (sampleIntegrator 3) = Except.ok s' ∧
      AddMultPA sampleLimits sampleUninit s' sampleOnes sampleOnes sampleX zeroVec
        = Except.ok y' ∧
      0 ≤ dot (vdofs (sampleSetup 2).Dimension (sampleSetup 2).ndof (sampleSetup 2).GetNE)
        sampleX y' :=
  C8_apply_psd_nonneg_data (sampleSetup 2) (sampleIntegrator 3) 3 sampleLimits sampleUninit
    sampleOnes sampleOnes sampleX rfl (Or.inl rfl) rfl rfl (by decide) (by decide)
    (fun _ _ _ _ => rfl)
    (fun e q he hq => by
      have he0 : e = 0 := Nat.lt_one_iff.mp he
      have hq0 : q = 0 := Nat.lt_one_iff.mp hq
      subst he0 hq0
      decide)

/-- C9. Operator data in 2D: on the native path, for `dim = 2` and a constant
coefficient `c`, `AssemblePA` succeeds and sets, for every element `e < NE` and
quadrature point `q < NQ`, `pa_data(q,e) = w[q] * c * det(J)` with
`det(J) = J11*J22 - J21*J12` read from the Jacobian stored at `(q,.,.,e)`; this is
`w[q] * c` times the determinant of the matrix `M[i][j] = J(q,i,j,e)`, and of its
transpose. -/
theorem C9_assemble2D_data {R : Type} [CommRing R] (env : PASetup R)
    (self : VectorMassIntegrator R) (c : R)
    (hceed : env.DeviceCanUseCeed = false) (hdim : env.Dimension = 2)
    (hQ : self.Q = some (Coefficient.constant c)) :
    ∃ s', AssemblePA env self = Except.ok s' ∧
      ∀ e q, e < env.GetNE → q < env.GetNPoints →
        s'.pa_data (Reshape2 env.GetNPoints q e)
          = env.GetWeights q * c *
              (env.J (Reshape4 env.GetNPoints 2 2 q 0 0 e)
                  * env.J (Reshape4 env.GetNPoints 2 2 q 1 1 e)
                - env.J (Reshape4 env.GetNPoints 2 2 q 0 1 e)
                  * env.J (Reshape4 env.GetNPoints 2 2 q 1 0 e)) ∧
        s'.pa_data (Reshape2 env.GetNPoints q e)
          = env.GetWeights q * c * (jacobian2 env.GetNPoints env.J q e).det ∧
        s'.pa_data (Reshape2 env.GetNPoints q e)
          = env.GetWeights q * c * (jacobian2 env.GetNPoints env.J q e).transpose.det := by
  have hco : AssemblePA_coeff self.Q = Except.ok c := by rw [hQ]; rfl
  refine ⟨_, AssemblePA_native env self c hceed hco (Or.inl hdim), ?_⟩
  intro e q he hq
  simp only [hdim]
  rw [AssemblePA_kernels_two env.GetNE env.GetNPoints env.GetWeights env.J c self.pa_data he hq,
    Matrix.det_transpose, ← detJ2D_eq_det]
  exact ⟨rfl, rfl, rfl⟩

/-- C9 at the sample data: dimension 2, coefficient `3`. -/
theorem C9_assemble2D_data_witness :
    ∃ s', AssemblePA (sampleSetup 2) (sampleIntegrator 3) = Except.ok s' ∧
      ∀ e q, e < (sampleSetup 2).GetNE → q < (sampleSetup 2).GetNPoints →
        s'.pa_data (Reshape2 (sampleSetup 2).GetNPoints q e)
          = (sampleSetup 2).GetWeights q * 3 *
              ((sampleSetup 2).J (Reshape4 (sampleSetup 2).GetNPoints 2 2 q 0 0 e)
                  * (sampleSetup 2).J (Reshape4 (sampleSetup 2).GetNPoints 2 2 q 1 1 e)
                - (sampleSetup 2).J (Reshape4 (sampleSetup 2).GetNPoints 2 2 q 0 1 e)
                  * (sampleSetup 2).J (Reshape4 (sampleSetup 2).GetNPoints 2 2 q 1 0 e)) ∧
        s'.pa_data (Reshape2 (sampleSetup 2).GetNPoints q e)
          = (sampleSetup 2).GetWeights q * 3
              * (jacobian2 (sampleSetup 2).GetNPoints (sampleSetup 2).J q e).det ∧
        s'.pa_data (Reshape2 (sampleSetup 2).GetNPoints q e)
          = (sampleSetup 2).GetWeights q * 3
              * (jacobian2 (sampleSetup 2).GetNPoints (sampleSetup 2).J q e).transpose.det :=
  C9_assemble2D_data (sampleSetup 2) (sampleIntegrator 3) 3 rfl rfl rfl

/-- C10. Operator data in 3D: on the native path, for `dim = 3` and a constant
coefficient `c`, `AssemblePA` succeeds and sets, for every element `e` and quadrature
point `q`, `pa_data(q,e) = w[q] * c * det(J)`, where the value of the formula
`J11(J22*J33 - J32*J23) - J21(J12*J33 - J32*J13) + J31(J12*J23 - J22*J13)`, with
`Jab = J(q,a-1,b-1,e)`, is the determinant of the 3x3 matrix `M[i][j] = J(q,i,j,e)`. -/
theorem C10_assemble3D_data {R : Type} [CommRing R] (env : PASetup R)
    (self : VectorMassIntegrator R) (c : R)
    (hceed : env.DeviceCanUseCeed = false) (hdim : env.Dimension = 3)
    (hQ : self.Q = some (Coefficient.constant c)) :
    ∃ s', AssemblePA env self = Except.ok s' ∧
      ∀ e q, e < env.GetNE → q < env.GetNPoints →
        s'.pa_data (Reshape2 env.GetNPoints q e)
          = env.GetWeights q * c *
              (env.J (Reshape4 env.GetNPoints 3 3 q 0 0 e)
                  * (env.J (Reshape4 env.GetNPoints 3 3 q 1 1 e) * env.J (Reshape4 env.GetNPoints 3 3 q 2 2 e)
                      - env.J (Reshape4 env.GetNPoints 3 3 q 2 1 e) * env.J (Reshape4 env.GetNPoints 3 3 q 1 2 e))
                - env.J (Reshape4 env.GetNPoints 3 3 q 1 0 e)
                  * (env.J (Reshape4 env.GetNPoints 3 3 q 0 1 e) * env.J (Reshape4 env.GetNPoints 3 3 q 2 2 e)
                      - env.J (Reshape4 env.GetNPoints 3 3 q 2 1 e) * env.J (Reshape4 env.GetNPoints 3 3 q 0 2 e))
                + env.J (Reshape4 env.GetNPoints 3 3 q 2 0 e)
                  * (env.J (Reshape4 env.GetNPoints 3 3 q 0 1 e) * env.J (Reshape4 env.GetNPoints 3 3 q 1 2 e)
                      - env.J (Reshape4 env.GetNPoints 3 3 q 1 1 e) * env.J (Reshape4 env.GetNPoints 3 3 q 0 2 e))) ∧
        (env.J (Reshape4 env.GetNPoints 3 3 q 0 0 e)
                  * (env.J (Reshape4 env.GetNPoints 3 3 q 1 1 e) * env.J (Reshape4 env.GetNPoints 3 3 q 2 2 e)
                      - env.J (Reshape4 env.GetNPoints 3 3 q 2 1 e) * env.J (Reshape4 env.GetNPoints 3 3 q 1 2 e))
                - env.J (Reshape4 env.GetNPoints 3 3 q 1 0 e)
                  * (env.J (Reshape4 env.GetNPoints 3 3 q 0 1 e) * env.J (Reshape4 env.GetNPoints 3 3 q 2 2 e)
                      - env.J (Reshape4 env.GetNPoints 3 3 q 2 1 e) * env.J (Reshape4 env.GetNPoints 3 3 q 0 2 e))
                + env.J (Reshape4 env.GetNPoints 3 3 q 2 0 e)
                  * (env.J (Reshape4 env.GetNPoints 3 3 q 0 1 e) * env.J (Reshape4 env.GetNPoints 3 3 q 1 2 e)
                      - env.J (Reshape4 env.GetNPoints 3 3 q 1 1 e) * env.J (Reshape4 env.GetNPoints 3 3 q 0 2 e)))
          = (jacobian3 env.GetNPoints env.J q e).det := by
  have hco : AssemblePA_coeff self.Q = Except.ok c := by rw [hQ]; rfl
  refine ⟨_, AssemblePA_native env self c hceed hco (Or.inr hdim), ?_⟩
  intro e q he hq
  simp only [hdim]
  exact ⟨AssemblePA_kernels_three env.GetNE env.GetNPoints env.GetWeights env.J c
    self.pa_data he hq, detJ3D_eq_det _ _ q e⟩

/-- C10 at the sample data: dimension 3, coefficient `3`. -/
theorem C10_assemble3D_data_witness :
    ∃ s', AssemblePA (sampleSetup 3) (sampleIntegrator 3) = Except.ok s' ∧
      ∀ e q, e < (sampleSetup 3).GetNE → q < (sampleSetup 3).GetNPoints →
        s'.pa_data (Reshape2 (sampleSetup 3).GetNPoints q e)
          = (sampleSetup 3).GetWeights q * 3 *
              ((sampleSetup 3).J (Reshape4 (sampleSetup 3).GetNPoints 3 3 q 0 0 e)
                  * ((sampleSetup 3).J (Reshape4 (sampleSetup 3).GetNPoints 3 3 q 1 1 e) * (sampleSetup 3).J (Reshape4 (sampleSetup 3).GetNPoints 3 3 q 2 2 e)
                      - (sampleSetup 3).J (Reshape4 (sampleSetup 3).GetNPoints 3 3 q 2 1 e) * (sampleSetup 3).J (Reshape4 (sampleSetup 3).GetNPoints 3 3 q 1 2 e))
                - (sampleSetup 3).J (Reshape4 (sampleSetup 3).GetNPoints 3 3 q 1 0 e)
                  * ((sampleSetup 3).J (Reshape4 (sampleSetup 3).GetNPoints 3 3 q 0 1 e) * (sampleSetup 3).J (Reshape4 (sampleSetup 3).GetNPoints 3 3 q 2 2 e)
                      - (sampleSetup 3).J (Reshape4 (sampleSetup 3).GetNPoints 3 3 q 2 1 e) * (sampleSetup 3).J (Reshape4 (sampleSetup 3).GetNPoints 3 3 q 0 2 e))
                + (sampleSetup 3).J (Reshape4 (sampleSetup 3).GetNPoints 3 3 q 2 0 e)
                  * ((sampleSetup 3).J (Reshape4 (sampleSetup 3).GetNPoints 3 3 q 0 1 e) * (sampleSetup 3).J (Reshape4 (sampleSetup 3).GetNPoints 3 3 q 1 2 e)
                      - (sampleSetup 3).J (Reshape4 (sampleSetup 3).GetNPoints 3 3 q 1 1 e) * (sampleSetup 3).J (Reshape4 (sampleSetup 3).GetNPoints 3 3 q 0 2 e))) ∧
        ((sampleSetup 3).J (Reshape4 (sampleSetup 3).GetNPoints 3 3 q 0 0 e)
                  * ((sampleSetup 3).J (Reshape4 (sampleSetup 3).GetNPoints 3 3 q 1 1 e) * (sampleSetup 3).J (Reshape4 (sampleSetup 3).GetNPoints 3 3 q 2 2 e)
                      - (sampleSetup 3).J (Reshape4 (sampleSetup 3).GetNPoints 3 3 q 2 1 e) * (sampleSetup 3).J (Reshape4 (sampleSetup 3).GetNPoints 3 3 q 1 2 e))
                - (sampleSetup 3).J (Reshape4 (sampleSetup 3).GetNPoints 3 3 q 1 0 e)
                  * ((sampleSetup 3).J (Reshape4 (sampleSetup 3).GetNPoints 3 3 q 0 1 e) * (sampleSetup 3).J (Reshape4 (sampleSetup 3).GetNPoints 3 3 q 2 2 e)
                      - (sampleSetup 3).J (Reshape4 (sampleSetup 3).GetNPoints 3 3 q 2 1 e) * (sampleSetup 3).J (Reshape4 (sampleSetup 3).GetNPoints 3 3 q 0 2 e))
                + (sampleSetup 3).J (Reshape4 (sampleSetup 3).GetNPoints 3 3 q 2 0 e)
                  * ((sampleSetup 3).J (Reshape4 (sampleSetup 3).GetNPoints 3 3 q 0 1 e) * (sampleSetup 3).J (Reshape4 (sampleSetup 3).GetNPoints 3 3 q 1 2 e)
                      - (sampleSetup 3).J (Reshape4 (sampleSetup 3).GetNPoints 3 3 q 1 1 e) * (sampleSetup 3).J (Reshape4 (sampleSetup 3).GetNPoints 3 3 q 0 2 e)))
          = (jacobian3 (sampleSetup 3).GetNPoints (sampleSetup 3).J q e).det :=
  C10_assemble3D_data (sampleSetup 3) (sampleIntegrator 3) 3 rfl rfl rfl

end Claims

/-! ## Failures and the state they leave -/

section OutcomeLemmas

variable {R : Type} [CommRing R]

theorem PAVectorMassApply2D_eq_st (T_D1D T_Q1D : Nat) (lim : DofQuadLimits) (u : Uninit R)
    (NE : Nat) (B Bt op x y : Vec R) (d1d q1d : Nat) :
    PAVectorMassApply2D T_D1D T_Q1D lim u NE B Bt op x y d1d q1d
      = (PAVectorMassApply2D_st T_D1D T_Q1D lim u NE B Bt op x y d1d q1d).toExcept := by
  unfold PAVectorMassApply2D PAVectorMassApply2D_st Outcome.toExcept
  simp only []
  split_ifs <;> rfl

theorem PAVectorMassApply3D_eq_st (T_D1D T_Q1D : Nat) (lim : DofQuadLimits) (u : Uninit R)
    (NE : Nat) (B Bt op x y : Vec R) (d1d q1d : Nat) :
    PAVectorMassApply3D T_D1D T_Q1D lim u NE B Bt op x y d1d q1d
      = (PAVectorMassApply3D_st T_D1D T_Q1D lim u NE B Bt op x y d1d q1d).toExcept := by
  unfold PAVectorMassApply3D PAVectorMassApply3D_st Outcome.toExcept
  simp only []
  split_ifs <;> rfl

theorem PAVectorMassAssembleDiagonal2D_eq_st (T_D1D T_Q1D : Nat) (lim : DofQuadLimits)
    (u : Uninit R) (NE : Nat) (B Bt op diag : Vec R) (d1d q1d : Nat) :
    PAVectorMassAssembleDiagonal2D T_D1D T_Q1D lim u NE B Bt op diag d1d q1d
      = (PAVectorMassAssembleDiagonal2D_st T_D1D T_Q1D lim u NE B Bt op diag d1d
          q1d).toExcept := by
  unfold PAVectorMassAssembleDiagonal2D PAVectorMassAssembleDiagonal2D_st Outcome.toExcept
  simp only []
  split_ifs <;> rfl

theorem PAVectorMassAssembleDiagonal3D_eq_st (T_D1D T_Q1D : Nat) (lim : DofQuadLimits)
    (u : Uninit R) (NE : Nat) (B Bt op diag : Vec R) (d1d q1d : Nat) :
    PAVectorMassAssembleDiagonal3D T_D1D T_Q1D lim u NE B Bt op diag d1d q1d
      = (PAVectorMassAssembleDiagonal3D_st T_D1D T_Q1D lim u NE B Bt op diag d1d
          q1d).toExcept := by
  unfold PAVectorMassAssembleDiagonal3D PAVectorMassAssembleDiagonal3D_st Outcome.toExcept
  simp only []
  split_ifs <;> rfl

theorem PAVectorMassApply_eq_st (lim : DofQuadLimits) (u : Uninit R) (dim D1D Q1D NE : Nat)
    (B Bt op x y : Vec R) :
    PAVectorMassApply lim u dim D1D Q1D NE B Bt op x y
      = (PAVectorMassApply_st lim u dim D1D Q1D NE B Bt op x y).toExcept := by
  unfold PAVectorMassApply PAVectorMassApply_st
  split_ifs
  · exact PAVectorMassApply2D_eq_st 0 0 lim u NE B Bt op x y D1D Q1D
  · exact PAVectorMassApply3D_eq_st 0 0 lim u NE B Bt op x y D1D Q1D
  · rfl

theorem PAVectorMassAssembleDiagonal_eq_st (lim : DofQuadLimits) (u : Uninit R)
    (dim D1D Q1D NE : Nat) (B Bt op y : Vec R) :
    PAVectorMassAssembleDiagonal lim u dim D1D Q1D NE B Bt op y
      = (PAVectorMassAssembleDiagonal_st lim u dim D1D Q1D NE B Bt op y).toExcept := by
  unfold PAVectorMassAssembleDiagonal PAVectorMassAssembleDiagonal_st
  split_ifs
  · exact PAVectorMassAssembleDiagonal2D_eq_st 0 0 lim u NE B Bt op y D1D Q1D
  · exact PAVectorMassAssembleDiagonal3D_eq_st 0 0 lim u NE B Bt op y D1D Q1D
  · rfl

theorem AssemblePA_eq_st (env : PASetup R) (self : VectorMassIntegrator R) :
    AssemblePA env self = (AssemblePA_st env self).toExcept := by
  unfold AssemblePA AssemblePA_st Outcome.toExcept
  simp only []
  by_cases h1 : env.DeviceCanUseCeed = true
  · simp only [h1, if_true]
  · simp only [h1, if_false]
    cases AssemblePA_coeff self.Q with
    | error err => rfl
    | ok coeff =>
      by_cases hd : env.Dimension = 2 ∨ env.Dimension = 3
      · simp only [hd, not_true_eq_false, if_false, Bool.false_eq_true]
      · simp only [hd, not_false_eq_true, if_true, if_false, Bool.false_eq_true]

/-- The coefficient check fails exactly for a coefficient that is not constant. -/
theorem AssemblePA_coeff_error_iff (Q : Option (Coefficient R)) :
    AssemblePA_coeff Q
        = Except.error (MfemError.verify "Only ConstantCoefficient is supported.")
      ↔ Q = some Coefficient.other := by
  cases Q with
  | none => simp [AssemblePA_coeff]
  | some q =>
    cases q with
    | constant c => simp [AssemblePA_coeff]
    | other => simp [AssemblePA_coeff]

/-- The coefficient check yields a value or the `ConstantCoefficient` failure. -/
theorem AssemblePA_coeff_cases (Q : Option (Coefficient R)) :
    (∃ c, AssemblePA_coeff Q = Except.ok c) ∨
    AssemblePA_coeff Q
        = Except.error (MfemError.verify "Only ConstantCoefficient is supported.") := by
  cases Q with
  | none => exact Or.inl ⟨1, rfl⟩
  | some q =>
    cases q with
    | constant c => exact Or.inl ⟨c, rfl⟩
    | other => exact Or.inr rfl

/-- On the native path a failing coefficient check ends `AssemblePA` with the sizes
assigned and `pa_data` as it was. -/
theorem AssemblePA_st_coeff_error (env : PASetup R) (self : VectorMassIntegrator R)
    (hceed : env.DeviceCanUseCeed = false)
    (hco : AssemblePA_coeff self.Q
      = Except.error (MfemError.verify "Only ConstantCoefficient is supported.")) :
    AssemblePA_st env self
      = ⟨some (MfemError.verify "Only ConstantCoefficient is supported."),
          { self with dim := env.Dimension, ne := env.GetNE, nq := env.GetNPoints,
                      dofs1D := env.ndof, quad1D := env.nqpt,
                      pa_size := env.GetNE * env.GetNPoints }⟩ := by
  unfold AssemblePA_st
  simp only [hceed, Bool.false_eq_true, if_false, hco]

/-- On the native path, with a usable coefficient, a dimension other than 2 and 3 ends
`AssemblePA` with the sizes assigned and `pa_data` as it was. -/
theorem AssemblePA_st_dim_error (env : PASetup R) (self : VectorMassIntegrator R) (coeff : R)
    (hceed : env.DeviceCanUseCeed = false) (hco : AssemblePA_coeff self.Q = Except.ok coeff)
    (hdim : ¬ (env.Dimension = 2 ∨ env.Dimension = 3)) :
    AssemblePA_st env self
      = ⟨some (MfemError.abort "Dimension not supported."),
          { self with dim := env.Dimension, ne := env.GetNE, nq := env.GetNPoints,
                      dofs1D := env.ndof, quad1D := env.nqpt,
                      pa_size := env.GetNE * env.GetNPoints }⟩ := by
  unfold AssemblePA_st
  simp only [hceed, Bool.false_eq_true, if_false, hco, hdim, not_false_eq_true, if_true]

/-- The entries of `pa_data` after a successful native `AssemblePA`. -/
theorem AssemblePA_kernels_paValue (dim NE NQ : Nat) (w J : Vec R) (coeff : R) (pa : Vec R)
    (hdim : dim = 2 ∨ dim = 3) {e q : Nat} (he : e < NE) (hq : q < NQ) :
    AssemblePA_kernels dim NE NQ w J coeff pa (Reshape2 NQ q e)
      = paValue dim NQ w J coeff q e := by
  unfold paValue
  rcases hdim with h | h
  · subst h
    rw [if_pos rfl]
    exact AssemblePA_kernels_two NE NQ w J coeff pa he hq
  · subst h
    rw [if_neg (by decide)]
    exact AssemblePA_kernels_three NE NQ w J coeff pa he hq

end OutcomeLemmas

/-! ## Properties of failures and of dispatch -/

section Claims2

/-- C11. Unsupported coefficient: on the native path `AssemblePA` fails with 'Only
ConstantCoefficient is supported.' if and only if a coefficient is supplied and it is
not a `ConstantCoefficient`; the call then stops with `pa_data` as it was (no entry
written); and when the coefficient is the constant `c` (dimension 2 or 3), `c` is the
factor of the entries `w[q] * c * det(J)` of `pa_data`. -/
theorem C11_unsupported_coefficient {R : Type} [CommRing R] (env : PASetup R)
    (self : VectorMassIntegrator R) (hceed : env.DeviceCanUseCeed = false) :
    (AssemblePA env self
        = Except.error (MfemError.verify "Only ConstantCoefficient is supported.")
      ↔ self.Q = some Coefficient.other) ∧
    (self.Q = some Coefficient.other →
      (AssemblePA_st env self).failure
          = some (MfemError.verify "Only ConstantCoefficient is supported.") ∧
      (AssemblePA_st env self).state.pa_data = self.pa_data) ∧
    (∀ c, self.Q = some (Coefficient.constant c) →
      (env.Dimension = 2 ∨ env.Dimension = 3) →
      ∃ s', AssemblePA env self = Except.ok s' ∧
        ∀ e q, e < env.GetNE → q < env.GetNPoints →
          s'.pa_data (Reshape2 env.GetNPoints q e)
            = paValue env.Dimension env.GetNPoints env.GetWeights env.J c q e) := by
  refine ⟨?_, ?_, ?_⟩
  · rw [← AssemblePA_coeff_error_iff]
    rcases AssemblePA_coeff_cases self.Q with ⟨c, hc⟩ | herr
    · constructor
      · intro h
        exfalso
        by_cases hd : env.Dimension = 2 ∨ env.Dimension = 3
        · rw [AssemblePA_native env self c hceed hc hd] at h
          cases h
        · rw [AssemblePA_eq_st, AssemblePA_st_dim_error env self c hceed hc hd] at h
          cases h
      · intro h
        rw [hc] at h
        cases h
    · constructor
      · intro _
        exact herr
      · intro _
        rw [AssemblePA_eq_st, AssemblePA_st_coeff_error env self hceed herr]
        rfl
  · intro hQ
    have herr := (AssemblePA_coeff_error_iff self.Q).mpr hQ
    rw [AssemblePA_st_coeff_error env self hceed herr]
    exact ⟨rfl, rfl⟩
  · intro c hQ hdim
    have hco : AssemblePA_coeff self.Q = Except.ok c := by rw [hQ]; rfl
    refine ⟨_, AssemblePA_native env self c hceed hco hdim, ?_⟩
    intro e q he hq
    exact AssemblePA_kernels_paValue env.Dimension env.GetNE env.GetNPoints env.GetWeights
      env.J c self.pa_data hdim he hq

/-- C11 at the sample data: dimension 2 with a coefficient that is not constant. -/
theorem C11_unsupported_coefficient_witness :
    (AssemblePA (sampleSetup 2) sampleIntegratorOther
        = Except.error (MfemError.verify "Only ConstantCoefficient is supported.")
      ↔ sampleIntegratorOther.Q = some Coefficient.other) ∧
    (sampleIntegratorOther.Q = some Coefficient.other →
      (AssemblePA_st (sampleSetup 2) sampleIntegratorOther).failure
          = some (MfemError.verify "Only ConstantCoefficient is supported.") ∧
      (AssemblePA_st (sampleSetup 2) sampleIntegratorOther).state.pa_data
          = sampleIntegratorOther.pa_data) ∧
    (∀ c, sampleIntegratorOther.Q = some (Coefficient.constant c) →
      ((sampleSetup 2).Dimension = 2 ∨ (sampleSetup 2).Dimension = 3) →
      ∃ s', AssemblePA (sampleSetup 2) sampleIntegratorOther = Except.ok s' ∧
        ∀ e q, e < (sampleSetup 2).GetNE → q < (sampleSetup 2).GetNPoints →
          s'.pa_data (Reshape2 (sampleSetup 2).GetNPoints q e)
            = paValue (sampleSetup 2).Dimension (sampleSetup 2).GetNPoints
                (sampleSetup 2).GetWeights (sampleSetup 2).J c q e) :=
  C11_unsupported_coefficient (sampleSetup 2) sampleIntegratorOther rfl

/-- C12. Unsupported dimension is reported eagerly: on the native path with a usable
coefficient (absent or constant), `AssemblePA` fails with 'Dimension not supported.'
if and only if the dimension is neither 2 nor 3, and the call then stops before any
kernel runs, with `pa_data` as it was. -/
theorem C12_unsupported_dimension {R : Type} [CommRing R] (env : PASetup R)
    (self : VectorMassIntegrator R) (coeff : R)
    (hceed : env.DeviceCanUseCeed = false)
    (hco : AssemblePA_coeff self.Q = Except.ok coeff) :
    (AssemblePA env self = Except.error (MfemError.abort "Dimension not supported.")
      ↔ ¬ (env.Dimension = 2 ∨ env.Dimension = 3)) ∧
    (¬ (env.Dimension = 2 ∨ env.Dimension = 3) →
      (AssemblePA_st env self).failure = some (MfemError.abort "Dimension not supported.") ∧
      (AssemblePA_st env self).state.pa_data = self.pa_data) := by
  refine ⟨?_, ?_⟩
  · constructor
    · intro h hd
      rw [AssemblePA_native env self coeff hceed hco hd] at h
      cases h
    · intro hd
      rw [AssemblePA_eq_st, AssemblePA_st_dim_error env self coeff hceed hco hd]
      rfl
  · intro hd
    rw [AssemblePA_st_dim_error env self coeff hceed hco hd]
    exact ⟨rfl, rfl⟩

/-- C12 at the sample data: dimension 1 with the constant coefficient 3. -/
theorem C12_unsupported_dimension_witness :
    (AssemblePA (sampleSetup 1) (sampleIntegrator 3)
        = Except.error (MfemError.abort "Dimension not supported.")
      ↔ ¬ ((sampleSetup 1).Dimension = 2 ∨ (sampleSetup 1).Dimension = 3)) ∧
    (¬ ((sampleSetup 1).Dimension = 2 ∨ (sampleSetup 1).Dimension = 3) →
      (AssemblePA_st (sampleSetup 1) (sampleIntegrator 3)).failure
          = some (MfemError.abort "Dimension not supported.") ∧
      (AssemblePA_st (sampleSetup 1) (sampleIntegrator 3)).state.pa_data
          = (sampleIntegrator 3).pa_data) :=
  C12_unsupported_dimension (sampleSetup 1) (sampleIntegrator 3) 3 rfl rfl

/-- C13, as stated, fails: with `D1D = 15` and `Q1D = 16` above the limits `14`,
`AssemblePA` succeeds, and the failure comes at the kernel call, in `AddMultPA` and in
`AssembleDiagonalPA`. -/
theorem C13_limits_at_setup_counterexample :
    ∃ s', AssemblePA sampleSetupLarge (sampleIntegrator 3) = Except.ok s' ∧
      AddMultPA sampleLimits sampleUninit s' sampleOnes sampleOnes sampleX sampleY
        = Except.error (MfemError.verify "") ∧
      AssembleDiagonalPA sampleLimits sampleUninit s' sampleOnes sampleOnes sampleY
        = Except.error (MfemError.verify "") :=
  ⟨_, rfl, rfl, rfl⟩

/-- C13, amended. Device limits are validated at each kernel call, not at setup: on the
native path, in dimension 2 or 3 with a usable coefficient, `AssemblePA` succeeds
whatever `D1D` and `Q1D` are; `AddMultPA` and `AssembleDiagonalPA` then succeed when
`D1D <= MAX_D1D` and `Q1D <= MAX_Q1D`, and fail with the `MFEM_VERIFY` failure when
either bound is violated. -/
theorem C13_limits_at_kernel_call {R : Type} [CommRing R] (env : PASetup R)
    (self : VectorMassIntegrator R) (coeff : R) (lim : DofQuadLimits) (u : Uninit R)
    (B Bt x y diag : Vec R)
    (hceed : env.DeviceCanUseCeed = false)
    (hdim : env.Dimension = 2 ∨ env.Dimension = 3)
    (hco : AssemblePA_coeff self.Q = Except.ok coeff) :
    ∃ s', AssemblePA env self = Except.ok s' ∧
      ((env.ndof ≤ lim.MAX_D1D ∧ env.nqpt ≤ lim.MAX_Q1D) →
        (∃ y', AddMultPA lim u s' B Bt x y = Except.ok y') ∧
        (∃ diag', AssembleDiagonalPA lim u s' B Bt diag = Except.ok diag')) ∧
      (¬ (env.ndof ≤ lim.MAX_D1D ∧ env.nqpt ≤ lim.MAX_Q1D) →
        AddMultPA lim u s' B Bt x y = Except.error (MfemError.verify "") ∧
        AssembleDiagonalPA lim u s' B Bt diag = Except.error (MfemError.verify "")) := by
  refine ⟨_, AssemblePA_native env self coeff hceed hco hdim, ?_, ?_⟩
  · rintro ⟨hD, hQ⟩
    have hD0 : tsize 0 env.ndof ≤ lim.MAX_D1D := by rw [tsize_zero]; exact hD
    have hQ0 : tsize 0 env.nqpt ≤ lim.MAX_Q1D := by rw [tsize_zero]; exact hQ
    unfold AddMultPA AssembleDiagonalPA PAVectorMassApply PAVectorMassAssembleDiagonal
    rcases hdim with h | h
    · simp only [h, if_true]
      exact ⟨⟨_, PAVectorMassApply2D_ok 0 0 lim u _ B Bt _ x y _ _ hD0 hQ0⟩,
        ⟨_, PAVectorMassAssembleDiagonal2D_ok 0 0 lim u _ B Bt _ diag _ _ hD0 hQ0⟩⟩
    · simp only [h, show ¬ (3 = 2) by decide, if_false, if_true]
      exact ⟨⟨_, PAVectorMassApply3D_ok 0 0 lim u _ B Bt _ x y _ _ hD0 hQ0⟩,
        ⟨_, PAVectorMassAssembleDiagonal3D_ok 0 0 lim u _ B Bt _ diag _ _ hD0 hQ0⟩⟩
  · intro hlim
    unfold AddMultPA AssembleDiagonalPA PAVectorMassApply PAVectorMassAssembleDiagonal
      PAVectorMassApply2D PAVectorMassApply3D PAVectorMassAssembleDiagonal2D
      PAVectorMassAssembleDiagonal3D
    simp only [tsize_zero]
    rw [not_and_or] at hlim
    rcases hdim with h | h
    · simp only [h, if_true]
      rcases hlim with hl | hl
      · simp only [hl, not_false_eq_true, if_true, and_self]
      · by_cases hD : env.ndof ≤ lim.MAX_D1D
        · simp only [hD, hl, not_true_eq_false, not_false_eq_true, if_false, if_true, and_self]
        · simp only [hD, not_false_eq_true, if_true, and_self]
    · simp only [h, show ¬ (3 = 2) by decide, if_false, if_true]
      rcases hlim with hl | hl
      · simp only [hl, not_false_eq_true, if_true, and_self]
      · by_cases hD : env.ndof ≤ lim.MAX_D1D
        · simp only [hD, hl, not_true_eq_false, not_false_eq_true, if_false, if_true, and_self]
        · simp only [hD, not_false_eq_true, if_true, and_self]

/-- C13 amended, at the sample data whose sizes exceed the limits. -/
theorem C13_limits_at_kernel_call_witness :
    ∃ s', AssemblePA sampleSetupLarge (sampleIntegrator 3) = Except.ok s' ∧
      ((sampleSetupLarge.ndof ≤ sampleLimits.MAX_D1D
          ∧ sampleSetupLarge.nqpt ≤ sampleLimits.MAX_Q1D) →
        (∃ y', AddMultPA sampleLimits sampleUninit s' sampleOnes sampleOnes sampleX sampleY
          = Except.ok y') ∧
        (∃ diag', AssembleDiagonalPA sampleLimits sampleUninit s' sampleOnes sampleOnes sampleY
          = Except.ok diag')) ∧
      (¬ (sampleSetupLarge.ndof ≤ sampleLimits.MAX_D1D
          ∧ sampleSetupLarge.nqpt ≤ sampleLimits.MAX_Q1D) →
        AddMultPA sampleLimits sampleUninit s' sampleOnes sampleOnes sampleX sampleY
          = Except.error (MfemError.verify "") ∧
        AssembleDiagonalPA sampleLimits sampleUninit s' sampleOnes sampleOnes sampleY
          = Except.error (MfemError.verify "")) :=
  C13_limits_at_kernel_call sampleSetupLarge (sampleIntegrator 3) 3 sampleLimits sampleUninit
    sampleOnes sampleOnes sampleX sampleY sampleY rfl (Or.inl rfl) rfl

/-- The two limit checks of a kernel, as one case distinction. -/
theorem limit_checks {α : Type} (D Q : Nat) (lim : DofQuadLimits) (a b : α) :
    (if ¬ D ≤ lim.MAX_D1D then a else if ¬ Q ≤ lim.MAX_Q1D then a else b)
      = if D ≤ lim.MAX_D1D ∧ Q ≤ lim.MAX_Q1D then b else a := by
  by_cases hD : D ≤ lim.MAX_D1D <;> by_cases hQ : Q ≤ lim.MAX_Q1D <;> simp [hD, hQ]

/-- C14. Exceeding a device limit fails before any element is processed: for each of
`PAVectorMassApply2D/3D` and `PAVectorMassAssembleDiagonal2D/3D`, if `D1D > MAX_D1D`
or `Q1D > MAX_Q1D` the call fails and leaves the output vector (`y` or `diag`) exactly
as it was; if both bounds hold the call does not fail. -/
theorem C14_limit_failure_leaves_output {R : Type} [CommRing R] (T_D1D T_Q1D : Nat)
    (lim : DofQuadLimits) (u : Uninit R) (NE : Nat) (B Bt op x y diag : Vec R)
    (d1d q1d : Nat) :
    ((¬ (tsize T_D1D d1d ≤ lim.MAX_D1D ∧ tsize T_Q1D q1d ≤ lim.MAX_Q1D) →
        (PAVectorMassApply2D_st T_D1D T_Q1D lim u NE B Bt op x y d1d q1d).failure
            = some (MfemError.verify "") ∧
        (PAVectorMassApply2D_st T_D1D T_Q1D lim u NE B Bt op x y d1d q1d).state = y ∧
        PAVectorMassApply2D T_D1D T_Q1D lim u NE B Bt op x y d1d q1d
            = Except.error (MfemError.verify "")) ∧
      ((tsize T_D1D d1d ≤ lim.MAX_D1D ∧ tsize T_Q1D q1d ≤ lim.MAX_Q1D) →
        (PAVectorMassApply2D_st T_D1D T_Q1D lim u NE B Bt op x y d1d q1d).failure = none ∧
        ∃ out, PAVectorMassApply2D T_D1D T_Q1D lim u NE B Bt op x y d1d q1d = Except.ok out)) ∧
    ((¬ (tsize T_D1D d1d ≤ lim.MAX_D1D ∧ tsize T_Q1D q1d ≤ lim.MAX_Q1D) →
        (PAVectorMassApply3D_st T_D1D T_Q1D lim u NE B Bt op x y d1d q1d).failure
            = some (MfemError.verify "") ∧
        (PAVectorMassApply3D_st T_D1D T_Q1D lim u NE B Bt op x y d1d q1d).state = y ∧
        PAVectorMassApply3D T_D1D T_Q1D lim u NE B Bt op x y d1d q1d
            = Except.error (MfemError.verify "")) ∧
      ((tsize T_D1D d1d ≤ lim.MAX_D1D ∧ tsize T_Q1D q1d ≤ lim.MAX_Q1D) →
        (PAVectorMassApply3D_st T_D1D T_Q1D lim u NE B Bt op x y d1d q1d).failure = none ∧
        ∃ out, PAVectorMassApply3D T_D1D T_Q1D lim u NE B Bt op x y d1d q1d = Except.ok out)) ∧
    ((¬ (tsize T_D1D d1d ≤ lim.MAX_D1D ∧ tsize T_Q1D q1d ≤ lim.MAX_Q1D) →
        (PAVectorMassAssembleDiagonal2D_st T_D1D T_Q1D lim u NE B Bt op diag d1d q1d).failure
            = some (MfemError.verify "") ∧
        (PAVectorMassAssembleDiagonal2D_st T_D1D T_Q1D lim u NE B Bt op diag d1d q1d).state = diag ∧
        PAVectorMassAssembleDiagonal2D T_D1D T_Q1D lim u NE B Bt op diag d1d q1d
            = Except.error (MfemError.verify "")) ∧
      ((tsize T_D1D d1d ≤ lim.MAX_D1D ∧ tsize T_Q1D q1d ≤ lim.MAX_Q1D) →
        (PAVectorMassAssembleDiagonal2D_st T_D1D T_Q1D lim u NE B Bt op diag d1d q1d).failure = none ∧
        ∃ out, PAVectorMassAssembleDiagonal2D T_D1D T_Q1D lim u NE B Bt op diag d1d q1d = Except.ok out)) ∧
    ((¬ (tsize T_D1D d1d ≤ lim.MAX_D1D ∧ tsize T_Q1D q1d ≤ lim.MAX_Q1D) →
        (PAVectorMassAssembleDiagonal3D_st T_D1D T_Q1D lim u NE B Bt op diag d1d q1d).failure
            = some (MfemError.verify "") ∧
        (PAVectorMassAssembleDiagonal3D_st T_D1D T_Q1D lim u NE B Bt op diag d1d q1d).state = diag ∧
        PAVectorMassAssembleDiagonal3D T_D1D T_Q1D lim u NE B Bt op diag d1d q1d
            = Except.error (MfemError.verify "")) ∧
      ((tsize T_D1D d1d ≤ lim.MAX_D1D ∧ tsize T_Q1D q1d ≤ lim.MAX_Q1D) →
        (PAVectorMassAssembleDiagonal3D_st T_D1D T_Q1D lim u NE B Bt op diag d1d q1d).failure = none ∧
        ∃ out, PAVectorMassAssembleDiagonal3D T_D1D T_Q1D lim u NE B Bt op diag d1d q1d = Except.ok out)) := by
  unfold PAVectorMassApply2D_st PAVectorMassApply3D_st PAVectorMassAssembleDiagonal2D_st
    PAVectorMassAssembleDiagonal3D_st PAVectorMassApply2D PAVectorMassApply3D
    PAVectorMassAssembleDiagonal2D PAVectorMassAssembleDiagonal3D
  simp only [limit_checks]
  by_cases h : tsize T_D1D d1d ≤ lim.MAX_D1D ∧ tsize T_Q1D q1d ≤ lim.MAX_Q1D
  · simp only [h, and_self, if_true, not_true_eq_false, false_implies, true_implies, true_and,
      Except.ok.injEq, exists_eq']
  · simp only [h, if_false, not_false_eq_true, true_implies, and_self, false_implies, and_true]

/-- C15. The diagonal is identical across the vector components: within the device
limits, for every `B`, `op`, element `e` and dof, the diagonal kernel leaves the same
value in every component slot of the dof: `diag(i,0,e) = diag(i,1,e)` in 2D and
`diag(i,0,e) = diag(i,1,e) = diag(i,2,e)` in 3D. -/
theorem C15_diagonal_same_components {R : Type} [CommRing R] (T_D1D T_Q1D : Nat)
    (lim : DofQuadLimits) (u : Uninit R) (NE : Nat) (B Bt op diag : Vec R) (d1d q1d : Nat)
    (hD : tsize T_D1D d1d ≤ lim.MAX_D1D) (hQ : tsize T_Q1D q1d ≤ lim.MAX_Q1D) :
    (∃ diag', PAVectorMassAssembleDiagonal2D T_D1D T_Q1D lim u NE B Bt op diag d1d q1d
        = Except.ok diag' ∧
      ∀ e dx dy, e < NE → dx < tsize T_D1D d1d → dy < tsize T_D1D d1d →
        diag' (Reshape4 (tsize T_D1D d1d) (tsize T_D1D d1d) 2 dx dy 0 e)
          = diag' (Reshape4 (tsize T_D1D d1d) (tsize T_D1D d1d) 2 dx dy 1 e)) ∧
    (∃ diag', PAVectorMassAssembleDiagonal3D T_D1D T_Q1D lim u NE B Bt op diag d1d q1d
        = Except.ok diag' ∧
      ∀ e dx dy dz, e < NE → dx < tsize T_D1D d1d → dy < tsize T_D1D d1d →
        dz < tsize T_D1D d1d →
        diag' (Reshape5 (tsize T_D1D d1d) (tsize T_D1D d1d) (tsize T_D1D d1d) 3 dx dy dz 0 e)
          = diag' (Reshape5 (tsize T_D1D d1d) (tsize T_D1D d1d) (tsize T_D1D d1d) 3
              dx dy dz 1 e) ∧
        diag' (Reshape5 (tsize T_D1D d1d) (tsize T_D1D d1d) (tsize T_D1D d1d) 3 dx dy dz 1 e)
          = diag' (Reshape5 (tsize T_D1D d1d) (tsize T_D1D d1d) (tsize T_D1D d1d) 3
              dx dy dz 2 e)) := by
  refine ⟨⟨_, PAVectorMassAssembleDiagonal2D_ok T_D1D T_Q1D lim u NE B Bt op diag d1d q1d
      hD hQ, ?_⟩,
    ⟨_, PAVectorMassAssembleDiagonal3D_ok T_D1D T_Q1D lim u NE B Bt op diag d1d q1d
      hD hQ, ?_⟩⟩
  · intro e dx dy he hdx hdy
    rw [diag2D_loop_at _ _ NE B op u diag he (by decide : 0 < 2) hdx hdy,
      diag2D_loop_at _ _ NE B op u diag he (by decide : 1 < 2) hdx hdy]
  · intro e dx dy dz he hdx hdy hdz
    rw [diag3D_loop_at _ _ NE B op u diag he (by decide : 0 < 3) hdx hdy hdz,
      diag3D_loop_at _ _ NE B op u diag he (by decide : 1 < 3) hdx hdy hdz,
      diag3D_loop_at _ _ NE B op u diag he (by decide : 2 < 3) hdx hdy hdz]
    exact ⟨rfl, rfl⟩

/-- C15 at the sample data: `D1D = Q1D = 2`, two elements. -/
theorem C15_diagonal_same_components_witness :
    (∃ diag', PAVectorMassAssembleDiagonal2D 0 0 sampleLimits sampleUninit 2 sampleB sampleBt
        sampleOp sampleY 2 2 = Except.ok diag' ∧
      ∀ e dx dy, e < 2 → dx < tsize 0 2 → dy < tsize 0 2 →
        diag' (Reshape4 (tsize 0 2) (tsize 0 2) 2 dx dy 0 e)
          = diag' (Reshape4 (tsize 0 2) (tsize 0 2) 2 dx dy 1 e)) ∧
    (∃ diag', PAVectorMassAssembleDiagonal3D 0 0 sampleLimits sampleUninit 2 sampleB sampleBt
        sampleOp sampleY 2 2 = Except.ok diag' ∧
      ∀ e dx dy dz, e < 2 → dx < tsize 0 2 → dy < tsize 0 2 → dz < tsize 0 2 →
        diag' (Reshape5 (tsize 0 2) (tsize 0 2) (tsize 0 2) 3 dx dy dz 0 e)
          = diag' (Reshape5 (tsize 0 2) (tsize 0 2) (tsize 0 2) 3 dx dy dz 1 e) ∧
        diag' (Reshape5 (tsize 0 2) (tsize 0 2) (tsize 0 2) 3 dx dy dz 1 e)
          = diag' (Reshape5 (tsize 0 2) (tsize 0 2) (tsize 0 2) 3 dx dy dz 2 e)) :=
  C15_diagonal_same_components 0 0 sampleLimits sampleUninit 2 sampleB sampleBt sampleOp
    sampleY 2 2 (by decide) (by decide)

theorem tsize_pos {T : Nat} (hT : 0 < T) (d : Nat) : tsize T d = T := by
  unfold tsize
  rw [if_pos (Nat.pos_iff_ne_zero.mp hT)]

/-- C18. Specialised and generic kernels agree: for `T_D1D >= 1` and `T_Q1D >= 1` and
all inputs, each of the four kernel templates instantiated with the compile-time sizes
`(T_D1D, T_Q1D)` gives exactly the result of the generic instantiation `(0, 0)` called
with `d1d = T_D1D` and `q1d = T_Q1D`, whatever the run-time `d1d`, `q1d` passed to the
specialised one. -/
theorem C18_specialised_equals_generic {R : Type} [CommRing R] (T_D1D T_Q1D : Nat)
    (lim : DofQuadLimits) (u : Uninit R) (NE : Nat) (B Bt op x y diag : Vec R)
    (d1d q1d : Nat) (hTD : 1 ≤ T_D1D) (hTQ : 1 ≤ T_Q1D) :
    PAVectorMassApply2D T_D1D T_Q1D lim u NE B Bt op x y d1d q1d
      = PAVectorMassApply2D 0 0 lim u NE B Bt op x y T_D1D T_Q1D ∧
    PAVectorMassApply3D T_D1D T_Q1D lim u NE B Bt op x y d1d q1d
      = PAVectorMassApply3D 0 0 lim u NE B Bt op x y T_D1D T_Q1D ∧
    PAVectorMassAssembleDiagonal2D T_D1D T_Q1D lim u NE B Bt op diag d1d q1d
      = PAVectorMassAssembleDiagonal2D 0 0 lim u NE B Bt op diag T_D1D T_Q1D ∧
    PAVectorMassAssembleDiagonal3D T_D1D T_Q1D lim u NE B Bt op diag d1d q1d
      = PAVectorMassAssembleDiagonal3D 0 0 lim u NE B Bt op diag T_D1D T_Q1D := by
  unfold PAVectorMassApply2D PAVectorMassApply3D PAVectorMassAssembleDiagonal2D
    PAVectorMassAssembleDiagonal3D
  simp only [tsize_pos hTD, tsize_pos hTQ, tsize_zero, and_self]

/-- C18 at the sample data: the `(2, 2)` instantiation called with run-time sizes
`(5, 7)`. -/
theorem C18_specialised_equals_generic_witness :
    PAVectorMassApply2D 2 2 sampleLimits sampleUninit 2 sampleB sampleBt sampleOp sampleX
        sampleY 5 7
      = PAVectorMassApply2D 0 0 sampleLimits sampleUninit 2 sampleB sampleBt sampleOp sampleX
        sampleY 2 2 ∧
    PAVectorMassApply3D 2 2 sampleLimits sampleUninit 2 sampleB sampleBt sampleOp sampleX
        sampleY 5 7
      = PAVectorMassApply3D 0 0 sampleLimits sampleUninit 2 sampleB sampleBt sampleOp sampleX
        sampleY 2 2 ∧
    PAVectorMassAssembleDiagonal2D 2 2 sampleLimits sampleUninit 2 sampleB sampleBt sampleOp
        sampleY 5 7
      = PAVectorMassAssembleDiagonal2D 0 0 sampleLimits sampleUninit 2 sampleB sampleBt
        sampleOp sampleY 2 2 ∧
    PAVectorMassAssembleDiagonal3D 2 2 sampleLimits sampleUninit 2 sampleB sampleBt sampleOp
        sampleY 5 7
      = PAVectorMassAssembleDiagonal3D 0 0 sampleLimits sampleUninit 2 sampleB sampleBt
        sampleOp sampleY 2 2 :=
  C18_specialised_equals_generic 2 2 sampleLimits sampleUninit 2 sampleB sampleBt sampleOp
    sampleX sampleY sampleY 5 7 (by decide) (by decide)

/-- C19. Dimension dispatch: `PAVectorMassApply` and `PAVectorMassAssembleDiagonal`
return the result of the generic 2D kernel when `dim = 2` and of the generic 3D kernel
when `dim = 3`, with `D1D` and `Q1D` as run-time sizes; for every other `dim` they fail
('Unknown kernel.' / 'Dimension not implemented.') and leave the output vector as it
was. -/
theorem C19_dimension_dispatch {R : Type} [CommRing R] (lim : DofQuadLimits) (u : Uninit R)
    (D1D Q1D NE : Nat) (B Bt op x y : Vec R) :
    PAVectorMassApply lim u 2 D1D Q1D NE B Bt op x y
      = PAVectorMassApply2D 0 0 lim u NE B Bt op x y D1D Q1D ∧
    PAVectorMassApply lim u 3 D1D Q1D NE B Bt op x y
      = PAVectorMassApply3D 0 0 lim u NE B Bt op x y D1D Q1D ∧
    PAVectorMassAssembleDiagonal lim u 2 D1D Q1D NE B Bt op y
      = PAVectorMassAssembleDiagonal2D 0 0 lim u NE B Bt op y D1D Q1D ∧
    PAVectorMassAssembleDiagonal lim u 3 D1D Q1D NE B Bt op y
      = PAVectorMassAssembleDiagonal3D 0 0 lim u NE B Bt op y D1D Q1D ∧
    (∀ dim, dim ≠ 2 → dim ≠ 3 →
      PAVectorMassApply lim u dim D1D Q1D NE B Bt op x y
        = Except.error (MfemError.abort "Unknown kernel.") ∧
      PAVectorMassApply_st lim u dim D1D Q1D NE B Bt op x y
        = ⟨some (MfemError.abort "Unknown kernel."), y⟩ ∧
      PAVectorMassAssembleDiagonal lim u dim D1D Q1D NE B Bt op y
        = Except.error (MfemError.abort "Dimension not implemented.") ∧
      PAVectorMassAssembleDiagonal_st lim u dim D1D Q1D NE B Bt op y
        = ⟨some (MfemError.abort "Dimension not implemented."), y⟩) := by
  refine ⟨rfl, rfl, rfl, rfl, ?_⟩
  intro dim h2 h3
  unfold PAVectorMassApply PAVectorMassApply_st PAVectorMassAssembleDiagonal
    PAVectorMassAssembleDiagonal_st
  simp only [h2, h3, if_false, and_self]

/-- The increment at lowest order in 2D: one quadrature point, one dof. -/
theorem inc2D_one {R : Type} [CommRing R] (B Bt op x : Vec R) (e c : Nat) :
    inc2D 1 1 B Bt op x e c 0 0
      = Bt (Reshape2 1 0 0) ^ 2 * op (Reshape3 1 1 0 0 e) * B (Reshape2 1 0 0) ^ 2
          * x (Reshape4 1 1 2 0 0 c e) := by
  unfold inc2D fwd2D
  simp only [Finset.sum_range_one]
  ring

/-- The increment at lowest order in 3D: one quadrature point, one dof. -/
theorem inc3D_one {R : Type} [CommRing R] (B Bt op x : Vec R) (e c : Nat) :
    inc3D 1 1 B Bt op x e c 0 0 0
      = Bt (Reshape2 1 0 0) ^ 3 * op (Reshape4 1 1 1 0 0 0 e) * B (Reshape2 1 0 0) ^ 3
          * x (Reshape5 1 1 1 3 0 0 0 c e) := by
  unfold inc3D fwd3D
  simp only [Finset.sum_range_one]
  ring

/-- Lowest order through the whole pipeline: with one dof and one quadrature point per
element and the basis value `1`, `AssemblePA` followed by `AddMultPA` multiplies each
entry of `x` by `w[0] * coeff * det(J)` and adds it to `y`. -/
theorem lowest_order_pipeline {R : Type} [CommRing R] (env : PASetup R)
    (self : VectorMassIntegrator R) (coeff : R) (lim : DofQuadLimits) (u : Uninit R)
    (B Bt x y : Vec R)
    (hceed : env.DeviceCanUseCeed = false)
    (hdim : env.Dimension = 2 ∨ env.Dimension = 3)
    (hco : AssemblePA_coeff self.Q = Except.ok coeff)
    (hnd : env.ndof = 1) (hnq : env.nqpt = 1) (hNQ : env.GetNPoints = 1)
    (hD : 1 ≤ lim.MAX_D1D) (hQ : 1 ≤ lim.MAX_Q1D)
    (hB : B 0 = 1) (hBt : Bt 0 = 1) :
    ∃ s' y', AssemblePA env self = Except.ok s' ∧
      AddMultPA lim u s' B Bt x y = Except.ok y' ∧
      ∀ e c, e < env.GetNE → c < env.Dimension →
        y' (Reshape2 env.Dimension c e)
          = y (Reshape2 env.Dimension c e)
            + paValue env.Dimension 1 env.GetWeights env.J coeff 0 e
                * x (Reshape2 env.Dimension c e) := by
  obtain ⟨ceed, mixed, dim, NE, NQ, w, J, D1D, Q1D⟩ := env
  simp only at hceed hdim hnd hnq hNQ
  subst hnd hnq hNQ
  have hA := AssemblePA_native
    (⟨ceed, mixed, dim, NE, 1, w, J, 1, 1⟩ : PASetup R) self coeff hceed hco hdim
  simp only at hA
  have hD0 : tsize 0 1 ≤ lim.MAX_D1D := by rw [tsize_zero]; exact hD
  have hQ0 : tsize 0 1 ≤ lim.MAX_Q1D := by rw [tsize_zero]; exact hQ
  have hB00 : B (Reshape2 1 0 0) = 1 := hB
  have hBt00 : Bt (Reshape2 1 0 0) = 1 := hBt
  rcases hdim with h2 | h3
  · subst h2
    have hApply : AddMultPA lim u
        ({ Q := self.Q, ceedOp := self.ceedOp, dim := 2, ne := NE, nq := 1, dofs1D := 1,
           quad1D := 1, pa_data := AssemblePA_kernels 2 NE 1 w J coeff self.pa_data,
           pa_size := NE * 1 } : VectorMassIntegrator R) B Bt x y
        = Except.ok (fun p => y p
            + applyInc2D 1 1 NE B Bt (AssemblePA_kernels 2 NE 1 w J coeff self.pa_data) x p) := by
      unfold AddMultPA PAVectorMassApply
      simp only [if_true]
      rw [PAVectorMassApply2D_ok 0 0 lim u NE B Bt _ x y 1 1 hD0 hQ0]
      simp only [tsize_zero]
    refine ⟨_, _, hA, hApply, ?_⟩
    intro e c he hc
    have hidx : Reshape2 2 c e = Reshape4 1 1 2 0 0 c e := by
      unfold Reshape2 Reshape4
      omega
    have hop : Reshape3 1 1 0 0 e = Reshape2 1 0 e := by
      unfold Reshape3 Reshape2
      omega
    simp only
    rw [hidx, applyInc2D_at 1 1 NE B Bt _ x he hc Nat.zero_lt_one Nat.zero_lt_one, inc2D_one,
      hop, AssemblePA_kernels_paValue 2 NE 1 w J coeff self.pa_data (Or.inl rfl) he
        Nat.zero_lt_one, hB00, hBt00]
    ring
  · subst h3
    have hApply : AddMultPA lim u
        ({ Q := self.Q, ceedOp := self.ceedOp, dim := 3, ne := NE, nq := 1, dofs1D := 1,
           quad1D := 1, pa_data := AssemblePA_kernels 3 NE 1 w J coeff self.pa_data,
           pa_size := NE * 1 } : VectorMassIntegrator R) B Bt x y
        = Except.ok (fun p => y p
            + applyInc3D 1 1 NE B Bt (AssemblePA_kernels 3 NE 1 w J coeff self.pa_data) x p) := by
      unfold AddMultPA PAVectorMassApply
      simp only [show ¬ (3 = 2) by decide, if_false, if_true]
      rw [PAVectorMassApply3D_ok 0 0 lim u NE B Bt _ x y 1 1 hD0 hQ0]
      simp only [tsize_zero]
    refine ⟨_, _, hA, hApply, ?_⟩
    intro e c he hc
    have hidx : Reshape2 3 c e = Reshape5 1 1 1 3 0 0 0 c e := by
      unfold Reshape2 Reshape5
      omega
    have hop : Reshape4 1 1 1 0 0 0 e = Reshape2 1 0 e := by
      unfold Reshape4 Reshape2
      omega
    simp only
    rw [hidx, applyInc3D_at 1 1 NE B Bt _ x he hc Nat.zero_lt_one Nat.zero_lt_one
        Nat.zero_lt_one, inc3D_one,
      hop, AssemblePA_kernels_paValue 3 NE 1 w J coeff self.pa_data (Or.inr rfl) he
        Nat.zero_lt_one, hB00, hBt00]
    ring

/-- C20. Lowest-order boundary case: for `D1D = Q1D = 1` (within the limits) every
axis loop has length 1 and Apply is a scalar multiply: in dimension `d` (2 or 3),
`y'(c,e) = y(c,e) + Bt(0,0)^d * pa_data(e) * B(0,0)^d * x(c,e)` for every component `c`
and element `e`; and with `B(0,0) = Bt(0,0) = 1` and the operator data of `AssemblePA`
(one quadrature point) this is `y'(c,e) = y(c,e) + w * coeff * det(J) * x(c,e)`. -/
theorem C20_lowest_order_scalar {R : Type} [CommRing R] (T_D1D T_Q1D : Nat)
    (lim : DofQuadLimits) (u : Uninit R) (NE : Nat) (B Bt op x y : Vec R) (d1d q1d : Nat)
    (hD1 : tsize T_D1D d1d = 1) (hQ1 : tsize T_Q1D q1d = 1)
    (hD : 1 ≤ lim.MAX_D1D) (hQ : 1 ≤ lim.MAX_Q1D) :
    (∃ y', PAVectorMassApply2D T_D1D T_Q1D lim u NE B Bt op x y d1d q1d = Except.ok y' ∧
      ∀ e c, e < NE → c < 2 →
        y' (Reshape4 1 1 2 0 0 c e)
          = y (Reshape4 1 1 2 0 0 c e)
            + Bt (Reshape2 1 0 0) ^ 2 * op (Reshape3 1 1 0 0 e) * B (Reshape2 1 0 0) ^ 2
                * x (Reshape4 1 1 2 0 0 c e)) ∧
    (∃ y', PAVectorMassApply3D T_D1D T_Q1D lim u NE B Bt op x y d1d q1d = Except.ok y' ∧
      ∀ e c, e < NE → c < 3 →
        y' (Reshape5 1 1 1 3 0 0 0 c e)
          = y (Reshape5 1 1 1 3 0 0 0 c e)
            + Bt (Reshape2 1 0 0) ^ 3 * op (Reshape4 1 1 1 0 0 0 e) * B (Reshape2 1 0 0) ^ 3
                * x (Reshape5 1 1 1 3 0 0 0 c e)) ∧
    (∀ (env : PASetup R) (self : VectorMassIntegrator R) (coeff : R),
      env.DeviceCanUseCeed = false → (env.Dimension = 2 ∨ env.Dimension = 3) →
      AssemblePA_coeff self.Q = Except.ok coeff →
      env.ndof = 1 → env.nqpt = 1 → env.GetNPoints = 1 → B 0 = 1 → Bt 0 = 1 →
      ∃ s' y', AssemblePA env self = Except.ok s' ∧
        AddMultPA lim u s' B Bt x y = Except.ok y' ∧
        ∀ e c, e < env.GetNE → c < env.Dimension →
          y' (Reshape2 env.Dimension c e)
            = y (Reshape2 env.Dimension c e)
              + paValue env.Dimension 1 env.GetWeights env.J coeff 0 e
                  * x (Reshape2 env.Dimension c e)) := by
  have hD' : tsize T_D1D d1d ≤ lim.MAX_D1D := by rw [hD1]; exact hD
  have hQ' : tsize T_Q1D q1d ≤ lim.MAX_Q1D := by rw [hQ1]; exact hQ
  refine ⟨⟨_, PAVectorMassApply2D_ok T_D1D T_Q1D lim u NE B Bt op x y d1d q1d hD' hQ', ?_⟩,
    ⟨_, PAVectorMassApply3D_ok T_D1D T_Q1D lim u NE B Bt op x y d1d q1d hD' hQ', ?_⟩, ?_⟩
  · intro e c he hc
    simp only [hD1, hQ1]
    rw [applyInc2D_at 1 1 NE B Bt op x he hc Nat.zero_lt_one Nat.zero_lt_one, inc2D_one]
  · intro e c he hc
    simp only [hD1, hQ1]
    rw [applyInc3D_at 1 1 NE B Bt op x he hc Nat.zero_lt_one Nat.zero_lt_one Nat.zero_lt_one,
      inc3D_one]
  · intro env self coeff hceed hdim hco hnd hnq hNQ hB hBt
    exact lowest_order_pipeline env self coeff lim u B Bt x y hceed hdim hco hnd hnq hNQ hD hQ
      hB hBt

/-- C20 at the sample data: three elements, basis value 1, and the sample set-up of
dimension 2 with coefficient 3. -/
theorem C20_lowest_order_scalar_witness :
    (∃ y', PAVectorMassApply2D 0 0 sampleLimits sampleUninit 3 sampleOnes sampleOnes sampleOp
        sampleX sampleY 1 1 = Except.ok y' ∧
      ∀ e c, e < 3 → c < 2 →
        y' (Reshape4 1 1 2 0 0 c e)
          = sampleY (Reshape4 1 1 2 0 0 c e)
            + sampleOnes (Reshape2 1 0 0) ^ 2 * sampleOp (Reshape3 1 1 0 0 e)
                * sampleOnes (Reshape2 1 0 0) ^ 2 * sampleX (Reshape4 1 1 2 0 0 c e)) ∧
    (∃ s' y', AssemblePA (sampleSetup 2) (sampleIntegrator 3) = Except.ok s' ∧
      AddMultPA sampleLimits sampleUninit s' sampleOnes sampleOnes sampleX sampleY
        = Except.ok y' ∧
      ∀ e c, e < (sampleSetup 2).GetNE → c < (sampleSetup 2).Dimension →
        y' (Reshape2 (sampleSetup 2).Dimension c e)
          = sampleY (Reshape2 (sampleSetup 2).Dimension c e)
            + paValue (sampleSetup 2).Dimension 1 (sampleSetup 2).GetWeights (sampleSetup 2).J
                3 0 e * sampleX (Reshape2 (sampleSetup 2).Dimension c e)) :=
  ⟨(C20_lowest_order_scalar 0 0 sampleLimits sampleUninit 3 sampleOnes sampleOnes sampleOp
      sampleX sampleY 1 1 rfl rfl (by decide) (by decide)).1,
    (C20_lowest_order_scalar 0 0 sampleLimits sampleUninit 3 sampleOnes sampleOnes sampleOp
      sampleX sampleY 1 1 rfl rfl (by decide) (by decide)).2.2 (sampleSetup 2)
      (sampleIntegrator 3) 3 rfl (Or.inl rfl) rfl rfl rfl rfl rfl rfl⟩

end Claims2

/-! ## Independence of components and of elements -/

section IndependenceLemmas

variable {R : Type} [CommRing R]

theorem fwd2D_congr (D1D Q1D : Nat) (B : Vec R) {x1 x2 : Vec R} {e c c' : Nat}
    (hx : compEq2D D1D x1 x2 e c c') (qy qx : Nat) :
    fwd2D D1D Q1D B x1 e c qy qx = fwd2D D1D Q1D B x2 e c' qy qx := by
  unfold fwd2D
  refine Finset.sum_congr rfl (fun dy hdy => ?_)
  congr 1
  refine Finset.sum_congr rfl (fun dx hdx => ?_)
  rw [hx dx dy (Finset.mem_range.mp hdx) (Finset.mem_range.mp hdy)]

/-- The increment of a dof reads `op` on its element and `x` on its component only. -/
theorem inc2D_congr (D1D Q1D : Nat) (B Bt : Vec R) {op1 op2 x1 x2 : Vec R} {e c c' : Nat}
    (hop : opEq2D Q1D op1 op2 e) (hx : compEq2D D1D x1 x2 e c c') (dx dy : Nat) :
    inc2D D1D Q1D B Bt op1 x1 e c dx dy = inc2D D1D Q1D B Bt op2 x2 e c' dx dy := by
  unfold inc2D
  refine Finset.sum_congr rfl (fun qy hqy => ?_)
  congr 1
  refine Finset.sum_congr rfl (fun qx hqx => ?_)
  rw [fwd2D_congr D1D Q1D B hx qy qx,
    hop qx qy (Finset.mem_range.mp hqx) (Finset.mem_range.mp hqy)]

theorem fwd3D_congr (D1D Q1D : Nat) (B : Vec R) {x1 x2 : Vec R} {e c c' : Nat}
    (hx : compEq3D D1D x1 x2 e c c') (qz qy qx : Nat) :
    fwd3D D1D Q1D B x1 e c qz qy qx = fwd3D D1D Q1D B x2 e c' qz qy qx := by
  unfold fwd3D
  refine Finset.sum_congr rfl (fun dz hdz => ?_)
  congr 1
  refine Finset.sum_congr rfl (fun dy hdy => ?_)
  congr 1
  refine Finset.sum_congr rfl (fun dx hdx => ?_)
  rw [hx dx dy dz (Finset.mem_range.mp hdx) (Finset.mem_range.mp hdy)
    (Finset.mem_range.mp hdz)]

/-- The increment of a dof reads `op` on its element and `x` on its component only. -/
theorem inc3D_congr (D1D Q1D : Nat) (B Bt : Vec R) {op1 op2 x1 x2 : Vec R} {e c c' : Nat}
    (hop : opEq3D Q1D op1 op2 e) (hx : compEq3D D1D x1 x2 e c c') (dx dy dz : Nat) :
    inc3D D1D Q1D B Bt op1 x1 e c dx dy dz = inc3D D1D Q1D B Bt op2 x2 e c' dx dy dz := by
  unfold inc3D
  refine Finset.sum_congr rfl (fun qz hqz => ?_)
  congr 1
  refine Finset.sum_congr rfl (fun qy hqy => ?_)
  congr 1
  refine Finset.sum_congr rfl (fun qx hqx => ?_)
  rw [fwd3D_congr D1D Q1D B hx qz qy qx,
    hop qx qy qz (Finset.mem_range.mp hqx) (Finset.mem_range.mp hqy) (Finset.mem_range.mp hqz)]

/-- Component `c` of element `e` of the output of the 2D application depends on `op`
through element `e`, and on `x`, `y` through component `c` of element `e`. -/
theorem apply2D_component_dep (D1D Q1D NE : Nat) (B Bt : Vec R)
    {op1 op2 x1 x2 y1 y2 : Vec R} {e c : Nat} (he : e < NE) (hc : c < 2)
    (hop : opEq2D Q1D op1 op2 e) (hx : compEq2D D1D x1 x2 e c c)
    (hy : compEq2D D1D y1 y2 e c c) :
    compEq2D D1D (fun p => y1 p + applyInc2D D1D Q1D NE B Bt op1 x1 p)
      (fun p => y2 p + applyInc2D D1D Q1D NE B Bt op2 x2 p) e c c := by
  intro dx dy hdx hdy
  beta_reduce
  rw [applyInc2D_at D1D Q1D NE B Bt op1 x1 he hc hdx hdy,
    applyInc2D_at D1D Q1D NE B Bt op2 x2 he hc hdx hdy,
    inc2D_congr D1D Q1D B Bt hop hx dx dy, hy dx dy hdx hdy]

/-- Component `c` of element `e` of the output of the 3D application depends on `op`
through element `e`, and on `x`, `y` through component `c` of element `e`. -/
theorem apply3D_component_dep (D1D Q1D NE : Nat) (B Bt : Vec R)
    {op1 op2 x1 x2 y1 y2 : Vec R} {e c : Nat} (he : e < NE) (hc : c < 3)
    (hop : opEq3D Q1D op1 op2 e) (hx : compEq3D D1D x1 x2 e c c)
    (hy : compEq3D D1D y1 y2 e c c) :
    compEq3D D1D (fun p => y1 p + applyInc3D D1D Q1D NE B Bt op1 x1 p)
      (fun p => y2 p + applyInc3D D1D Q1D NE B Bt op2 x2 p) e c c := by
  intro dx dy dz hdx hdy hdz
  beta_reduce
  rw [applyInc3D_at D1D Q1D NE B Bt op1 x1 he hc hdx hdy hdz,
    applyInc3D_at D1D Q1D NE B Bt op2 x2 he hc hdx hdy hdz,
    inc3D_congr D1D Q1D B Bt hop hx dx dy dz, hy dx dy dz hdx hdy hdz]

/-- The same map acts on every component (2D): components of `x` that hold the same
dof values receive the same increments. -/
theorem apply2D_same_map (D1D Q1D NE : Nat) (B Bt op x : Vec R) {e c1 c2 : Nat}
    (he : e < NE) (hc1 : c1 < 2) (hc2 : c2 < 2) (hx : compEq2D D1D x x e c1 c2)
    {dx dy : Nat} (hdx : dx < D1D) (hdy : dy < D1D) :
    applyInc2D D1D Q1D NE B Bt op x (Reshape4 D1D D1D 2 dx dy c1 e)
      = applyInc2D D1D Q1D NE B Bt op x (Reshape4 D1D D1D 2 dx dy c2 e) := by
  rw [applyInc2D_at D1D Q1D NE B Bt op x he hc1 hdx hdy,
    applyInc2D_at D1D Q1D NE B Bt op x he hc2 hdx hdy,
    inc2D_congr D1D Q1D B Bt (fun _ _ _ _ => rfl) hx dx dy]

/-- The same map acts on every component (3D). -/
theorem apply3D_same_map (D1D Q1D NE : Nat) (B Bt op x : Vec R) {e c1 c2 : Nat}
    (he : e < NE) (hc1 : c1 < 3) (hc2 : c2 < 3) (hx : compEq3D D1D x x e c1 c2)
    {dx dy dz : Nat} (hdx : dx < D1D) (hdy : dy < D1D) (hdz : dz < D1D) :
    applyInc3D D1D Q1D NE B Bt op x (Reshape5 D1D D1D D1D 3 dx dy dz c1 e)
      = applyInc3D D1D Q1D NE B Bt op x (Reshape5 D1D D1D D1D 3 dx dy dz c2 e) := by
  rw [applyInc3D_at D1D Q1D NE B Bt op x he hc1 hdx hdy hdz,
    applyInc3D_at D1D Q1D NE B Bt op x he hc2 hdx hdy hdz,
    inc3D_congr D1D Q1D B Bt (fun _ _ _ _ _ _ => rfl) hx dx dy dz]

end IndependenceLemmas

section Claims3

/-- C16. Vector components are not coupled: within the device limits, for
`PAVectorMassApply2D/3D` and every component `c` of an element `e`, two runs whose
`op` agree on element `e` and whose `x` and `y` agree on component `c` of element `e`
(and differ arbitrarily elsewhere) give the same component `c` of element `e` of the
output; and the same map acts on every component: two components of `x` holding the
same dof values receive the same increments. -/
theorem C16_components_not_coupled {R : Type} [CommRing R] (T_D1D T_Q1D : Nat)
    (lim : DofQuadLimits) (u : Uninit R) (NE : Nat) (B Bt op1 op2 x1 x2 y1 y2 : Vec R)
    (d1d q1d : Nat)
    (hD : tsize T_D1D d1d ≤ lim.MAX_D1D) (hQ : tsize T_Q1D q1d ≤ lim.MAX_Q1D) :
    (∃ y1' y2',
      PAVectorMassApply2D T_D1D T_Q1D lim u NE B Bt op1 x1 y1 d1d q1d = Except.ok y1' ∧
      PAVectorMassApply2D T_D1D T_Q1D lim u NE B Bt op2 x2 y2 d1d q1d = Except.ok y2' ∧
      (∀ e c, e < NE → c < 2 → opEq2D (tsize T_Q1D q1d) op1 op2 e →
        compEq2D (tsize T_D1D d1d) x1 x2 e c c → compEq2D (tsize T_D1D d1d) y1 y2 e c c →
        compEq2D (tsize T_D1D d1d) y1' y2' e c c) ∧
      (∀ e c1 c2 dx dy, e < NE → c1 < 2 → c2 < 2 → dx < tsize T_D1D d1d →
        dy < tsize T_D1D d1d → compEq2D (tsize T_D1D d1d) x1 x1 e c1 c2 →
        y1' (Reshape4 (tsize T_D1D d1d) (tsize T_D1D d1d) 2 dx dy c1 e)
            - y1 (Reshape4 (tsize T_D1D d1d) (tsize T_D1D d1d) 2 dx dy c1 e)
          = y1' (Reshape4 (tsize T_D1D d1d) (tsize T_D1D d1d) 2 dx dy c2 e)
            - y1 (Reshape4 (tsize T_D1D d1d) (tsize T_D1D d1d) 2 dx dy c2 e))) ∧
    (∃ y1' y2',
      PAVectorMassApply3D T_D1D T_Q1D lim u NE B Bt op1 x1 y1 d1d q1d = Except.ok y1' ∧
      PAVectorMassApply3D T_D1D T_Q1D lim u NE B Bt op2 x2 y2 d1d q1d = Except.ok y2' ∧
      (∀ e c, e < NE → c < 3 → opEq3D (tsize T_Q1D q1d) op1 op2 e →
        compEq3D (tsize T_D1D d1d) x1 x2 e c c → compEq3D (tsize T_D1D d1d) y1 y2 e c c →
        compEq3D (tsize T_D1D d1d) y1' y2' e c c) ∧
      (∀ e c1 c2 dx dy dz, e < NE → c1 < 3 → c2 < 3 → dx < tsize T_D1D d1d →
        dy < tsize T_D1D d1d → dz < tsize T_D1D d1d →
        compEq3D (tsize T_D1D d1d) x1 x1 e c1 c2 →
        y1' (Reshape5 (tsize T_D1D d1d) (tsize T_D1D d1d) (tsize T_D1D d1d) 3 dx dy dz c1 e)
            - y1 (Reshape5 (tsize T_D1D d1d) (tsize T_D1D d1d) (tsize T_D1D d1d) 3
                dx dy dz c1 e)
          = y1' (Reshape5 (tsize T_D1D d1d) (tsize T_D1D d1d) (tsize T_D1D d1d) 3 dx dy dz c2 e)
            - y1 (Reshape5 (tsize T_D1D d1d) (tsize T_D1D d1d) (tsize T_D1D d1d) 3
                dx dy dz c2 e))) := by
  refine ⟨⟨_, _, PAVectorMassApply2D_ok T_D1D T_Q1D lim u NE B Bt op1 x1 y1 d1d q1d hD hQ,
      PAVectorMassApply2D_ok T_D1D T_Q1D lim u NE B Bt op2 x2 y2 d1d q1d hD hQ, ?_, ?_⟩,
    ⟨_, _, PAVectorMassApply3D_ok T_D1D T_Q1D lim u NE B Bt op1 x1 y1 d1d q1d hD hQ,
      PAVectorMassApply3D_ok T_D1D T_Q1D lim u NE B Bt op2 x2 y2 d1d q1d hD hQ, ?_, ?_⟩⟩
  · intro e c he hc hop hx hy
    exact apply2D_component_dep _ _ NE B Bt he hc hop hx hy
  · intro e c1 c2 dx dy he hc1 hc2 hdx hdy hx
    rw [add_sub_cancel_left, add_sub_cancel_left]
    exact apply2D_same_map _ _ NE B Bt op1 x1 he hc1 hc2 hx hdx hdy
  · intro e c he hc hop hx hy
    exact apply3D_component_dep _ _ NE B Bt he hc hop hx hy
  · intro e c1 c2 dx dy dz he hc1 hc2 hdx hdy hdz hx
    rw [add_sub_cancel_left, add_sub_cancel_left]
    exact apply3D_same_map _ _ NE B Bt op1 x1 he hc1 hc2 hx hdx hdy hdz

/-- C16 at the sample data: one dof per component, two elements; the second run has
other values in component 1 of `x` and `y`, and component 0 of the outputs agrees. -/
theorem C16_components_not_coupled_witness :
    ∃ y1' y2',
      PAVectorMassApply2D 0 0 sampleLimits sampleUninit 2 sampleOnes sampleOnes sampleOp
        sampleX sampleY 1 1 = Except.ok y1' ∧
      PAVectorMassApply2D 0 0 sampleLimits sampleUninit 2 sampleOnes sampleOnes sampleOp
        sampleXeven sampleYeven 1 1 = Except.ok y2' ∧
      sampleX 1 ≠ sampleXeven 1 ∧ sampleY 1 ≠ sampleYeven 1 ∧
      compEq2D (tsize 0 1) y1' y2' 0 0 0 ∧ compEq2D (tsize 0 1) y1' y2' 1 0 0 := by
  obtain ⟨⟨y1', y2', h1, h2, hdep, _⟩, _⟩ :=
    C16_components_not_coupled 0 0 sampleLimits sampleUninit 2 sampleOnes sampleOnes
      sampleOp sampleOp sampleX sampleXeven sampleY sampleYeven 1 1 (by decide) (by decide)
  have hx : ∀ e, e < 2 → compEq2D (tsize 0 1) sampleX sampleXeven e 0 0 := by
    intro e he dx dy hdx hdy
    rw [tsize_zero] at hdx hdy
    have hdx0 : dx = 0 := Nat.lt_one_iff.mp hdx
    have hdy0 : dy = 0 := Nat.lt_one_iff.mp hdy
    subst hdx0 hdy0
    interval_cases e <;> rfl
  have hy : ∀ e, e < 2 → compEq2D (tsize 0 1) sampleY sampleYeven e 0 0 := by
    intro e he dx dy hdx hdy
    rw [tsize_zero] at hdx hdy
    have hdx0 : dx = 0 := Nat.lt_one_iff.mp hdx
    have hdy0 : dy = 0 := Nat.lt_one_iff.mp hdy
    subst hdx0 hdy0
    interval_cases e <;> rfl
  exact ⟨y1', y2', h1, h2, by decide, by decide,
    hdep 0 0 (by decide) (by decide) (fun _ _ _ _ => rfl) (hx 0 (by decide)) (hy 0 (by decide)),
    hdep 1 0 (by decide) (by decide) (fun _ _ _ _ => rfl) (hx 1 (by decide)) (hy 1 (by decide))⟩

end Claims3

section ElementLemmas

variable {R : Type} [CommRing R]

theorem forLoop_eq_forEach {σ : Type} (n : Nat) (body : Nat → σ → σ) (s : σ) :
    forLoop n body s = forEach (List.range n) body s := by
  induction n with
  | zero => rfl
  | succ n ih =>
    unfold forEach at ih ⊢
    rw [forLoop_succ, ih, List.range_succ, List.foldl_append]
    rfl

/-- Running the elements in another order gives the same state when the bodies of the
elements below `n` commute. -/
theorem forEach_perm {σ : Type} (n : Nat) (body : Nat → σ → σ)
    (hcomm : ∀ i j, i < n → j < n → ∀ s, body i (body j s) = body j (body i s))
    {l : List Nat} (hl : l.Perm (List.range n)) (s : σ) :
    forEach l body s = forLoop n body s := by
  rw [forLoop_eq_forEach]
  unfold forEach
  refine List.Perm.foldl_eq' hl ?_ s
  intro i hi j hj z
  have hi' : i < n := List.mem_range.mp ((List.Perm.mem_iff hl).mp hi)
  have hj' : j < n := List.mem_range.mp ((List.Perm.mem_iff hl).mp hj)
  exact hcomm j i hj' hi' z

/-- Writers on pairwise disjoint slices, whose values are determined by the cell,
commute. -/
theorem writers_comm {ι V : Type} (n : Nat) (E : Nat → (ι → V) → (ι → V))
    (S : Nat → ι → Prop) (Post : ι → V → Prop)
    (hE : ∀ e, e < n → ∀ a p, (S e p → Post p (E e a p)) ∧ (¬ S e p → E e a p = a p))
    (huniq : ∀ e p r r', e < n → S e p → Post p r → Post p r' → r = r')
    (hdisj : ∀ e1 e2 p, S e1 p → S e2 p → e1 = e2)
    {e1 e2 : Nat} (he1 : e1 < n) (he2 : e2 < n) (a : ι → V) :
    E e1 (E e2 a) = E e2 (E e1 a) := by
  funext p
  by_cases h1 : S e1 p
  · by_cases h2 : S e2 p
    · have := hdisj e1 e2 p h1 h2
      subst this
      rfl
    · rw [(hE e2 he2 (E e1 a) p).2 h2]
      exact huniq e1 p _ _ he1 h1 ((hE e1 he1 (E e2 a) p).1 h1) ((hE e1 he1 a p).1 h1)
  · by_cases h2 : S e2 p
    · rw [(hE e1 he1 (E e2 a) p).2 h1]
      exact huniq e2 p _ _ he2 h2 ((hE e2 he2 a p).1 h2) ((hE e2 he2 (E e1 a) p).1 h2)
    · rw [(hE e1 he1 (E e2 a) p).2 h1, (hE e2 he2 a p).2 h2, (hE e2 he2 (E e1 a) p).2 h2,
        (hE e1 he1 a p).2 h1]

/-- Element `e` of the 2D application adds nothing outside its slice. -/
theorem elemInc2D_outside (D1D Q1D : Nat) (B Bt op x : Vec R) {e p : Nat}
    (hp : ¬ inSlice2D D1D e p) : elemInc2D D1D Q1D B Bt op x e p = 0 := by
  unfold elemInc2D
  refine Finset.sum_eq_zero (fun c hc => Finset.sum_eq_zero (fun dy hdy =>
    Finset.sum_eq_zero (fun dx hdx => ?_)))
  rw [if_neg]
  intro h
  exact hp ⟨c, dx, dy, Finset.mem_range.mp hc, Finset.mem_range.mp hdx,
    Finset.mem_range.mp hdy, h⟩

/-- Element `e` of the 3D application adds nothing outside its slice. -/
theorem elemInc3D_outside (D1D Q1D : Nat) (B Bt op x : Vec R) {e p : Nat}
    (hp : ¬ inSlice3D D1D e p) : elemInc3D D1D Q1D B Bt op x e p = 0 := by
  unfold elemInc3D
  refine Finset.sum_eq_zero (fun c hc => Finset.sum_eq_zero (fun dz hdz =>
    Finset.sum_eq_zero (fun dy hdy => Finset.sum_eq_zero (fun dx hdx => ?_))))
  rw [if_neg]
  intro h
  exact hp ⟨c, dx, dy, dz, Finset.mem_range.mp hc, Finset.mem_range.mp hdx,
    Finset.mem_range.mp hdy, Finset.mem_range.mp hdz, h⟩

theorem apply2D_element_comm (D1D Q1D : Nat) (B Bt op x : Vec R) (u : Uninit R)
    (e1 e2 : Nat) (a : Vec R) :
    apply2D_element D1D Q1D B Bt op x u e1 (apply2D_element D1D Q1D B Bt op x u e2 a)
      = apply2D_element D1D Q1D B Bt op x u e2 (apply2D_element D1D Q1D B Bt op x u e1 a) := by
  funext p
  simp only [apply2D_element_apply]
  ring

theorem apply3D_element_comm (D1D Q1D : Nat) (B Bt op x : Vec R) (u : Uninit R)
    (e1 e2 : Nat) (a : Vec R) :
    apply3D_element D1D Q1D B Bt op x u e1 (apply3D_element D1D Q1D B Bt op x u e2 a)
      = apply3D_element D1D Q1D B Bt op x u e2 (apply3D_element D1D Q1D B Bt op x u e1 a) := by
  funext p
  simp only [apply3D_element_apply]
  ring

/-- Element `e` of the 2D diagonal kernel: the cells of its slice receive the diagonal
value, the others are untouched. -/
theorem diag2D_element_spec (D1D Q1D NE : Nat) (B op : Vec R) (u : Uninit R) (e : Nat)
    (a : Vec R) (p : Nat) :
    (inSlice2D D1D e p → DiagPost2D D1D Q1D NE B op p (diag2D_element D1D Q1D B op u e a p)) ∧
    (¬ inSlice2D D1D e p → diag2D_element D1D Q1D B op u e a p = a p) := by
  have hiff : inSlice2D D1D e p ↔ ∃ dy, dy < D1D ∧ ∃ dx, dx < D1D ∧
      (p = Reshape4 D1D D1D 2 dx dy 0 e ∨ p = Reshape4 D1D D1D 2 dx dy 1 e) := by
    constructor
    · rintro ⟨c, dx, dy, hc, hdx, hdy, hp⟩
      refine ⟨dy, hdy, dx, hdx, ?_⟩
      have : c = 0 ∨ c = 1 := by omega
      rcases this with h | h
      · left; rw [hp, h]
      · right; rw [hp, h]
    · rintro ⟨dy, hdy, dx, hdx, hp | hp⟩
      · exact ⟨0, dx, dy, by decide, hdx, hdy, hp⟩
      · exact ⟨1, dx, dy, by decide, hdx, hdy, hp⟩
  rw [hiff]
  unfold diag2D_element
  simp only []
  refine forLoop_writes
    (fun dy p => ∃ dx, dx < D1D ∧
      (p = Reshape4 D1D D1D 2 dx dy 0 e ∨ p = Reshape4 D1D D1D 2 dx dy 1 e))
    (DiagPost2D D1D Q1D NE B op) ?_ a p
  intro dy hdy a p
  refine forLoop_writes
    (fun dx p => p = Reshape4 D1D D1D 2 dx dy 0 e ∨ p = Reshape4 D1D D1D 2 dx dy 1 e)
    (DiagPost2D D1D Q1D NE B op) ?_ a p
  intro dx hdx a p
  simp only [diag2D_temp1_eq D1D Q1D B op u e hdy dx]
  exact diag2D_stores D1D Q1D NE B op e hdy hdx a p

/-- Element `e` of the 3D diagonal kernel: the cells of its slice receive the diagonal
value, the others are untouched. -/
theorem diag3D_element_spec (D1D Q1D NE : Nat) (B op : Vec R) (u : Uninit R) (e : Nat)
    (a : Vec R) (p : Nat) :
    (inSlice3D D1D e p → DiagPost3D D1D Q1D NE B op p (diag3D_element D1D Q1D B op u e a p)) ∧
    (¬ inSlice3D D1D e p → diag3D_element D1D Q1D B op u e a p = a p) := by
  have hiff : inSlice3D D1D e p ↔ ∃ dz, dz < D1D ∧ ∃ dy, dy < D1D ∧ ∃ dx, dx < D1D ∧
      (p = Reshape5 D1D D1D D1D 3 dx dy dz 0 e ∨ p = Reshape5 D1D D1D D1D 3 dx dy dz 1 e
        ∨ p = Reshape5 D1D D1D D1D 3 dx dy dz 2 e) := by
    constructor
    · rintro ⟨c, dx, dy, dz, hc, hdx, hdy, hdz, hp⟩
      refine ⟨dz, hdz, dy, hdy, dx, hdx, ?_⟩
      have : c = 0 ∨ c = 1 ∨ c = 2 := by omega
      rcases this with h | h | h
      · left; rw [hp, h]
      · right; left; rw [hp, h]
      · right; right; rw [hp, h]
    · rintro ⟨dz, hdz, dy, hdy, dx, hdx, hp | hp | hp⟩
      · exact ⟨0, dx, dy, dz, by decide, hdx, hdy, hdz, hp⟩
      · exact ⟨1, dx, dy, dz, by decide, hdx, hdy, hdz, hp⟩
      · exact ⟨2, dx, dy, dz, by decide, hdx, hdy, hdz, hp⟩
  rw [hiff]
  unfold diag3D_element
  simp only []
  refine forLoop_writes
    (fun dz p => ∃ dy, dy < D1D ∧ ∃ dx, dx < D1D ∧
      (p = Reshape5 D1D D1D D1D 3 dx dy dz 0 e ∨ p = Reshape5 D1D D1D D1D 3 dx dy dz 1 e
        ∨ p = Reshape5 D1D D1D D1D 3 dx dy dz 2 e))
    (DiagPost3D D1D Q1D NE B op) ?_ a p
  intro dz hdz a p
  refine forLoop_writes
    (fun dy p => ∃ dx, dx < D1D ∧
      (p = Reshape5 D1D D1D D1D 3 dx dy dz 0 e ∨ p = Reshape5 D1D D1D D1D 3 dx dy dz 1 e
        ∨ p = Reshape5 D1D D1D D1D 3 dx dy dz 2 e))
    (DiagPost3D D1D Q1D NE B op) ?_ a p
  intro dy hdy a p
  refine forLoop_writes
    (fun dx p => p = Reshape5 D1D D1D D1D 3 dx dy dz 0 e
      ∨ p = Reshape5 D1D D1D D1D 3 dx dy dz 1 e ∨ p = Reshape5 D1D D1D D1D 3 dx dy dz 2 e)
    (DiagPost3D D1D Q1D NE B op) ?_ a p
  intro dx hdx a p
  simp only [diag3D_temp3_eq D1D Q1D B op u e hdz hdy dx]
  exact diag3D_stores D1D Q1D NE B op e hdz hdy hdx a p

theorem inSlice2D_unique {D1D e1 e2 p : Nat} (h1 : inSlice2D D1D e1 p)
    (h2 : inSlice2D D1D e2 p) : e1 = e2 := by
  obtain ⟨c, dx, dy, hc, hdx, hdy, hp⟩ := h1
  obtain ⟨c', dx', dy', hc', hdx', hdy', hp'⟩ := h2
  exact ((Reshape4_eq_iff hdx hdx' hdy hdy' hc hc').mp (hp.symm.trans hp')).2.2.2

theorem inSlice3D_unique {D1D e1 e2 p : Nat} (h1 : inSlice3D D1D e1 p)
    (h2 : inSlice3D D1D e2 p) : e1 = e2 := by
  obtain ⟨c, dx, dy, dz, hc, hdx, hdy, hdz, hp⟩ := h1
  obtain ⟨c', dx', dy', dz', hc', hdx', hdy', hdz', hp'⟩ := h2
  exact ((Reshape5_eq_iff hdx hdx' hdy hdy' hdz hdz' hc hc').mp (hp.symm.trans hp')).2.2.2.2

theorem diag2D_element_comm (D1D Q1D NE : Nat) (B op : Vec R) (u : Uninit R)
    {e1 e2 : Nat} (he1 : e1 < NE) (he2 : e2 < NE) (a : Vec R) :
    diag2D_element D1D Q1D B op u e1 (diag2D_element D1D Q1D B op u e2 a)
      = diag2D_element D1D Q1D B op u e2 (diag2D_element D1D Q1D B op u e1 a) := by
  refine writers_comm NE (fun e a => diag2D_element D1D Q1D B op u e a)
    (fun e p => inSlice2D D1D e p) (DiagPost2D D1D Q1D NE B op)
    (fun e _ a p => diag2D_element_spec D1D Q1D NE B op u e a p) ?_
    (fun e1 e2 p h1 h2 => inSlice2D_unique h1 h2) he1 he2 a
  intro e p r r' he hS hr hr'
  obtain ⟨c, dx, dy, hc, hdx, hdy, hp⟩ := hS
  rw [hr e c dx dy he hc hdx hdy hp, hr' e c dx dy he hc hdx hdy hp]

theorem diag3D_element_comm (D1D Q1D NE : Nat) (B op : Vec R) (u : Uninit R)
    {e1 e2 : Nat} (he1 : e1 < NE) (he2 : e2 < NE) (a : Vec R) :
    diag3D_element D1D Q1D B op u e1 (diag3D_element D1D Q1D B op u e2 a)
      = diag3D_element D1D Q1D B op u e2 (diag3D_element D1D Q1D B op u e1 a) := by
  refine writers_comm NE (fun e a => diag3D_element D1D Q1D B op u e a)
    (fun e p => inSlice3D D1D e p) (DiagPost3D D1D Q1D NE B op)
    (fun e _ a p => diag3D_element_spec D1D Q1D NE B op u e a p) ?_
    (fun e1 e2 p h1 h2 => inSlice3D_unique h1 h2) he1 he2 a
  intro e p r r' he hS hr hr'
  obtain ⟨c, dx, dy, dz, hc, hdx, hdy, hdz, hp⟩ := hS
  rw [hr e c dx dy dz he hc hdx hdy hdz hp, hr' e c dx dy dz he hc hdx hdy hdz hp]

theorem diagVal2D_congr (Q1D : Nat) (B : Vec R) {op1 op2 : Vec R} {e : Nat}
    (hop : opEq2D Q1D op1 op2 e) (dx dy : Nat) :
    diagVal2D Q1D B op1 e dx dy = diagVal2D Q1D B op2 e dx dy := by
  unfold diagVal2D
  refine Finset.sum_congr rfl (fun qx hqx => ?_)
  congr 1
  refine Finset.sum_congr rfl (fun qy hqy => ?_)
  rw [hop qx qy (Finset.mem_range.mp hqx) (Finset.mem_range.mp hqy)]

theorem diagVal3D_congr (Q1D : Nat) (B : Vec R) {op1 op2 : Vec R} {e : Nat}
    (hop : opEq3D Q1D op1 op2 e) (dx dy dz : Nat) :
    diagVal3D Q1D B op1 e dx dy dz = diagVal3D Q1D B op2 e dx dy dz := by
  unfold diagVal3D
  refine Finset.sum_congr rfl (fun qx hqx => ?_)
  congr 1
  refine Finset.sum_congr rfl (fun qy hqy => ?_)
  congr 1
  refine Finset.sum_congr rfl (fun qz hqz => ?_)
  rw [hop qx qy qz (Finset.mem_range.mp hqx) (Finset.mem_range.mp hqy)
    (Finset.mem_range.mp hqz)]

end ElementLemmas

section Claims4

/-- C17. Elements are independent: within the device limits, in Apply and in diagonal
extraction (2D and 3D), the slice of the output that belongs to element `e` is the same
for two runs whose `op`, `x` and incoming `y` agree on element `e` (whatever the data
of the other elements); every element changes only the cells of its own slice; and the
output is the same whatever the order in which the elements are processed. -/
theorem C17_elements_independent {R : Type} [CommRing R] (T_D1D T_Q1D : Nat)
    (lim : DofQuadLimits) (u : Uninit R) (NE : Nat) (B Bt op1 op2 x1 x2 y1 y2 : Vec R)
    (d1d q1d : Nat)
    (hD : tsize T_D1D d1d ≤ lim.MAX_D1D) (hQ : tsize T_Q1D q1d ≤ lim.MAX_Q1D) :
    ((∃ y1' y2',
        PAVectorMassApply2D T_D1D T_Q1D lim u NE B Bt op1 x1 y1 d1d q1d = Except.ok y1' ∧
        PAVectorMassApply2D T_D1D T_Q1D lim u NE B Bt op2 x2 y2 d1d q1d = Except.ok y2' ∧
        (∀ e, e < NE → opEq2D (tsize T_Q1D q1d) op1 op2 e →
          (∀ c, c < 2 → compEq2D (tsize T_D1D d1d) x1 x2 e c c) →
          (∀ c, c < 2 → compEq2D (tsize T_D1D d1d) y1 y2 e c c) →
          ∀ c, c < 2 → compEq2D (tsize T_D1D d1d) y1' y2' e c c) ∧
        (∀ l : List Nat, l.Perm (List.range NE) →
          forEach l (fun e a => apply2D_element (tsize T_D1D d1d) (tsize T_Q1D q1d) B Bt op1 x1 u e a) y1 = y1')) ∧
      (∃ d1' d2',
        PAVectorMassAssembleDiagonal2D T_D1D T_Q1D lim u NE B Bt op1 y1 d1d q1d
          = Except.ok d1' ∧
        PAVectorMassAssembleDiagonal2D T_D1D T_Q1D lim u NE B Bt op2 y2 d1d q1d
          = Except.ok d2' ∧
        (∀ e, e < NE → opEq2D (tsize T_Q1D q1d) op1 op2 e →
          ∀ c, c < 2 → compEq2D (tsize T_D1D d1d) d1' d2' e c c) ∧
        (∀ l : List Nat, l.Perm (List.range NE) →
          forEach l (fun e a => diag2D_element (tsize T_D1D d1d) (tsize T_Q1D q1d) B op1 u e a) y1 = d1')) ∧
      (∀ e p a, ¬ inSlice2D (tsize T_D1D d1d) e p →
        apply2D_element (tsize T_D1D d1d) (tsize T_Q1D q1d) B Bt op1 x1 u e a p = a p ∧
        diag2D_element (tsize T_D1D d1d) (tsize T_Q1D q1d) B op1 u e a p = a p)) ∧
    ((∃ y1' y2',
        PAVectorMassApply3D T_D1D T_Q1D lim u NE B Bt op1 x1 y1 d1d q1d = Except.ok y1' ∧
        PAVectorMassApply3D T_D1D T_Q1D lim u NE B Bt op2 x2 y2 d1d q1d = Except.ok y2' ∧
        (∀ e, e < NE → opEq3D (tsize T_Q1D q1d) op1 op2 e →
          (∀ c, c < 3 → compEq3D (tsize T_D1D d1d) x1 x2 e c c) →
          (∀ c, c < 3 → compEq3D (tsize T_D1D d1d) y1 y2 e c c) →
          ∀ c, c < 3 → compEq3D (tsize T_D1D d1d) y1' y2' e c c) ∧
        (∀ l : List Nat, l.Perm (List.range NE) →
          forEach l (fun e a => apply3D_element (tsize T_D1D d1d) (tsize T_Q1D q1d) B Bt op1 x1 u e a) y1 = y1')) ∧
      (∃ d1' d2',
        PAVectorMassAssembleDiagonal3D T_D1D T_Q1D lim u NE B Bt op1 y1 d1d q1d
          = Except.ok d1' ∧
        PAVectorMassAssembleDiagonal3D T_D1D T_Q1D lim u NE B Bt op2 y2 d1d q1d
          = Except.ok d2' ∧
        (∀ e, e < NE → opEq3D (tsize T_Q1D q1d) op1 op2 e →
          ∀ c, c < 3 → compEq3D (tsize T_D1D d1d) d1' d2' e c c) ∧
        (∀ l : List Nat, l.Perm (List.range NE) →
          forEach l (fun e a => diag3D_element (tsize T_D1D d1d) (tsize T_Q1D q1d) B op1 u e a) y1 = d1')) ∧
      (∀ e p a, ¬ inSlice3D (tsize T_D1D d1d) e p →
        apply3D_element (tsize T_D1D d1d) (tsize T_Q1D q1d) B Bt op1 x1 u e a p = a p ∧
        diag3D_element (tsize T_D1D d1d) (tsize T_Q1D q1d) B op1 u e a p = a p)) := by
  constructor
  · refine ⟨⟨_, _, PAVectorMassApply2D_ok T_D1D T_Q1D lim u NE B Bt op1 x1 y1 d1d q1d hD hQ,
        PAVectorMassApply2D_ok T_D1D T_Q1D lim u NE B Bt op2 x2 y2 d1d q1d hD hQ, ?_, ?_⟩,
      ⟨_, _, PAVectorMassAssembleDiagonal2D_ok T_D1D T_Q1D lim u NE B Bt op1 y1 d1d q1d hD hQ,
        PAVectorMassAssembleDiagonal2D_ok T_D1D T_Q1D lim u NE B Bt op2 y2 d1d q1d hD hQ,
        ?_, ?_⟩, ?_⟩
    · intro e he hop hx hy c hc
      exact apply2D_component_dep _ _ NE B Bt he hc hop (hx c hc) (hy c hc)
    · intro l hl
      rw [forEach_perm NE _ (fun i j _ _ s => apply2D_element_comm _ _ B Bt op1 x1 u i j s) hl]
      funext p
      exact apply2D_loop_apply _ _ NE B Bt op1 x1 u y1 p
    · intro e he hop c hc dx dy hdx hdy
      rw [diag2D_loop_at _ _ NE B op1 u y1 he hc hdx hdy,
        diag2D_loop_at _ _ NE B op2 u y2 he hc hdx hdy]
      exact diagVal2D_congr _ B hop dx dy
    · intro l hl
      exact forEach_perm NE _
        (fun i j hi hj s => diag2D_element_comm _ _ NE B op1 u hi hj s) hl y1
    · intro e p a hp
      refine ⟨?_, (diag2D_element_spec _ _ NE B op1 u e a p).2 hp⟩
      rw [apply2D_element_apply, elemInc2D_outside _ _ B Bt op1 x1 hp, add_zero]
  · refine ⟨⟨_, _, PAVectorMassApply3D_ok T_D1D T_Q1D lim u NE B Bt op1 x1 y1 d1d q1d hD hQ,
        PAVectorMassApply3D_ok T_D1D T_Q1D lim u NE B Bt op2 x2 y2 d1d q1d hD hQ, ?_, ?_⟩,
      ⟨_, _, PAVectorMassAssembleDiagonal3D_ok T_D1D T_Q1D lim u NE B Bt op1 y1 d1d q1d hD hQ,
        PAVectorMassAssembleDiagonal3D_ok T_D1D T_Q1D lim u NE B Bt op2 y2 d1d q1d hD hQ,
        ?_, ?_⟩, ?_⟩
    · intro e he hop hx hy c hc
      exact apply3D_component_dep _ _ NE B Bt he hc hop (hx c hc) (hy c hc)
    · intro l hl
      rw [forEach_perm NE _ (fun i j _ _ s => apply3D_element_comm _ _ B Bt op1 x1 u i j s) hl]
      funext p
      exact apply3D_loop_apply _ _ NE B Bt op1 x1 u y1 p
    · intro e he hop c hc dx dy dz hdx hdy hdz
      rw [diag3D_loop_at _ _ NE B op1 u y1 he hc hdx hdy hdz,
        diag3D_loop_at _ _ NE B op2 u y2 he hc hdx hdy hdz]
      exact diagVal3D_congr _ B hop dx dy dz
    · intro l hl
      exact forEach_perm NE _
        (fun i j hi hj s => diag3D_element_comm _ _ NE B op1 u hi hj s) hl y1
    · intro e p a hp
      refine ⟨?_, (diag3D_element_spec _ _ NE B op1 u e a p).2 hp⟩
      rw [apply3D_element_apply, elemInc3D_outside _ _ B Bt op1 x1 hp, add_zero]

/-- C17 at the sample data: `D1D = Q1D = 2`, three elements; the elements run in the
order 2, 0, 1 give the output of the kernels. -/
theorem C17_elements_independent_witness :
    ∃ y' d',
      PAVectorMassApply2D 0 0 sampleLimits sampleUninit 3 sampleB sampleBt sampleOp sampleX
        sampleY 2 2 = Except.ok y' ∧
      forEach [2, 0, 1]
        (fun e a => apply2D_element (tsize 0 2) (tsize 0 2) sampleB sampleBt sampleOp sampleX
          sampleUninit e a) sampleY = y' ∧
      PAVectorMassAssembleDiagonal2D 0 0 sampleLimits sampleUninit 3 sampleB sampleBt sampleOp
        sampleY 2 2 = Except.ok d' ∧
      forEach [2, 0, 1]
        (fun e a => diag2D_element (tsize 0 2) (tsize 0 2) sampleB sampleOp sampleUninit e a)
        sampleY = d' := by
  obtain ⟨⟨⟨y', _, h1, _, _, hord⟩, ⟨d', _, h2, _, _, hordd⟩, _⟩, _⟩ :=
    C17_elements_independent 0 0 sampleLimits sampleUninit 3 sampleB sampleBt sampleOp
      sampleOp sampleX sampleX sampleY sampleY 2 2 (by decide) (by decide)
  exact ⟨y', d', h1, hord [2, 0, 1] (by decide), h2, hordd [2, 0, 1] (by decide)⟩

end Claims4


/-! ## The bilinear element on the unit square -/

section BilinearLemmas

/-- The assembled 2D matrix applied to a unit vector gives its column at the position
of the unit. -/
theorem massAction2D_unit {R : Type} [CommRing R] (D1D Q1D : Nat) (B op : Vec R)
    {e c dx0 dy0 : Nat} (dx dy : Nat) (hc : c < 2) (hdx : dx0 < D1D) (hdy : dy0 < D1D) :
    massAction2D D1D Q1D B op (unitVec (Reshape4 D1D D1D 2 dx0 dy0 c e)) e c dx dy
      = elemMass2D Q1D B op e dx dy dx0 dy0 := by
  unfold massAction2D unitVec
  have key : ∀ dy' ∈ range D1D, ∀ dx' ∈ range D1D,
      elemMass2D Q1D B op e dx dy dx' dy'
          * (if Reshape4 D1D D1D 2 dx' dy' c e = Reshape4 D1D D1D 2 dx0 dy0 c e
              then (1 : R) else 0)
        = if dx0 = dx' ∧ dy0 = dy' then elemMass2D Q1D B op e dx dy dx' dy' else 0 := by
    intro dy' hdy' dx' hdx'
    have hiff : Reshape4 D1D D1D 2 dx' dy' c e = Reshape4 D1D D1D 2 dx0 dy0 c e
        ↔ dx0 = dx' ∧ dy0 = dy' := by
      rw [Reshape4_eq_iff (Finset.mem_range.mp hdx') hdx (Finset.mem_range.mp hdy') hdy hc hc]
      constructor
      · rintro ⟨h1, h2, _, _⟩; exact ⟨h1.symm, h2.symm⟩
      · rintro ⟨h1, h2⟩; exact ⟨h1.symm, h2.symm, rfl, rfl⟩
    rw [mul_ite, mul_one, mul_zero]
    exact if_congr hiff rfl rfl
  rw [Finset.sum_congr rfl (fun dy' hdy' => Finset.sum_congr rfl (fun dx' hdx' =>
    key dy' hdy' dx' hdx'))]
  simp only [sum_range_ite_eq_and, sum_range_ite_eq_one, hdx, hdy, true_and, if_true]

/-- The table `bilinearBt` is the transpose of `bilinearB`. -/
theorem bilinearBt_transpose {F : Type} [Field F] (s : F) :
    ∀ d q, d < 2 → q < 2 →
      bilinearBt s (Reshape2 2 d q) = bilinearB s (Reshape2 2 q d) := by
  intro d q hd hq
  interval_cases d <;> interval_cases q <;> rfl

/-- The entries of `bilinearB`, with `t = 1/s`. -/
theorem bilinearB_values (s : ℝ) :
    bilinearB s (Reshape2 2 0 0) = (1 + 1 / s) / 2 ∧
    bilinearB s (Reshape2 2 1 0) = (1 - 1 / s) / 2 ∧
    bilinearB s (Reshape2 2 0 1) = (1 - 1 / s) / 2 ∧
    bilinearB s (Reshape2 2 1 1) = (1 + 1 / s) / 2 := by
  refine ⟨?_, ?_, ?_, ?_⟩ <;>
    simp [bilinearB, linearBasis, gaussPoint, Reshape2] <;> ring

/-- The first column of the mass matrix of the bilinear element on the unit square, by
the 2-point Gauss rule. -/
theorem bilinear_mass_column (s : ℝ) (hs : s * s = 3) :
    elemMass2D 2 (bilinearB s) gaussWeights 0 0 0 0 0 = 1 / 9 ∧
    elemMass2D 2 (bilinearB s) gaussWeights 0 1 0 0 0 = 1 / 18 ∧
    elemMass2D 2 (bilinearB s) gaussWeights 0 0 1 0 0 = 1 / 18 ∧
    elemMass2D 2 (bilinearB s) gaussWeights 0 1 1 0 0 = 1 / 36 := by
  have hs0 : s ≠ 0 := by
    intro h
    rw [h] at hs
    norm_num at hs
  have ht : (1 / s) * (1 / s) = 1 / 3 := by
    field_simp
    linarith
  obtain ⟨b00, b10, b01, b11⟩ := bilinearB_values s
  simp only [elemMass2D, shape2D, Finset.sum_range_succ, Finset.sum_range_zero, zero_add,
    gaussWeights, b00, b10, b01, b11]
  generalize 1 / s = t at ht
  refine ⟨?_, ?_, ?_, ?_⟩
  · linear_combination ((t * t + 7 / 3) / 16) * ht
  · linear_combination (-(t * t + 1 / 3) / 16) * ht
  · linear_combination (-(t * t + 1 / 3) / 16) * ht
  · linear_combination ((t * t - 5 / 3) / 16) * ht

end BilinearLemmas

section Claims10

/-- C21. The concrete bilinear scenario: for one 2D element (`NE = 1`) with
`D1D = Q1D = 2`, the 2-point Gauss rule on `[0,1]` (points `(1 - 1/sqrt 3)/2` and
`(1 + 1/sqrt 3)/2`, tensor weights `1/4`), the linear basis `B(q,0) = 1 - x_q`,
`B(q,1) = x_q`, `Bt` its transpose and `pa_data` equal to the weights, `PAVectorMassApply2D` applied within the
device limits to the unit dof vector at the dof `(0,0)` of component `c`, with `y`
zeroed, succeeds and leaves in component `c` the first row of the bilinear mass matrix
of the unit square: `1/9, 1/18, 1/18, 1/36` at the dofs `(0,0), (1,0), (0,1), (1,1)`. -/
theorem C21_bilinear_scenario (lim : DofQuadLimits) (u : Uninit ℝ) (c : Nat)
    (hc : c < 2) (hD : 2 ≤ lim.MAX_D1D) (hQ : 2 ≤ lim.MAX_Q1D) :
    ∃ y', PAVectorMassApply2D 0 0 lim u 1 (bilinearB (Real.sqrt 3))
        (bilinearBt (Real.sqrt 3)) gaussWeights (unitVec (Reshape4 2 2 2 0 0 c 0)) zeroVec
        2 2 = Except.ok y' ∧
      y' (Reshape4 2 2 2 0 0 c 0) = 1 / 9 ∧
      y' (Reshape4 2 2 2 1 0 c 0) = 1 / 18 ∧
      y' (Reshape4 2 2 2 0 1 c 0) = 1 / 18 ∧
      y' (Reshape4 2 2 2 1 1 c 0) = 1 / 36 := by
  have hs : Real.sqrt 3 * Real.sqrt 3 = 3 := Real.mul_self_sqrt (by norm_num)
  obtain ⟨m00, m10, m01, m11⟩ := bilinear_mass_column (Real.sqrt 3) hs
  have hval : ∀ dx dy, dx < 2 → dy < 2 →
      (fun p => (zeroVec : Vec ℝ) p + applyInc2D (tsize 0 2) (tsize 0 2) 1
          (bilinearB (Real.sqrt 3)) (bilinearBt (Real.sqrt 3)) gaussWeights
          (unitVec (Reshape4 2 2 2 0 0 c 0)) p) (Reshape4 2 2 2 dx dy c 0)
        = elemMass2D 2 (bilinearB (Real.sqrt 3)) gaussWeights 0 dx dy 0 0 := by
    intro dx dy hdx hdy
    simp only [tsize_zero, zeroVec, zero_add]
    rw [applyInc2D_at 2 2 1 _ _ _ _ (Nat.zero_lt_one) hc hdx hdy,
      inc2D_eq_massAction2D 2 2 _ _ _ _ (bilinearBt_transpose (Real.sqrt 3)) 0 c hdx hdy,
      massAction2D_unit 2 2 _ _ dx dy hc (by decide) (by decide)]
  refine ⟨_, PAVectorMassApply2D_ok 0 0 lim u 1 _ _ _ _ zeroVec 2 2
    (by rw [tsize_zero]; exact hD) (by rw [tsize_zero]; exact hQ), ?_, ?_, ?_, ?_⟩
  · exact (hval 0 0 (by decide) (by decide)).trans m00
  · exact (hval 1 0 (by decide) (by decide)).trans m10
  · exact (hval 0 1 (by decide) (by decide)).trans m01
  · exact (hval 1 1 (by decide) (by decide)).trans m11

/-- C21 in component 0, with the sample device limits. -/
theorem C21_bilinear_scenario_witness :
    ∃ y', PAVectorMassApply2D 0 0 sampleLimits
        (⟨fun _ => 0, fun _ => 0, fun _ => 0⟩ : Uninit ℝ) 1 (bilinearB (Real.sqrt 3)) (bilinearBt (Real.sqrt 3)) gaussWeights
        (unitVec (Reshape4 2 2 2 0 0 0 0)) zeroVec 2 2 = Except.ok y' ∧
      y' (Reshape4 2 2 2 0 0 0 0) = 1 / 9 ∧
      y' (Reshape4 2 2 2 1 0 0 0) = 1 / 18 ∧
      y' (Reshape4 2 2 2 0 1 0 0) = 1 / 18 ∧
      y' (Reshape4 2 2 2 1 1 0 0) = 1 / 36 :=
  C21_bilinear_scenario sampleLimits ⟨fun _ => 0, fun _ => 0, fun _ => 0⟩ 0 (by decide)
    (by decide) (by decide)

end Claims10

/-! ## Operator data: the identity map, determinism and size -/

section DataLemmas

variable {R : Type} [CommRing R]

/-- The kernels of `AssemblePA` leave every cell other than the assigned ones as it
was. -/
theorem AssemblePA_kernels_frame (dim NE NQ : Nat) (w J : Vec R) (coeff : R) (pa : Vec R)
    {p : Nat} (hp : ¬ paCells NQ NE p) :
    AssemblePA_kernels dim NE NQ w J coeff pa p = pa p := by
  unfold AssemblePA_kernels
  by_cases h2 : dim = 2
  · subst h2
    simp only [if_true, show ¬ (2 = 3) by decide, if_false, AssemblePA_element2D_eq]
    exact (assemble_loop_spec NQ NE w coeff (detJ2D NQ J) pa p).2 hp
  · by_cases h3 : dim = 3
    · subst h3
      simp only [show ¬ (3 = 2) by decide, if_false, if_true, AssemblePA_element3D_eq]
      exact (assemble_loop_spec NQ NE w coeff (detJ3D NQ J) pa p).2 hp
    · simp only [h2, h3, if_false]

/-- A flat position below `NE * NQ` is the cell `(p % NQ, p / NQ)` of the view
`Reshape(NQ, NE)`. -/
theorem flat_cell {NQ NE p : Nat} (hp : p < NE * NQ) :
    p / NQ < NE ∧ p % NQ < NQ ∧ p = Reshape2 NQ (p % NQ) (p / NQ) := by
  have hNQ : 0 < NQ := by
    rcases Nat.eq_zero_or_pos NQ with h | h
    · rw [h, Nat.mul_zero] at hp
      exact absurd hp (Nat.not_lt_zero _)
    · exact h
  refine ⟨?_, Nat.mod_lt _ hNQ, ?_⟩
  · rw [Nat.mul_comm] at hp
    exact Nat.div_lt_of_lt_mul hp
  · unfold Reshape2
    exact (Nat.mod_add_div p NQ).symm

/-- The cells that `AssemblePA` assigns are the flat positions below `NE * NQ`. -/
theorem paCells_iff (NQ NE p : Nat) : paCells NQ NE p ↔ p < NE * NQ := by
  constructor
  · rintro ⟨e, he, q, hq, rfl⟩
    rw [Nat.mul_comm]
    exact Reshape2_lt hq he
  · intro hp
    obtain ⟨h1, h2, h3⟩ := flat_cell hp
    exact ⟨p / NQ, h1, p % NQ, h2, h3⟩

/-- Running the kernels of `AssemblePA` on their own result changes nothing. -/
theorem AssemblePA_kernels_idem (dim NE NQ : Nat) (w J : Vec R) (coeff : R) (pa : Vec R)
    (hdim : dim = 2 ∨ dim = 3) :
    AssemblePA_kernels dim NE NQ w J coeff (AssemblePA_kernels dim NE NQ w J coeff pa)
      = AssemblePA_kernels dim NE NQ w J coeff pa := by
  funext p
  by_cases hp : paCells NQ NE p
  · obtain ⟨e, he, q, hq, rfl⟩ := hp
    rw [AssemblePA_kernels_paValue dim NE NQ w J coeff _ hdim he hq,
      AssemblePA_kernels_paValue dim NE NQ w J coeff _ hdim he hq]
  · exact AssemblePA_kernels_frame dim NE NQ w J coeff _ hp

/-- The determinant computed in 2D is 1 when the Jacobian is the identity. -/
theorem detJ2D_identity (NQ : Nat) (J : Vec R) (q e : Nat)
    (hJ : ∀ i j, i < 2 → j < 2 → J (Reshape4 NQ 2 2 q i j e) = if i = j then 1 else 0) :
    detJ2D NQ J q e = 1 := by
  unfold detJ2D
  rw [hJ 0 0 (by decide) (by decide), hJ 1 1 (by decide) (by decide),
    hJ 0 1 (by decide) (by decide), hJ 1 0 (by decide) (by decide)]
  simp

/-- The determinant computed in 3D is 1 when the Jacobian is the identity. -/
theorem detJ3D_identity (NQ : Nat) (J : Vec R) (q e : Nat)
    (hJ : ∀ i j, i < 3 → j < 3 → J (Reshape4 NQ 3 3 q i j e) = if i = j then 1 else 0) :
    detJ3D NQ J q e = 1 := by
  unfold detJ3D
  rw [hJ 0 0 (by decide) (by decide), hJ 1 1 (by decide) (by decide),
    hJ 2 2 (by decide) (by decide), hJ 0 1 (by decide) (by decide),
    hJ 0 2 (by decide) (by decide), hJ 1 0 (by decide) (by decide),
    hJ 1 2 (by decide) (by decide), hJ 2 0 (by decide) (by decide),
    hJ 2 1 (by decide) (by decide)]
  simp

/-- The Jacobian of `sampleSetup` is the identity. -/
theorem sampleSetup_identity (dim : Nat) (hdim : dim = 2 ∨ dim = 3) :
    ∀ e q i j, e < (sampleSetup dim).GetNE → q < (sampleSetup dim).GetNPoints →
      i < (sampleSetup dim).Dimension → j < (sampleSetup dim).Dimension →
      (sampleSetup dim).J (Reshape4 (sampleSetup dim).GetNPoints (sampleSetup dim).Dimension
        (sampleSetup dim).Dimension q i j e) = if i = j then 1 else 0 := by
  intro e q i j he hq hi hj
  have he0 : e = 0 := Nat.lt_one_iff.mp he
  have hq0 : q = 0 := Nat.lt_one_iff.mp hq
  subst he0 hq0
  rcases hdim with h | h
  · subst h
    have hi2 : i < 2 := hi
    have hj2 : j < 2 := hj
    interval_cases i <;> interval_cases j <;> rfl
  · subst h
    have hi3 : i < 3 := hi
    have hj3 : j < 3 := hj
    interval_cases i <;> interval_cases j <;> rfl

end DataLemmas

section Claims5

/-- C22. The identity map gives the weights: on the native path, in dimension 2 or 3,
when every Jacobian is the identity matrix and the coefficient is the constant `1`,
`AssemblePA` succeeds and sets `pa_data(q,e) = w[q]` for every quadrature point `q` and
element `e`. -/
theorem C22_identity_map_weights {R : Type} [CommRing R] (env : PASetup R)
    (self : VectorMassIntegrator R)
    (hceed : env.DeviceCanUseCeed = false)
    (hdim : env.Dimension = 2 ∨ env.Dimension = 3)
    (hQ : self.Q = some (Coefficient.constant 1))
    (hJ : ∀ e q i j, e < env.GetNE → q < env.GetNPoints → i < env.Dimension →
      j < env.Dimension →
      env.J (Reshape4 env.GetNPoints env.Dimension env.Dimension q i j e)
        = if i = j then 1 else 0) :
    ∃ s', AssemblePA env self = Except.ok s' ∧
      ∀ e q, e < env.GetNE → q < env.GetNPoints →
        s'.pa_data (Reshape2 env.GetNPoints q e) = env.GetWeights q := by
  have hco : AssemblePA_coeff self.Q = Except.ok 1 := by rw [hQ]; rfl
  refine ⟨_, AssemblePA_native env self 1 hceed hco hdim, ?_⟩
  intro e q he hq
  simp only
  rw [AssemblePA_kernels_paValue env.Dimension env.GetNE env.GetNPoints env.GetWeights env.J 1
    self.pa_data hdim he hq]
  unfold paValue
  rcases hdim with h | h
  · rw [h] at hJ
    rw [if_pos h,
      detJ2D_identity env.GetNPoints env.J q e (fun i j hi hj => hJ e q i j he hq hi hj),
      mul_one, mul_one]
  · rw [h] at hJ
    rw [if_neg (by rw [h]; decide),
      detJ3D_identity env.GetNPoints env.J q e (fun i j hi hj => hJ e q i j he hq hi hj),
      mul_one, mul_one]

/-- C22 at the sample data: dimension 3, identity Jacobian, weight `2`. -/
theorem C22_identity_map_weights_witness :
    ∃ s', AssemblePA (sampleSetup 3) (sampleIntegrator 1) = Except.ok s' ∧
      ∀ e q, e < (sampleSetup 3).GetNE → q < (sampleSetup 3).GetNPoints →
        s'.pa_data (Reshape2 (sampleSetup 3).GetNPoints q e) = (sampleSetup 3).GetWeights q :=
  C22_identity_map_weights (sampleSetup 3) (sampleIntegrator 1) rfl (Or.inr rfl) rfl
    (sampleSetup_identity 3 (Or.inr rfl))

/-- C23. `AssemblePA` is deterministic and idempotent: on the native path, in dimension
2 or 3, two integrators with the same usable coefficient, whatever their members and
their `pa_data` held before, come out of `AssemblePA` with the same size
`NE * NQ` and the same entries, each entry `p` being the value
`w[q] * coeff * det(J(q,e))` at `q = p % NQ`, `e = p / NQ`, a function of the weights,
the geometric factors and the coefficient only; and a second call of `AssemblePA` on the
result succeeds and returns it unchanged. -/
theorem C23_assemble_deterministic {R : Type} [CommRing R] (env : PASetup R)
    (self1 self2 : VectorMassIntegrator R) (coeff : R)
    (hceed : env.DeviceCanUseCeed = false)
    (hdim : env.Dimension = 2 ∨ env.Dimension = 3)
    (hco1 : AssemblePA_coeff self1.Q = Except.ok coeff)
    (hco2 : AssemblePA_coeff self2.Q = Except.ok coeff) :
    ∃ s1 s2, AssemblePA env self1 = Except.ok s1 ∧ AssemblePA env self2 = Except.ok s2 ∧
      s1.pa_size = env.GetNE * env.GetNPoints ∧ s2.pa_size = s1.pa_size ∧
      (∀ p, p < s1.pa_size →
        s1.pa_data p = paValue env.Dimension env.GetNPoints env.GetWeights env.J coeff
          (p % env.GetNPoints) (p / env.GetNPoints) ∧
        s2.pa_data p = s1.pa_data p) ∧
      AssemblePA env s1 = Except.ok s1 := by
  refine ⟨_, _, AssemblePA_native env self1 coeff hceed hco1 hdim,
    AssemblePA_native env self2 coeff hceed hco2 hdim, rfl, rfl, ?_, ?_⟩
  · intro p hp
    obtain ⟨h1, h2, h3⟩ := flat_cell hp
    have e1 := AssemblePA_kernels_paValue env.Dimension env.GetNE env.GetNPoints
      env.GetWeights env.J coeff self1.pa_data hdim h1 h2
    have e2 := AssemblePA_kernels_paValue env.Dimension env.GetNE env.GetNPoints
      env.GetWeights env.J coeff self2.pa_data hdim h1 h2
    rw [← h3] at e1 e2
    exact ⟨e1, e2.trans e1.symm⟩
  · refine (AssemblePA_native env _ coeff hceed ?_ hdim).trans ?_
    · exact hco1
    · simp only [AssemblePA_kernels_idem _ _ _ _ _ _ _ hdim]

/-- C23 at the sample data: a fresh integrator and one used before, coefficient `3`. -/
theorem C23_assemble_deterministic_witness :
    ∃ s1 s2, AssemblePA (sampleSetup 2) (sampleIntegrator 3) = Except.ok s1 ∧
      AssemblePA (sampleSetup 2) (sampleIntegratorUsed 3) = Except.ok s2 ∧
      s1.pa_size = (sampleSetup 2).GetNE * (sampleSetup 2).GetNPoints ∧
      s2.pa_size = s1.pa_size ∧
      (∀ p, p < s1.pa_size →
        s1.pa_data p = paValue (sampleSetup 2).Dimension (sampleSetup 2).GetNPoints
          (sampleSetup 2).GetWeights (sampleSetup 2).J 3
          (p % (sampleSetup 2).GetNPoints) (p / (sampleSetup 2).GetNPoints) ∧
        s2.pa_data p = s1.pa_data p) ∧
      AssemblePA (sampleSetup 2) s1 = Except.ok s1 :=
  C23_assemble_deterministic (sampleSetup 2) (sampleIntegrator 3) (sampleIntegratorUsed 3) 3
    rfl (Or.inl rfl) rfl rfl

/-- C24, as stated, fails on a mesh without elements: with `NE = 0`, five quadrature
points per element and `Q1D = 2` in dimension 2, `AssemblePA` succeeds and the size of
`pa_data` is `0 = NE * Q1D^2`, although `NQ = 5` is not `Q1D^2 = 4`. -/
theorem C24_empty_mesh_counterexample :
    ∃ s', AssemblePA sampleSetupEmpty (sampleIntegrator 1) = Except.ok s' ∧
      s'.pa_size = sampleSetupEmpty.GetNE * sampleSetupEmpty.GetNPoints ∧
      s'.pa_size = sampleSetupEmpty.GetNE
        * sampleSetupEmpty.nqpt ^ sampleSetupEmpty.Dimension ∧
      sampleSetupEmpty.GetNPoints ≠ sampleSetupEmpty.nqpt ^ sampleSetupEmpty.Dimension :=
  ⟨_, AssemblePA_native sampleSetupEmpty (sampleIntegrator 1) 1 rfl rfl (Or.inl rfl),
    rfl, rfl, by decide⟩

/-- C24, amended. After a successful native `AssemblePA`, `pa_data` has exactly
`NE * NQ` entries, where `NQ` is the number of points of the integration rule, and every
one of them has been assigned (it is a cell `(q,e)` written by the loops and holds
`w[q] * coeff * det(J(q,e))`); this size equals `NE * Q1D^d` exactly when
`NQ = Q1D^d` or `NE = 0`. -/
theorem C24_data_size {R : Type} [CommRing R] (env : PASetup R)
    (self : VectorMassIntegrator R) (coeff : R)
    (hceed : env.DeviceCanUseCeed = false)
    (hdim : env.Dimension = 2 ∨ env.Dimension = 3)
    (hco : AssemblePA_coeff self.Q = Except.ok coeff) :
    ∃ s', AssemblePA env self = Except.ok s' ∧
      s'.pa_size = env.GetNE * env.GetNPoints ∧
      (∀ p, p < s'.pa_size → paCells env.GetNPoints env.GetNE p ∧
        s'.pa_data p = paValue env.Dimension env.GetNPoints env.GetWeights env.J coeff
          (p % env.GetNPoints) (p / env.GetNPoints)) ∧
      (s'.pa_size = env.GetNE * env.nqpt ^ env.Dimension
        ↔ (env.GetNPoints = env.nqpt ^ env.Dimension ∨ env.GetNE = 0)) := by
  refine ⟨_, AssemblePA_native env self coeff hceed hco hdim, rfl, ?_, ?_⟩
  · intro p hp
    obtain ⟨h1, h2, h3⟩ := flat_cell hp
    have e1 := AssemblePA_kernels_paValue env.Dimension env.GetNE env.GetNPoints
      env.GetWeights env.J coeff self.pa_data hdim h1 h2
    rw [← h3] at e1
    exact ⟨⟨_, h1, _, h2, h3⟩, e1⟩
  · simp only
    constructor
    · intro h
      rcases Nat.eq_zero_or_pos env.GetNE with h0 | h0
      · exact Or.inr h0
      · exact Or.inl (Nat.eq_of_mul_eq_mul_left h0 h)
    · rintro (h | h)
      · rw [h]
      · rw [h, Nat.zero_mul, Nat.zero_mul]

/-- C24 (amended) at the sample data: one element, one quadrature point. -/
theorem C24_data_size_witness :
    ∃ s', AssemblePA (sampleSetup 2) (sampleIntegrator 3) = Except.ok s' ∧
      s'.pa_size = (sampleSetup 2).GetNE * (sampleSetup 2).GetNPoints ∧
      (∀ p, p < s'.pa_size → paCells (sampleSetup 2).GetNPoints (sampleSetup 2).GetNE p ∧
        s'.pa_data p = paValue (sampleSetup 2).Dimension (sampleSetup 2).GetNPoints
          (sampleSetup 2).GetWeights (sampleSetup 2).J 3
          (p % (sampleSetup 2).GetNPoints) (p / (sampleSetup 2).GetNPoints)) ∧
      (s'.pa_size = (sampleSetup 2).GetNE * (sampleSetup 2).nqpt ^ (sampleSetup 2).Dimension
        ↔ ((sampleSetup 2).GetNPoints = (sampleSetup 2).nqpt ^ (sampleSetup 2).Dimension
            ∨ (sampleSetup 2).GetNE = 0)) :=
  C24_data_size (sampleSetup 2) (sampleIntegrator 3) 3 rfl (Or.inl rfl) rfl

end Claims5

/-! ## The phases of the application -/

section PhaseLemmas

variable {R : Type} [CommRing R]

/-- Three nested sums taken in the reverse order. -/
theorem sum_reverse3 (s1 s2 s3 : Finset Nat) (f : Nat → Nat → Nat → R) :
    (∑ a ∈ s1, ∑ b ∈ s2, ∑ c ∈ s3, f a b c) = ∑ c ∈ s3, ∑ b ∈ s2, ∑ a ∈ s1, f a b c := by
  calc (∑ a ∈ s1, ∑ b ∈ s2, ∑ c ∈ s3, f a b c)
      = ∑ a ∈ s1, ∑ c ∈ s3, ∑ b ∈ s2, f a b c :=
        Finset.sum_congr rfl (fun a _ => Finset.sum_comm)
    _ = ∑ c ∈ s3, ∑ a ∈ s1, ∑ b ∈ s2, f a b c := Finset.sum_comm
    _ = ∑ c ∈ s3, ∑ b ∈ s2, ∑ a ∈ s1, f a b c :=
        Finset.sum_congr rfl (fun c _ => Finset.sum_comm)

/-- The forward sweep of the 2D kernel computes the forward phase. -/
theorem fwd2D_eq_spec (D1D Q1D : Nat) (B x : Vec R) (e c qy qx : Nat) :
    fwd2D D1D Q1D B x e c qy qx = specFwdXY2D D1D Q1D B x e c qx qy := rfl

/-- The forward sweep of the 3D kernel computes the forward phase. -/
theorem fwd3D_eq_spec (D1D Q1D : Nat) (B x : Vec R) (e c qz qy qx : Nat) :
    fwd3D D1D Q1D B x e c qz qy qx = specFwdXYZ3D D1D Q1D B x e c qx qy qz := rfl

/-- The backward sweep of the 2D kernel adds the value of the backward phase. -/
theorem inc2D_eq_spec (D1D Q1D : Nat) (B Bt op x : Vec R) (e c dx dy : Nat) :
    inc2D D1D Q1D B Bt op x e c dx dy = specBwdYX2D D1D Q1D B Bt op x e c dx dy := by
  unfold inc2D specBwdYX2D specBwdY2D specScale2D
  simp only [fwd2D_eq_spec, Finset.mul_sum]
  rw [Finset.sum_comm]
  refine Finset.sum_congr rfl (fun qx _ => Finset.sum_congr rfl (fun qy _ => ?_))
  ring

/-- The backward sweep of the 3D kernel adds the value of the backward phase. -/
theorem inc3D_eq_spec (D1D Q1D : Nat) (B Bt op x : Vec R) (e c dx dy dz : Nat) :
    inc3D D1D Q1D B Bt op x e c dx dy dz
      = specBwdZYX3D D1D Q1D B Bt op x e c dx dy dz := by
  unfold inc3D specBwdZYX3D specBwdZY3D specBwdZ3D specScale3D
  simp only [fwd3D_eq_spec, Finset.mul_sum]
  rw [sum_reverse3]
  refine Finset.sum_congr rfl (fun qx _ => Finset.sum_congr rfl (fun qy _ =>
    Finset.sum_congr rfl (fun qz _ => ?_)))
  ring

/-- The value of the forward phase in 2D is the sum over the dofs of
`B(qx,dx) * B(qy,dy) * x(dx,dy)`. -/
theorem specFwdXY2D_eq_sum (D1D Q1D : Nat) (B x : Vec R) (e c qx qy : Nat) :
    specFwdXY2D D1D Q1D B x e c qx qy
      = ∑ dx ∈ range D1D, ∑ dy ∈ range D1D,
          B (Reshape2 Q1D qx dx) * B (Reshape2 Q1D qy dy)
            * x (Reshape4 D1D D1D 2 dx dy c e) := by
  unfold specFwdXY2D specFwdX2D
  simp only [Finset.mul_sum]
  rw [Finset.sum_comm]
  refine Finset.sum_congr rfl (fun dx _ => Finset.sum_congr rfl (fun dy _ => ?_))
  ring

/-- The value of the forward phase in 3D is the sum over the dofs of
`B(qx,dx) * B(qy,dy) * B(qz,dz) * x(dx,dy,dz)`. -/
theorem specFwdXYZ3D_eq_sum (D1D Q1D : Nat) (B x : Vec R) (e c qx qy qz : Nat) :
    specFwdXYZ3D D1D Q1D B x e c qx qy qz
      = ∑ dx ∈ range D1D, ∑ dy ∈ range D1D, ∑ dz ∈ range D1D,
          B (Reshape2 Q1D qx dx) * B (Reshape2 Q1D qy dy) * B (Reshape2 Q1D qz dz)
            * x (Reshape5 D1D D1D D1D 3 dx dy dz c e) := by
  unfold specFwdXYZ3D specFwdXY3D specFwdX3D
  simp only [Finset.mul_sum]
  rw [sum_reverse3]
  refine Finset.sum_congr rfl (fun dx _ => Finset.sum_congr rfl (fun dy _ =>
    Finset.sum_congr rfl (fun dz _ => ?_)))
  ring

end PhaseLemmas

section Claims6

/-- C27. Three-phase structure of the application: within the device limits, for every
element `e`, component `c` and dof, the increment that `PAVectorMassApply2D` (resp.
`PAVectorMassApply3D`) adds to `y` is the backward contraction against `Bt` along y,
then x (resp. z, then y, then x) of the pointwise product with `pa_data` of the
quadrature-point values obtained by the forward contraction against `B` along x, then
y (resp. x, then y, then z); and those quadrature-point values are the sums over the
dofs of `B(qx,dx) * B(qy,dy) [* B(qz,dz)] * x(dx,dy[,dz])`. -/
theorem C27_three_phases {R : Type} [CommRing R] (T_D1D T_Q1D : Nat)
    (lim : DofQuadLimits) (u : Uninit R) (NE : Nat) (B Bt op x y : Vec R) (d1d q1d : Nat)
    (hD : tsize T_D1D d1d ≤ lim.MAX_D1D) (hQ : tsize T_Q1D q1d ≤ lim.MAX_Q1D) :
    (∃ y', PAVectorMassApply2D T_D1D T_Q1D lim u NE B Bt op x y d1d q1d = Except.ok y' ∧
      ∀ e c dx dy, e < NE → c < 2 → dx < tsize T_D1D d1d → dy < tsize T_D1D d1d →
        y' (Reshape4 (tsize T_D1D d1d) (tsize T_D1D d1d) 2 dx dy c e)
          = y (Reshape4 (tsize T_D1D d1d) (tsize T_D1D d1d) 2 dx dy c e)
            + specBwdYX2D (tsize T_D1D d1d) (tsize T_Q1D q1d) B Bt op x e c dx dy) ∧
    (∀ e c qx qy,
      specFwdXY2D (tsize T_D1D d1d) (tsize T_Q1D q1d) B x e c qx qy
        = ∑ dx ∈ range (tsize T_D1D d1d), ∑ dy ∈ range (tsize T_D1D d1d),
            B (Reshape2 (tsize T_Q1D q1d) qx dx) * B (Reshape2 (tsize T_Q1D q1d) qy dy)
              * x (Reshape4 (tsize T_D1D d1d) (tsize T_D1D d1d) 2 dx dy c e)) ∧
    (∃ y', PAVectorMassApply3D T_D1D T_Q1D lim u NE B Bt op x y d1d q1d = Except.ok y' ∧
      ∀ e c dx dy dz, e < NE → c < 3 → dx < tsize T_D1D d1d → dy < tsize T_D1D d1d →
        dz < tsize T_D1D d1d →
        y' (Reshape5 (tsize T_D1D d1d) (tsize T_D1D d1d) (tsize T_D1D d1d) 3 dx dy dz c e)
          = y (Reshape5 (tsize T_D1D d1d) (tsize T_D1D d1d) (tsize T_D1D d1d) 3
                dx dy dz c e)
            + specBwdZYX3D (tsize T_D1D d1d) (tsize T_Q1D q1d) B Bt op x e c dx dy dz) ∧
    (∀ e c qx qy qz,
      specFwdXYZ3D (tsize T_D1D d1d) (tsize T_Q1D q1d) B x e c qx qy qz
        = ∑ dx ∈ range (tsize T_D1D d1d), ∑ dy ∈ range (tsize T_D1D d1d),
            ∑ dz ∈ range (tsize T_D1D d1d),
            B (Reshape2 (tsize T_Q1D q1d) qx dx) * B (Reshape2 (tsize T_Q1D q1d) qy dy)
              * B (Reshape2 (tsize T_Q1D q1d) qz dz)
              * x (Reshape5 (tsize T_D1D d1d) (tsize T_D1D d1d) (tsize T_D1D d1d) 3
                  dx dy dz c e)) := by
  refine ⟨⟨_, PAVectorMassApply2D_ok T_D1D T_Q1D lim u NE B Bt op x y d1d q1d hD hQ, ?_⟩,
    fun e c qx qy => specFwdXY2D_eq_sum _ _ B x e c qx qy,
    ⟨_, PAVectorMassApply3D_ok T_D1D T_Q1D lim u NE B Bt op x y d1d q1d hD hQ, ?_⟩,
    fun e c qx qy qz => specFwdXYZ3D_eq_sum _ _ B x e c qx qy qz⟩
  · intro e c dx dy he hc hdx hdy
    rw [applyInc2D_at _ _ NE B Bt op x he hc hdx hdy, inc2D_eq_spec]
  · intro e c dx dy dz he hc hdx hdy hdz
    rw [applyInc3D_at _ _ NE B Bt op x he hc hdx hdy hdz, inc3D_eq_spec]

/-- C27 at the sample data: three elements, `D1D = Q1D = 2`. -/
theorem C27_three_phases_witness :
    (∃ y', PAVectorMassApply2D 0 0 sampleLimits sampleUninit 3 sampleB sampleBt sampleOp
        sampleX sampleY 2 2 = Except.ok y' ∧
      ∀ e c dx dy, e < 3 → c < 2 → dx < tsize 0 2 → dy < tsize 0 2 →
        y' (Reshape4 (tsize 0 2) (tsize 0 2) 2 dx dy c e)
          = sampleY (Reshape4 (tsize 0 2) (tsize 0 2) 2 dx dy c e)
            + specBwdYX2D (tsize 0 2) (tsize 0 2) sampleB sampleBt sampleOp sampleX
                e c dx dy) ∧
    (∀ e c qx qy,
      specFwdXY2D (tsize 0 2) (tsize 0 2) sampleB sampleX e c qx qy
        = ∑ dx ∈ range (tsize 0 2), ∑ dy ∈ range (tsize 0 2),
            sampleB (Reshape2 (tsize 0 2) qx dx) * sampleB (Reshape2 (tsize 0 2) qy dy)
              * sampleX (Reshape4 (tsize 0 2) (tsize 0 2) 2 dx dy c e)) ∧
    (∃ y', PAVectorMassApply3D 0 0 sampleLimits sampleUninit 3 sampleB sampleBt sampleOp
        sampleX sampleY 2 2 = Except.ok y' ∧
      ∀ e c dx dy dz, e < 3 → c < 3 → dx < tsize 0 2 → dy < tsize 0 2 →
        dz < tsize 0 2 →
        y' (Reshape5 (tsize 0 2) (tsize 0 2) (tsize 0 2) 3 dx dy dz c e)
          = sampleY (Reshape5 (tsize 0 2) (tsize 0 2) (tsize 0 2) 3 dx dy dz c e)
            + specBwdZYX3D (tsize 0 2) (tsize 0 2) sampleB sampleBt sampleOp sampleX
                e c dx dy dz) ∧
    (∀ e c qx qy qz,
      specFwdXYZ3D (tsize 0 2) (tsize 0 2) sampleB sampleX e c qx qy qz
        = ∑ dx ∈ range (tsize 0 2), ∑ dy ∈ range (tsize 0 2),
            ∑ dz ∈ range (tsize 0 2),
            sampleB (Reshape2 (tsize 0 2) qx dx) * sampleB (Reshape2 (tsize 0 2) qy dy)
              * sampleB (Reshape2 (tsize 0 2) qz dz)
              * sampleX (Reshape5 (tsize 0 2) (tsize 0 2) (tsize 0 2) 3 dx dy dz c e)) :=
  C27_three_phases 0 0 sampleLimits sampleUninit 3 sampleB sampleBt sampleOp sampleX
    sampleY 2 2 (by decide) (by decide)

end Claims6

/-! ## Linearity of the application -/

section LinearityLemmas

variable {R : Type} [CommRing R]

/-- A sum whose terms are `a * u + v` is `a` times the sum of the `u` plus the sum of
the `v`. -/
theorem sum_linear (s : Finset Nat) (a : R) (t u v : Nat → R)
    (h : ∀ i ∈ s, t i = a * u i + v i) :
    (∑ i ∈ s, t i) = a * (∑ i ∈ s, u i) + ∑ i ∈ s, v i := by
  rw [Finset.mul_sum, ← Finset.sum_add_distrib]
  exact Finset.sum_congr rfl h

theorem fwd2D_linear (D1D Q1D : Nat) (B x1 x2 : Vec R) (a : R) (e c qy qx : Nat) :
    fwd2D D1D Q1D B (fun i => a * x1 i + x2 i) e c qy qx
      = a * fwd2D D1D Q1D B x1 e c qy qx + fwd2D D1D Q1D B x2 e c qy qx := by
  unfold fwd2D
  refine sum_linear _ a _ _ _ (fun dy _ => ?_)
  rw [sum_linear (range D1D) a _
    (fun dx => B (Reshape2 Q1D qx dx) * x1 (Reshape4 D1D D1D 2 dx dy c e))
    (fun dx => B (Reshape2 Q1D qx dx) * x2 (Reshape4 D1D D1D 2 dx dy c e))
    (fun dx _ => by ring)]
  ring

theorem fwd3D_linear (D1D Q1D : Nat) (B x1 x2 : Vec R) (a : R) (e c qz qy qx : Nat) :
    fwd3D D1D Q1D B (fun i => a * x1 i + x2 i) e c qz qy qx
      = a * fwd3D D1D Q1D B x1 e c qz qy qx + fwd3D D1D Q1D B x2 e c qz qy qx := by
  unfold fwd3D
  refine sum_linear _ a _ _ _ (fun dz _ => ?_)
  rw [sum_linear (range D1D) a _
    (fun dy => B (Reshape2 Q1D qy dy) *
      ∑ dx ∈ range D1D, B (Reshape2 Q1D qx dx) * x1 (Reshape5 D1D D1D D1D 3 dx dy dz c e))
    (fun dy => B (Reshape2 Q1D qy dy) *
      ∑ dx ∈ range D1D, B (Reshape2 Q1D qx dx) * x2 (Reshape5 D1D D1D D1D 3 dx dy dz c e))
    (fun dy _ => by
      rw [sum_linear (range D1D) a _
        (fun dx => B (Reshape2 Q1D qx dx) * x1 (Reshape5 D1D D1D D1D 3 dx dy dz c e))
        (fun dx => B (Reshape2 Q1D qx dx) * x2 (Reshape5 D1D D1D D1D 3 dx dy dz c e))
        (fun dx _ => by ring)]
      ring)]
  ring

/-- The increment of the 2D kernel at a dof is linear in the quadrature-point values
times the operator data. -/
theorem inc2D_linear (D1D Q1D : Nat) (B Bt : Vec R) (a : R) (op op1 op2 x x1 x2 : Vec R)
    (e c dx dy : Nat)
    (h : ∀ qy qx, qy < Q1D → qx < Q1D →
      fwd2D D1D Q1D B x e c qy qx * op (Reshape3 Q1D Q1D qx qy e)
        = a * (fwd2D D1D Q1D B x1 e c qy qx * op1 (Reshape3 Q1D Q1D qx qy e))
          + fwd2D D1D Q1D B x2 e c qy qx * op2 (Reshape3 Q1D Q1D qx qy e)) :
    inc2D D1D Q1D B Bt op x e c dx dy
      = a * inc2D D1D Q1D B Bt op1 x1 e c dx dy + inc2D D1D Q1D B Bt op2 x2 e c dx dy := by
  unfold inc2D
  refine sum_linear _ a _ _ _ (fun qy hqy => ?_)
  rw [sum_linear (range Q1D) a _
    (fun qx => Bt (Reshape2 D1D dx qx) *
      (fwd2D D1D Q1D B x1 e c qy qx * op1 (Reshape3 Q1D Q1D qx qy e)))
    (fun qx => Bt (Reshape2 D1D dx qx) *
      (fwd2D D1D Q1D B x2 e c qy qx * op2 (Reshape3 Q1D Q1D qx qy e)))
    (fun qx hqx => by
      rw [h qy qx (Finset.mem_range.mp hqy) (Finset.mem_range.mp hqx)]; ring)]
  ring

/-- The increment of the 3D kernel at a dof is linear in the quadrature-point values
times the operator data. -/
theorem inc3D_linear (D1D Q1D : Nat) (B Bt : Vec R) (a : R) (op op1 op2 x x1 x2 : Vec R)
    (e c dx dy dz : Nat)
    (h : ∀ qz qy qx, qz < Q1D → qy < Q1D → qx < Q1D →
      fwd3D D1D Q1D B x e c qz qy qx * op (Reshape4 Q1D Q1D Q1D qx qy qz e)
        = a * (fwd3D D1D Q1D B x1 e c qz qy qx * op1 (Reshape4 Q1D Q1D Q1D qx qy qz e))
          + fwd3D D1D Q1D B x2 e c qz qy qx * op2 (Reshape4 Q1D Q1D Q1D qx qy qz e)) :
    inc3D D1D Q1D B Bt op x e c dx dy dz
      = a * inc3D D1D Q1D B Bt op1 x1 e c dx dy dz
        + inc3D D1D Q1D B Bt op2 x2 e c dx dy dz := by
  unfold inc3D
  refine sum_linear _ a _ _ _ (fun qz hqz => ?_)
  rw [sum_linear (range Q1D) a _
    (fun qy => Bt (Reshape2 D1D dy qy) *
      ∑ qx ∈ range Q1D, Bt (Reshape2 D1D dx qx) *
        (fwd3D D1D Q1D B x1 e c qz qy qx * op1 (Reshape4 Q1D Q1D Q1D qx qy qz e)))
    (fun qy => Bt (Reshape2 D1D dy qy) *
      ∑ qx ∈ range Q1D, Bt (Reshape2 D1D dx qx) *
        (fwd3D D1D Q1D B x2 e c qz qy qx * op2 (Reshape4 Q1D Q1D Q1D qx qy qz e)))
    (fun qy hqy => by
      rw [sum_linear (range Q1D) a _
        (fun qx => Bt (Reshape2 D1D dx qx) *
          (fwd3D D1D Q1D B x1 e c qz qy qx * op1 (Reshape4 Q1D Q1D Q1D qx qy qz e)))
        (fun qx => Bt (Reshape2 D1D dx qx) *
          (fwd3D D1D Q1D B x2 e c qz qy qx * op2 (Reshape4 Q1D Q1D Q1D qx qy qz e)))
        (fun qx hqx => by
          rw [h qz qy qx (Finset.mem_range.mp hqz) (Finset.mem_range.mp hqy)
            (Finset.mem_range.mp hqx)]
          ring)]
      ring)]
  ring

/-- A flat cell is a dof of an element below `NE`, or the 2D kernel adds nothing to
it. -/
theorem applyInc2D_cases (D1D Q1D NE : Nat) (B Bt : Vec R) (p : Nat) :
    (∃ e c dx dy, e < NE ∧ c < 2 ∧ dx < D1D ∧ dy < D1D ∧
        p = Reshape4 D1D D1D 2 dx dy c e) ∨
      ∀ op x : Vec R, applyInc2D D1D Q1D NE B Bt op x p = 0 := by
  by_cases h : ∃ e, e < NE ∧ inSlice2D D1D e p
  · obtain ⟨e, he, c, dx, dy, hc, hdx, hdy, hp⟩ := h
    exact Or.inl ⟨e, c, dx, dy, he, hc, hdx, hdy, hp⟩
  · refine Or.inr (fun op x => ?_)
    unfold applyInc2D
    refine Finset.sum_eq_zero (fun e he => ?_)
    exact elemInc2D_outside D1D Q1D B Bt op x
      (fun hs => h ⟨e, Finset.mem_range.mp he, hs⟩)

/-- A flat cell is a dof of an element below `NE`, or the 3D kernel adds nothing to
it. -/
theorem applyInc3D_cases (D1D Q1D NE : Nat) (B Bt : Vec R) (p : Nat) :
    (∃ e c dx dy dz, e < NE ∧ c < 3 ∧ dx < D1D ∧ dy < D1D ∧ dz < D1D ∧
        p = Reshape5 D1D D1D D1D 3 dx dy dz c e) ∨
      ∀ op x : Vec R, applyInc3D D1D Q1D NE B Bt op x p = 0 := by
  by_cases h : ∃ e, e < NE ∧ inSlice3D D1D e p
  · obtain ⟨e, he, c, dx, dy, dz, hc, hdx, hdy, hdz, hp⟩ := h
    exact Or.inl ⟨e, c, dx, dy, dz, he, hc, hdx, hdy, hdz, hp⟩
  · refine Or.inr (fun op x => ?_)
    unfold applyInc3D
    refine Finset.sum_eq_zero (fun e he => ?_)
    exact elemInc3D_outside D1D Q1D B Bt op x
      (fun hs => h ⟨e, Finset.mem_range.mp he, hs⟩)

/-- The value added by the 2D kernel to a flat cell is linear, as soon as the
quadrature-point values times the operator data are, on the elements below `NE`. -/
theorem applyInc2D_linear (D1D Q1D NE : Nat) (B Bt : Vec R) (a : R)
    (op op1 op2 x x1 x2 : Vec R)
    (h : ∀ e c qy qx, e < NE → qy < Q1D → qx < Q1D →
      fwd2D D1D Q1D B x e c qy qx * op (Reshape3 Q1D Q1D qx qy e)
        = a * (fwd2D D1D Q1D B x1 e c qy qx * op1 (Reshape3 Q1D Q1D qx qy e))
          + fwd2D D1D Q1D B x2 e c qy qx * op2 (Reshape3 Q1D Q1D qx qy e)) (p : Nat) :
    applyInc2D D1D Q1D NE B Bt op x p
      = a * applyInc2D D1D Q1D NE B Bt op1 x1 p + applyInc2D D1D Q1D NE B Bt op2 x2 p := by
  rcases applyInc2D_cases D1D Q1D NE B Bt p with ⟨e, c, dx, dy, he, hc, hdx, hdy, rfl⟩ | h0
  · rw [applyInc2D_at _ _ NE B Bt op x he hc hdx hdy,
      applyInc2D_at _ _ NE B Bt op1 x1 he hc hdx hdy,
      applyInc2D_at _ _ NE B Bt op2 x2 he hc hdx hdy]
    exact inc2D_linear D1D Q1D B Bt a op op1 op2 x x1 x2 e c dx dy
      (fun qy qx hqy hqx => h e c qy qx he hqy hqx)
  · rw [h0, h0, h0, mul_zero, add_zero]

/-- The value added by the 3D kernel to a flat cell is linear, as soon as the
quadrature-point values times the operator data are, on the elements below `NE`. -/
theorem applyInc3D_linear (D1D Q1D NE : Nat) (B Bt : Vec R) (a : R)
    (op op1 op2 x x1 x2 : Vec R)
    (h : ∀ e c qz qy qx, e < NE → qz < Q1D → qy < Q1D → qx < Q1D →
      fwd3D D1D Q1D B x e c qz qy qx * op (Reshape4 Q1D Q1D Q1D qx qy qz e)
        = a * (fwd3D D1D Q1D B x1 e c qz qy qx * op1 (Reshape4 Q1D Q1D Q1D qx qy qz e))
          + fwd3D D1D Q1D B x2 e c qz qy qx * op2 (Reshape4 Q1D Q1D Q1D qx qy qz e))
    (p : Nat) :
    applyInc3D D1D Q1D NE B Bt op x p
      = a * applyInc3D D1D Q1D NE B Bt op1 x1 p + applyInc3D D1D Q1D NE B Bt op2 x2 p := by
  rcases applyInc3D_cases D1D Q1D NE B Bt p with
    ⟨e, c, dx, dy, dz, he, hc, hdx, hdy, hdz, rfl⟩ | h0
  · rw [applyInc3D_at _ _ NE B Bt op x he hc hdx hdy hdz,
      applyInc3D_at _ _ NE B Bt op1 x1 he hc hdx hdy hdz,
      applyInc3D_at _ _ NE B Bt op2 x2 he hc hdx hdy hdz]
    exact inc3D_linear D1D Q1D B Bt a op op1 op2 x x1 x2 e c dx dy dz
      (fun qz qy qx hqz hqy hqx => h e c qz qy qx he hqz hqy hqx)
  · rw [h0, h0, h0, mul_zero, add_zero]

/-- In 2D with `NQ = Q1D^2`, the operator data assembled with the coefficient `a * c`
is, at every quadrature point of an element, `a` times the data assembled with `c`. -/
theorem kernels_scale2D (NE Q1D : Nat) (w J : Vec R) (a c : R) (pa pa' : Vec R)
    {e qx qy : Nat} (he : e < NE) (hqx : qx < Q1D) (hqy : qy < Q1D) :
    AssemblePA_kernels 2 NE (Q1D ^ 2) w J (a * c) pa' (Reshape3 Q1D Q1D qx qy e)
      = a * AssemblePA_kernels 2 NE (Q1D ^ 2) w J c pa (Reshape3 Q1D Q1D qx qy e) := by
  have hidx : Reshape3 Q1D Q1D qx qy e = Reshape2 (Q1D ^ 2) (Reshape2 Q1D qx qy) e := by
    unfold Reshape3 Reshape2
    ring
  have hq : Reshape2 Q1D qx qy < Q1D ^ 2 := by
    rw [pow_two]
    exact Reshape2_lt hqx hqy
  rw [hidx, AssemblePA_kernels_two NE (Q1D ^ 2) w J (a * c) pa' he hq,
    AssemblePA_kernels_two NE (Q1D ^ 2) w J c pa he hq]
  ring

/-- In 3D with `NQ = Q1D^3`, the operator data assembled with the coefficient `a * c`
is, at every quadrature point of an element, `a` times the data assembled with `c`. -/
theorem kernels_scale3D (NE Q1D : Nat) (w J : Vec R) (a c : R) (pa pa' : Vec R)
    {e qx qy qz : Nat} (he : e < NE) (hqx : qx < Q1D) (hqy : qy < Q1D) (hqz : qz < Q1D) :
    AssemblePA_kernels 3 NE (Q1D ^ 3) w J (a * c) pa' (Reshape4 Q1D Q1D Q1D qx qy qz e)
      = a * AssemblePA_kernels 3 NE (Q1D ^ 3) w J c pa
          (Reshape4 Q1D Q1D Q1D qx qy qz e) := by
  have hidx : Reshape4 Q1D Q1D Q1D qx qy qz e
      = Reshape2 (Q1D ^ 3) (Reshape2 Q1D qx (Reshape2 Q1D qy qz)) e := by
    unfold Reshape4 Reshape2
    ring
  have hq : Reshape2 Q1D qx (Reshape2 Q1D qy qz) < Q1D ^ 3 := by
    have h3 : Q1D ^ 3 = Q1D * (Q1D * Q1D) := by ring
    rw [h3]
    exact Reshape2_lt hqx (Reshape2_lt hqy hqz)
  rw [hidx, AssemblePA_kernels_three NE (Q1D ^ 3) w J (a * c) pa' he hq,
    AssemblePA_kernels_three NE (Q1D ^ 3) w J c pa he hq]
  ring

theorem fwd2D_zero (D1D Q1D : Nat) (B : Vec R) (e c qy qx : Nat) :
    fwd2D D1D Q1D B zeroVec e c qy qx = 0 := by
  unfold fwd2D zeroVec
  simp only [mul_zero, Finset.sum_const_zero]

theorem fwd3D_zero (D1D Q1D : Nat) (B : Vec R) (e c qz qy qx : Nat) :
    fwd3D D1D Q1D B zeroVec e c qz qy qx = 0 := by
  unfold fwd3D zeroVec
  simp only [mul_zero, Finset.sum_const_zero]

/-- The 2D kernel on a zeroed output is linear in `x`. -/
theorem apply2D_linear_x (T_D1D T_Q1D : Nat) (lim : DofQuadLimits) (u : Uninit R)
    (NE : Nat) (B Bt op x1 x2 : Vec R) (a : R) (d1d q1d : Nat)
    (hD : tsize T_D1D d1d ≤ lim.MAX_D1D) (hQ : tsize T_Q1D q1d ≤ lim.MAX_Q1D) :
    ∃ A1 A2 A12,
      PAVectorMassApply2D T_D1D T_Q1D lim u NE B Bt op x1 zeroVec d1d q1d = Except.ok A1 ∧
      PAVectorMassApply2D T_D1D T_Q1D lim u NE B Bt op x2 zeroVec d1d q1d = Except.ok A2 ∧
      PAVectorMassApply2D T_D1D T_Q1D lim u NE B Bt op (fun i => a * x1 i + x2 i) zeroVec
        d1d q1d = Except.ok A12 ∧
      ∀ p, A12 p = a * A1 p + A2 p := by
  refine ⟨_, _, _, PAVectorMassApply2D_ok T_D1D T_Q1D lim u NE B Bt op x1 zeroVec d1d q1d hD hQ,
    PAVectorMassApply2D_ok T_D1D T_Q1D lim u NE B Bt op x2 zeroVec d1d q1d hD hQ,
    PAVectorMassApply2D_ok T_D1D T_Q1D lim u NE B Bt op _ zeroVec d1d q1d hD hQ, ?_⟩
  intro p
  simp only [zeroVec, zero_add]
  refine applyInc2D_linear _ _ NE B Bt a op op op _ x1 x2 (fun e c qy qx _ _ _ => ?_) p
  rw [fwd2D_linear]
  ring

/-- The 2D kernel on a zeroed output is linear in the operator data. -/
theorem apply2D_linear_op (T_D1D T_Q1D : Nat) (lim : DofQuadLimits) (u : Uninit R)
    (NE : Nat) (B Bt op op' x : Vec R) (a : R) (d1d q1d : Nat)
    (hD : tsize T_D1D d1d ≤ lim.MAX_D1D) (hQ : tsize T_Q1D q1d ≤ lim.MAX_Q1D) :
    ∃ A1 A2 A12,
      PAVectorMassApply2D T_D1D T_Q1D lim u NE B Bt op x zeroVec d1d q1d = Except.ok A1 ∧
      PAVectorMassApply2D T_D1D T_Q1D lim u NE B Bt op' x zeroVec d1d q1d = Except.ok A2 ∧
      PAVectorMassApply2D T_D1D T_Q1D lim u NE B Bt (fun i => a * op i + op' i) x zeroVec
        d1d q1d = Except.ok A12 ∧
      ∀ p, A12 p = a * A1 p + A2 p := by
  refine ⟨_, _, _, PAVectorMassApply2D_ok T_D1D T_Q1D lim u NE B Bt op x zeroVec d1d q1d hD hQ,
    PAVectorMassApply2D_ok T_D1D T_Q1D lim u NE B Bt op' x zeroVec d1d q1d hD hQ,
    PAVectorMassApply2D_ok T_D1D T_Q1D lim u NE B Bt _ x zeroVec d1d q1d hD hQ, ?_⟩
  intro p
  simp only [zeroVec, zero_add]
  refine applyInc2D_linear _ _ NE B Bt a _ op op' x x x (fun e c qy qx _ _ _ => ?_) p
  ring

/-- In 2D, scaling the coefficient of the operator data (assembled with
`NQ = Q1D^2`) by `a` scales the result of the kernel on a zeroed output by `a`. -/
theorem apply2D_scale_coeff (T_D1D T_Q1D : Nat) (lim : DofQuadLimits) (u : Uninit R)
    (NE : Nat) (B Bt x w J pa pa' : Vec R) (a c : R) (d1d q1d : Nat)
    (hD : tsize T_D1D d1d ≤ lim.MAX_D1D) (hQ : tsize T_Q1D q1d ≤ lim.MAX_Q1D) :
    ∃ A Aa,
      PAVectorMassApply2D T_D1D T_Q1D lim u NE B Bt
        (AssemblePA_kernels 2 NE (tsize T_Q1D q1d ^ 2) w J c pa) x zeroVec d1d q1d
          = Except.ok A ∧
      PAVectorMassApply2D T_D1D T_Q1D lim u NE B Bt
        (AssemblePA_kernels 2 NE (tsize T_Q1D q1d ^ 2) w J (a * c) pa') x zeroVec d1d q1d
          = Except.ok Aa ∧
      ∀ p, Aa p = a * A p := by
  refine ⟨_, _, PAVectorMassApply2D_ok T_D1D T_Q1D lim u NE B Bt _ x zeroVec d1d q1d hD hQ,
    PAVectorMassApply2D_ok T_D1D T_Q1D lim u NE B Bt _ x zeroVec d1d q1d hD hQ, ?_⟩
  intro p
  simp only [zeroVec, zero_add]
  rw [applyInc2D_linear _ _ NE B Bt a _
    (AssemblePA_kernels 2 NE (tsize T_Q1D q1d ^ 2) w J c pa) zeroVec x x zeroVec
    (fun e _ qy qx he hqy hqx => by
      rw [kernels_scale2D NE _ w J a c pa pa' he hqx hqy, fwd2D_zero]
      ring) p, applyInc2D_zero, add_zero]

/-- The 3D kernel on a zeroed output is linear in `x`. -/
theorem apply3D_linear_x (T_D1D T_Q1D : Nat) (lim : DofQuadLimits) (u : Uninit R)
    (NE : Nat) (B Bt op x1 x2 : Vec R) (a : R) (d1d q1d : Nat)
    (hD : tsize T_D1D d1d ≤ lim.MAX_D1D) (hQ : tsize T_Q1D q1d ≤ lim.MAX_Q1D) :
    ∃ A1 A2 A12,
      PAVectorMassApply3D T_D1D T_Q1D lim u NE B Bt op x1 zeroVec d1d q1d = Except.ok A1 ∧
      PAVectorMassApply3D T_D1D T_Q1D lim u NE B Bt op x2 zeroVec d1d q1d = Except.ok A2 ∧
      PAVectorMassApply3D T_D1D T_Q1D lim u NE B Bt op (fun i => a * x1 i + x2 i) zeroVec
        d1d q1d = Except.ok A12 ∧
      ∀ p, A12 p = a * A1 p + A2 p := by
  refine ⟨_, _, _, PAVectorMassApply3D_ok T_D1D T_Q1D lim u NE B Bt op x1 zeroVec d1d q1d hD hQ,
    PAVectorMassApply3D_ok T_D1D T_Q1D lim u NE B Bt op x2 zeroVec d1d q1d hD hQ,
    PAVectorMassApply3D_ok T_D1D T_Q1D lim u NE B Bt op _ zeroVec d1d q1d hD hQ, ?_⟩
  intro p
  simp only [zeroVec, zero_add]
  refine applyInc3D_linear _ _ NE B Bt a op op op _ x1 x2 (fun e c qz qy qx _ _ _ _ => ?_) p
  rw [fwd3D_linear]
  ring

/-- The 3D kernel on a zeroed output is linear in the operator data. -/
theorem apply3D_linear_op (T_D1D T_Q1D : Nat) (lim : DofQuadLimits) (u : Uninit R)
    (NE : Nat) (B Bt op op' x : Vec R) (a : R) (d1d q1d : Nat)
    (hD : tsize T_D1D d1d ≤ lim.MAX_D1D) (hQ : tsize T_Q1D q1d ≤ lim.MAX_Q1D) :
    ∃ A1 A2 A12,
      PAVectorMassApply3D T_D1D T_Q1D lim u NE B Bt op x zeroVec d1d q1d = Except.ok A1 ∧
      PAVectorMassApply3D T_D1D T_Q1D lim u NE B Bt op' x zeroVec d1d q1d = Except.ok A2 ∧
      PAVectorMassApply3D T_D1D T_Q1D lim u NE B Bt (fun i => a * op i + op' i) x zeroVec
        d1d q1d = Except.ok A12 ∧
      ∀ p, A12 p = a * A1 p + A2 p := by
  refine ⟨_, _, _, PAVectorMassApply3D_ok T_D1D T_Q1D lim u NE B Bt op x zeroVec d1d q1d hD hQ,
    PAVectorMassApply3D_ok T_D1D T_Q1D lim u NE B Bt op' x zeroVec d1d q1d hD hQ,
    PAVectorMassApply3D_ok T_D1D T_Q1D lim u NE B Bt _ x zeroVec d1d q1d hD hQ, ?_⟩
  intro p
  simp only [zeroVec, zero_add]
  refine applyInc3D_linear _ _ NE B Bt a _ op op' x x x (fun e c qz qy qx _ _ _ _ => ?_) p
  ring

/-- In 3D, scaling the coefficient of the operator data (assembled with
`NQ = Q1D^3`) by `a` scales the result of the kernel on a zeroed output by `a`. -/
theorem apply3D_scale_coeff (T_D1D T_Q1D : Nat) (lim : DofQuadLimits) (u : Uninit R)
    (NE : Nat) (B Bt x w J pa pa' : Vec R) (a c : R) (d1d q1d : Nat)
    (hD : tsize T_D1D d1d ≤ lim.MAX_D1D) (hQ : tsize T_Q1D q1d ≤ lim.MAX_Q1D) :
    ∃ A Aa,
      PAVectorMassApply3D T_D1D T_Q1D lim u NE B Bt
        (AssemblePA_kernels 3 NE (tsize T_Q1D q1d ^ 3) w J c pa) x zeroVec d1d q1d
          = Except.ok A ∧
      PAVectorMassApply3D T_D1D T_Q1D lim u NE B Bt
        (AssemblePA_kernels 3 NE (tsize T_Q1D q1d ^ 3) w J (a * c) pa') x zeroVec d1d q1d
          = Except.ok Aa ∧
      ∀ p, Aa p = a * A p := by
  refine ⟨_, _, PAVectorMassApply3D_ok T_D1D T_Q1D lim u NE B Bt _ x zeroVec d1d q1d hD hQ,
    PAVectorMassApply3D_ok T_D1D T_Q1D lim u NE B Bt _ x zeroVec d1d q1d hD hQ, ?_⟩
  intro p
  simp only [zeroVec, zero_add]
  rw [applyInc3D_linear _ _ NE B Bt a _
    (AssemblePA_kernels 3 NE (tsize T_Q1D q1d ^ 3) w J c pa) zeroVec x x zeroVec
    (fun e _ qz qy qx he hqz hqy hqx => by
      rw [kernels_scale3D NE _ w J a c pa pa' he hqx hqy hqz, fwd3D_zero]
      ring) p, applyInc3D_zero, add_zero]

end LinearityLemmas

section Claims7

/-- C28. The application is linear in `x` and in `pa_data`: within the device limits,
for every `B`, `Bt` (no transpose relation needed), `op`, `op'`, `x`, `x1`, `x2` and
scalar `a`, with the output zeroed, `PAVectorMassApply2D` and `PAVectorMassApply3D`
succeed and satisfy, at every entry,
`Apply(op, a*x1 + x2) = a*Apply(op, x1) + Apply(op, x2)` and
`Apply(a*op + op', x) = a*Apply(op, x) + Apply(op', x)`; hence, for the operator data
that the loops of `AssemblePA` write with `NQ = Q1D^d`, scaling the constant
coefficient `c` by `a` scales the result by `a`. -/
theorem C28_apply_linear {R : Type} [CommRing R] (T_D1D T_Q1D : Nat)
    (lim : DofQuadLimits) (u : Uninit R) (NE : Nat) (B Bt op op' x x1 x2 : Vec R)
    (a c : R) (w J pa pa' : Vec R) (d1d q1d : Nat)
    (hD : tsize T_D1D d1d ≤ lim.MAX_D1D) (hQ : tsize T_Q1D q1d ≤ lim.MAX_Q1D) :
    (∃ A1 A2 A12,
      PAVectorMassApply2D T_D1D T_Q1D lim u NE B Bt op x1 zeroVec d1d q1d = Except.ok A1 ∧
      PAVectorMassApply2D T_D1D T_Q1D lim u NE B Bt op x2 zeroVec d1d q1d = Except.ok A2 ∧
      PAVectorMassApply2D T_D1D T_Q1D lim u NE B Bt op (fun i => a * x1 i + x2 i) zeroVec
        d1d q1d = Except.ok A12 ∧
      ∀ p, A12 p = a * A1 p + A2 p) ∧
    (∃ A1 A2 A12,
      PAVectorMassApply2D T_D1D T_Q1D lim u NE B Bt op x zeroVec d1d q1d = Except.ok A1 ∧
      PAVectorMassApply2D T_D1D T_Q1D lim u NE B Bt op' x zeroVec d1d q1d = Except.ok A2 ∧
      PAVectorMassApply2D T_D1D T_Q1D lim u NE B Bt (fun i => a * op i + op' i) x zeroVec
        d1d q1d = Except.ok A12 ∧
      ∀ p, A12 p = a * A1 p + A2 p) ∧
    (∃ A Aa,
      PAVectorMassApply2D T_D1D T_Q1D lim u NE B Bt
        (AssemblePA_kernels 2 NE (tsize T_Q1D q1d ^ 2) w J c pa) x zeroVec d1d q1d
          = Except.ok A ∧
      PAVectorMassApply2D T_D1D T_Q1D lim u NE B Bt
        (AssemblePA_kernels 2 NE (tsize T_Q1D q1d ^ 2) w J (a * c) pa') x zeroVec d1d q1d
          = Except.ok Aa ∧
      ∀ p, Aa p = a * A p) ∧
    (∃ A1 A2 A12,
      PAVectorMassApply3D T_D1D T_Q1D lim u NE B Bt op x1 zeroVec d1d q1d = Except.ok A1 ∧
      PAVectorMassApply3D T_D1D T_Q1D lim u NE B Bt op x2 zeroVec d1d q1d = Except.ok A2 ∧
      PAVectorMassApply3D T_D1D T_Q1D lim u NE B Bt op (fun i => a * x1 i + x2 i) zeroVec
        d1d q1d = Except.ok A12 ∧
      ∀ p, A12 p = a * A1 p + A2 p) ∧
    (∃ A1 A2 A12,
      PAVectorMassApply3D T_D1D T_Q1D lim u NE B Bt op x zeroVec d1d q1d = Except.ok A1 ∧
      PAVectorMassApply3D T_D1D T_Q1D lim u NE B Bt op' x zeroVec d1d q1d = Except.ok A2 ∧
      PAVectorMassApply3D T_D1D T_Q1D lim u NE B Bt (fun i => a * op i + op' i) x zeroVec
        d1d q1d = Except.ok A12 ∧
      ∀ p, A12 p = a * A1 p + A2 p) ∧
    (∃ A Aa,
      PAVectorMassApply3D T_D1D T_Q1D lim u NE B Bt
        (AssemblePA_kernels 3 NE (tsize T_Q1D q1d ^ 3) w J c pa) x zeroVec d1d q1d
          = Except.ok A ∧
      PAVectorMassApply3D T_D1D T_Q1D lim u NE B Bt
        (AssemblePA_kernels 3 NE (tsize T_Q1D q1d ^ 3) w J (a * c) pa') x zeroVec d1d q1d
          = Except.ok Aa ∧
      ∀ p, Aa p = a * A p) :=
  ⟨apply2D_linear_x T_D1D T_Q1D lim u NE B Bt op x1 x2 a d1d q1d hD hQ,
    apply2D_linear_op T_D1D T_Q1D lim u NE B Bt op op' x a d1d q1d hD hQ,
    apply2D_scale_coeff T_D1D T_Q1D lim u NE B Bt x w J pa pa' a c d1d q1d hD hQ,
    apply3D_linear_x T_D1D T_Q1D lim u NE B Bt op x1 x2 a d1d q1d hD hQ,
    apply3D_linear_op T_D1D T_Q1D lim u NE B Bt op op' x a d1d q1d hD hQ,
    apply3D_scale_coeff T_D1D T_Q1D lim u NE B Bt x w J pa pa' a c d1d q1d hD hQ⟩

/-- C28 at the sample data: three elements, `D1D = Q1D = 2`, `a = 3`, `c = 2`. -/
theorem C28_apply_linear_witness :
    (∃ A1 A2 A12,
      PAVectorMassApply2D 0 0 sampleLimits sampleUninit 3 sampleB sampleBt sampleOp sampleX
          zeroVec 2 2 = Except.ok A1 ∧
      PAVectorMassApply2D 0 0 sampleLimits sampleUninit 3 sampleB sampleBt sampleOp sampleY
          zeroVec 2 2 = Except.ok A2 ∧
      PAVectorMassApply2D 0 0 sampleLimits sampleUninit 3 sampleB sampleBt sampleOp (fun i => 3 *
          sampleX i + sampleY i) zeroVec
        2 2 = Except.ok A12 ∧
      ∀ p, A12 p = 3 * A1 p + A2 p) ∧
    (∃ A1 A2 A12,
      PAVectorMassApply2D 0 0 sampleLimits sampleUninit 3 sampleB sampleBt sampleOp sampleX
          zeroVec 2 2 = Except.ok A1 ∧
      PAVectorMassApply2D 0 0 sampleLimits sampleUninit 3 sampleB sampleBt sampleOp2 sampleX
          zeroVec 2 2 = Except.ok A2 ∧
      PAVectorMassApply2D 0 0 sampleLimits sampleUninit 3 sampleB sampleBt (fun i => 3 * sampleOp
          i + sampleOp2 i) sampleX zeroVec
        2 2 = Except.ok A12 ∧
      ∀ p, A12 p = 3 * A1 p + A2 p) ∧
    (∃ A Aa,
      PAVectorMassApply2D 0 0 sampleLimits sampleUninit 3 sampleB sampleBt
        (AssemblePA_kernels 2 3 (tsize 0 2 ^ 2) sampleOnes sampleOp 2 sampleX) sampleX zeroVec 2 2
          = Except.ok A ∧
      PAVectorMassApply2D 0 0 sampleLimits sampleUninit 3 sampleB sampleBt
        (AssemblePA_kernels 2 3 (tsize 0 2 ^ 2) sampleOnes sampleOp (3 * 2) sampleY) sampleX
            zeroVec 2 2
          = Except.ok Aa ∧
      ∀ p, Aa p = 3 * A p) ∧
    (∃ A1 A2 A12,
      PAVectorMassApply3D 0 0 sampleLimits sampleUninit 3 sampleB sampleBt sampleOp sampleX
          zeroVec 2 2 = Except.ok A1 ∧
      PAVectorMassApply3D 0 0 sampleLimits sampleUninit 3 sampleB sampleBt sampleOp sampleY
          zeroVec 2 2 = Except.ok A2 ∧
      PAVectorMassApply3D 0 0 sampleLimits sampleUninit 3 sampleB sampleBt sampleOp (fun i => 3 *
          sampleX i + sampleY i) zeroVec
        2 2 = Except.ok A12 ∧
      ∀ p, A12 p = 3 * A1 p + A2 p) ∧
    (∃ A1 A2 A12,
      PAVectorMassApply3D 0 0 sampleLimits sampleUninit 3 sampleB sampleBt sampleOp sampleX
          zeroVec 2 2 = Except.ok A1 ∧
      PAVectorMassApply3D 0 0 sampleLimits sampleUninit 3 sampleB sampleBt sampleOp2 sampleX
          zeroVec 2 2 = Except.ok A2 ∧
      PAVectorMassApply3D 0 0 sampleLimits sampleUninit 3 sampleB sampleBt (fun i => 3 * sampleOp
          i + sampleOp2 i) sampleX zeroVec
        2 2 = Except.ok A12 ∧
      ∀ p, A12 p = 3 * A1 p + A2 p) ∧
    (∃ A Aa,
      PAVectorMassApply3D 0 0 sampleLimits sampleUninit 3 sampleB sampleBt
        (AssemblePA_kernels 3 3 (tsize 0 2 ^ 3) sampleOnes sampleOp 2 sampleX) sampleX zeroVec 2 2
          = Except.ok A ∧
      PAVectorMassApply3D 0 0 sampleLimits sampleUninit 3 sampleB sampleBt
        (AssemblePA_kernels 3 3 (tsize 0 2 ^ 3) sampleOnes sampleOp (3 * 2) sampleY) sampleX
            zeroVec 2 2
          = Except.ok Aa ∧
      ∀ p, Aa p = 3 * A p) :=
  C28_apply_linear 0 0 sampleLimits sampleUninit 3 sampleB sampleBt sampleOp sampleOp2
    sampleX sampleX sampleY 3 2 sampleOnes sampleOp sampleX sampleY 2 2 (by decide) (by decide)

end Claims7

/-! ## Signs: the energy and the diagonal -/

section SignLemmas

variable {R : Type} [LinearOrderedCommRing R]

/-- The 2D energy of `x` is the weighted sum of the squares of its quadrature-point
values. -/
theorem energy2D_eq_squares (D1D Q1D NE : Nat) (B op x : Vec R) :
    energy2D D1D Q1D NE B op x x
      = ∑ e ∈ range NE, ∑ c ∈ range 2, ∑ qy ∈ range Q1D, ∑ qx ∈ range Q1D,
          op (Reshape3 Q1D Q1D qx qy e)
            * (∑ dx ∈ range D1D, ∑ dy ∈ range D1D,
                B (Reshape2 Q1D qx dx) * B (Reshape2 Q1D qy dy)
                  * x (Reshape4 D1D D1D 2 dx dy c e)) ^ 2 := by
  unfold energy2D
  refine Finset.sum_congr rfl (fun e _ => Finset.sum_congr rfl (fun c _ =>
    Finset.sum_congr rfl (fun qy _ => Finset.sum_congr rfl (fun qx _ => ?_))))
  rw [fwd2D_eq_spec, specFwdXY2D_eq_sum]
  ring

/-- The 3D energy of `x` is the weighted sum of the squares of its quadrature-point
values. -/
theorem energy3D_eq_squares (D1D Q1D NE : Nat) (B op x : Vec R) :
    energy3D D1D Q1D NE B op x x
      = ∑ e ∈ range NE, ∑ c ∈ range 3, ∑ qz ∈ range Q1D, ∑ qy ∈ range Q1D,
          ∑ qx ∈ range Q1D,
          op (Reshape4 Q1D Q1D Q1D qx qy qz e)
            * (∑ dx ∈ range D1D, ∑ dy ∈ range D1D, ∑ dz ∈ range D1D,
                B (Reshape2 Q1D qx dx) * B (Reshape2 Q1D qy dy) * B (Reshape2 Q1D qz dz)
                  * x (Reshape5 D1D D1D D1D 3 dx dy dz c e)) ^ 2 := by
  unfold energy3D
  refine Finset.sum_congr rfl (fun e _ => Finset.sum_congr rfl (fun c _ =>
    Finset.sum_congr rfl (fun qz _ => Finset.sum_congr rfl (fun qy _ =>
      Finset.sum_congr rfl (fun qx _ => ?_)))))
  rw [fwd3D_eq_spec, specFwdXYZ3D_eq_sum]
  ring

/-- The 2D diagonal value is non-negative when the operator data of the element is. -/
theorem diagVal2D_nonneg (Q1D : Nat) (B op : Vec R) (e dx dy : Nat)
    (hop : ∀ qx qy, qx < Q1D → qy < Q1D → 0 ≤ op (Reshape3 Q1D Q1D qx qy e)) :
    0 ≤ diagVal2D Q1D B op e dx dy := by
  unfold diagVal2D
  refine Finset.sum_nonneg (fun qx hqx => mul_nonneg (mul_self_nonneg _)
    (Finset.sum_nonneg (fun qy hqy => mul_nonneg (mul_self_nonneg _)
      (hop qx qy (Finset.mem_range.mp hqx) (Finset.mem_range.mp hqy)))))

/-- The 3D diagonal value is non-negative when the operator data of the element is. -/
theorem diagVal3D_nonneg (Q1D : Nat) (B op : Vec R) (e dx dy dz : Nat)
    (hop : ∀ qx qy qz, qx < Q1D → qy < Q1D → qz < Q1D →
      0 ≤ op (Reshape4 Q1D Q1D Q1D qx qy qz e)) :
    0 ≤ diagVal3D Q1D B op e dx dy dz := by
  unfold diagVal3D
  refine Finset.sum_nonneg (fun qx hqx => mul_nonneg (mul_self_nonneg _)
    (Finset.sum_nonneg (fun qy hqy => mul_nonneg (mul_self_nonneg _)
      (Finset.sum_nonneg (fun qz hqz => mul_nonneg (mul_self_nonneg _)
        (hop qx qy qz (Finset.mem_range.mp hqx) (Finset.mem_range.mp hqy)
          (Finset.mem_range.mp hqz)))))))

/-- A sum of terms `b i * b i * f i` with `f` positive is positive as soon as some
`b i` is not zero. -/
theorem sum_sq_mul_pos (n : Nat) (b f : Nat → R) (hf : ∀ i, i < n → 0 < f i)
    (hb : ∃ i, i < n ∧ b i ≠ 0) : 0 < ∑ i ∈ range n, b i * b i * f i := by
  obtain ⟨i0, hi0, hb0⟩ := hb
  refine Finset.sum_pos' (fun i hi => mul_nonneg (mul_self_nonneg _)
    (le_of_lt (hf i (Finset.mem_range.mp hi)))) ⟨i0, Finset.mem_range.mpr hi0, ?_⟩
  exact mul_pos (mul_self_pos.mpr hb0) (hf i0 hi0)

/-- The 2D diagonal value is positive when the operator data of the element is and
the basis does not vanish at all points along either axis. -/
theorem diagVal2D_pos (Q1D : Nat) (B op : Vec R) (e dx dy : Nat)
    (hop : ∀ qx qy, qx < Q1D → qy < Q1D → 0 < op (Reshape3 Q1D Q1D qx qy e))
    (hx : ∃ qx, qx < Q1D ∧ B (Reshape2 Q1D qx dx) ≠ 0)
    (hy : ∃ qy, qy < Q1D ∧ B (Reshape2 Q1D qy dy) ≠ 0) :
    0 < diagVal2D Q1D B op e dx dy := by
  unfold diagVal2D
  exact sum_sq_mul_pos Q1D (fun qx => B (Reshape2 Q1D qx dx)) _
    (fun qx hqx => sum_sq_mul_pos Q1D (fun qy => B (Reshape2 Q1D qy dy)) _
      (fun qy hqy => hop qx qy hqx hqy) hy) hx

/-- The 3D diagonal value is positive when the operator data of the element is and
the basis does not vanish at all points along any axis. -/
theorem diagVal3D_pos (Q1D : Nat) (B op : Vec R) (e dx dy dz : Nat)
    (hop : ∀ qx qy qz, qx < Q1D → qy < Q1D → qz < Q1D →
      0 < op (Reshape4 Q1D Q1D Q1D qx qy qz e))
    (hx : ∃ qx, qx < Q1D ∧ B (Reshape2 Q1D qx dx) ≠ 0)
    (hy : ∃ qy, qy < Q1D ∧ B (Reshape2 Q1D qy dy) ≠ 0)
    (hz : ∃ qz, qz < Q1D ∧ B (Reshape2 Q1D qz dz) ≠ 0) :
    0 < diagVal3D Q1D B op e dx dy dz := by
  unfold diagVal3D
  exact sum_sq_mul_pos Q1D (fun qx => B (Reshape2 Q1D qx dx)) _
    (fun qx hqx => sum_sq_mul_pos Q1D (fun qy => B (Reshape2 Q1D qy dy)) _
      (fun qy hqy => sum_sq_mul_pos Q1D (fun qz => B (Reshape2 Q1D qz dz)) _
        (fun qz hqz => hop qx qy qz hqx hqy hqz) hz) hy) hx

end SignLemmas

theorem sampleOp_pos (i : Nat) : 0 < sampleOp i := by
  unfold sampleOp
  omega

theorem sampleB_ne_zero (d : Nat) (hd : d < 2) :
    ∃ q, q < tsize 0 2 ∧ sampleB (Reshape2 (tsize 0 2) q d) ≠ 0 := by
  refine ⟨0, by decide, ?_⟩
  interval_cases d <;> decide

section Claims8

/-- C29. Positive semi-definiteness under non-negative operator data: within the
device limits, with `Bt(d,q) = B(q,d)` and every `pa_data` entry of the elements
non-negative, for every `x`, `PAVectorMassApply2D` (resp. `PAVectorMassApply3D`) on a
zeroed output succeeds with a result `Ax` such that `x . Ax` is the sum over elements,
components and quadrature points of `pa_data(q,e)` times the square of the value of `x`
interpolated at `q` (the sum over the dofs of `B(qx,dx) * B(qy,dy) [* B(qz,dz)] * x`),
and `x . Ax >= 0`. -/
theorem C29_apply_psd_energy {R : Type} [LinearOrderedCommRing R] (T_D1D T_Q1D : Nat)
    (lim : DofQuadLimits) (u : Uninit R) (NE : Nat) (B Bt op x : Vec R) (d1d q1d : Nat)
    (hD : tsize T_D1D d1d ≤ lim.MAX_D1D) (hQ : tsize T_Q1D q1d ≤ lim.MAX_Q1D)
    (hBt : ∀ d q, d < tsize T_D1D d1d → q < tsize T_Q1D q1d →
      Bt (Reshape2 (tsize T_D1D d1d) d q) = B (Reshape2 (tsize T_Q1D q1d) q d))
    (hop2 : ∀ e qx qy, e < NE → qx < tsize T_Q1D q1d → qy < tsize T_Q1D q1d →
      0 ≤ op (Reshape3 (tsize T_Q1D q1d) (tsize T_Q1D q1d) qx qy e))
    (hop3 : ∀ e qx qy qz, e < NE → qx < tsize T_Q1D q1d → qy < tsize T_Q1D q1d →
      qz < tsize T_Q1D q1d →
      0 ≤ op (Reshape4 (tsize T_Q1D q1d) (tsize T_Q1D q1d) (tsize T_Q1D q1d) qx qy qz e)) :
    (∃ Ax, PAVectorMassApply2D T_D1D T_Q1D lim u NE B Bt op x zeroVec d1d q1d
        = Except.ok Ax ∧
      dot (vdofs2D (tsize T_D1D d1d) NE) x Ax
        = ∑ e ∈ range NE, ∑ c ∈ range 2, ∑ qy ∈ range (tsize T_Q1D q1d),
            ∑ qx ∈ range (tsize T_Q1D q1d),
            op (Reshape3 (tsize T_Q1D q1d) (tsize T_Q1D q1d) qx qy e)
              * (∑ dx ∈ range (tsize T_D1D d1d), ∑ dy ∈ range (tsize T_D1D d1d),
                  B (Reshape2 (tsize T_Q1D q1d) qx dx) * B (Reshape2 (tsize T_Q1D q1d) qy dy)
                    * x (Reshape4 (tsize T_D1D d1d) (tsize T_D1D d1d) 2 dx dy c e)) ^ 2 ∧
      0 ≤ dot (vdofs2D (tsize T_D1D d1d) NE) x Ax) ∧
    (∃ Ax, PAVectorMassApply3D T_D1D T_Q1D lim u NE B Bt op x zeroVec d1d q1d
        = Except.ok Ax ∧
      dot (vdofs3D (tsize T_D1D d1d) NE) x Ax
        = ∑ e ∈ range NE, ∑ c ∈ range 3, ∑ qz ∈ range (tsize T_Q1D q1d),
            ∑ qy ∈ range (tsize T_Q1D q1d), ∑ qx ∈ range (tsize T_Q1D q1d),
            op (Reshape4 (tsize T_Q1D q1d) (tsize T_Q1D q1d) (tsize T_Q1D q1d) qx qy qz e)
              * (∑ dx ∈ range (tsize T_D1D d1d), ∑ dy ∈ range (tsize T_D1D d1d),
                  ∑ dz ∈ range (tsize T_D1D d1d),
                  B (Reshape2 (tsize T_Q1D q1d) qx dx) * B (Reshape2 (tsize T_Q1D q1d) qy dy)
                    * B (Reshape2 (tsize T_Q1D q1d) qz dz)
                    * x (Reshape5 (tsize T_D1D d1d) (tsize T_D1D d1d) (tsize T_D1D d1d) 3
                        dx dy dz c e)) ^ 2 ∧
      0 ≤ dot (vdofs3D (tsize T_D1D d1d) NE) x Ax) := by
  refine ⟨⟨_, PAVectorMassApply2D_ok T_D1D T_Q1D lim u NE B Bt op x zeroVec d1d q1d hD hQ,
      ?_, ?_⟩,
    ⟨_, PAVectorMassApply3D_ok T_D1D T_Q1D lim u NE B Bt op x zeroVec d1d q1d hD hQ,
      ?_, ?_⟩⟩
  · rw [dot_apply2D _ _ NE B Bt op x x hBt]
    exact energy2D_eq_squares _ _ NE B op x
  · rw [dot_apply2D _ _ NE B Bt op x x hBt]
    exact energy2D_nonneg _ _ NE B op x (fun e qy qx he hqy hqx => hop2 e qx qy he hqx hqy)
  · rw [dot_apply3D _ _ NE B Bt op x x hBt]
    exact energy3D_eq_squares _ _ NE B op x
  · rw [dot_apply3D _ _ NE B Bt op x x hBt]
    exact energy3D_nonneg _ _ NE B op x
      (fun e qz qy qx he hqz hqy hqx => hop3 e qx qy qz he hqx hqy hqz)

/-- C29 at the sample data: three elements, `D1D = Q1D = 2`, positive operator data. -/
theorem C29_apply_psd_energy_witness :
    (∃ Ax, PAVectorMassApply2D 0 0 sampleLimits sampleUninit 3 sampleB sampleBt sampleOp
        sampleX zeroVec 2 2 = Except.ok Ax ∧
      dot (vdofs2D (tsize 0 2) 3) sampleX Ax
        = ∑ e ∈ range 3, ∑ c ∈ range 2, ∑ qy ∈ range (tsize 0 2),
            ∑ qx ∈ range (tsize 0 2),
            sampleOp (Reshape3 (tsize 0 2) (tsize 0 2) qx qy e)
              * (∑ dx ∈ range (tsize 0 2), ∑ dy ∈ range (tsize 0 2),
                  sampleB (Reshape2 (tsize 0 2) qx dx) * sampleB (Reshape2 (tsize 0 2) qy dy)
                    * sampleX (Reshape4 (tsize 0 2) (tsize 0 2) 2 dx dy c e)) ^ 2 ∧
      0 ≤ dot (vdofs2D (tsize 0 2) 3) sampleX Ax) ∧
    (∃ Ax, PAVectorMassApply3D 0 0 sampleLimits sampleUninit 3 sampleB sampleBt sampleOp
        sampleX zeroVec 2 2 = Except.ok Ax ∧
      dot (vdofs3D (tsize 0 2) 3) sampleX Ax
        = ∑ e ∈ range 3, ∑ c ∈ range 3, ∑ qz ∈ range (tsize 0 2),
            ∑ qy ∈ range (tsize 0 2), ∑ qx ∈ range (tsize 0 2),
            sampleOp (Reshape4 (tsize 0 2) (tsize 0 2) (tsize 0 2) qx qy qz e)
              * (∑ dx ∈ range (tsize 0 2), ∑ dy ∈ range (tsize 0 2),
                  ∑ dz ∈ range (tsize 0 2),
                  sampleB (Reshape2 (tsize 0 2) qx dx) * sampleB (Reshape2 (tsize 0 2) qy dy)
                    * sampleB (Reshape2 (tsize 0 2) qz dz)
                    * sampleX (Reshape5 (tsize 0 2) (tsize 0 2) (tsize 0 2) 3
                        dx dy dz c e)) ^ 2 ∧
      0 ≤ dot (vdofs3D (tsize 0 2) 3) sampleX Ax) :=
  C29_apply_psd_energy 0 0 sampleLimits sampleUninit 3 sampleB sampleBt sampleOp sampleX
    2 2 (by decide) (by decide) sampleBt_transpose
    (fun _ _ _ _ _ _ => le_of_lt (sampleOp_pos _))
    (fun _ _ _ _ _ _ _ _ => le_of_lt (sampleOp_pos _))

/-- C30. The extracted diagonal is non-negative whenever the operator data is: within
the device limits, for every basis table `B`, if every `pa_data` entry of the elements
is non-negative then `PAVectorMassAssembleDiagonal2D` (resp. `3D`) succeeds and every
entry it writes is non-negative; and an entry written for the dof `(dx,dy[,dz])` of
element `e` is positive if moreover `pa_data` is positive at the quadrature points of
`e` and, along each axis, some `B(q,d)` is non-zero for the index `d` of the dof. -/
theorem C30_diagonal_sign {R : Type} [LinearOrderedCommRing R] (T_D1D T_Q1D : Nat)
    (lim : DofQuadLimits) (u : Uninit R) (NE : Nat) (B Bt op diag : Vec R) (d1d q1d : Nat)
    (hD : tsize T_D1D d1d ≤ lim.MAX_D1D) (hQ : tsize T_Q1D q1d ≤ lim.MAX_Q1D)
    (hop2 : ∀ e qx qy, e < NE → qx < tsize T_Q1D q1d → qy < tsize T_Q1D q1d →
      0 ≤ op (Reshape3 (tsize T_Q1D q1d) (tsize T_Q1D q1d) qx qy e))
    (hop3 : ∀ e qx qy qz, e < NE → qx < tsize T_Q1D q1d → qy < tsize T_Q1D q1d →
      qz < tsize T_Q1D q1d →
      0 ≤ op (Reshape4 (tsize T_Q1D q1d) (tsize T_Q1D q1d) (tsize T_Q1D q1d) qx qy qz e)) :
    (∃ d', PAVectorMassAssembleDiagonal2D T_D1D T_Q1D lim u NE B Bt op diag d1d q1d
        = Except.ok d' ∧
      ∀ e c dx dy, e < NE → c < 2 → dx < tsize T_D1D d1d → dy < tsize T_D1D d1d →
        0 ≤ d' (Reshape4 (tsize T_D1D d1d) (tsize T_D1D d1d) 2 dx dy c e) ∧
        ((∀ qx qy, qx < tsize T_Q1D q1d → qy < tsize T_Q1D q1d →
            0 < op (Reshape3 (tsize T_Q1D q1d) (tsize T_Q1D q1d) qx qy e)) →
          (∃ qx, qx < tsize T_Q1D q1d ∧ B (Reshape2 (tsize T_Q1D q1d) qx dx) ≠ 0) →
          (∃ qy, qy < tsize T_Q1D q1d ∧ B (Reshape2 (tsize T_Q1D q1d) qy dy) ≠ 0) →
          0 < d' (Reshape4 (tsize T_D1D d1d) (tsize T_D1D d1d) 2 dx dy c e))) ∧
    (∃ d', PAVectorMassAssembleDiagonal3D T_D1D T_Q1D lim u NE B Bt op diag d1d q1d
        = Except.ok d' ∧
      ∀ e c dx dy dz, e < NE → c < 3 → dx < tsize T_D1D d1d → dy < tsize T_D1D d1d →
        dz < tsize T_D1D d1d →
        0 ≤ d' (Reshape5 (tsize T_D1D d1d) (tsize T_D1D d1d) (tsize T_D1D d1d) 3
              dx dy dz c e) ∧
        ((∀ qx qy qz, qx < tsize T_Q1D q1d → qy < tsize T_Q1D q1d → qz < tsize T_Q1D q1d →
            0 < op (Reshape4 (tsize T_Q1D q1d) (tsize T_Q1D q1d) (tsize T_Q1D q1d)
                  qx qy qz e)) →
          (∃ qx, qx < tsize T_Q1D q1d ∧ B (Reshape2 (tsize T_Q1D q1d) qx dx) ≠ 0) →
          (∃ qy, qy < tsize T_Q1D q1d ∧ B (Reshape2 (tsize T_Q1D q1d) qy dy) ≠ 0) →
          (∃ qz, qz < tsize T_Q1D q1d ∧ B (Reshape2 (tsize T_Q1D q1d) qz dz) ≠ 0) →
          0 < d' (Reshape5 (tsize T_D1D d1d) (tsize T_D1D d1d) (tsize T_D1D d1d) 3
                dx dy dz c e))) := by
  refine ⟨⟨_, PAVectorMassAssembleDiagonal2D_ok T_D1D T_Q1D lim u NE B Bt op diag d1d q1d
      hD hQ, ?_⟩,
    ⟨_, PAVectorMassAssembleDiagonal3D_ok T_D1D T_Q1D lim u NE B Bt op diag d1d q1d
      hD hQ, ?_⟩⟩
  · intro e c dx dy he hc hdx hdy
    rw [diag2D_loop_at _ _ NE B op u diag he hc hdx hdy]
    exact ⟨diagVal2D_nonneg _ B op e dx dy (fun qx qy hqx hqy => hop2 e qx qy he hqx hqy),
      fun hpos hx hy => diagVal2D_pos _ B op e dx dy hpos hx hy⟩
  · intro e c dx dy dz he hc hdx hdy hdz
    rw [diag3D_loop_at _ _ NE B op u diag he hc hdx hdy hdz]
    exact ⟨diagVal3D_nonneg _ B op e dx dy dz
        (fun qx qy qz hqx hqy hqz => hop3 e qx qy qz he hqx hqy hqz),
      fun hpos hx hy hz => diagVal3D_pos _ B op e dx dy dz hpos hx hy hz⟩

/-- C30 at the sample data: three elements, `D1D = Q1D = 2`, positive operator data and
a basis table without zeros, so that every entry written is positive. -/
theorem C30_diagonal_sign_witness :
    (∃ d', PAVectorMassAssembleDiagonal2D 0 0 sampleLimits sampleUninit 3 sampleB sampleBt
        sampleOp sampleY 2 2 = Except.ok d' ∧
      ∀ e c dx dy, e < 3 → c < 2 → dx < tsize 0 2 → dy < tsize 0 2 →
        0 < d' (Reshape4 (tsize 0 2) (tsize 0 2) 2 dx dy c e)) ∧
    (∃ d', PAVectorMassAssembleDiagonal3D 0 0 sampleLimits sampleUninit 3 sampleB sampleBt
        sampleOp sampleY 2 2 = Except.ok d' ∧
      ∀ e c dx dy dz, e < 3 → c < 3 → dx < tsize 0 2 → dy < tsize 0 2 → dz < tsize 0 2 →
        0 < d' (Reshape5 (tsize 0 2) (tsize 0 2) (tsize 0 2) 3 dx dy dz c e)) := by
  obtain ⟨⟨d2, h2, p2⟩, ⟨d3, h3, p3⟩⟩ :=
    C30_diagonal_sign 0 0 sampleLimits sampleUninit 3 sampleB sampleBt sampleOp sampleY 2 2
      (by decide) (by decide) (fun _ _ _ _ _ _ => le_of_lt (sampleOp_pos _))
      (fun _ _ _ _ _ _ _ _ => le_of_lt (sampleOp_pos _))
  refine ⟨⟨d2, h2, ?_⟩, ⟨d3, h3, ?_⟩⟩
  · intro e c dx dy he hc hdx hdy
    exact (p2 e c dx dy he hc hdx hdy).2 (fun _ _ _ _ => sampleOp_pos _)
      (sampleB_ne_zero dx hdx) (sampleB_ne_zero dy hdy)
  · intro e c dx dy dz he hc hdx hdy hdz
    exact (p3 e c dx dy dz he hc hdx hdy hdz).2 (fun _ _ _ _ _ _ => sampleOp_pos _)
      (sampleB_ne_zero dx hdx) (sampleB_ne_zero dy hdy) (sampleB_ne_zero dz hdz)

end Claims8

/-! ## The reduced system operator and the Kovasznay solution -/

section ReducedLemmas

/-- The entries of a vector after `SetSubVector`. -/
theorem SetSubVector_apply {R : Type} (dofs : List Nat) (y : Vec R) (value : R) (i : Nat) :
    SetSubVector y dofs value i = if i ∈ dofs then value else y i := by
  induction dofs generalizing y with
  | nil => simp [SetSubVector]
  | cons a l ih =>
    have h : SetSubVector y (a :: l) value = SetSubVector (store y a value) l value := rfl
    rw [h, ih]
    by_cases hl : i ∈ l
    · simp [hl]
    · by_cases ha : i = a
      · subst ha
        simp [hl, store]
      · simp [hl, ha, store]

end ReducedLemmas

section Claims9

/-- C25: `ReducedSystemOperator::Mult` does not compute what its documentation states
at an essential true dof. With `M`, `S`, `H` the identity, `dt = 1`, `v = x = k = 1` and
the true dof `0` essential, `Mult` leaves `0` in `y[0]`, while the documented value
`H(x + dt*(v + dt*k)) + M*k + S*(v + dt*k)` is `6` there; at the true dof `1`, which is
not essential, `Mult` leaves the documented value `6`. -/
theorem C25_essential_dof_divergence :
    (sampleReduced.SetParameters 1 sampleOnes sampleOnes).Mult sampleOnes 0 = 0 ∧
    sampleReduced.H (fun j => sampleOnes j + 1 * (sampleOnes j + 1 * sampleOnes j)) 0
      + sampleReduced.M sampleOnes 0
      + sampleReduced.S (fun j => sampleOnes j + 1 * sampleOnes j) 0 = 6 ∧
    (sampleReduced.SetParameters 1 sampleOnes sampleOnes).Mult sampleOnes 1 = 6 := by
  decide

/-- What `ReducedSystemOperator::Mult` computes. For every `k` and the parameters `dt`,
`v`, `x` set by `SetParameters`, it leaves in `y` the documented value
`H(x + dt*(v + dt*k)) + M*k + S*(v + dt*k)` at every true dof that is not in
`ess_tdof_list`, and `0` at the true dofs of `ess_tdof_list` (`H`, `M`, `S` taken as
given operators whose `TrueAddMult` adds their action to `y`). -/
theorem C25_reduced_mult {R : Type} [CommRing R] (self : ReducedSystemOperator R)
    (dt : R) (v x k : Vec R) (i : Nat) :
    (self.SetParameters dt v x).Mult k i
      = if i ∈ self.ess_tdof_list then 0
        else self.H (fun j => x j + dt * (v j + dt * k j)) i + self.M k i
          + self.S (fun j => v j + dt * k j) i := by
  unfold ReducedSystemOperator.Mult ReducedSystemOperator.SetParameters
  simp only [SetSubVector_apply]
  rfl

/-- C26. The Kovasznay exact solution is the documented one over the reals: with the
default context, `kinvis = 1/40`, `Re = 40`, the reference pressure is `0` and
`L = Re/2 - sqrt(Re^2/4 + 4*pi^2)`; for every point `X = (x,y)` and time `t`,
`vel_kovasznay` leaves `u = [1 - exp(L*x)*cos(2*pi*y), L/(2*pi)*exp(L*x)*sin(2*pi*y)]`
and `pres_kovasznay` returns `1/2*(1 - exp(2*L*x))`, whatever `t` is. -/
theorem C26_kovasznay_exact (X : Vec ℝ) (t : ℝ) (u : Vec ℝ) :
    (ctx (⟨Real.exp, Real.cos, Real.sin, Real.sqrt, Real.pi⟩ : MathFns ℝ)).kinvis = 1 / 40 ∧
    (ctx (⟨Real.exp, Real.cos, Real.sin, Real.sqrt, Real.pi⟩ : MathFns ℝ)).reynolds = 40 ∧
    (ctx (⟨Real.exp, Real.cos, Real.sin, Real.sqrt, Real.pi⟩ : MathFns ℝ)).lam
      = 40 / 2 - Real.sqrt (40 ^ 2 / 4 + 4 * Real.pi ^ 2) ∧
    vel_kovasznay ⟨Real.exp, Real.cos, Real.sin, Real.sqrt, Real.pi⟩
        (ctx ⟨Real.exp, Real.cos, Real.sin, Real.sqrt, Real.pi⟩) X t u 0
      = 1 - Real.exp ((40 / 2 - Real.sqrt (40 ^ 2 / 4 + 4 * Real.pi ^ 2)) * X 0)
            * Real.cos (2 * Real.pi * X 1) ∧
    vel_kovasznay ⟨Real.exp, Real.cos, Real.sin, Real.sqrt, Real.pi⟩
        (ctx ⟨Real.exp, Real.cos, Real.sin, Real.sqrt, Real.pi⟩) X t u 1
      = (40 / 2 - Real.sqrt (40 ^ 2 / 4 + 4 * Real.pi ^ 2)) / (2 * Real.pi)
          * Real.exp ((40 / 2 - Real.sqrt (40 ^ 2 / 4 + 4 * Real.pi ^ 2)) * X 0)
          * Real.sin (2 * Real.pi * X 1) ∧
    pres_kovasznay ⟨Real.exp, Real.cos, Real.sin, Real.sqrt, Real.pi⟩
        (ctx ⟨Real.exp, Real.cos, Real.sin, Real.sqrt, Real.pi⟩) X t
      = 1 / 2 * (1 - Real.exp (2 * (40 / 2 - Real.sqrt (40 ^ 2 / 4 + 4 * Real.pi ^ 2)) * X 0)) ∧
    ∀ t' : ℝ,
      vel_kovasznay ⟨Real.exp, Real.cos, Real.sin, Real.sqrt, Real.pi⟩
          (ctx ⟨Real.exp, Real.cos, Real.sin, Real.sqrt, Real.pi⟩) X t' u
        = vel_kovasznay ⟨Real.exp, Real.cos, Real.sin, Real.sqrt, Real.pi⟩
            (ctx ⟨Real.exp, Real.cos, Real.sin, Real.sqrt, Real.pi⟩) X t u ∧
      pres_kovasznay ⟨Real.exp, Real.cos, Real.sin, Real.sqrt, Real.pi⟩
          (ctx ⟨Real.exp, Real.cos, Real.sin, Real.sqrt, Real.pi⟩) X t'
        = pres_kovasznay ⟨Real.exp, Real.cos, Real.sin, Real.sqrt, Real.pi⟩
            (ctx ⟨Real.exp, Real.cos, Real.sin, Real.sqrt, Real.pi⟩) X t := by
  have hlam : (ctx (⟨Real.exp, Real.cos, Real.sin, Real.sqrt, Real.pi⟩ : MathFns ℝ)).lam
      = 40 / 2 - Real.sqrt (40 ^ 2 / 4 + 4 * Real.pi ^ 2) := by
    simp only [ctx]
    norm_num
    ring_nf
  refine ⟨rfl, ?_, hlam, ?_, ?_, ?_, fun t' => ⟨rfl, rfl⟩⟩
  · simp only [ctx]
    norm_num
  · rw [← hlam]
    simp [vel_kovasznay, store]
  · rw [← hlam]
    simp [vel_kovasznay, store]
  · rw [← hlam]
    simp [pres_kovasznay, ctx]

end Claims9


/-! ## The diagonal as an assignment; the default coefficient; conservation -/

section OverwriteLemmas

variable {R : Type} [CommRing R]

/-- A flat position below `D * (D * (V * NE))` is a cell of the view
`Reshape(D, D, V, NE)`. -/
theorem flat_cell4 {D V NE p : Nat} (hp : p < D * (D * (V * NE))) :
    ∃ dx dy c e, dx < D ∧ dy < D ∧ c < V ∧ e < NE ∧ p = Reshape4 D D V dx dy c e := by
  have h1 : p < (D * (V * NE)) * D := by rw [Nat.mul_comm]; exact hp
  obtain ⟨a1, a2, a3⟩ := flat_cell h1
  have h2 : p / D < (V * NE) * D := by rw [Nat.mul_comm]; exact a1
  obtain ⟨b1, b2, b3⟩ := flat_cell h2
  have h3 : p / D / D < NE * V := by rw [Nat.mul_comm]; exact b1
  obtain ⟨c1, c2, c3⟩ := flat_cell h3
  refine ⟨p % D, p / D % D, p / D / D % V, p / D / D / V, a2, b2, c2, c1, ?_⟩
  rw [Reshape4_eq_Reshape2, ← c3, ← b3, ← a3]

/-- A flat position below `D * (D * (D * (V * NE)))` is a cell of the view
`Reshape(D, D, D, V, NE)`. -/
theorem flat_cell5 {D V NE p : Nat} (hp : p < D * (D * (D * (V * NE)))) :
    ∃ dx dy dz c e, dx < D ∧ dy < D ∧ dz < D ∧ c < V ∧ e < NE ∧
      p = Reshape5 D D D V dx dy dz c e := by
  have h1 : p < (D * (D * (V * NE))) * D := by rw [Nat.mul_comm]; exact hp
  obtain ⟨a1, a2, a3⟩ := flat_cell h1
  obtain ⟨dy, dz, c, e, hdy, hdz, hc, he, h⟩ := flat_cell4 a1
  refine ⟨p % D, dy, dz, c, e, a2, hdy, hdz, hc, he, ?_⟩
  calc p = Reshape2 D (p % D) (p / D) := a3
    _ = Reshape2 D (p % D) (Reshape4 D D V dy dz c e) := by rw [h]
    _ = Reshape5 D D D V (p % D) dy dz c e := rfl

/-- Every entry of a 2D dof vector of `NE` elements is assigned by the diagonal
kernel. -/
theorem diagCells2D_of_lt {D1D NE p : Nat} (hp : p < vdofs2D D1D NE) : diagCells2D D1D NE p := by
  obtain ⟨dx, dy, c, e, hdx, hdy, hc, he, h⟩ := flat_cell4 hp
  refine ⟨e, he, dy, hdy, dx, hdx, ?_⟩
  interval_cases c
  · exact Or.inl h
  · exact Or.inr h

/-- Every entry of a 3D dof vector of `NE` elements is assigned by the diagonal
kernel. -/
theorem diagCells3D_of_lt {D1D NE p : Nat} (hp : p < vdofs3D D1D NE) : diagCells3D D1D NE p := by
  obtain ⟨dx, dy, dz, c, e, hdx, hdy, hdz, hc, he, h⟩ := flat_cell5 hp
  refine ⟨e, he, dz, hdz, dy, hdy, dx, hdx, ?_⟩
  interval_cases c
  · exact Or.inl h
  · exact Or.inr (Or.inl h)
  · exact Or.inr (Or.inr h)

/-- The value of an assigned cell after the 2D diagonal loop does not depend on the
previous contents of the output nor on the local arrays. -/
theorem diag2D_loop_same (D1D Q1D NE : Nat) (B op : Vec R) (u u' : Uninit R)
    (y y' : Vec R) {p : Nat} (hp : diagCells2D D1D NE p) :
    forLoop NE (fun e y => diag2D_element D1D Q1D B op u e y) y p
      = forLoop NE (fun e y => diag2D_element D1D Q1D B op u' e y) y' p := by
  obtain ⟨e, he, dy, hdy, dx, hdx, h | h⟩ := hp
  · rw [h, diag2D_loop_at D1D Q1D NE B op u y he (by decide : 0 < 2) hdx hdy,
      diag2D_loop_at D1D Q1D NE B op u' y' he (by decide : 0 < 2) hdx hdy]
  · rw [h, diag2D_loop_at D1D Q1D NE B op u y he (by decide : 1 < 2) hdx hdy,
      diag2D_loop_at D1D Q1D NE B op u' y' he (by decide : 1 < 2) hdx hdy]

/-- The value of an assigned cell after the 3D diagonal loop does not depend on the
previous contents of the output nor on the local arrays. -/
theorem diag3D_loop_same (D1D Q1D NE : Nat) (B op : Vec R) (u u' : Uninit R)
    (y y' : Vec R) {p : Nat} (hp : diagCells3D D1D NE p) :
    forLoop NE (fun e y => diag3D_element D1D Q1D B op u e y) y p
      = forLoop NE (fun e y => diag3D_element D1D Q1D B op u' e y) y' p := by
  obtain ⟨e, he, dz, hdz, dy, hdy, dx, hdx, h | h | h⟩ := hp
  · rw [h, diag3D_loop_at D1D Q1D NE B op u y he (by decide : 0 < 3) hdx hdy hdz,
      diag3D_loop_at D1D Q1D NE B op u' y' he (by decide : 0 < 3) hdx hdy hdz]
  · rw [h, diag3D_loop_at D1D Q1D NE B op u y he (by decide : 1 < 3) hdx hdy hdz,
      diag3D_loop_at D1D Q1D NE B op u' y' he (by decide : 1 < 3) hdx hdy hdz]
  · rw [h, diag3D_loop_at D1D Q1D NE B op u y he (by decide : 2 < 3) hdx hdy hdz,
      diag3D_loop_at D1D Q1D NE B op u' y' he (by decide : 2 < 3) hdx hdy hdz]

/-- Running the 2D diagonal loop on its own result changes nothing. -/
theorem diag2D_loop_idem (D1D Q1D NE : Nat) (B op : Vec R) (u u' : Uninit R) (y : Vec R) :
    forLoop NE (fun e y => diag2D_element D1D Q1D B op u' e y)
        (forLoop NE (fun e y => diag2D_element D1D Q1D B op u e y) y)
      = forLoop NE (fun e y => diag2D_element D1D Q1D B op u e y) y := by
  funext p
  by_cases hp : diagCells2D D1D NE p
  · exact diag2D_loop_same D1D Q1D NE B op u' u _ y hp
  · exact (diag2D_loop_spec D1D Q1D NE B op u' _ p).2 hp

/-- Running the 3D diagonal loop on its own result changes nothing. -/
theorem diag3D_loop_idem (D1D Q1D NE : Nat) (B op : Vec R) (u u' : Uninit R) (y : Vec R) :
    forLoop NE (fun e y => diag3D_element D1D Q1D B op u' e y)
        (forLoop NE (fun e y => diag3D_element D1D Q1D B op u e y) y)
      = forLoop NE (fun e y => diag3D_element D1D Q1D B op u e y) y := by
  funext p
  by_cases hp : diagCells3D D1D NE p
  · exact diag3D_loop_same D1D Q1D NE B op u' u _ y hp
  · exact (diag3D_loop_spec D1D Q1D NE B op u' _ p).2 hp

end OverwriteLemmas

section Claims11

/-- C31. Diagonal extraction overwrites its output and ignores `Bt`: within the device
limits, `PAVectorMassAssembleDiagonal2D` (resp. `3D`) succeeds; every entry of `diag`
of shape `D1D^d x VDIM x NE` is one of the cells it assigns; two calls that differ in
the previous contents of `diag`, in the `Bt` argument and in the initial contents of
the local arrays give the same value at every entry; and a second call on the result
of the first returns it unchanged. -/
theorem C31_diagonal_overwrites {R : Type} [CommRing R] (T_D1D T_Q1D : Nat)
    (lim : DofQuadLimits) (u u' : Uninit R) (NE : Nat) (B Bt Bt' op diag diag' : Vec R)
    (d1d q1d : Nat)
    (hD : tsize T_D1D d1d ≤ lim.MAX_D1D) (hQ : tsize T_Q1D q1d ≤ lim.MAX_Q1D) :
    (∃ r r', PAVectorMassAssembleDiagonal2D T_D1D T_Q1D lim u NE B Bt op diag d1d q1d
        = Except.ok r ∧
      PAVectorMassAssembleDiagonal2D T_D1D T_Q1D lim u' NE B Bt' op diag' d1d q1d
        = Except.ok r' ∧
      (∀ p, p < vdofs2D (tsize T_D1D d1d) NE →
        diagCells2D (tsize T_D1D d1d) NE p ∧ r p = r' p) ∧
      PAVectorMassAssembleDiagonal2D T_D1D T_Q1D lim u' NE B Bt' op r d1d q1d
        = Except.ok r) ∧
    (∃ r r', PAVectorMassAssembleDiagonal3D T_D1D T_Q1D lim u NE B Bt op diag d1d q1d
        = Except.ok r ∧
      PAVectorMassAssembleDiagonal3D T_D1D T_Q1D lim u' NE B Bt' op diag' d1d q1d
        = Except.ok r' ∧
      (∀ p, p < vdofs3D (tsize T_D1D d1d) NE →
        diagCells3D (tsize T_D1D d1d) NE p ∧ r p = r' p) ∧
      PAVectorMassAssembleDiagonal3D T_D1D T_Q1D lim u' NE B Bt' op r d1d q1d
        = Except.ok r) := by
  refine ⟨⟨_, _,
      PAVectorMassAssembleDiagonal2D_ok T_D1D T_Q1D lim u NE B Bt op diag d1d q1d hD hQ,
      PAVectorMassAssembleDiagonal2D_ok T_D1D T_Q1D lim u' NE B Bt' op diag' d1d q1d hD hQ,
      ?_, ?_⟩,
    ⟨_, _,
      PAVectorMassAssembleDiagonal3D_ok T_D1D T_Q1D lim u NE B Bt op diag d1d q1d hD hQ,
      PAVectorMassAssembleDiagonal3D_ok T_D1D T_Q1D lim u' NE B Bt' op diag' d1d q1d hD hQ,
      ?_, ?_⟩⟩
  · intro p hp
    exact ⟨diagCells2D_of_lt hp,
      diag2D_loop_same _ _ NE B op u u' diag diag' (diagCells2D_of_lt hp)⟩
  · rw [PAVectorMassAssembleDiagonal2D_ok T_D1D T_Q1D lim u' NE B Bt' op _ d1d q1d hD hQ,
      diag2D_loop_idem]
  · intro p hp
    exact ⟨diagCells3D_of_lt hp,
      diag3D_loop_same _ _ NE B op u u' diag diag' (diagCells3D_of_lt hp)⟩
  · rw [PAVectorMassAssembleDiagonal3D_ok T_D1D T_Q1D lim u' NE B Bt' op _ d1d q1d hD hQ,
      diag3D_loop_idem]

/-- C31 at the sample data: three elements, `D1D = Q1D = 2`; the two calls differ in
`diag`, in `Bt` and in the local arrays. -/
theorem C31_diagonal_overwrites_witness :
    (∃ r r', PAVectorMassAssembleDiagonal2D 0 0 sampleLimits sampleUninit 3 sampleB
        sampleBt sampleOp sampleX 2 2 = Except.ok r ∧
      PAVectorMassAssembleDiagonal2D 0 0 sampleLimits ⟨fun _ => 1, fun _ => 2, fun _ => 3⟩ 3
        sampleB sampleOnes sampleOp sampleY 2 2 = Except.ok r' ∧
      (∀ p, p < vdofs2D (tsize 0 2) 3 → diagCells2D (tsize 0 2) 3 p ∧ r p = r' p) ∧
      PAVectorMassAssembleDiagonal2D 0 0 sampleLimits ⟨fun _ => 1, fun _ => 2, fun _ => 3⟩ 3
        sampleB sampleOnes sampleOp r 2 2 = Except.ok r) ∧
    (∃ r r', PAVectorMassAssembleDiagonal3D 0 0 sampleLimits sampleUninit 3 sampleB
        sampleBt sampleOp sampleX 2 2 = Except.ok r ∧
      PAVectorMassAssembleDiagonal3D 0 0 sampleLimits ⟨fun _ => 1, fun _ => 2, fun _ => 3⟩ 3
        sampleB sampleOnes sampleOp sampleY 2 2 = Except.ok r' ∧
      (∀ p, p < vdofs3D (tsize 0 2) 3 → diagCells3D (tsize 0 2) 3 p ∧ r p = r' p) ∧
      PAVectorMassAssembleDiagonal3D 0 0 sampleLimits ⟨fun _ => 1, fun _ => 2, fun _ => 3⟩ 3
        sampleB sampleOnes sampleOp r 2 2 = Except.ok r) :=
  C31_diagonal_overwrites 0 0 sampleLimits sampleUninit ⟨fun _ => 1, fun _ => 2, fun _ => 3⟩
    3 sampleB sampleBt sampleOnes sampleOp sampleX sampleY 2 2 (by decide) (by decide)

/-- C33. The default coefficient: on the native path, in dimension 2 or 3, when no
coefficient is supplied (`Q` is null) `AssemblePA` succeeds and sets
`pa_data(q,e) = w[q] * det(J(q,e))` for every quadrature point `q` and element `e`,
the same data as for an integrator with the explicit constant coefficient `1`. -/
theorem C33_default_coefficient {R : Type} [CommRing R] (env : PASetup R)
    (self self1 : VectorMassIntegrator R)
    (hceed : env.DeviceCanUseCeed = false)
    (hdim : env.Dimension = 2 ∨ env.Dimension = 3)
    (hQ : self.Q = none) (hQ1 : self1.Q = some (Coefficient.constant 1)) :
    ∃ s s1, AssemblePA env self = Except.ok s ∧ AssemblePA env self1 = Except.ok s1 ∧
      ∀ e q, e < env.GetNE → q < env.GetNPoints →
        (env.Dimension = 2 → s.pa_data (Reshape2 env.GetNPoints q e)
          = env.GetWeights q * (jacobian2 env.GetNPoints env.J q e).det) ∧
        (env.Dimension = 3 → s.pa_data (Reshape2 env.GetNPoints q e)
          = env.GetWeights q * (jacobian3 env.GetNPoints env.J q e).det) ∧
        s1.pa_data (Reshape2 env.GetNPoints q e)
          = s.pa_data (Reshape2 env.GetNPoints q e) := by
  have hco : AssemblePA_coeff self.Q = Except.ok 1 := by rw [hQ]; rfl
  have hco1 : AssemblePA_coeff self1.Q = Except.ok 1 := by rw [hQ1]; rfl
  refine ⟨_, _, AssemblePA_native env self 1 hceed hco hdim,
    AssemblePA_native env self1 1 hceed hco1 hdim, ?_⟩
  intro e q he hq
  simp only
  rw [AssemblePA_kernels_paValue env.Dimension env.GetNE env.GetNPoints env.GetWeights env.J 1
      self.pa_data hdim he hq,
    AssemblePA_kernels_paValue env.Dimension env.GetNE env.GetNPoints env.GetWeights env.J 1
      self1.pa_data hdim he hq]
  refine ⟨fun h => ?_, fun h => ?_, rfl⟩
  · unfold paValue
    rw [if_pos h, mul_one, detJ2D_eq_det]
  · unfold paValue
    rw [if_neg (by rw [h]; decide), mul_one, detJ3D_eq_det]

/-- C33 at the sample data: dimension 3, identity Jacobian, weight `2`. -/
theorem C33_default_coefficient_witness :
    ∃ s s1, AssemblePA (sampleSetup 3) sampleIntegratorDefault = Except.ok s ∧
      AssemblePA (sampleSetup 3) (sampleIntegrator 1) = Except.ok s1 ∧
      ∀ e q, e < (sampleSetup 3).GetNE → q < (sampleSetup 3).GetNPoints →
        ((sampleSetup 3).Dimension = 2 → s.pa_data (Reshape2 (sampleSetup 3).GetNPoints q e)
          = (sampleSetup 3).GetWeights q
              * (jacobian2 (sampleSetup 3).GetNPoints (sampleSetup 3).J q e).det) ∧
        ((sampleSetup 3).Dimension = 3 → s.pa_data (Reshape2 (sampleSetup 3).GetNPoints q e)
          = (sampleSetup 3).GetWeights q
              * (jacobian3 (sampleSetup 3).GetNPoints (sampleSetup 3).J q e).det) ∧
        s1.pa_data (Reshape2 (sampleSetup 3).GetNPoints q e)
          = s.pa_data (Reshape2 (sampleSetup 3).GetNPoints q e) :=
  C33_default_coefficient (sampleSetup 3) sampleIntegratorDefault (sampleIntegrator 1) rfl
    (Or.inr rfl) rfl rfl

end Claims11

section ConservationLemmas

variable {R : Type} [CommRing R]

/-- With a partition-of-unity basis, the quadrature-point values of a vector that is
`1` on component `c` of element `e` are `1` (2D). -/
theorem fwd2D_ones (D1D Q1D : Nat) (B x : Vec R) {e c qy qx : Nat}
    (hx : ∀ dx dy, dx < D1D → dy < D1D → x (Reshape4 D1D D1D 2 dx dy c e) = 1)
    (hPU : ∀ q, q < Q1D → ∑ d ∈ range D1D, B (Reshape2 Q1D q d) = 1)
    (hqy : qy < Q1D) (hqx : qx < Q1D) :
    fwd2D D1D Q1D B x e c qy qx = 1 := by
  unfold fwd2D
  have inner : ∀ dy ∈ range D1D,
      B (Reshape2 Q1D qy dy) *
          ∑ dx ∈ range D1D, B (Reshape2 Q1D qx dx) * x (Reshape4 D1D D1D 2 dx dy c e)
        = B (Reshape2 Q1D qy dy) := by
    intro dy hdy
    rw [Finset.sum_congr rfl (fun dx hdx => by
      rw [hx dx dy (Finset.mem_range.mp hdx) (Finset.mem_range.mp hdy), mul_one]),
      hPU qx hqx, mul_one]
  rw [Finset.sum_congr rfl inner, hPU qy hqy]

/-- With a partition-of-unity basis, the quadrature-point values of a vector that is
`1` on component `c` of element `e` are `1` (3D). -/
theorem fwd3D_ones (D1D Q1D : Nat) (B x : Vec R) {e c qz qy qx : Nat}
    (hx : ∀ dx dy dz, dx < D1D → dy < D1D → dz < D1D →
      x (Reshape5 D1D D1D D1D 3 dx dy dz c e) = 1)
    (hPU : ∀ q, q < Q1D → ∑ d ∈ range D1D, B (Reshape2 Q1D q d) = 1)
    (hqz : qz < Q1D) (hqy : qy < Q1D) (hqx : qx < Q1D) :
    fwd3D D1D Q1D B x e c qz qy qx = 1 := by
  unfold fwd3D
  have inner1 : ∀ dz ∈ range D1D, ∀ dy ∈ range D1D,
      B (Reshape2 Q1D qy dy) *
          ∑ dx ∈ range D1D, B (Reshape2 Q1D qx dx)
            * x (Reshape5 D1D D1D D1D 3 dx dy dz c e)
        = B (Reshape2 Q1D qy dy) := by
    intro dz hdz dy hdy
    rw [Finset.sum_congr rfl (fun dx hdx => by
      rw [hx dx dy dz (Finset.mem_range.mp hdx) (Finset.mem_range.mp hdy)
        (Finset.mem_range.mp hdz), mul_one]),
      hPU qx hqx, mul_one]
  have inner2 : ∀ dz ∈ range D1D,
      B (Reshape2 Q1D qz dz) *
          ∑ dy ∈ range D1D, B (Reshape2 Q1D qy dy) *
            ∑ dx ∈ range D1D, B (Reshape2 Q1D qx dx)
              * x (Reshape5 D1D D1D D1D 3 dx dy dz c e)
        = B (Reshape2 Q1D qz dz) := by
    intro dz hdz
    rw [Finset.sum_congr rfl (inner1 dz hdz), hPU qy hqy, mul_one]
  rw [Finset.sum_congr rfl inner2, hPU qz hqz]

/-- The entries that the 2D kernel adds to component `c` of element `e`, for a vector
that is `1` there and a partition-of-unity basis, sum to the sum of the operator data of
the element. -/
theorem sum_inc2D_ones (D1D Q1D : Nat) (B Bt op x : Vec R) (e c : Nat)
    (hBt : ∀ d q, d < D1D → q < Q1D → Bt (Reshape2 D1D d q) = B (Reshape2 Q1D q d))
    (hx : ∀ dx dy, dx < D1D → dy < D1D → x (Reshape4 D1D D1D 2 dx dy c e) = 1)
    (hPU : ∀ q, q < Q1D → ∑ d ∈ range D1D, B (Reshape2 Q1D q d) = 1) :
    (∑ dy ∈ range D1D, ∑ dx ∈ range D1D, inc2D D1D Q1D B Bt op x e c dx dy)
      = ∑ qy ∈ range Q1D, ∑ qx ∈ range Q1D, op (Reshape3 Q1D Q1D qx qy e) := by
  have h1 : ∀ dy ∈ range D1D, ∀ dx ∈ range D1D,
      inc2D D1D Q1D B Bt op x e c dx dy
        = ∑ qy ∈ range Q1D, ∑ qx ∈ range Q1D,
            B (Reshape2 Q1D qy dy) * (B (Reshape2 Q1D qx dx) * op (Reshape3 Q1D Q1D qx qy e)) := by
    intro dy hdy dx hdx
    unfold inc2D
    refine Finset.sum_congr rfl (fun qy hqy => ?_)
    rw [Finset.mul_sum]
    refine Finset.sum_congr rfl (fun qx hqx => ?_)
    rw [fwd2D_ones D1D Q1D B x hx hPU (Finset.mem_range.mp hqy) (Finset.mem_range.mp hqx),
      hBt dy qy (Finset.mem_range.mp hdy) (Finset.mem_range.mp hqy),
      hBt dx qx (Finset.mem_range.mp hdx) (Finset.mem_range.mp hqx), one_mul]
  rw [Finset.sum_congr rfl (fun dy hdy => Finset.sum_congr rfl (fun dx hdx => h1 dy hdy dx hdx)),
    sum_comm_22]
  refine Finset.sum_congr rfl (fun qy hqy => Finset.sum_congr rfl (fun qx hqx => ?_))
  have h2 : ∀ dy ∈ range D1D,
      (∑ dx ∈ range D1D,
          B (Reshape2 Q1D qy dy) * (B (Reshape2 Q1D qx dx) * op (Reshape3 Q1D Q1D qx qy e)))
        = B (Reshape2 Q1D qy dy) * op (Reshape3 Q1D Q1D qx qy e) := by
    intro dy _
    rw [← Finset.mul_sum, ← Finset.sum_mul, hPU qx (Finset.mem_range.mp hqx), one_mul]
  rw [Finset.sum_congr rfl h2, ← Finset.sum_mul, hPU qy (Finset.mem_range.mp hqy), one_mul]

/-- The entries that the 3D kernel adds to component `c` of element `e`, for a vector
that is `1` there and a partition-of-unity basis, sum to the sum of the operator data of
the element. -/
theorem sum_inc3D_ones (D1D Q1D : Nat) (B Bt op x : Vec R) (e c : Nat)
    (hBt : ∀ d q, d < D1D → q < Q1D → Bt (Reshape2 D1D d q) = B (Reshape2 Q1D q d))
    (hx : ∀ dx dy dz, dx < D1D → dy < D1D → dz < D1D →
      x (Reshape5 D1D D1D D1D 3 dx dy dz c e) = 1)
    (hPU : ∀ q, q < Q1D → ∑ d ∈ range D1D, B (Reshape2 Q1D q d) = 1) :
    (∑ dz ∈ range D1D, ∑ dy ∈ range D1D, ∑ dx ∈ range D1D,
        inc3D D1D Q1D B Bt op x e c dx dy dz)
      = ∑ qz ∈ range Q1D, ∑ qy ∈ range Q1D, ∑ qx ∈ range Q1D,
          op (Reshape4 Q1D Q1D Q1D qx qy qz e) := by
  have h1 : ∀ dz ∈ range D1D, ∀ dy ∈ range D1D, ∀ dx ∈ range D1D,
      inc3D D1D Q1D B Bt op x e c dx dy dz
        = ∑ qz ∈ range Q1D, ∑ qy ∈ range Q1D, ∑ qx ∈ range Q1D,
            B (Reshape2 Q1D qz dz) * (B (Reshape2 Q1D qy dy)
              * (B (Reshape2 Q1D qx dx) * op (Reshape4 Q1D Q1D Q1D qx qy qz e))) := by
    intro dz hdz dy hdy dx hdx
    unfold inc3D
    refine Finset.sum_congr rfl (fun qz hqz => ?_)
    rw [Finset.mul_sum]
    refine Finset.sum_congr rfl (fun qy hqy => ?_)
    rw [Finset.mul_sum, Finset.mul_sum]
    refine Finset.sum_congr rfl (fun qx hqx => ?_)
    rw [fwd3D_ones D1D Q1D B x hx hPU (Finset.mem_range.mp hqz) (Finset.mem_range.mp hqy)
        (Finset.mem_range.mp hqx),
      hBt dz qz (Finset.mem_range.mp hdz) (Finset.mem_range.mp hqz),
      hBt dy qy (Finset.mem_range.mp hdy) (Finset.mem_range.mp hqy),
      hBt dx qx (Finset.mem_range.mp hdx) (Finset.mem_range.mp hqx), one_mul]
  rw [Finset.sum_congr rfl (fun dz hdz => Finset.sum_congr rfl (fun dy hdy =>
    Finset.sum_congr rfl (fun dx hdx => h1 dz hdz dy hdy dx hdx))), sum_comm_33]
  refine Finset.sum_congr rfl (fun qz hqz => Finset.sum_congr rfl (fun qy hqy =>
    Finset.sum_congr rfl (fun qx hqx => ?_)))
  have h2 : ∀ dz ∈ range D1D, ∀ dy ∈ range D1D,
      (∑ dx ∈ range D1D,
          B (Reshape2 Q1D qz dz) * (B (Reshape2 Q1D qy dy)
            * (B (Reshape2 Q1D qx dx) * op (Reshape4 Q1D Q1D Q1D qx qy qz e))))
        = B (Reshape2 Q1D qz dz)
            * (B (Reshape2 Q1D qy dy) * op (Reshape4 Q1D Q1D Q1D qx qy qz e)) := by
    intro dz _ dy _
    rw [← Finset.mul_sum, ← Finset.mul_sum, ← Finset.sum_mul,
      hPU qx (Finset.mem_range.mp hqx), one_mul]
  have h3 : ∀ dz ∈ range D1D,
      (∑ dy ∈ range D1D, ∑ dx ∈ range D1D,
          B (Reshape2 Q1D qz dz) * (B (Reshape2 Q1D qy dy)
            * (B (Reshape2 Q1D qx dx) * op (Reshape4 Q1D Q1D Q1D qx qy qz e))))
        = B (Reshape2 Q1D qz dz) * op (Reshape4 Q1D Q1D Q1D qx qy qz e) := by
    intro dz hdz
    rw [Finset.sum_congr rfl (h2 dz hdz), ← Finset.mul_sum, ← Finset.sum_mul,
      hPU qy (Finset.mem_range.mp hqy), one_mul]
  rw [Finset.sum_congr rfl h3, ← Finset.sum_mul, hPU qz (Finset.mem_range.mp hqz), one_mul]

end ConservationLemmas

theorem samplePUt_transpose :
    ∀ d q, d < tsize 0 2 → q < tsize 0 2 →
      samplePUt (Reshape2 (tsize 0 2) d q) = samplePU (Reshape2 (tsize 0 2) q d) := by
  intro d q hd hq
  rw [tsize_zero] at hd hq
  interval_cases d <;> interval_cases q <;> rfl

theorem samplePU_rows :
    ∀ q, q < tsize 0 2 → ∑ d ∈ range (tsize 0 2), samplePU (Reshape2 (tsize 0 2) q d) = 1 := by
  intro q hq
  rw [tsize_zero] at hq
  interval_cases q <;> decide

section Claims12

/-- C32. Mass conservation under a partition-of-unity basis: within the device limits,
if the entries `B(q,d)` sum to `1` over `d` for every `q` and `Bt(d,q) = B(q,d)`, then
for a vector `x` that is `1` at every dof of component `c` of element `e`, the kernel
`PAVectorMassApply2D` (resp. `3D`) on a zeroed `y` succeeds and the entries of its
result in that component and element sum to the sum of `pa_data` over the quadrature
points of `e`. -/
theorem C32_mass_conservation {R : Type} [CommRing R] (T_D1D T_Q1D : Nat)
    (lim : DofQuadLimits) (u : Uninit R) (NE : Nat) (B Bt op x2 x3 : Vec R) (d1d q1d : Nat)
    (e c2 c3 : Nat)
    (hD : tsize T_D1D d1d ≤ lim.MAX_D1D) (hQ : tsize T_Q1D q1d ≤ lim.MAX_Q1D)
    (hBt : ∀ d q, d < tsize T_D1D d1d → q < tsize T_Q1D q1d →
      Bt (Reshape2 (tsize T_D1D d1d) d q) = B (Reshape2 (tsize T_Q1D q1d) q d))
    (hPU : ∀ q, q < tsize T_Q1D q1d →
      ∑ d ∈ range (tsize T_D1D d1d), B (Reshape2 (tsize T_Q1D q1d) q d) = 1)
    (he : e < NE) (hc2 : c2 < 2) (hc3 : c3 < 3)
    (hx2 : ∀ dx dy, dx < tsize T_D1D d1d → dy < tsize T_D1D d1d →
      x2 (Reshape4 (tsize T_D1D d1d) (tsize T_D1D d1d) 2 dx dy c2 e) = 1)
    (hx3 : ∀ dx dy dz, dx < tsize T_D1D d1d → dy < tsize T_D1D d1d → dz < tsize T_D1D d1d →
      x3 (Reshape5 (tsize T_D1D d1d) (tsize T_D1D d1d) (tsize T_D1D d1d) 3 dx dy dz c3 e)
        = 1) :
    (∃ y', PAVectorMassApply2D T_D1D T_Q1D lim u NE B Bt op x2 zeroVec d1d q1d
        = Except.ok y' ∧
      (∑ dy ∈ range (tsize T_D1D d1d), ∑ dx ∈ range (tsize T_D1D d1d),
          y' (Reshape4 (tsize T_D1D d1d) (tsize T_D1D d1d) 2 dx dy c2 e))
        = ∑ qy ∈ range (tsize T_Q1D q1d), ∑ qx ∈ range (tsize T_Q1D q1d),
            op (Reshape3 (tsize T_Q1D q1d) (tsize T_Q1D q1d) qx qy e)) ∧
    (∃ y', PAVectorMassApply3D T_D1D T_Q1D lim u NE B Bt op x3 zeroVec d1d q1d
        = Except.ok y' ∧
      (∑ dz ∈ range (tsize T_D1D d1d), ∑ dy ∈ range (tsize T_D1D d1d),
          ∑ dx ∈ range (tsize T_D1D d1d),
          y' (Reshape5 (tsize T_D1D d1d) (tsize T_D1D d1d) (tsize T_D1D d1d) 3
            dx dy dz c3 e))
        = ∑ qz ∈ range (tsize T_Q1D q1d), ∑ qy ∈ range (tsize T_Q1D q1d),
            ∑ qx ∈ range (tsize T_Q1D q1d),
            op (Reshape4 (tsize T_Q1D q1d) (tsize T_Q1D q1d) (tsize T_Q1D q1d) qx qy qz e)) := by
  refine ⟨⟨_, PAVectorMassApply2D_ok T_D1D T_Q1D lim u NE B Bt op x2 zeroVec d1d q1d hD hQ,
      ?_⟩,
    ⟨_, PAVectorMassApply3D_ok T_D1D T_Q1D lim u NE B Bt op x3 zeroVec d1d q1d hD hQ, ?_⟩⟩
  · rw [← sum_inc2D_ones _ _ B Bt op x2 e c2 hBt hx2 hPU]
    refine Finset.sum_congr rfl (fun dy hdy => Finset.sum_congr rfl (fun dx hdx => ?_))
    simp only [zeroVec, zero_add]
    exact applyInc2D_at _ _ NE B Bt op x2 he hc2 (Finset.mem_range.mp hdx)
      (Finset.mem_range.mp hdy)
  · rw [← sum_inc3D_ones _ _ B Bt op x3 e c3 hBt hx3 hPU]
    refine Finset.sum_congr rfl (fun dz hdz => Finset.sum_congr rfl (fun dy hdy =>
      Finset.sum_congr rfl (fun dx hdx => ?_)))
    simp only [zeroVec, zero_add]
    exact applyInc3D_at _ _ NE B Bt op x3 he hc3 (Finset.mem_range.mp hdx)
      (Finset.mem_range.mp hdy) (Finset.mem_range.mp hdz)

/-- C32 at the sample data: three elements, `D1D = Q1D = 2`, the basis `samplePU`, the
vector of ones, element `1`, component `1` in 2D and `2` in 3D. -/
theorem C32_mass_conservation_witness :
    (∃ y', PAVectorMassApply2D 0 0 sampleLimits sampleUninit 3 samplePU samplePUt sampleOp
        sampleOnes zeroVec 2 2 = Except.ok y' ∧
      (∑ dy ∈ range (tsize 0 2), ∑ dx ∈ range (tsize 0 2),
          y' (Reshape4 (tsize 0 2) (tsize 0 2) 2 dx dy 1 1))
        = ∑ qy ∈ range (tsize 0 2), ∑ qx ∈ range (tsize 0 2),
            sampleOp (Reshape3 (tsize 0 2) (tsize 0 2) qx qy 1)) ∧
    (∃ y', PAVectorMassApply3D 0 0 sampleLimits sampleUninit 3 samplePU samplePUt sampleOp
        sampleOnes zeroVec 2 2 = Except.ok y' ∧
      (∑ dz ∈ range (tsize 0 2), ∑ dy ∈ range (tsize 0 2), ∑ dx ∈ range (tsize 0 2),
          y' (Reshape5 (tsize 0 2) (tsize 0 2) (tsize 0 2) 3 dx dy dz 2 1))
        = ∑ qz ∈ range (tsize 0 2), ∑ qy ∈ range (tsize 0 2), ∑ qx ∈ range (tsize 0 2),
            sampleOp (Reshape4 (tsize 0 2) (tsize 0 2) (tsize 0 2) qx qy qz 1)) :=
  C32_mass_conservation 0 0 sampleLimits sampleUninit 3 samplePU samplePUt sampleOp
    sampleOnes sampleOnes 2 2 1 1 2 (by decide) (by decide) samplePUt_transpose
    samplePU_rows (by decide) (by decide) (by decide) (fun _ _ _ _ => rfl)
    (fun _ _ _ _ _ _ => rfl)

end Claims12

/-! ## The number of components -/

section LayoutLemmas

variable {R : Type} [CommRing R]

theorem Reshape3_lt {N1 N2 N3 a b c : Nat} (ha : a < N1) (hb : b < N2) (hc : c < N3) :
    Reshape3 N1 N2 a b c < N1 * (N2 * N3) :=
  Reshape2_lt ha (Reshape2_lt hb hc)

theorem Reshape4_lt {N1 N2 N3 N4 a b c d : Nat} (ha : a < N1) (hb : b < N2) (hc : c < N3)
    (hd : d < N4) : Reshape4 N1 N2 N3 a b c d < N1 * (N2 * (N3 * N4)) :=
  Reshape2_lt ha (Reshape2_lt hb (Reshape2_lt hc hd))

theorem Reshape5_lt {N1 N2 N3 N4 N5 a b c d e : Nat} (ha : a < N1) (hb : b < N2)
    (hc : c < N3) (hd : d < N4) (he : e < N5) :
    Reshape5 N1 N2 N3 N4 a b c d e < N1 * (N2 * (N3 * (N4 * N5))) :=
  Reshape2_lt ha (Reshape2_lt hb (Reshape2_lt hc (Reshape2_lt hd he)))

/-- With `Bt` the transpose of `B`, the 2D kernel computes `y + A*x` component by
component for the layout with two components per element. -/
theorem apply2D_eq_layout (D1D Q1D NE : Nat) (B Bt op x y : Vec R)
    (hBt : ∀ d q, d < D1D → q < Q1D → Bt (Reshape2 D1D d q) = B (Reshape2 Q1D q d))
    (p : Nat) :
    y p + applyInc2D D1D Q1D NE B Bt op x p = layoutApply2D 2 D1D Q1D NE B op x y p := by
  unfold layoutApply2D applyInc2D elemInc2D
  congr 1
  refine Finset.sum_congr rfl (fun e _ => Finset.sum_congr rfl (fun c _ =>
    Finset.sum_congr rfl (fun dy hdy => Finset.sum_congr rfl (fun dx hdx => ?_))))
  rw [inc2D_eq_massAction2D D1D Q1D B Bt op x hBt e c (Finset.mem_range.mp hdx)
    (Finset.mem_range.mp hdy)]
  rfl

/-- With `Bt` the transpose of `B`, the 3D kernel computes `y + A*x` component by
component for the layout with three components per element. -/
theorem apply3D_eq_layout (D1D Q1D NE : Nat) (B Bt op x y : Vec R)
    (hBt : ∀ d q, d < D1D → q < Q1D → Bt (Reshape2 D1D d q) = B (Reshape2 Q1D q d))
    (p : Nat) :
    y p + applyInc3D D1D Q1D NE B Bt op x p = layoutApply3D 3 D1D Q1D NE B op x y p := by
  unfold layoutApply3D applyInc3D elemInc3D
  congr 1
  refine Finset.sum_congr rfl (fun e _ => Finset.sum_congr rfl (fun c _ =>
    Finset.sum_congr rfl (fun dz hdz => Finset.sum_congr rfl (fun dy hdy =>
      Finset.sum_congr rfl (fun dx hdx => ?_)))))
  rw [inc3D_eq_massAction3D D1D Q1D B Bt op x hBt e c (Finset.mem_range.mp hdx)
    (Finset.mem_range.mp hdy) (Finset.mem_range.mp hdz)]
  rfl

/-- The value that the 2D kernel adds depends on `x` only through its components 0
and 1 of the elements below `NE`. -/
theorem applyInc2D_reads (D1D Q1D NE : Nat) (B Bt op x x' : Vec R)
    (hx : ∀ e c dx dy, e < NE → c < 2 → dx < D1D → dy < D1D →
      x' (Reshape4 D1D D1D 2 dx dy c e) = x (Reshape4 D1D D1D 2 dx dy c e)) (p : Nat) :
    applyInc2D D1D Q1D NE B Bt op x' p = applyInc2D D1D Q1D NE B Bt op x p := by
  rcases applyInc2D_cases D1D Q1D NE B Bt p with ⟨e, c, dx, dy, he, hc, hdx, hdy, rfl⟩ | h0
  · rw [applyInc2D_at _ _ NE B Bt op x' he hc hdx hdy,
      applyInc2D_at _ _ NE B Bt op x he hc hdx hdy]
    exact inc2D_congr D1D Q1D B Bt (fun _ _ _ _ => rfl)
      (fun dx' dy' hdx' hdy' => hx e c dx' dy' he hc hdx' hdy') dx dy
  · rw [h0, h0]

/-- The value that the 3D kernel adds depends on `x` only through its components 0, 1
and 2 of the elements below `NE`. -/
theorem applyInc3D_reads (D1D Q1D NE : Nat) (B Bt op x x' : Vec R)
    (hx : ∀ e c dx dy dz, e < NE → c < 3 → dx < D1D → dy < D1D → dz < D1D →
      x' (Reshape5 D1D D1D D1D 3 dx dy dz c e) = x (Reshape5 D1D D1D D1D 3 dx dy dz c e))
    (p : Nat) :
    applyInc3D D1D Q1D NE B Bt op x' p = applyInc3D D1D Q1D NE B Bt op x p := by
  rcases applyInc3D_cases D1D Q1D NE B Bt p with
    ⟨e, c, dx, dy, dz, he, hc, hdx, hdy, hdz, rfl⟩ | h0
  · rw [applyInc3D_at _ _ NE B Bt op x' he hc hdx hdy hdz,
      applyInc3D_at _ _ NE B Bt op x he hc hdx hdy hdz]
    exact inc3D_congr D1D Q1D B Bt (fun _ _ _ _ _ _ => rfl)
      (fun dx' dy' dz' hdx' hdy' hdz' => hx e c dx' dy' dz' he hc hdx' hdy' hdz') dx dy dz
  · rw [h0, h0]

/-- The 2D kernel leaves alone every cell that is not a dof of component 0 or 1 of an
element below `NE`. -/
theorem applyInc2D_frame (D1D Q1D NE : Nat) (B Bt op x : Vec R) (p : Nat)
    (hp : ¬ ∃ e c dx dy, e < NE ∧ c < 2 ∧ dx < D1D ∧ dy < D1D ∧
      p = Reshape4 D1D D1D 2 dx dy c e) :
    applyInc2D D1D Q1D NE B Bt op x p = 0 := by
  rcases applyInc2D_cases D1D Q1D NE B Bt p with h | h0
  · exact absurd h hp
  · exact h0 op x

/-- The 3D kernel leaves alone every cell that is not a dof of component 0, 1 or 2 of
an element below `NE`. -/
theorem applyInc3D_frame (D1D Q1D NE : Nat) (B Bt op x : Vec R) (p : Nat)
    (hp : ¬ ∃ e c dx dy dz, e < NE ∧ c < 3 ∧ dx < D1D ∧ dy < D1D ∧ dz < D1D ∧
      p = Reshape5 D1D D1D D1D 3 dx dy dz c e) :
    applyInc3D D1D Q1D NE B Bt op x p = 0 := by
  rcases applyInc3D_cases D1D Q1D NE B Bt p with h | h0
  · exact absurd h hp
  · exact h0 op x

end LayoutLemmas

theorem sampleX24_agrees :
    ∀ e c dx dy, e < 3 → c < 2 → dx < tsize 0 2 → dy < tsize 0 2 →
      sampleX24 (Reshape4 (tsize 0 2) (tsize 0 2) 2 dx dy c e)
        = sampleX (Reshape4 (tsize 0 2) (tsize 0 2) 2 dx dy c e) := by
  intro e c dx dy he hc hdx hdy
  have h : Reshape4 (tsize 0 2) (tsize 0 2) 2 dx dy c e < 2 * (2 * (2 * 3)) :=
    Reshape4_lt hdx hdy hc he
  unfold sampleX24
  rw [if_pos h]

theorem sampleX72_agrees :
    ∀ e c dx dy dz, e < 3 → c < 3 → dx < tsize 0 2 → dy < tsize 0 2 → dz < tsize 0 2 →
      sampleX72 (Reshape5 (tsize 0 2) (tsize 0 2) (tsize 0 2) 3 dx dy dz c e)
        = sampleX (Reshape5 (tsize 0 2) (tsize 0 2) (tsize 0 2) 3 dx dy dz c e) := by
  intro e c dx dy dz he hc hdx hdy hdz
  have h : Reshape5 (tsize 0 2) (tsize 0 2) (tsize 0 2) 3 dx dy dz c e
      < 2 * (2 * (2 * (3 * 3))) := Reshape5_lt hdx hdy hdz hc he
  unfold sampleX72
  rw [if_pos h]

section Claims13

/-- C35. The number of vector components is fixed to the dimension.  Within the device
limits: `PAVectorMassApply2D` changes only the cells `(dx,dy,c,e)` with `c` in `{0,1}`
of the layout `D1D x D1D x 2 x NE` (element stride `D1D^2 * 2`), its result depends on
`x` only through those cells, and, with `Bt` the transpose of `B`, it is `y + A*x`
component by component for that layout; `PAVectorMassAssembleDiagonal2D` changes only
those cells; likewise in 3D with `c` in `{0,1,2}` and element stride `D1D^3 * 3`.  For
dof tensors laid out with another number of components the kernels do not compute
`y + A*x` component by component: with `D1D = Q1D = 1`, two elements, `B = Bt = 1`,
`x = 1`, `y = 0` and `pa_data = 1, 2`, the 2D kernel leaves `2` at the flat position
`2`, where the layout with three components per element requires `1`, and the 3D
kernel leaves `1` there, where the layout with two components per element requires
`2`. -/
theorem C35_components_fixed {R : Type} [CommRing R] (T_D1D T_Q1D : Nat)
    (lim : DofQuadLimits) (u : Uninit R) (NE : Nat) (B Bt op x x2 x3 y diag : Vec R)
    (d1d q1d : Nat)
    (hD : tsize T_D1D d1d ≤ lim.MAX_D1D) (hQ : tsize T_Q1D q1d ≤ lim.MAX_Q1D)
    (hBt : ∀ d q, d < tsize T_D1D d1d → q < tsize T_Q1D q1d →
      Bt (Reshape2 (tsize T_D1D d1d) d q) = B (Reshape2 (tsize T_Q1D q1d) q d))
    (hx2 : ∀ e c dx dy, e < NE → c < 2 → dx < tsize T_D1D d1d → dy < tsize T_D1D d1d →
      x2 (Reshape4 (tsize T_D1D d1d) (tsize T_D1D d1d) 2 dx dy c e)
        = x (Reshape4 (tsize T_D1D d1d) (tsize T_D1D d1d) 2 dx dy c e))
    (hx3 : ∀ e c dx dy dz, e < NE → c < 3 → dx < tsize T_D1D d1d → dy < tsize T_D1D d1d →
      dz < tsize T_D1D d1d →
      x3 (Reshape5 (tsize T_D1D d1d) (tsize T_D1D d1d) (tsize T_D1D d1d) 3 dx dy dz c e)
        = x (Reshape5 (tsize T_D1D d1d) (tsize T_D1D d1d) (tsize T_D1D d1d) 3 dx dy dz c e)) :
    (∃ y' y'', PAVectorMassApply2D T_D1D T_Q1D lim u NE B Bt op x y d1d q1d = Except.ok y' ∧
      PAVectorMassApply2D T_D1D T_Q1D lim u NE B Bt op x2 y d1d q1d = Except.ok y'' ∧
      (∀ p, (¬ ∃ e c dx dy, e < NE ∧ c < 2 ∧ dx < tsize T_D1D d1d ∧ dy < tsize T_D1D d1d ∧
          p = Reshape4 (tsize T_D1D d1d) (tsize T_D1D d1d) 2 dx dy c e) → y' p = y p) ∧
      (∀ p, y'' p = y' p) ∧
      (∀ p, y' p
        = layoutApply2D 2 (tsize T_D1D d1d) (tsize T_Q1D q1d) NE B op x y p)) ∧
    (∃ d', PAVectorMassAssembleDiagonal2D T_D1D T_Q1D lim u NE B Bt op diag d1d q1d
        = Except.ok d' ∧
      ∀ p, ¬ diagCells2D (tsize T_D1D d1d) NE p → d' p = diag p) ∧
    (∀ dx dy c e, Reshape4 (tsize T_D1D d1d) (tsize T_D1D d1d) 2 dx dy c (e + 1)
      = Reshape4 (tsize T_D1D d1d) (tsize T_D1D d1d) 2 dx dy c e
        + tsize T_D1D d1d ^ 2 * 2) ∧
    (∃ y' y'', PAVectorMassApply3D T_D1D T_Q1D lim u NE B Bt op x y d1d q1d = Except.ok y' ∧
      PAVectorMassApply3D T_D1D T_Q1D lim u NE B Bt op x3 y d1d q1d = Except.ok y'' ∧
      (∀ p, (¬ ∃ e c dx dy dz, e < NE ∧ c < 3 ∧ dx < tsize T_D1D d1d ∧
          dy < tsize T_D1D d1d ∧ dz < tsize T_D1D d1d ∧
          p = Reshape5 (tsize T_D1D d1d) (tsize T_D1D d1d) (tsize T_D1D d1d) 3
            dx dy dz c e) → y' p = y p) ∧
      (∀ p, y'' p = y' p) ∧
      (∀ p, y' p
        = layoutApply3D 3 (tsize T_D1D d1d) (tsize T_Q1D q1d) NE B op x y p)) ∧
    (∃ d', PAVectorMassAssembleDiagonal3D T_D1D T_Q1D lim u NE B Bt op diag d1d q1d
        = Except.ok d' ∧
      ∀ p, ¬ diagCells3D (tsize T_D1D d1d) NE p → d' p = diag p) ∧
    (∀ dx dy dz c e,
      Reshape5 (tsize T_D1D d1d) (tsize T_D1D d1d) (tsize T_D1D d1d) 3 dx dy dz c (e + 1)
      = Reshape5 (tsize T_D1D d1d) (tsize T_D1D d1d) (tsize T_D1D d1d) 3 dx dy dz c e
        + tsize T_D1D d1d ^ 3 * 3) ∧
    (∃ y', PAVectorMassApply2D 0 0 sampleLimits sampleUninit 2 sampleOnes sampleOnes
        sampleOp sampleOnes zeroVec 1 1 = Except.ok y' ∧ y' 2 = 2 ∧
      layoutApply2D 3 1 1 2 sampleOnes sampleOp sampleOnes zeroVec 2 = 1) ∧
    (∃ y', PAVectorMassApply3D 0 0 sampleLimits sampleUninit 2 sampleOnes sampleOnes
        sampleOp sampleOnes zeroVec 1 1 = Except.ok y' ∧ y' 2 = 1 ∧
      layoutApply3D 2 1 1 2 sampleOnes sampleOp sampleOnes zeroVec 2 = 2) := by
  refine ⟨⟨_, _, PAVectorMassApply2D_ok T_D1D T_Q1D lim u NE B Bt op x y d1d q1d hD hQ,
      PAVectorMassApply2D_ok T_D1D T_Q1D lim u NE B Bt op x2 y d1d q1d hD hQ, ?_, ?_, ?_⟩,
    ⟨_, PAVectorMassAssembleDiagonal2D_ok T_D1D T_Q1D lim u NE B Bt op diag d1d q1d hD hQ,
      ?_⟩, ?_,
    ⟨_, _, PAVectorMassApply3D_ok T_D1D T_Q1D lim u NE B Bt op x y d1d q1d hD hQ,
      PAVectorMassApply3D_ok T_D1D T_Q1D lim u NE B Bt op x3 y d1d q1d hD hQ, ?_, ?_, ?_⟩,
    ⟨_, PAVectorMassAssembleDiagonal3D_ok T_D1D T_Q1D lim u NE B Bt op diag d1d q1d hD hQ,
      ?_⟩, ?_, ⟨_, rfl, by decide, by decide⟩, ⟨_, rfl, by decide, by decide⟩⟩
  · intro p hp
    rw [applyInc2D_frame _ _ NE B Bt op x p hp, add_zero]
  · intro p
    rw [applyInc2D_reads _ _ NE B Bt op x x2 hx2 p]
  · intro p
    exact apply2D_eq_layout _ _ NE B Bt op x y hBt p
  · intro p hp
    exact (diag2D_loop_spec _ _ NE B op u diag p).2 hp
  · intro dx dy c e
    unfold Reshape4
    ring
  · intro p hp
    rw [applyInc3D_frame _ _ NE B Bt op x p hp, add_zero]
  · intro p
    rw [applyInc3D_reads _ _ NE B Bt op x x3 hx3 p]
  · intro p
    exact apply3D_eq_layout _ _ NE B Bt op x y hBt p
  · intro p hp
    exact (diag3D_loop_spec _ _ NE B op u diag p).2 hp
  · intro dx dy dz c e
    unfold Reshape5
    ring

/-- C35 at the sample data: three elements, `D1D = Q1D = 2`; the second input vectors
agree with `sampleX` on the dof tensor and differ beyond it. -/
theorem C35_components_fixed_witness :
    (∃ y' y'', PAVectorMassApply2D 0 0 sampleLimits sampleUninit 3 sampleB sampleBt sampleOp
        sampleX sampleY 2 2 = Except.ok y' ∧
      PAVectorMassApply2D 0 0 sampleLimits sampleUninit 3 sampleB sampleBt sampleOp sampleX24
          sampleY 2 2 = Except.ok y'' ∧
      (∀ p, (¬ ∃ e c dx dy, e < 3 ∧ c < 2 ∧ dx < tsize 0 2 ∧ dy < tsize 0 2 ∧
          p = Reshape4 (tsize 0 2) (tsize 0 2) 2 dx dy c e) → y' p = sampleY p) ∧
      (∀ p, y'' p = y' p) ∧
      (∀ p, y' p
        = layoutApply2D 2 (tsize 0 2) (tsize 0 2) 3 sampleB sampleOp sampleX sampleY p)) ∧
    (∃ d', PAVectorMassAssembleDiagonal2D 0 0 sampleLimits sampleUninit 3 sampleB sampleBt
        sampleOp sampleY 2 2
        = Except.ok d' ∧
      ∀ p, ¬ diagCells2D (tsize 0 2) 3 p → d' p = sampleY p) ∧
    (∀ dx dy c e, Reshape4 (tsize 0 2) (tsize 0 2) 2 dx dy c (e + 1)
      = Reshape4 (tsize 0 2) (tsize 0 2) 2 dx dy c e
        + tsize 0 2 ^ 2 * 2) ∧
    (∃ y' y'', PAVectorMassApply3D 0 0 sampleLimits sampleUninit 3 sampleB sampleBt sampleOp
        sampleX sampleY 2 2 = Except.ok y' ∧
      PAVectorMassApply3D 0 0 sampleLimits sampleUninit 3 sampleB sampleBt sampleOp sampleX72
          sampleY 2 2 = Except.ok y'' ∧
      (∀ p, (¬ ∃ e c dx dy dz, e < 3 ∧ c < 3 ∧ dx < tsize 0 2 ∧
          dy < tsize 0 2 ∧ dz < tsize 0 2 ∧
          p = Reshape5 (tsize 0 2) (tsize 0 2) (tsize 0 2) 3
            dx dy dz c e) → y' p = sampleY p) ∧
      (∀ p, y'' p = y' p) ∧
      (∀ p, y' p
        = layoutApply3D 3 (tsize 0 2) (tsize 0 2) 3 sampleB sampleOp sampleX sampleY p)) ∧
    (∃ d', PAVectorMassAssembleDiagonal3D 0 0 sampleLimits sampleUninit 3 sampleB sampleBt
        sampleOp sampleY 2 2
        = Except.ok d' ∧
      ∀ p, ¬ diagCells3D (tsize 0 2) 3 p → d' p = sampleY p) ∧
    (∀ dx dy dz c e,
      Reshape5 (tsize 0 2) (tsize 0 2) (tsize 0 2) 3 dx dy dz c (e + 1)
      = Reshape5 (tsize 0 2) (tsize 0 2) (tsize 0 2) 3 dx dy dz c e
        + tsize 0 2 ^ 3 * 3) ∧
    (∃ y', PAVectorMassApply2D 0 0 sampleLimits sampleUninit 2 sampleOnes sampleOnes
        sampleOp sampleOnes zeroVec 1 1 = Except.ok y' ∧ y' 2 = 2 ∧
      layoutApply2D 3 1 1 2 sampleOnes sampleOp sampleOnes zeroVec 2 = 1) ∧
    (∃ y', PAVectorMassApply3D 0 0 sampleLimits sampleUninit 2 sampleOnes sampleOnes
        sampleOp sampleOnes zeroVec 1 1 = Except.ok y' ∧ y' 2 = 1 ∧
      layoutApply3D 2 1 1 2 sampleOnes sampleOp sampleOnes zeroVec 2 = 2) :=
  C35_components_fixed 0 0 sampleLimits sampleUninit 3 sampleB sampleBt sampleOp sampleX
    sampleX24 sampleX72 sampleY sampleY 2 2 (by decide) (by decide) sampleBt_transpose
    sampleX24_agrees sampleX72_agrees

end Claims13

/-! ## The mortar integrators -/

section MortarLemmas

variable {R : Type} [CommRing R]

/-- The row (or column) `N * k0 + i` with `i < N` lies in the block `k` exactly when
`k = k0`. -/
theorem block_iff {N k k0 i : Nat} (hi : i < N) :
    (N * k ≤ N * k0 + i ∧ N * k0 + i < N * k + N) ↔ k = k0 := by
  constructor
  · rintro ⟨h1, h2⟩
    have hN : 0 < N := Nat.lt_of_le_of_lt (Nat.zero_le i) hi
    have a1 : N * k < N * (k0 + 1) := by
      rw [Nat.mul_succ]
      exact Nat.lt_of_le_of_lt h1 (Nat.add_lt_add_left hi _)
    have a2 : N * k0 < N * (k + 1) := by
      rw [Nat.mul_succ]
      exact Nat.lt_of_le_of_lt (Nat.le_add_right _ _) h2
    have b1 : k < k0 + 1 := Nat.lt_of_mul_lt_mul_left a1
    have b2 : k0 < k + 1 := Nat.lt_of_mul_lt_mul_left a2
    omega
  · rintro rfl
    exact ⟨Nat.le_add_right _ _, Nat.add_lt_add_left hi _⟩

/-- The loop over the diagonal blocks adds the matrix `P` into every diagonal block. -/
theorem mortar_blocks_data (n te tr : Nat) (P M : DenseMatrix R) (r c : Nat) :
    (forLoop n (fun k elmat => elmat.AddMatrix P (te * k) (tr * k)) M).data r c
      = M.data r c + ∑ k ∈ range n,
          if te * k ≤ r ∧ r < te * k + P.Height ∧ tr * k ≤ c ∧ c < tr * k + P.Width
          then P.data (r - te * k) (c - tr * k) else 0 := by
  refine forLoop_additive (fun (M : DenseMatrix R) (rc : Nat × Nat) => M.data rc.1 rc.2)
    (fun k rc => if te * k ≤ rc.1 ∧ rc.1 < te * k + P.Height ∧ tr * k ≤ rc.2
        ∧ rc.2 < tr * k + P.Width
      then P.data (rc.1 - te * k) (rc.2 - tr * k) else 0) ?_ M (r, c)
  intro k _ s p
  unfold DenseMatrix.AddMatrix
  by_cases h : te * k ≤ p.1 ∧ p.1 < te * k + P.Height ∧ tr * k ≤ p.2 ∧ p.2 < tr * k + P.Width
  · simp only [h, and_self, if_true]
  · simp only [h, if_false, add_zero]

/-- The loop over the diagonal blocks keeps the sizes. -/
theorem mortar_blocks_size (n te tr : Nat) (P M : DenseMatrix R) :
    (forLoop n (fun k elmat => elmat.AddMatrix P (te * k) (tr * k)) M).Height = M.Height ∧
    (forLoop n (fun k elmat => elmat.AddMatrix P (te * k) (tr * k)) M).Width = M.Width := by
  induction n with
  | zero => exact ⟨rfl, rfl⟩
  | succ n ih => exact ⟨ih.1, ih.2⟩

/-- The sum over the blocks of the contributions to the entry `(te*k0 + i, tr*l0 + j)`:
only the block `k = k0 = l0` contributes. -/
theorem mortar_block_sum (K te tr : Nat) (f : Nat → Nat → R) {k0 l0 i j : Nat}
    (hk0 : k0 < K) (hi : i < te) (hj : j < tr) :
    (∑ k ∈ range K,
        if te * k ≤ te * k0 + i ∧ te * k0 + i < te * k + te ∧ tr * k ≤ tr * l0 + j
            ∧ tr * l0 + j < tr * k + tr
        then f (te * k0 + i - te * k) (tr * l0 + j - tr * k) else 0)
      = if k0 = l0 then f i j else 0 := by
  have h : ∀ k ∈ range K,
      (if te * k ≤ te * k0 + i ∧ te * k0 + i < te * k + te ∧ tr * k ≤ tr * l0 + j
            ∧ tr * l0 + j < tr * k + tr
        then f (te * k0 + i - te * k) (tr * l0 + j - tr * k) else 0)
      = if k = k0 then (if k0 = l0 then f i j else 0) else 0 := by
    intro k _
    by_cases hk : k = k0
    · subst hk
      by_cases hl : k = l0
      · subst hl
        have c1 := (block_iff (k := k) hi).mpr rfl
        have c2 := (block_iff (k := k) hj).mpr rfl
        rw [if_pos ⟨c1.1, c1.2, c2.1, c2.2⟩, if_pos rfl, if_pos rfl, Nat.add_sub_cancel_left,
          Nat.add_sub_cancel_left]
      · have hc : ¬ (te * k ≤ te * k + i ∧ te * k + i < te * k + te ∧ tr * k ≤ tr * l0 + j
            ∧ tr * l0 + j < tr * k + tr) :=
          fun hh => hl ((block_iff hj).mp ⟨hh.2.2.1, hh.2.2.2⟩)
        rw [if_neg hc, if_pos rfl, if_neg hl]
    · have hc : ¬ (te * k ≤ te * k0 + i ∧ te * k0 + i < te * k + te ∧ tr * k ≤ tr * l0 + j
          ∧ tr * l0 + j < tr * k + tr) :=
        fun hh => hk ((block_iff hi).mp ⟨hh.1, hh.2.1⟩)
      rw [if_neg hc, if_neg hk]
  rw [Finset.sum_congr rfl h, Finset.sum_ite_eq' (range K) k0, if_pos (Finset.mem_range.mpr hk0)]

/-- The entries of the matrix built by `L2MortarIntegrator::AssembleElementMatrix`. -/
theorem L2Mortar_data (env : MortarSetup R) {i j : Nat} (hi : i < env.te_nd)
    (hj : j < env.tr_nd) :
    (L2MortarIntegrator.AssembleElementMatrix env).data i j
      = ∑ s ∈ range env.GetNPoints,
          env.weight s * env.Weight s * env.test_shape s i * env.trial_shape s j := by
  unfold L2MortarIntegrator.AssembleElementMatrix
  have key : ∀ M : DenseMatrix R,
      (forLoop env.GetNPoints (fun i elmat => AddMultVWt env.te_nd env.tr_nd
          (fun a => env.test_shape i a * (env.Weight i * env.weight i)) (env.trial_shape i)
          elmat) M).data i j
        = M.data i j + ∑ s ∈ range env.GetNPoints,
            if i < env.te_nd ∧ j < env.tr_nd
            then env.test_shape s i * (env.Weight s * env.weight s) * env.trial_shape s j
            else 0 :=
    fun M => forLoop_additive (fun (M : DenseMatrix R) (rc : Nat × Nat) => M.data rc.1 rc.2)
      (fun s rc => if rc.1 < env.te_nd ∧ rc.2 < env.tr_nd
        then env.test_shape s rc.1 * (env.Weight s * env.weight s) * env.trial_shape s rc.2
        else 0)
      (fun s _ M p => by
        unfold AddMultVWt
        by_cases h : p.1 < env.te_nd ∧ p.2 < env.tr_nd
        · simp only [h, and_self, if_true]
        · simp only [h, if_false, add_zero]) M (i, j)
  rw [key]
  simp only [hi, hj, and_self, if_true, zero_add]
  refine Finset.sum_congr rfl (fun s _ => ?_)
  ring

/-- The loops of the branch without vector or matrix coefficient, for the factors
`nrm s`: every integration point adds its scaled outer product into every diagonal
block. -/
theorem mortar_scalar_loop (env : MortarSetup R) (K : Nat) (nrm : Nat → R)
    (M : DenseMatrix R) (r c : Nat) :
    (forLoop env.GetNPoints (fun s elmat =>
        forLoop K (fun k elmat =>
          elmat.AddMatrix
            ((MultVWt env.te_nd env.tr_nd (env.test_shape s) (env.trial_shape s)).scale
              (nrm s))
            (env.te_nd * k) (env.tr_nd * k)) elmat) M).data r c
      = M.data r c + ∑ s ∈ range env.GetNPoints, ∑ k ∈ range K,
          if env.te_nd * k ≤ r ∧ r < env.te_nd * k + env.te_nd ∧ env.tr_nd * k ≤ c
              ∧ c < env.tr_nd * k + env.tr_nd
          then env.test_shape s (r - env.te_nd * k) * env.trial_shape s (c - env.tr_nd * k)
            * nrm s
          else 0 :=
  forLoop_additive (fun (M : DenseMatrix R) (rc : Nat × Nat) => M.data rc.1 rc.2)
    (fun s rc => ∑ k ∈ range K,
      if env.te_nd * k ≤ rc.1 ∧ rc.1 < env.te_nd * k + env.te_nd ∧ env.tr_nd * k ≤ rc.2
          ∧ rc.2 < env.tr_nd * k + env.tr_nd
      then env.test_shape s (rc.1 - env.te_nd * k)
        * env.trial_shape s (rc.2 - env.tr_nd * k) * nrm s
      else 0)
    (fun s _ M p => by
      simp only [mortar_blocks_data]
      rfl) M (r, c)

/-- The entries of the matrix built by
`LagrangeVectorL2MortarIntegrator::AssembleElementMatrix` without vector or matrix
coefficient, as the sums the loops accumulate. -/
theorem Lagrange_scalar_data (self : LagrangeVectorL2MortarIntegrator R)
    (env : MortarSetup R) (hVQ : self.VQ = none) (hMQ : self.MQ = none) (r c : Nat) :
    (self.AssembleElementMatrix env).2.data r c
      = ∑ s ∈ range env.GetNPoints,
          ∑ k ∈ range (if self.vdim = -1 then (env.GetSpaceDim : Int) else self.vdim).toNat,
            if env.te_nd * k ≤ r ∧ r < env.te_nd * k + env.te_nd ∧ env.tr_nd * k ≤ c
                ∧ c < env.tr_nd * k + env.tr_nd
            then env.test_shape s (r - env.te_nd * k) * env.trial_shape s (c - env.tr_nd * k)
              * (env.weight s * env.Weight s * coeffAt self.Q s)
            else 0 := by
  obtain ⟨vdim, Q, VQ, MQ⟩ := self
  simp only at hVQ hMQ
  subst hVQ hMQ
  unfold LagrangeVectorL2MortarIntegrator.AssembleElementMatrix
  cases Q with
  | none =>
    simp only
    rw [mortar_scalar_loop env _ (fun s => env.weight s * env.Weight s), zero_add]
    simp only [coeffAt, mul_one]
  | some Q =>
    simp only
    rw [mortar_scalar_loop env _ (fun s => env.weight s * env.Weight s * Q s), zero_add]
    simp only [coeffAt]

/-- The sizes of the matrix built by
`LagrangeVectorL2MortarIntegrator::AssembleElementMatrix` without vector or matrix
coefficient. -/
theorem Lagrange_scalar_size (self : LagrangeVectorL2MortarIntegrator R)
    (env : MortarSetup R) (hVQ : self.VQ = none) (hMQ : self.MQ = none) :
    (self.AssembleElementMatrix env).2.Height
        = env.te_nd * (if self.vdim = -1 then (env.GetSpaceDim : Int) else self.vdim).toNat ∧
    (self.AssembleElementMatrix env).2.Width
        = env.tr_nd * (if self.vdim = -1 then (env.GetSpaceDim : Int) else self.vdim).toNat := by
  obtain ⟨vdim, Q, VQ, MQ⟩ := self
  simp only at hVQ hMQ
  subst hVQ hMQ
  unfold LagrangeVectorL2MortarIntegrator.AssembleElementMatrix
  simp only
  generalize (if vdim = -1 then (env.GetSpaceDim : Int) else vdim).toNat = K
  generalize env.GetNPoints = n
  induction n with
  | zero => exact ⟨rfl, rfl⟩
  | succ n ih =>
    rw [forLoop_succ]
    exact ⟨(mortar_blocks_size K env.te_nd env.tr_nd _ _).1.trans ih.1,
      (mortar_blocks_size K env.te_nd env.tr_nd _ _).2.trans ih.2⟩

/-- The entry `(i,j)` of the block `(k,l)` of the matrix built by
`LagrangeVectorL2MortarIntegrator::AssembleElementMatrix` without vector or matrix
coefficient. -/
theorem Lagrange_block_entry (self : LagrangeVectorL2MortarIntegrator R)
    (env : MortarSetup R) (hVQ : self.VQ = none) (hMQ : self.MQ = none) (k l i j : Nat)
    (hk : k < (if self.vdim = -1 then (env.GetSpaceDim : Int) else self.vdim).toNat)
    (hi : i < env.te_nd) (hj : j < env.tr_nd) :
    (self.AssembleElementMatrix env).2.data (env.te_nd * k + i) (env.tr_nd * l + j)
      = if k = l then
          ∑ s ∈ range env.GetNPoints,
            env.weight s * env.Weight s * coeffAt self.Q s * env.test_shape s i
              * env.trial_shape s j
        else 0 := by
  rw [Lagrange_scalar_data self env hVQ hMQ]
  rw [Finset.sum_congr rfl (fun s _ => mortar_block_sum _ env.te_nd env.tr_nd
    (fun a b => env.test_shape s a * env.trial_shape s b
      * (env.weight s * env.Weight s * coeffAt self.Q s)) hk hi hj)]
  by_cases hkl : k = l
  · simp only [hkl, if_true]
    refine Finset.sum_congr rfl (fun s _ => ?_)
    ring
  · simp only [hkl, if_false, Finset.sum_const_zero]

end MortarLemmas

section Claims14

/-- C36. `LagrangeVectorL2MortarIntegrator::AssembleElementMatrix` without vector or
matrix coefficient produces a `(te_nd*vdim) x (tr_nd*vdim)` block-diagonal matrix,
where `vdim` is the member `vdim`, or the space dimension when it is not set: the entry
`(i,j)` of each diagonal block `(k,k)` is the sum over the integration points `s` of
`weight_s * Weight(test_Trans)_s * Q_s * test_shape_s(i) * trial_shape_s(j)` (`Q_s = 1`
when `Q` is absent), every entry of an off-diagonal block is zero, and with `Q` absent
each diagonal block is the matrix built by `L2MortarIntegrator::AssembleElementMatrix`. -/
theorem C36_lagrange_mortar_blocks {R : Type} [CommRing R]
    (self : LagrangeVectorL2MortarIntegrator R) (env : MortarSetup R)
    (hVQ : self.VQ = none) (hMQ : self.MQ = none) :
    (self.AssembleElementMatrix env).1.vdim
        = (if self.vdim = -1 then (env.GetSpaceDim : Int) else self.vdim) ∧
    (self.AssembleElementMatrix env).2.Height
        = env.te_nd * (if self.vdim = -1 then (env.GetSpaceDim : Int) else self.vdim).toNat ∧
    (self.AssembleElementMatrix env).2.Width
        = env.tr_nd * (if self.vdim = -1 then (env.GetSpaceDim : Int) else self.vdim).toNat ∧
    (∀ k l i j,
      k < (if self.vdim = -1 then (env.GetSpaceDim : Int) else self.vdim).toNat →
      l < (if self.vdim = -1 then (env.GetSpaceDim : Int) else self.vdim).toNat →
      i < env.te_nd → j < env.tr_nd →
      (self.AssembleElementMatrix env).2.data (env.te_nd * k + i) (env.tr_nd * l + j)
        = if k = l then
            ∑ s ∈ range env.GetNPoints,
              env.weight s * env.Weight s * coeffAt self.Q s * env.test_shape s i
                * env.trial_shape s j
          else 0) ∧
    (∀ k i j,
      k < (if self.vdim = -1 then (env.GetSpaceDim : Int) else self.vdim).toNat →
      i < env.te_nd → j < env.tr_nd →
      (LagrangeVectorL2MortarIntegrator.AssembleElementMatrix
          { vdim := self.vdim, Q := none, VQ := self.VQ, MQ := self.MQ } env).2.data
          (env.te_nd * k + i) (env.tr_nd * k + j)
        = (L2MortarIntegrator.AssembleElementMatrix env).data i j) := by
  refine ⟨rfl, (Lagrange_scalar_size self env hVQ hMQ).1,
    (Lagrange_scalar_size self env hVQ hMQ).2,
    fun k l i j hk _ hi hj => Lagrange_block_entry self env hVQ hMQ k l i j hk hi hj, ?_⟩
  intro k i j hk hi hj
  rw [Lagrange_block_entry { vdim := self.vdim, Q := none, VQ := self.VQ, MQ := self.MQ } env
      hVQ hMQ k k i j hk hi hj, if_pos rfl, L2Mortar_data env hi hj]
  refine Finset.sum_congr rfl (fun s _ => ?_)
  simp only [coeffAt, mul_one]

/-- C36 at the sample data: `vdim` not set, space dimension 2, three test and two trial
dofs, two integration points, a scalar coefficient. -/
theorem C36_lagrange_mortar_blocks_witness :
    (sampleLagrange.AssembleElementMatrix sampleMortar).1.vdim
        = (if sampleLagrange.vdim = -1 then (sampleMortar.GetSpaceDim : Int)
            else sampleLagrange.vdim) ∧
    (sampleLagrange.AssembleElementMatrix sampleMortar).2.Height
        = sampleMortar.te_nd * (if sampleLagrange.vdim = -1
            then (sampleMortar.GetSpaceDim : Int) else sampleLagrange.vdim).toNat ∧
    (sampleLagrange.AssembleElementMatrix sampleMortar).2.Width
        = sampleMortar.tr_nd * (if sampleLagrange.vdim = -1
            then (sampleMortar.GetSpaceDim : Int) else sampleLagrange.vdim).toNat ∧
    (∀ k l i j,
      k < (if sampleLagrange.vdim = -1 then (sampleMortar.GetSpaceDim : Int)
            else sampleLagrange.vdim).toNat →
      l < (if sampleLagrange.vdim = -1 then (sampleMortar.GetSpaceDim : Int)
            else sampleLagrange.vdim).toNat →
      i < sampleMortar.te_nd → j < sampleMortar.tr_nd →
      (sampleLagrange.AssembleElementMatrix sampleMortar).2.data
          (sampleMortar.te_nd * k + i) (sampleMortar.tr_nd * l + j)
        = if k = l then
            ∑ s ∈ range sampleMortar.GetNPoints,
              sampleMortar.weight s * sampleMortar.Weight s * coeffAt sampleLagrange.Q s
                * sampleMortar.test_shape s i * sampleMortar.trial_shape s j
          else 0) ∧
    (∀ k i j,
      k < (if sampleLagrange.vdim = -1 then (sampleMortar.GetSpaceDim : Int)
            else sampleLagrange.vdim).toNat →
      i < sampleMortar.te_nd → j < sampleMortar.tr_nd →
      (LagrangeVectorL2MortarIntegrator.AssembleElementMatrix
          { vdim := sampleLagrange.vdim, Q := none, VQ := sampleLagrange.VQ,
            MQ := sampleLagrange.MQ } sampleMortar).2.data
          (sampleMortar.te_nd * k + i) (sampleMortar.tr_nd * k + j)
        = (L2MortarIntegrator.AssembleElementMatrix sampleMortar).data i j) :=
  C36_lagrange_mortar_blocks sampleLagrange sampleMortar rfl rfl

end Claims14

/-! ## Index safety of the kernels -/

section SafeLemmas

theorem Safe.bind {α β : Type} {o : Option α} {f : α → Option β} {P : α → Prop}
    {Q : β → Prop} (h : Safe o P) (hf : ∀ a, P a → Safe (f a) Q) : Safe (o >>= f) Q := by
  obtain ⟨a, ha, hP⟩ := h
  obtain ⟨b, hb, hQ⟩ := hf a hP
  exact ⟨b, by rw [ha]; exact hb, hQ⟩

theorem Safe.pure {α : Type} {P : α → Prop} (a : α) (h : P a) :
    Safe (Pure.pure a : Option α) P :=
  ⟨a, rfl, h⟩

theorem Safe.mono {α : Type} {o : Option α} {P Q : α → Prop} (h : Safe o P)
    (hPQ : ∀ a, P a → Q a) : Safe o Q := by
  obtain ⟨a, ha, hP⟩ := h
  exact ⟨a, ha, hPQ a hP⟩

theorem Safe.unit {o : Option Unit} (h : Safe o (fun _ => True)) : o = some () := by
  obtain ⟨a, ha, _⟩ := h
  exact ha

theorem Grows.refl {ι : Type} (t : ι → Bool) : Grows t t := fun _ h => h

theorem Grows.trans {ι : Type} {t1 t2 t3 : ι → Bool} (h12 : Grows t1 t2) (h23 : Grows t2 t3) :
    Grows t1 t3 := fun p h => h23 p (h12 p h)

theorem grows_store {ι : Type} [DecidableEq ι] (t : ι → Bool) (i : ι) :
    Grows t (store t i true) := by
  intro p hp
  unfold store
  by_cases h : p = i
  · rw [if_pos h]
  · rw [if_neg h]; exact hp

theorem safe_access {n i : Nat} (h : i < n) : Safe (access n i) (fun _ => True) :=
  ⟨(), by unfold access; rw [if_pos h], trivial⟩

theorem safe_tmpWrite1 {m i : Nat} (t : Nat → Bool) (h : i < m) :
    Safe (tmpWrite1 m t i) (fun t' => Grows t t' ∧ t' i = true) :=
  ⟨store t i true, by unfold tmpWrite1; rw [if_pos h], grows_store t i, by simp [store]⟩

theorem safe_tmpRead1 {m i : Nat} {t : Nat → Bool} (h : i < m) (ht : t i = true) :
    Safe (tmpRead1 m t i) (fun _ => True) :=
  ⟨(), by unfold tmpRead1; rw [if_pos ⟨h, ht⟩], trivial⟩

theorem safe_tmpUpdate1 {m i : Nat} {t : Nat → Bool} (h : i < m) (ht : t i = true) :
    Safe (tmpUpdate1 m t i) (fun t' => Grows t t') :=
  Safe.bind (safe_tmpRead1 h ht) (fun _ _ => (safe_tmpWrite1 t h).mono (fun _ h' => h'.1))

theorem safe_tmpWrite2 {m1 m2 i j : Nat} (t : Nat × Nat → Bool) (hi : i < m1) (hj : j < m2) :
    Safe (tmpWrite2 m1 m2 t i j) (fun t' => Grows t t' ∧ t' (i, j) = true) :=
  ⟨store t (i, j) true, by unfold tmpWrite2; rw [if_pos ⟨hi, hj⟩], grows_store t (i, j),
    by simp [store]⟩

theorem safe_tmpRead2 {m1 m2 i j : Nat} {t : Nat × Nat → Bool} (hi : i < m1) (hj : j < m2)
    (ht : t (i, j) = true) : Safe (tmpRead2 m1 m2 t i j) (fun _ => True) :=
  ⟨(), by unfold tmpRead2; rw [if_pos ⟨hi, hj, ht⟩], trivial⟩

theorem safe_tmpUpdate2 {m1 m2 i j : Nat} {t : Nat × Nat → Bool} (hi : i < m1) (hj : j < m2)
    (ht : t (i, j) = true) : Safe (tmpUpdate2 m1 m2 t i j) (fun t' => Grows t t') :=
  Safe.bind (safe_tmpRead2 hi hj ht)
    (fun _ _ => (safe_tmpWrite2 t hi hj).mono (fun _ h' => h'.1))

theorem safe_tmpWrite3 {m1 m2 m3 i j k : Nat} (t : Nat × Nat × Nat → Bool) (hi : i < m1)
    (hj : j < m2) (hk : k < m3) :
    Safe (tmpWrite3 m1 m2 m3 t i j k) (fun t' => Grows t t' ∧ t' (i, j, k) = true) :=
  ⟨store t (i, j, k) true, by unfold tmpWrite3; rw [if_pos ⟨hi, hj, hk⟩],
    grows_store t (i, j, k), by simp [store]⟩

theorem safe_tmpRead3 {m1 m2 m3 i j k : Nat} {t : Nat × Nat × Nat → Bool} (hi : i < m1)
    (hj : j < m2) (hk : k < m3) (ht : t (i, j, k) = true) :
    Safe (tmpRead3 m1 m2 m3 t i j k) (fun _ => True) :=
  ⟨(), by unfold tmpRead3; rw [if_pos ⟨hi, hj, hk, ht⟩], trivial⟩

theorem safe_tmpUpdate3 {m1 m2 m3 i j k : Nat} {t : Nat × Nat × Nat → Bool} (hi : i < m1)
    (hj : j < m2) (hk : k < m3) (ht : t (i, j, k) = true) :
    Safe (tmpUpdate3 m1 m2 m3 t i j k) (fun t' => Grows t t') :=
  Safe.bind (safe_tmpRead3 hi hj hk ht)
    (fun _ _ => (safe_tmpWrite3 t hi hj hk).mono (fun _ h' => h'.1))

/-- A loop on a local array whose iteration `i` does not fault, keeps the assigned
entries and assigns the entries `C i`: the loop does not fault, keeps the assigned
entries and assigns the entries `C i` of all its iterations. -/
theorem safe_forLoopM_init {ι : Type} (n : Nat) (body : Nat → (ι → Bool) → Option (ι → Bool))
    (C : Nat → ι → Prop) (t0 : ι → Bool)
    (hstep : ∀ i t, i < n → Grows t0 t →
      Safe (body i t) (fun t' => Grows t t' ∧ ∀ p, C i p → t' p = true)) :
    Safe (forLoopM n body t0)
      (fun t' => Grows t0 t' ∧ ∀ i, i < n → ∀ p, C i p → t' p = true) := by
  induction n with
  | zero => exact ⟨t0, rfl, Grows.refl t0, fun i hi => absurd hi (Nat.not_lt_zero i)⟩
  | succ n ih =>
    have ih' := ih (fun i t hi hg => hstep i t (Nat.lt_succ_of_lt hi) hg)
    refine Safe.bind ih' (fun t ht => ?_)
    refine (hstep n t (Nat.lt_succ_self n) ht.1).mono (fun t' ht' => ⟨ht.1.trans ht'.1, ?_⟩)
    intro i hi p hC
    rcases Nat.lt_succ_iff_lt_or_eq.mp hi with h | h
    · exact ht'.1 p (ht.2 i h p hC)
    · rw [h] at hC
      exact ht'.2 p hC

/-- A loop on a local array whose iterations do not fault and keep the assigned entries
does not fault and keeps the assigned entries. -/
theorem safe_forLoopM_grows {ι : Type} (n : Nat)
    (body : Nat → (ι → Bool) → Option (ι → Bool)) (t0 : ι → Bool)
    (hstep : ∀ i t, i < n → Grows t0 t → Safe (body i t) (fun t' => Grows t t')) :
    Safe (forLoopM n body t0) (fun t' => Grows t0 t') :=
  (safe_forLoopM_init n body (fun _ _ => False) t0
    (fun i t hi hg => (hstep i t hi hg).mono (fun _ h => ⟨h, fun _ hF => absurd hF id⟩))).mono
    (fun _ h => h.1)

/-- A loop whose iterations do not fault does not fault. -/
theorem safe_forLoopM {σ : Type} (n : Nat) (body : Nat → σ → Option σ) (s : σ)
    (hstep : ∀ i s, i < n → Safe (body i s) (fun _ => True)) :
    Safe (forLoopM n body s) (fun _ => True) := by
  induction n with
  | zero => exact ⟨s, rfl, trivial⟩
  | succ n ih =>
    exact Safe.bind (ih (fun i s hi => hstep i s (Nat.lt_succ_of_lt hi)))
      (fun s' _ => hstep n s' (Nat.lt_succ_self n))

/-- Clearing the first `n` entries of a local array `t[m]`. -/
theorem safe_clear1 (m n : Nat) (h : n ≤ m) (t0 : Nat → Bool) :
    Safe (forLoopM n (fun i t => tmpWrite1 m t i) t0)
      (fun t => Grows t0 t ∧ ∀ i, i < n → t i = true) :=
  (safe_forLoopM_init n _ (fun i p => p = i) t0
    (fun i t hi _ => (safe_tmpWrite1 t (Nat.lt_of_lt_of_le hi h)).mono
      (fun _ ht => ⟨ht.1, fun p hp => by rw [hp]; exact ht.2⟩))).mono
    (fun _ ht => ⟨ht.1, fun i hi => ht.2 i hi i rfl⟩)

/-- Clearing the first `n1 x n2` entries of a local array `t[m1][m2]`. -/
theorem safe_clear2 (m1 m2 n1 n2 : Nat) (h1 : n1 ≤ m1) (h2 : n2 ≤ m2) (t0 : Nat × Nat → Bool) :
    Safe (forLoopM n1 (fun i t => forLoopM n2 (fun j t => tmpWrite2 m1 m2 t i j) t) t0)
      (fun t => Grows t0 t ∧ ∀ i j, i < n1 → j < n2 → t (i, j) = true) :=
  (safe_forLoopM_init n1 _ (fun i p => ∃ j, j < n2 ∧ p = (i, j)) t0
    (fun i t hi _ =>
      (safe_forLoopM_init n2 _ (fun j p => p = (i, j)) t
        (fun j t' hj _ => (safe_tmpWrite2 t' (Nat.lt_of_lt_of_le hi h1)
            (Nat.lt_of_lt_of_le hj h2)).mono
          (fun _ ht => ⟨ht.1, fun p hp => by rw [hp]; exact ht.2⟩))).mono
        (fun _ ht => ⟨ht.1, fun p ⟨j, hj, hp⟩ => ht.2 j hj p hp⟩))).mono
    (fun _ ht => ⟨ht.1, fun i j hi hj => ht.2 i hi (i, j) ⟨j, hj, rfl⟩⟩)

/-- Clearing the first `n1 x n2 x n3` entries of a local array `t[m1][m2][m3]`. -/
theorem safe_clear3 (m1 m2 m3 n1 n2 n3 : Nat) (h1 : n1 ≤ m1) (h2 : n2 ≤ m2) (h3 : n3 ≤ m3)
    (t0 : Nat × Nat × Nat → Bool) :
    Safe (forLoopM n1 (fun i t => forLoopM n2 (fun j t =>
        forLoopM n3 (fun k t => tmpWrite3 m1 m2 m3 t i j k) t) t) t0)
      (fun t => Grows t0 t ∧ ∀ i j k, i < n1 → j < n2 → k < n3 → t (i, j, k) = true) :=
  (safe_forLoopM_init n1 _ (fun i p => ∃ j k, j < n2 ∧ k < n3 ∧ p = (i, j, k)) t0
    (fun i t hi _ =>
      (safe_forLoopM_init n2 _ (fun j p => ∃ k, k < n3 ∧ p = (i, j, k)) t
        (fun j t' hj _ =>
          (safe_forLoopM_init n3 _ (fun k p => p = (i, j, k)) t'
            (fun k t'' hk _ => (safe_tmpWrite3 t'' (Nat.lt_of_lt_of_le hi h1)
                (Nat.lt_of_lt_of_le hj h2) (Nat.lt_of_lt_of_le hk h3)).mono
              (fun _ ht => ⟨ht.1, fun p hp => by rw [hp]; exact ht.2⟩))).mono
            (fun _ ht => ⟨ht.1, fun p ⟨k, hk, hp⟩ => ht.2 k hk p hp⟩))).mono
        (fun _ ht => ⟨ht.1, fun p ⟨j, k, hj, hk, hp⟩ => ht.2 j hj p ⟨k, hk, hp⟩⟩))).mono
    (fun _ ht => ⟨ht.1, fun i j k hi hj hk => ht.2 i hi (i, j, k) ⟨j, k, hj, hk, rfl⟩⟩)

end SafeLemmas

section Access2DLemmas

theorem safe_apply2D_clear (max_Q1D Q1D : Nat) (hQ : Q1D ≤ max_Q1D) (t0 : Nat × Nat → Bool) :
    Safe (apply2D_clear_acc max_Q1D Q1D t0)
      (fun t => ∀ qy qx, qy < Q1D → qx < Q1D → t (qy, qx) = true) :=
  (safe_clear2 max_Q1D max_Q1D Q1D Q1D hQ hQ t0).mono (fun _ h => h.2)

theorem safe_apply2D_fwd_x {ext : Extents} {max_D1D max_Q1D D1D Q1D NE : Nat}
    (h : Fits2D ext max_D1D max_Q1D D1D Q1D NE) {e c dy : Nat} (he : e < NE) (hc : c < 2)
    (hdy : dy < D1D) :
    Safe (apply2D_fwd_x_acc ext max_Q1D D1D Q1D e c dy)
      (fun t => ∀ qx, qx < Q1D → t qx = true) := by
  obtain ⟨_, hQ, hB, _, _, hx, _⟩ := h
  unfold apply2D_fwd_x_acc
  refine Safe.bind (safe_clear1 max_Q1D Q1D hQ _) (fun t1 ht1 => ?_)
  refine (safe_forLoopM_grows D1D _ t1 (fun dx t hdx hg => ?_)).mono
    (fun t' hg qx hqx => hg qx (ht1.2 qx hqx))
  refine Safe.bind (safe_access (Nat.lt_of_lt_of_le (Reshape4_lt hdx hdy hc he) hx))
    (fun _ _ => ?_)
  refine safe_forLoopM_grows Q1D _ t (fun qx t' hqx hg' => ?_)
  refine Safe.bind (safe_access (Nat.lt_of_lt_of_le (Reshape2_lt hqx hdx) hB)) (fun _ _ => ?_)
  exact safe_tmpUpdate1 (Nat.lt_of_lt_of_le hqx hQ) (hg' qx (hg qx (ht1.2 qx hqx)))

theorem safe_apply2D_forward {ext : Extents} {max_D1D max_Q1D D1D Q1D NE : Nat}
    (h : Fits2D ext max_D1D max_Q1D D1D Q1D NE) {e c : Nat} (he : e < NE) (hc : c < 2)
    (t0 : Nat × Nat → Bool) (h0 : ∀ qy qx, qy < Q1D → qx < Q1D → t0 (qy, qx) = true) :
    Safe (apply2D_forward_acc ext max_Q1D D1D Q1D e c t0)
      (fun t => ∀ qy qx, qy < Q1D → qx < Q1D → t (qy, qx) = true) := by
  have hf := h
  obtain ⟨_, hQ, hB, _, _, _, _⟩ := h
  unfold apply2D_forward_acc
  refine (safe_forLoopM_grows D1D _ t0 (fun dy t hdy hg => ?_)).mono
    (fun t' hg qy qx hqy hqx => hg _ (h0 qy qx hqy hqx))
  refine Safe.bind (safe_apply2D_fwd_x hf he hc hdy) (fun sol_x hsx => ?_)
  refine safe_forLoopM_grows Q1D _ t (fun qy t1 hqy hg1 => ?_)
  refine Safe.bind (safe_access (Nat.lt_of_lt_of_le (Reshape2_lt hqy hdy) hB)) (fun _ _ => ?_)
  refine safe_forLoopM_grows Q1D _ t1 (fun qx t2 hqx hg2 => ?_)
  refine Safe.bind (safe_tmpRead1 (Nat.lt_of_lt_of_le hqx hQ) (hsx qx hqx)) (fun _ _ => ?_)
  exact safe_tmpUpdate2 (Nat.lt_of_lt_of_le hqy hQ) (Nat.lt_of_lt_of_le hqx hQ)
    (hg2 _ (hg1 _ (hg _ (h0 qy qx hqy hqx))))

theorem safe_apply2D_scale {ext : Extents} {max_D1D max_Q1D D1D Q1D NE : Nat}
    (h : Fits2D ext max_D1D max_Q1D D1D Q1D NE) {e : Nat} (he : e < NE)
    (t0 : Nat × Nat → Bool) (h0 : ∀ qy qx, qy < Q1D → qx < Q1D → t0 (qy, qx) = true) :
    Safe (apply2D_scale_acc ext max_Q1D Q1D e t0)
      (fun t => ∀ qy qx, qy < Q1D → qx < Q1D → t (qy, qx) = true) := by
  obtain ⟨_, hQ, _, _, hop, _, _⟩ := h
  unfold apply2D_scale_acc
  refine (safe_forLoopM_grows Q1D _ t0 (fun qy t hqy hg => ?_)).mono
    (fun t' hg qy qx hqy hqx => hg _ (h0 qy qx hqy hqx))
  refine safe_forLoopM_grows Q1D _ t (fun qx t1 hqx hg1 => ?_)
  refine Safe.bind (safe_access (Nat.lt_of_lt_of_le (Reshape3_lt hqx hqy he) hop))
    (fun _ _ => ?_)
  exact safe_tmpUpdate2 (Nat.lt_of_lt_of_le hqy hQ) (Nat.lt_of_lt_of_le hqx hQ)
    (hg1 _ (hg _ (h0 qy qx hqy hqx)))

theorem safe_apply2D_bwd_x {ext : Extents} {max_D1D max_Q1D D1D Q1D NE : Nat}
    (h : Fits2D ext max_D1D max_Q1D D1D Q1D NE) {qy : Nat} (hqy : qy < Q1D)
    (sol_xy : Nat × Nat → Bool)
    (h0 : ∀ qy qx, qy < Q1D → qx < Q1D → sol_xy (qy, qx) = true) :
    Safe (apply2D_bwd_x_acc ext max_D1D max_Q1D D1D Q1D sol_xy qy)
      (fun t => ∀ dx, dx < D1D → t dx = true) := by
  obtain ⟨hD, hQ, _, hBt, _, _, _⟩ := h
  unfold apply2D_bwd_x_acc
  refine Safe.bind (safe_clear1 max_D1D D1D hD _) (fun t1 ht1 => ?_)
  refine (safe_forLoopM_grows Q1D _ t1 (fun qx t hqx hg => ?_)).mono
    (fun t' hg dx hdx => hg dx (ht1.2 dx hdx))
  refine Safe.bind (safe_tmpRead2 (Nat.lt_of_lt_of_le hqy hQ) (Nat.lt_of_lt_of_le hqx hQ)
    (h0 qy qx hqy hqx)) (fun _ _ => ?_)
  refine safe_forLoopM_grows D1D _ t (fun dx t' hdx hg' => ?_)
  refine Safe.bind (safe_access (Nat.lt_of_lt_of_le (Reshape2_lt hdx hqx) hBt)) (fun _ _ => ?_)
  exact safe_tmpUpdate1 (Nat.lt_of_lt_of_le hdx hD) (hg' dx (hg dx (ht1.2 dx hdx)))

theorem safe_apply2D_backward {ext : Extents} {max_D1D max_Q1D D1D Q1D NE : Nat}
    (h : Fits2D ext max_D1D max_Q1D D1D Q1D NE) {e c : Nat} (he : e < NE) (hc : c < 2)
    (sol_xy : Nat × Nat → Bool)
    (h0 : ∀ qy qx, qy < Q1D → qx < Q1D → sol_xy (qy, qx) = true) :
    Safe (apply2D_backward_acc ext max_D1D max_Q1D D1D Q1D e c sol_xy) (fun _ => True) := by
  have hf := h
  obtain ⟨hD, _, _, hBt, _, _, hy⟩ := h
  unfold apply2D_backward_acc
  refine safe_forLoopM Q1D _ () (fun qy _ hqy => ?_)
  refine Safe.bind (safe_apply2D_bwd_x hf hqy sol_xy h0) (fun sol_x hsx => ?_)
  refine safe_forLoopM D1D _ () (fun dy _ hdy => ?_)
  refine Safe.bind (safe_access (Nat.lt_of_lt_of_le (Reshape2_lt hdy hqy) hBt)) (fun _ _ => ?_)
  refine safe_forLoopM D1D _ () (fun dx _ hdx => ?_)
  refine Safe.bind (safe_tmpRead1 (Nat.lt_of_lt_of_le hdx hD) (hsx dx hdx)) (fun _ _ => ?_)
  exact safe_access (Nat.lt_of_lt_of_le (Reshape4_lt hdx hdy hc he) hy)

theorem safe_apply2D_element {ext : Extents} {max_D1D max_Q1D D1D Q1D NE : Nat}
    (h : Fits2D ext max_D1D max_Q1D D1D Q1D NE) {e : Nat} (he : e < NE) :
    Safe (apply2D_element_acc ext max_D1D max_Q1D D1D Q1D e) (fun _ => True) := by
  unfold apply2D_element_acc
  refine Safe.bind (safe_forLoopM 2 _ _ (fun c sol_xy hc => ?_)) (fun _ _ => Safe.pure () trivial)
  unfold apply2D_component_acc
  refine Safe.bind (safe_apply2D_clear max_Q1D Q1D h.2.1 sol_xy) (fun t1 h1 => ?_)
  refine Safe.bind (safe_apply2D_forward h he hc t1 h1) (fun t2 h2 => ?_)
  refine Safe.bind (safe_apply2D_scale h he t2 h2) (fun t3 h3 => ?_)
  exact Safe.bind (safe_apply2D_backward h he hc t3 h3) (fun _ _ => Safe.pure t3 trivial)

end Access2DLemmas

section Access3DLemmas

theorem safe_apply3D_fwd_x {ext : Extents} {max_D1D max_Q1D D1D Q1D NE : Nat}
    (h : Fits3D ext max_D1D max_Q1D D1D Q1D NE) {e c dz dy : Nat} (he : e < NE) (hc : c < 3)
    (hdz : dz < D1D) (hdy : dy < D1D) :
    Safe (apply3D_fwd_x_acc ext max_Q1D D1D Q1D e c dz dy)
      (fun t => ∀ qx, qx < Q1D → t qx = true) := by
  obtain ⟨_, hQ, hB, _, _, hx, _⟩ := h
  unfold apply3D_fwd_x_acc
  refine Safe.bind (safe_clear1 max_Q1D Q1D hQ _) (fun t1 ht1 => ?_)
  refine (safe_forLoopM_grows D1D _ t1 (fun dx t hdx hg => ?_)).mono
    (fun t' hg qx hqx => hg qx (ht1.2 qx hqx))
  refine Safe.bind (safe_access (Nat.lt_of_lt_of_le (Reshape5_lt hdx hdy hdz hc he) hx))
    (fun _ _ => ?_)
  refine safe_forLoopM_grows Q1D _ t (fun qx t' hqx hg' => ?_)
  refine Safe.bind (safe_access (Nat.lt_of_lt_of_le (Reshape2_lt hqx hdx) hB)) (fun _ _ => ?_)
  exact safe_tmpUpdate1 (Nat.lt_of_lt_of_le hqx hQ) (hg' qx (hg qx (ht1.2 qx hqx)))

theorem safe_apply3D_fwd_xy {ext : Extents} {max_D1D max_Q1D D1D Q1D NE : Nat}
    (h : Fits3D ext max_D1D max_Q1D D1D Q1D NE) {e c dz : Nat} (he : e < NE) (hc : c < 3)
    (hdz : dz < D1D) :
    Safe (apply3D_fwd_xy_acc ext max_Q1D D1D Q1D e c dz)
      (fun t => ∀ qy qx, qy < Q1D → qx < Q1D → t (qy, qx) = true) := by
  have hf := h
  obtain ⟨_, hQ, hB, _, _, _, _⟩ := h
  unfold apply3D_fwd_xy_acc
  refine Safe.bind (safe_clear2 max_Q1D max_Q1D Q1D Q1D hQ hQ _) (fun t0 ht0 => ?_)
  refine (safe_forLoopM_grows D1D _ t0 (fun dy t hdy hg => ?_)).mono
    (fun t' hg qy qx hqy hqx => hg _ (ht0.2 qy qx hqy hqx))
  refine Safe.bind (safe_apply3D_fwd_x hf he hc hdz hdy) (fun sol_x hsx => ?_)
  refine safe_forLoopM_grows Q1D _ t (fun qy t1 hqy hg1 => ?_)
  refine Safe.bind (safe_access (Nat.lt_of_lt_of_le (Reshape2_lt hqy hdy) hB)) (fun _ _ => ?_)
  refine safe_forLoopM_grows Q1D _ t1 (fun qx t2 hqx hg2 => ?_)
  refine Safe.bind (safe_tmpRead1 (Nat.lt_of_lt_of_le hqx hQ) (hsx qx hqx)) (fun _ _ => ?_)
  exact safe_tmpUpdate2 (Nat.lt_of_lt_of_le hqy hQ) (Nat.lt_of_lt_of_le hqx hQ)
    (hg2 _ (hg1 _ (hg _ (ht0.2 qy qx hqy hqx))))

theorem safe_apply3D_forward {ext : Extents} {max_D1D max_Q1D D1D Q1D NE : Nat}
    (h : Fits3D ext max_D1D max_Q1D D1D Q1D NE) {e c : Nat} (he : e < NE) (hc : c < 3)
    (t0 : Nat × Nat × Nat → Bool)
    (h0 : ∀ qz qy qx, qz < Q1D → qy < Q1D → qx < Q1D → t0 (qz, qy, qx) = true) :
    Safe (apply3D_forward_acc ext max_Q1D D1D Q1D e c t0)
      (fun t => ∀ qz qy qx, qz < Q1D → qy < Q1D → qx < Q1D → t (qz, qy, qx) = true) := by
  have hf := h
  obtain ⟨_, hQ, hB, _, _, _, _⟩ := h
  unfold apply3D_forward_acc
  refine (safe_forLoopM_grows D1D _ t0 (fun dz t hdz hg => ?_)).mono
    (fun t' hg qz qy qx hqz hqy hqx => hg _ (h0 qz qy qx hqz hqy hqx))
  refine Safe.bind (safe_apply3D_fwd_xy hf he hc hdz) (fun sol_xy hsxy => ?_)
  refine safe_forLoopM_grows Q1D _ t (fun qz t1 hqz hg1 => ?_)
  refine Safe.bind (safe_access (Nat.lt_of_lt_of_le (Reshape2_lt hqz hdz) hB)) (fun _ _ => ?_)
  refine safe_forLoopM_grows Q1D _ t1 (fun qy t2 hqy hg2 => ?_)
  refine safe_forLoopM_grows Q1D _ t2 (fun qx t3 hqx hg3 => ?_)
  refine Safe.bind (safe_tmpRead2 (Nat.lt_of_lt_of_le hqy hQ) (Nat.lt_of_lt_of_le hqx hQ)
    (hsxy qy qx hqy hqx)) (fun _ _ => ?_)
  exact safe_tmpUpdate3 (Nat.lt_of_lt_of_le hqz hQ) (Nat.lt_of_lt_of_le hqy hQ)
    (Nat.lt_of_lt_of_le hqx hQ) (hg3 _ (hg2 _ (hg1 _ (hg _ (h0 qz qy qx hqz hqy hqx)))))

theorem safe_apply3D_scale {ext : Extents} {max_D1D max_Q1D D1D Q1D NE : Nat}
    (h : Fits3D ext max_D1D max_Q1D D1D Q1D NE) {e : Nat} (he : e < NE)
    (t0 : Nat × Nat × Nat → Bool)
    (h0 : ∀ qz qy qx, qz < Q1D → qy < Q1D → qx < Q1D → t0 (qz, qy, qx) = true) :
    Safe (apply3D_scale_acc ext max_Q1D Q1D e t0)
      (fun t => ∀ qz qy qx, qz < Q1D → qy < Q1D → qx < Q1D → t (qz, qy, qx) = true) := by
  obtain ⟨_, hQ, _, _, hop, _, _⟩ := h
  unfold apply3D_scale_acc
  refine (safe_forLoopM_grows Q1D _ t0 (fun qz t hqz hg => ?_)).mono
    (fun t' hg qz qy qx hqz hqy hqx => hg _ (h0 qz qy qx hqz hqy hqx))
  refine safe_forLoopM_grows Q1D _ t (fun qy t1 hqy hg1 => ?_)
  refine safe_forLoopM_grows Q1D _ t1 (fun qx t2 hqx hg2 => ?_)
  refine Safe.bind (safe_access (Nat.lt_of_lt_of_le (Reshape4_lt hqx hqy hqz he) hop))
    (fun _ _ => ?_)
  exact safe_tmpUpdate3 (Nat.lt_of_lt_of_le hqz hQ) (Nat.lt_of_lt_of_le hqy hQ)
    (Nat.lt_of_lt_of_le hqx hQ) (hg2 _ (hg1 _ (hg _ (h0 qz qy qx hqz hqy hqx))))

theorem safe_apply3D_bwd_x {ext : Extents} {max_D1D max_Q1D D1D Q1D NE : Nat}
    (h : Fits3D ext max_D1D max_Q1D D1D Q1D NE) {qz qy : Nat} (hqz : qz < Q1D)
    (hqy : qy < Q1D) (sol_xyz : Nat × Nat × Nat → Bool)
    (h0 : ∀ qz qy qx, qz < Q1D → qy < Q1D → qx < Q1D → sol_xyz (qz, qy, qx) = true) :
    Safe (apply3D_bwd_x_acc ext max_D1D max_Q1D D1D Q1D sol_xyz qz qy)
      (fun t => ∀ dx, dx < D1D → t dx = true) := by
  obtain ⟨hD, hQ, _, hBt, _, _, _⟩ := h
  unfold apply3D_bwd_x_acc
  refine Safe.bind (safe_clear1 max_D1D D1D hD _) (fun t1 ht1 => ?_)
  refine (safe_forLoopM_grows Q1D _ t1 (fun qx t hqx hg => ?_)).mono
    (fun t' hg dx hdx => hg dx (ht1.2 dx hdx))
  refine Safe.bind (safe_tmpRead3 (Nat.lt_of_lt_of_le hqz hQ) (Nat.lt_of_lt_of_le hqy hQ)
    (Nat.lt_of_lt_of_le hqx hQ) (h0 qz qy qx hqz hqy hqx)) (fun _ _ => ?_)
  refine safe_forLoopM_grows D1D _ t (fun dx t' hdx hg' => ?_)
  refine Safe.bind (safe_access (Nat.lt_of_lt_of_le (Reshape2_lt hdx hqx) hBt)) (fun _ _ => ?_)
  exact safe_tmpUpdate1 (Nat.lt_of_lt_of_le hdx hD) (hg' dx (hg dx (ht1.2 dx hdx)))

theorem safe_apply3D_bwd_xy {ext : Extents} {max_D1D max_Q1D D1D Q1D NE : Nat}
    (h : Fits3D ext max_D1D max_Q1D D1D Q1D NE) {qz : Nat} (hqz : qz < Q1D)
    (sol_xyz : Nat × Nat × Nat → Bool)
    (h0 : ∀ qz qy qx, qz < Q1D → qy < Q1D → qx < Q1D → sol_xyz (qz, qy, qx) = true) :
    Safe (apply3D_bwd_xy_acc ext max_D1D max_Q1D D1D Q1D sol_xyz qz)
      (fun t => ∀ dy dx, dy < D1D → dx < D1D → t (dy, dx) = true) := by
  have hf := h
  obtain ⟨hD, _, _, hBt, _, _, _⟩ := h
  unfold apply3D_bwd_xy_acc
  refine Safe.bind (safe_clear2 max_D1D max_D1D D1D D1D hD hD _) (fun t0 ht0 => ?_)
  refine (safe_forLoopM_grows Q1D _ t0 (fun qy t hqy hg => ?_)).mono
    (fun t' hg dy dx hdy hdx => hg _ (ht0.2 dy dx hdy hdx))
  refine Safe.bind (safe_apply3D_bwd_x hf hqz hqy sol_xyz h0) (fun sol_x hsx => ?_)
  refine safe_forLoopM_grows D1D _ t (fun dy t1 hdy hg1 => ?_)
  refine Safe.bind (safe_access (Nat.lt_of_lt_of_le (Reshape2_lt hdy hqy) hBt)) (fun _ _ => ?_)
  refine safe_forLoopM_grows D1D _ t1 (fun dx t2 hdx hg2 => ?_)
  refine Safe.bind (safe_tmpRead1 (Nat.lt_of_lt_of_le hdx hD) (hsx dx hdx)) (fun _ _ => ?_)
  exact safe_tmpUpdate2 (Nat.lt_of_lt_of_le hdy hD) (Nat.lt_of_lt_of_le hdx hD)
    (hg2 _ (hg1 _ (hg _ (ht0.2 dy dx hdy hdx))))

theorem safe_apply3D_backward {ext : Extents} {max_D1D max_Q1D D1D Q1D NE : Nat}
    (h : Fits3D ext max_D1D max_Q1D D1D Q1D NE) {e c : Nat} (he : e < NE) (hc : c < 3)
    (sol_xyz : Nat × Nat × Nat → Bool)
    (h0 : ∀ qz qy qx, qz < Q1D → qy < Q1D → qx < Q1D → sol_xyz (qz, qy, qx) = true) :
    Safe (apply3D_backward_acc ext max_D1D max_Q1D D1D Q1D e c sol_xyz) (fun _ => True) := by
  have hf := h
  obtain ⟨hD, _, _, hBt, _, _, hy⟩ := h
  unfold apply3D_backward_acc
  refine safe_forLoopM Q1D _ () (fun qz _ hqz => ?_)
  refine Safe.bind (safe_apply3D_bwd_xy hf hqz sol_xyz h0) (fun sol_xy hsxy => ?_)
  refine safe_forLoopM D1D _ () (fun dz _ hdz => ?_)
  refine Safe.bind (safe_access (Nat.lt_of_lt_of_le (Reshape2_lt hdz hqz) hBt)) (fun _ _ => ?_)
  refine safe_forLoopM D1D _ () (fun dy _ hdy => ?_)
  refine safe_forLoopM D1D _ () (fun dx _ hdx => ?_)
  refine Safe.bind (safe_tmpRead2 (Nat.lt_of_lt_of_le hdy hD) (Nat.lt_of_lt_of_le hdx hD)
    (hsxy dy dx hdy hdx)) (fun _ _ => ?_)
  exact safe_access (Nat.lt_of_lt_of_le (Reshape5_lt hdx hdy hdz hc he) hy)

theorem safe_apply3D_element {ext : Extents} {max_D1D max_Q1D D1D Q1D NE : Nat}
    (h : Fits3D ext max_D1D max_Q1D D1D Q1D NE) {e : Nat} (he : e < NE) :
    Safe (apply3D_element_acc ext max_D1D max_Q1D D1D Q1D e) (fun _ => True) := by
  unfold apply3D_element_acc
  refine Safe.bind (safe_forLoopM 3 _ _ (fun c sol_xyz hc => ?_))
    (fun _ _ => Safe.pure () trivial)
  unfold apply3D_component_acc
  refine Safe.bind ((safe_clear3 max_Q1D max_Q1D max_Q1D Q1D Q1D Q1D h.2.1 h.2.1 h.2.1
    sol_xyz).mono (fun _ ht => ht.2)) (fun t1 h1 => ?_)
  refine Safe.bind (safe_apply3D_forward h he hc t1 h1) (fun t2 h2 => ?_)
  refine Safe.bind (safe_apply3D_scale h he t2 h2) (fun t3 h3 => ?_)
  exact Safe.bind (safe_apply3D_backward h he hc t3 h3) (fun _ _ => Safe.pure t3 trivial)

end Access3DLemmas

section AccessDiagLemmas

theorem safe_diag2D_temp {ext : Extents} {max_D1D max_Q1D D1D Q1D NE : Nat}
    (h : Fits2D ext max_D1D max_Q1D D1D Q1D NE) {e : Nat} (he : e < NE) :
    Safe (diag2D_temp_acc ext max_D1D max_Q1D D1D Q1D e)
      (fun t => ∀ qx dy, qx < Q1D → dy < D1D → t (qx, dy) = true) := by
  obtain ⟨hD, hQ, hB, _, hop, _, _⟩ := h
  unfold diag2D_temp_acc
  refine (safe_forLoopM_init Q1D _ (fun qx p => ∃ dy, dy < D1D ∧ p = (qx, dy)) _
    (fun qx t hqx _ => ?_)).mono
    (fun _ ht qx dy hqx hdy => ht.2 qx hqx (qx, dy) ⟨dy, hdy, rfl⟩)
  refine (safe_forLoopM_init D1D _ (fun dy p => p = (qx, dy)) t (fun dy t1 hdy _ => ?_)).mono
    (fun _ ht => ⟨ht.1, fun p ⟨dy, hdy, hp⟩ => ht.2 dy hdy p hp⟩)
  refine Safe.bind (safe_tmpWrite2 t1 (Nat.lt_of_lt_of_le hqx hQ) (Nat.lt_of_lt_of_le hdy hD))
    (fun t2 ht2 => ?_)
  refine (safe_forLoopM_grows Q1D _ t2 (fun qy t3 hqy hg => ?_)).mono
    (fun t' hg => ⟨ht2.1.trans hg, fun p hp => by rw [hp]; exact hg _ ht2.2⟩)
  refine Safe.bind (safe_access (Nat.lt_of_lt_of_le (Reshape2_lt hqy hdy) hB)) (fun _ _ => ?_)
  refine Safe.bind (safe_access (Nat.lt_of_lt_of_le (Reshape2_lt hqy hdy) hB)) (fun _ _ => ?_)
  refine Safe.bind (safe_access (Nat.lt_of_lt_of_le (Reshape3_lt hqx hqy he) hop))
    (fun _ _ => ?_)
  exact safe_tmpUpdate2 (Nat.lt_of_lt_of_le hqx hQ) (Nat.lt_of_lt_of_le hdy hD) (hg _ ht2.2)

theorem safe_diag2D_element {ext : Extents} {max_D1D max_Q1D D1D Q1D NE : Nat}
    (h : Fits2D ext max_D1D max_Q1D D1D Q1D NE) {e : Nat} (he : e < NE) :
    Safe (diag2D_element_acc ext max_D1D max_Q1D D1D Q1D e) (fun _ => True) := by
  have hf := h
  obtain ⟨hD, hQ, hB, _, _, _, hy⟩ := h
  unfold diag2D_element_acc
  refine Safe.bind (safe_diag2D_temp hf he) (fun temp ht => ?_)
  refine safe_forLoopM D1D _ () (fun dy _ hdy => ?_)
  refine safe_forLoopM D1D _ () (fun dx _ hdx => ?_)
  refine Safe.bind (safe_forLoopM Q1D _ () (fun qx _ hqx => ?_)) (fun _ _ => ?_)
  · refine Safe.bind (safe_access (Nat.lt_of_lt_of_le (Reshape2_lt hqx hdx) hB)) (fun _ _ => ?_)
    refine Safe.bind (safe_access (Nat.lt_of_lt_of_le (Reshape2_lt hqx hdx) hB)) (fun _ _ => ?_)
    exact safe_tmpRead2 (Nat.lt_of_lt_of_le hqx hQ) (Nat.lt_of_lt_of_le hdy hD)
      (ht qx dy hqx hdy)
  · refine Safe.bind (safe_access (Nat.lt_of_lt_of_le
      (Reshape4_lt hdx hdy (by decide : 0 < 2) he) hy)) (fun _ _ => ?_)
    exact safe_access (Nat.lt_of_lt_of_le (Reshape4_lt hdx hdy (by decide : 1 < 2) he) hy)

theorem safe_diag3D_temp {ext : Extents} {max_D1D max_Q1D D1D Q1D NE : Nat}
    (h : Fits3D ext max_D1D max_Q1D D1D Q1D NE) {e : Nat} (he : e < NE) :
    Safe (diag3D_temp_acc ext max_D1D max_Q1D D1D Q1D e)
      (fun t => ∀ qx qy dz, qx < Q1D → qy < Q1D → dz < D1D → t (qx, qy, dz) = true) := by
  obtain ⟨hD, hQ, hB, _, hop, _, _⟩ := h
  unfold diag3D_temp_acc
  refine (safe_forLoopM_init Q1D _
    (fun qx p => ∃ qy dz, qy < Q1D ∧ dz < D1D ∧ p = (qx, qy, dz)) _
    (fun qx t hqx _ => ?_)).mono
    (fun _ ht qx qy dz hqx hqy hdz => ht.2 qx hqx (qx, qy, dz) ⟨qy, dz, hqy, hdz, rfl⟩)
  refine (safe_forLoopM_init Q1D _ (fun qy p => ∃ dz, dz < D1D ∧ p = (qx, qy, dz)) t
    (fun qy t0 hqy _ => ?_)).mono
    (fun _ ht => ⟨ht.1, fun p ⟨qy, dz, hqy, hdz, hp⟩ => ht.2 qy hqy p ⟨dz, hdz, hp⟩⟩)
  refine (safe_forLoopM_init D1D _ (fun dz p => p = (qx, qy, dz)) t0
    (fun dz t1 hdz _ => ?_)).mono
    (fun _ ht => ⟨ht.1, fun p ⟨dz, hdz, hp⟩ => ht.2 dz hdz p hp⟩)
  refine Safe.bind (safe_tmpWrite3 t1 (Nat.lt_of_lt_of_le hqx hQ) (Nat.lt_of_lt_of_le hqy hQ)
    (Nat.lt_of_lt_of_le hdz hD)) (fun t2 ht2 => ?_)
  refine (safe_forLoopM_grows Q1D _ t2 (fun qz t3 hqz hg => ?_)).mono
    (fun t' hg => ⟨ht2.1.trans hg, fun p hp => by rw [hp]; exact hg _ ht2.2⟩)
  refine Safe.bind (safe_access (Nat.lt_of_lt_of_le (Reshape2_lt hqz hdz) hB)) (fun _ _ => ?_)
  refine Safe.bind (safe_access (Nat.lt_of_lt_of_le (Reshape2_lt hqz hdz) hB)) (fun _ _ => ?_)
  refine Safe.bind (safe_access (Nat.lt_of_lt_of_le (Reshape4_lt hqx hqy hqz he) hop))
    (fun _ _ => ?_)
  exact safe_tmpUpdate3 (Nat.lt_of_lt_of_le hqx hQ) (Nat.lt_of_lt_of_le hqy hQ)
    (Nat.lt_of_lt_of_le hdz hD) (hg _ ht2.2)

theorem safe_diag3D_temp2 {ext : Extents} {max_D1D max_Q1D D1D Q1D NE : Nat}
    (h : Fits3D ext max_D1D max_Q1D D1D Q1D NE) (temp : Nat × Nat × Nat → Bool)
    (h0 : ∀ qx qy dz, qx < Q1D → qy < Q1D → dz < D1D → temp (qx, qy, dz) = true) :
    Safe (diag3D_temp2_acc ext max_D1D max_Q1D D1D Q1D temp)
      (fun t => ∀ qx dy dz, qx < Q1D → dy < D1D → dz < D1D → t (qx, dy, dz) = true) := by
  obtain ⟨hD, hQ, hB, _, _, _, _⟩ := h
  unfold diag3D_temp2_acc
  refine (safe_forLoopM_init Q1D _
    (fun qx p => ∃ dy dz, dy < D1D ∧ dz < D1D ∧ p = (qx, dy, dz)) _
    (fun qx t hqx _ => ?_)).mono
    (fun _ ht qx dy dz hqx hdy hdz => ht.2 qx hqx (qx, dy, dz) ⟨dy, dz, hdy, hdz, rfl⟩)
  refine (safe_forLoopM_init D1D _ (fun dz p => ∃ dy, dy < D1D ∧ p = (qx, dy, dz)) t
    (fun dz t0 hdz _ => ?_)).mono
    (fun _ ht => ⟨ht.1, fun p ⟨dy, dz, hdy, hdz, hp⟩ => ht.2 dz hdz p ⟨dy, hdy, hp⟩⟩)
  refine (safe_forLoopM_init D1D _ (fun dy p => p = (qx, dy, dz)) t0
    (fun dy t1 hdy _ => ?_)).mono
    (fun _ ht => ⟨ht.1, fun p ⟨dy, hdy, hp⟩ => ht.2 dy hdy p hp⟩)
  refine Safe.bind (safe_tmpWrite3 t1 (Nat.lt_of_lt_of_le hqx hQ) (Nat.lt_of_lt_of_le hdy hD)
    (Nat.lt_of_lt_of_le hdz hD)) (fun t2 ht2 => ?_)
  refine (safe_forLoopM_grows Q1D _ t2 (fun qy t3 hqy hg => ?_)).mono
    (fun t' hg => ⟨ht2.1.trans hg, fun p hp => by rw [hp]; exact hg _ ht2.2⟩)
  refine Safe.bind (safe_access (Nat.lt_of_lt_of_le (Reshape2_lt hqy hdy) hB)) (fun _ _ => ?_)
  refine Safe.bind (safe_access (Nat.lt_of_lt_of_le (Reshape2_lt hqy hdy) hB)) (fun _ _ => ?_)
  refine Safe.bind (safe_tmpRead3 (Nat.lt_of_lt_of_le hqx hQ) (Nat.lt_of_lt_of_le hqy hQ)
    (Nat.lt_of_lt_of_le hdz hD) (h0 qx qy dz hqx hqy hdz)) (fun _ _ => ?_)
  exact safe_tmpUpdate3 (Nat.lt_of_lt_of_le hqx hQ) (Nat.lt_of_lt_of_le hdy hD)
    (Nat.lt_of_lt_of_le hdz hD) (hg _ ht2.2)

theorem safe_diag3D_element {ext : Extents} {max_D1D max_Q1D D1D Q1D NE : Nat}
    (h : Fits3D ext max_D1D max_Q1D D1D Q1D NE) {e : Nat} (he : e < NE) :
    Safe (diag3D_element_acc ext max_D1D max_Q1D D1D Q1D e) (fun _ => True) := by
  have hf := h
  obtain ⟨hD, hQ, hB, _, _, _, hy⟩ := h
  unfold diag3D_element_acc
  refine Safe.bind (safe_diag3D_temp hf he) (fun temp ht => ?_)
  refine Safe.bind (safe_diag3D_temp2 hf temp ht) (fun temp2 ht2 => ?_)
  refine safe_forLoopM D1D _ () (fun dz _ hdz => ?_)
  refine safe_forLoopM D1D _ () (fun dy _ hdy => ?_)
  refine safe_forLoopM D1D _ () (fun dx _ hdx => ?_)
  refine Safe.bind (safe_forLoopM Q1D _ () (fun qx _ hqx => ?_)) (fun _ _ => ?_)
  · refine Safe.bind (safe_access (Nat.lt_of_lt_of_le (Reshape2_lt hqx hdx) hB)) (fun _ _ => ?_)
    refine Safe.bind (safe_access (Nat.lt_of_lt_of_le (Reshape2_lt hqx hdx) hB)) (fun _ _ => ?_)
    exact safe_tmpRead3 (Nat.lt_of_lt_of_le hqx hQ) (Nat.lt_of_lt_of_le hdy hD)
      (Nat.lt_of_lt_of_le hdz hD) (ht2 qx dy dz hqx hdy hdz)
  · refine Safe.bind (safe_access (Nat.lt_of_lt_of_le
      (Reshape5_lt hdx hdy hdz (by decide : 0 < 3) he) hy)) (fun _ _ => ?_)
    refine Safe.bind (safe_access (Nat.lt_of_lt_of_le
      (Reshape5_lt hdx hdy hdz (by decide : 1 < 3) he) hy)) (fun _ _ => ?_)
    exact safe_access (Nat.lt_of_lt_of_le (Reshape5_lt hdx hdy hdz (by decide : 2 < 3) he) hy)

end AccessDiagLemmas

section AccessKernelLemmas

/-- The run-time size is at most the size of the local arrays: with a template size both
are the template size, without one the run-time limit is at most the compile-time one. -/
theorem tsize_le_tsize {T d lim cmax : Nat} (hd : tsize T d ≤ lim) (hc : lim ≤ cmax) :
    tsize T d ≤ tsize T cmax := by
  unfold tsize at hd ⊢
  by_cases hT : T ≠ 0
  · rw [if_pos hT, if_pos hT]
  · rw [if_neg hT] at hd
    rw [if_neg hT, if_neg hT]
    exact le_trans hd hc

theorem PAVectorMassApply2D_acc_safe {T_D1D T_Q1D : Nat} {lim cmax : DofQuadLimits}
    {ext : Extents} {NE d1d q1d : Nat}
    (hD : tsize T_D1D d1d ≤ lim.MAX_D1D) (hQ : tsize T_Q1D q1d ≤ lim.MAX_Q1D)
    (h : Fits2D ext (tsize T_D1D cmax.MAX_D1D) (tsize T_Q1D cmax.MAX_Q1D)
      (tsize T_D1D d1d) (tsize T_Q1D q1d) NE) :
    PAVectorMassApply2D_acc T_D1D T_Q1D lim cmax ext NE d1d q1d = some () := by
  unfold PAVectorMassApply2D_acc
  simp only [hD, hQ, not_true_eq_false, if_false]
  exact (safe_forLoopM NE _ () (fun e _ he => safe_apply2D_element h he)).unit

theorem PAVectorMassApply3D_acc_safe {T_D1D T_Q1D : Nat} {lim cmax : DofQuadLimits}
    {ext : Extents} {NE d1d q1d : Nat}
    (hD : tsize T_D1D d1d ≤ lim.MAX_D1D) (hQ : tsize T_Q1D q1d ≤ lim.MAX_Q1D)
    (h : Fits3D ext (tsize T_D1D cmax.MAX_D1D) (tsize T_Q1D cmax.MAX_Q1D)
      (tsize T_D1D d1d) (tsize T_Q1D q1d) NE) :
    PAVectorMassApply3D_acc T_D1D T_Q1D lim cmax ext NE d1d q1d = some () := by
  unfold PAVectorMassApply3D_acc
  simp only [hD, hQ, not_true_eq_false, if_false]
  exact (safe_forLoopM NE _ () (fun e _ he => safe_apply3D_element h he)).unit

theorem PAVectorMassAssembleDiagonal2D_acc_safe {T_D1D T_Q1D : Nat} {lim cmax : DofQuadLimits}
    {ext : Extents} {NE d1d q1d : Nat}
    (hD : tsize T_D1D d1d ≤ lim.MAX_D1D) (hQ : tsize T_Q1D q1d ≤ lim.MAX_Q1D)
    (h : Fits2D ext (tsize T_D1D cmax.MAX_D1D) (tsize T_Q1D cmax.MAX_Q1D)
      (tsize T_D1D d1d) (tsize T_Q1D q1d) NE) :
    PAVectorMassAssembleDiagonal2D_acc T_D1D T_Q1D lim cmax ext NE d1d q1d = some () := by
  unfold PAVectorMassAssembleDiagonal2D_acc
  simp only [hD, hQ, not_true_eq_false, if_false]
  exact (safe_forLoopM NE _ () (fun e _ he => safe_diag2D_element h he)).unit

theorem PAVectorMassAssembleDiagonal3D_acc_safe {T_D1D T_Q1D : Nat} {lim cmax : DofQuadLimits}
    {ext : Extents} {NE d1d q1d : Nat}
    (hD : tsize T_D1D d1d ≤ lim.MAX_D1D) (hQ : tsize T_Q1D q1d ≤ lim.MAX_Q1D)
    (h : Fits3D ext (tsize T_D1D cmax.MAX_D1D) (tsize T_Q1D cmax.MAX_Q1D)
      (tsize T_D1D d1d) (tsize T_Q1D q1d) NE) :
    PAVectorMassAssembleDiagonal3D_acc T_D1D T_Q1D lim cmax ext NE d1d q1d = some () := by
  unfold PAVectorMassAssembleDiagonal3D_acc
  simp only [hD, hQ, not_true_eq_false, if_false]
  exact (safe_forLoopM NE _ () (fun e _ he => safe_diag3D_element h he)).unit

/-- The access model reports an index past the end of a tensor: one entry of `x` too few,
and the 2D application faults. -/
theorem PAVectorMassApply2D_acc_short_x :
    PAVectorMassApply2D_acc 0 0 sampleLimits sampleLimits
      { B := 1, Bt := 1, op := 1, x := 1, y := 2 } 1 1 1 = none := by
  decide

/-- The access model reports a local array that is too small: with compile-time limits
below the run-time sizes the 2D application faults on `sol_xy`. -/
theorem PAVectorMassApply2D_acc_small_locals :
    PAVectorMassApply2D_acc 0 0 sampleLimits ⟨0, 0⟩
      { B := 1, Bt := 1, op := 1, x := 2, y := 2 } 1 1 1 = none := by
  decide

/-- The access model reports a read of a local entry that was never assigned. -/
theorem tmpRead1_unassigned (m i : Nat) : tmpRead1 m (fun _ => false) i = none := by
  unfold tmpRead1
  rw [if_neg]
  intro h
  exact Bool.false_ne_true h.2

end AccessKernelLemmas

section Claims15

variable {R : Type} [CommRing R]

/-- C34: index safety of the four kernels, stated on their access models (the kernels with
the values forgotten, every subscript checked against the extent of its tensor or local
array, every read of a local entry checked against the set of entries assigned so far).
If the run-time sizes `D1D`, `Q1D` pass the checks against the device limits, the device
limits are no larger than the compile-time limits that size the local arrays, `B` and `Bt`
hold at least `Q1D*D1D` entries, `op` at least `Q1D^d*NE`, and `x`, `y` (the diagonal for
the extraction kernels) at least `D1D^d*d*NE`, then `PAVectorMassApply2D/3D` and
`PAVectorMassAssembleDiagonal2D/3D` run to the end without an out-of-bounds subscript and
without reading an unassigned local entry; the value kernels do not stop at their checks
either. -/
theorem C34_index_safety (T_D1D T_Q1D : Nat) (lim cmax : DofQuadLimits)
    (ext2 ext3 : Extents) (NE d1d q1d : Nat)
    (B_ Bt_ op_ x_ y_ : Vec R) (u : Uninit R)
    (hD : tsize T_D1D d1d ≤ lim.MAX_D1D) (hQ : tsize T_Q1D q1d ≤ lim.MAX_Q1D)
    (hcD : lim.MAX_D1D ≤ cmax.MAX_D1D) (hcQ : lim.MAX_Q1D ≤ cmax.MAX_Q1D)
    (hB2 : tsize T_Q1D q1d * tsize T_D1D d1d ≤ ext2.B)
    (hBt2 : tsize T_D1D d1d * tsize T_Q1D q1d ≤ ext2.Bt)
    (hop2 : tsize T_Q1D q1d * (tsize T_Q1D q1d * NE) ≤ ext2.op)
    (hx2 : tsize T_D1D d1d * (tsize T_D1D d1d * (2 * NE)) ≤ ext2.x)
    (hy2 : tsize T_D1D d1d * (tsize T_D1D d1d * (2 * NE)) ≤ ext2.y)
    (hB3 : tsize T_Q1D q1d * tsize T_D1D d1d ≤ ext3.B)
    (hBt3 : tsize T_D1D d1d * tsize T_Q1D q1d ≤ ext3.Bt)
    (hop3 : tsize T_Q1D q1d * (tsize T_Q1D q1d * (tsize T_Q1D q1d * NE)) ≤ ext3.op)
    (hx3 : tsize T_D1D d1d * (tsize T_D1D d1d * (tsize T_D1D d1d * (3 * NE))) ≤ ext3.x)
    (hy3 : tsize T_D1D d1d * (tsize T_D1D d1d * (tsize T_D1D d1d * (3 * NE))) ≤ ext3.y) :
    PAVectorMassApply2D_acc T_D1D T_Q1D lim cmax ext2 NE d1d q1d = some () ∧
    PAVectorMassApply3D_acc T_D1D T_Q1D lim cmax ext3 NE d1d q1d = some () ∧
    PAVectorMassAssembleDiagonal2D_acc T_D1D T_Q1D lim cmax ext2 NE d1d q1d = some () ∧
    PAVectorMassAssembleDiagonal3D_acc T_D1D T_Q1D lim cmax ext3 NE d1d q1d = some () ∧
    (∃ r, PAVectorMassApply2D T_D1D T_Q1D lim u NE B_ Bt_ op_ x_ y_ d1d q1d = Except.ok r) ∧
    (∃ r, PAVectorMassApply3D T_D1D T_Q1D lim u NE B_ Bt_ op_ x_ y_ d1d q1d = Except.ok r) ∧
    (∃ r, PAVectorMassAssembleDiagonal2D T_D1D T_Q1D lim u NE B_ Bt_ op_ y_ d1d q1d
        = Except.ok r) ∧
    (∃ r, PAVectorMassAssembleDiagonal3D T_D1D T_Q1D lim u NE B_ Bt_ op_ y_ d1d q1d
        = Except.ok r) := by
  have h2 : Fits2D ext2 (tsize T_D1D cmax.MAX_D1D) (tsize T_Q1D cmax.MAX_Q1D)
      (tsize T_D1D d1d) (tsize T_Q1D q1d) NE :=
    ⟨tsize_le_tsize hD hcD, tsize_le_tsize hQ hcQ, hB2, hBt2, hop2, hx2, hy2⟩
  have h3 : Fits3D ext3 (tsize T_D1D cmax.MAX_D1D) (tsize T_Q1D cmax.MAX_Q1D)
      (tsize T_D1D d1d) (tsize T_Q1D q1d) NE :=
    ⟨tsize_le_tsize hD hcD, tsize_le_tsize hQ hcQ, hB3, hBt3, hop3, hx3, hy3⟩
  exact ⟨PAVectorMassApply2D_acc_safe hD hQ h2, PAVectorMassApply3D_acc_safe hD hQ h3,
    PAVectorMassAssembleDiagonal2D_acc_safe hD hQ h2,
    PAVectorMassAssembleDiagonal3D_acc_safe hD hQ h3,
    ⟨_, PAVectorMassApply2D_ok T_D1D T_Q1D lim u NE B_ Bt_ op_ x_ y_ d1d q1d hD hQ⟩,
    ⟨_, PAVectorMassApply3D_ok T_D1D T_Q1D lim u NE B_ Bt_ op_ x_ y_ d1d q1d hD hQ⟩,
    ⟨_, PAVectorMassAssembleDiagonal2D_ok T_D1D T_Q1D lim u NE B_ Bt_ op_ y_ d1d q1d hD hQ⟩,
    ⟨_, PAVectorMassAssembleDiagonal3D_ok T_D1D T_Q1D lim u NE B_ Bt_ op_ y_ d1d q1d hD hQ⟩⟩

theorem C34_index_safety_witness :
    tsize 0 2 ≤ sampleLimits.MAX_D1D ∧ tsize 0 2 ≤ sampleLimits.MAX_Q1D ∧
    sampleLimits.MAX_D1D ≤ sampleLimits.MAX_D1D ∧
    tsize 0 2 * tsize 0 2 ≤ sampleExtents2.B ∧
    tsize 0 2 * (tsize 0 2 * 3) ≤ sampleExtents2.op ∧
    tsize 0 2 * (tsize 0 2 * (2 * 3)) ≤ sampleExtents2.x ∧
    tsize 0 2 * (tsize 0 2 * (tsize 0 2 * 3)) ≤ sampleExtents3.op ∧
    tsize 0 2 * (tsize 0 2 * (tsize 0 2 * (3 * 3))) ≤ sampleExtents3.x ∧
    PAVectorMassApply2D_acc 0 0 sampleLimits sampleLimits sampleExtents2 3 2 2 = some () ∧
    PAVectorMassApply3D_acc 0 0 sampleLimits sampleLimits sampleExtents3 3 2 2 = some () ∧
    PAVectorMassAssembleDiagonal2D_acc 0 0 sampleLimits sampleLimits sampleExtents2 3 2 2
        = some () ∧
    PAVectorMassAssembleDiagonal3D_acc 0 0 sampleLimits sampleLimits sampleExtents3 3 2 2
        = some () ∧
    (∃ r, PAVectorMassApply2D 0 0 sampleLimits sampleUninit 3 sampleB sampleBt sampleOp
        sampleX sampleY 2 2 = Except.ok r) ∧
    (∃ r, PAVectorMassApply3D 0 0 sampleLimits sampleUninit 3 sampleB sampleBt sampleOp
        sampleX sampleY 2 2 = Except.ok r) ∧
    (∃ r, PAVectorMassAssembleDiagonal2D 0 0 sampleLimits sampleUninit 3 sampleB sampleBt
        sampleOp sampleY 2 2 = Except.ok r) ∧
    (∃ r, PAVectorMassAssembleDiagonal3D 0 0 sampleLimits sampleUninit 3 sampleB sampleBt
        sampleOp sampleY 2 2 = Except.ok r) :=
  ⟨by decide, by decide, le_refl _, by decide, by decide, by decide, by decide, by decide,
    C34_index_safety 0 0 sampleLimits sampleLimits sampleExtents2 sampleExtents3 3 2 2
      sampleB sampleBt sampleOp sampleX sampleY sampleUninit
      (by decide) (by decide) (le_refl _) (le_refl _)
      (by decide) (by decide) (by decide) (by decide) (by decide)
      (by decide) (by decide) (by decide) (by decide) (by decide)⟩

end Claims15

end Mfem
